import Mathlib

/-!
# it87 hardware-monitoring driver: register transport, bridge window manager, ECIO

A shallow embedding of the register access layer of `it87.c`.  Hardware is an explicit
state that every access function threads through:

* the environment controller behind the address/data port pair is a byte register
  file with an address latch;
* every other I/O port is an oracle `port_in port n` (value returned by a read issued
  after `n` earlier port accesses);
* `jiffies` is a counter that moves on by one tick after a finite number of reads of
  it (`polls`, chosen by the world for every tick), so time passes while the processor
  polls and never jumps by more than one tick between two reads;
* the PCI-to-ISA bridge is a table of configuration dwords with a script of
  upcoming access failures;
* every port, MMIO and PCI access is appended to a log, oldest first.

Machine integers are natural numbers reduced explicitly to their C width.
-/

namespace It87

/-! ## Machine arithmetic -/

/-- Kernel macro `BIT(n)`. -/
def BIT (n : Nat) : Nat := 1 <<< n

/-- Conversion to `u8`. -/
def u8 (x : Nat) : Nat := x % 2 ^ 8

/-- Conversion to `u16`. -/
def u16 (x : Nat) : Nat := x % 2 ^ 16

/-- Conversion to `u32`. -/
def u32 (x : Nat) : Nat := x % 2 ^ 32

/-- Complement of a value inside a 32-bit word, `~x` on `u32`. -/
def not32 (x : Nat) : Nat := (2 ^ 32 - 1) - u32 x

/-- Complement of a value inside a byte, `~x` converted to `u8`. -/
def not8 (x : Nat) : Nat := (2 ^ 8 - 1) - u8 x

/-! ## Error numbers -/

def ENOENT : Int := 2
def EIO : Int := 5
def EBUSY : Int := 16
def ENODEV : Int := 19
def EINVAL : Int := 22
def ERANGE : Int := 34
def ETIMEDOUT : Int := 110

/-! ## Constants of the driver -/

def REG_2E : Nat := 0x2e
def REG_4E : Nat := 0x4e
def DEV : Nat := 0x07
def PME : Nat := 0x04

def H2RAM_LOW_BOUND : Nat := 0x800
def H2RAM_HI_BOUND : Nat := 0xfff

def ECIO_DATA : Nat := 0x3f0
def ECIO_CMD_STAT : Nat := 0x3f4
def ECIO_CMD_READ : Nat := 0xb0
def ECIO_CMD_WRITE : Nat := 0xb1
def ECIO_CMD_OBF : Nat := 0x01
def ECIO_CMD_IBF : Nat := 0x02

def IT87_H2_VENDOR_AMD : Nat := 0x1022
def IT87_H2_VENDOR_INTEL : Nat := 0x8086

def IT87_SPECIAL_CFG_REG : Nat := 0xf3

def IT87_ADDR_REG_OFFSET : Nat := 0
def IT87_DATA_REG_OFFSET : Nat := 1

def IT87_REG_CONFIG : Nat := 0x00
def IT87_REG_ALARM1 : Nat := 0x01
def IT87_REG_ALARM2 : Nat := 0x02
def IT87_REG_ALARM3 : Nat := 0x03
def IT87_REG_BANK : Nat := 0x06
def IT87_REG_VID : Nat := 0x0a
def IT87_REG_FAN_DIV : Nat := 0x0b
def IT87_REG_FAN_MAIN_CTRL : Nat := 0x13
def IT87_REG_FAN_CTL : Nat := 0x14
def IT87_REG_TEMP_ENABLE : Nat := 0x51
def IT87_REG_TEMP_EXTRA : Nat := 0x55
def IT87_REG_BEEP_ENABLE : Nat := 0x5c
def IT87_SMARTFAN_ENABLE : Nat := 0x947

def FEAT_12MV_ADC : Nat := BIT 0
def FEAT_NEWER_AUTOPWM : Nat := BIT 1
def FEAT_OLD_AUTOPWM : Nat := BIT 2
def FEAT_16BIT_FANS : Nat := BIT 3
def FEAT_TEMP_PECI : Nat := BIT 5
def FEAT_TEMP_OLD_PECI : Nat := BIT 6
def FEAT_NOCONF : Nat := BIT 19
def FEAT_FANCTL_ONOFF : Nat := BIT 23
def FEAT_BANK_SEL : Nat := BIT 25
def FEAT_MMIO : Nat := BIT 27
def FEAT_BRIDGE_MMIO : Nat := BIT 28
def FEAT_MMIO_H2RAM : Nat := BIT 29
def FEAT_ECIO_H2RAM : Nat := BIT 31

/-- Table lookup `tbl[i]` of a constant register table; an index past the end reads 0. -/
def tbl (t : List Nat) (i : Nat) : Nat := t.getD i 0

def IT87_REG_FAN : List Nat := [0x0d, 0x0e, 0x0f, 0x80, 0x82, 0x4c]
def IT87_REG_FAN_MIN : List Nat := [0x10, 0x11, 0x12, 0x84, 0x86, 0x4e]
def IT87_REG_FANX : List Nat := [0x18, 0x19, 0x1a, 0x81, 0x83, 0x4d]
def IT87_REG_FANX_MIN : List Nat := [0x1b, 0x1c, 0x1d, 0x85, 0x87, 0x4f]
def IT87_REG_TEMP_OFFSET : List Nat := [0x56, 0x57, 0x59, 0x5a, 0x90, 0x91]
def IT87_REG_PWM : List Nat := [0x15, 0x16, 0x17, 0x7f, 0xa7, 0xaf]
def IT87_REG_PWM_DUTY : List Nat := [0x63, 0x6b, 0x73, 0x7b, 0xa3, 0xab]
def IT87_REG_VIN : List Nat :=
  [0x20, 0x21, 0x22, 0x23, 0x24, 0x25, 0x26, 0x27, 0x28, 0x2f, 0x2c, 0x2d, 0x2e]
def IT87_REG_TEMP_HIGH : List Nat := [0x40, 0x42, 0x44, 0x46, 0xb4, 0xb6]
def IT87_REG_TEMP_LOW : List Nat := [0x41, 0x43, 0x45, 0x47, 0xb5, 0xb7]
def IT87_REG_AUTO_BASE : List Nat := [0x60, 0x68, 0x70, 0x78, 0xa0, 0xa8]

def IT87_REG_TEMP (nr : Nat) : Nat := 0x29 + nr
def IT87_REG_VIN_MAX (nr : Nat) : Nat := 0x30 + nr * 2
def IT87_REG_VIN_MIN (nr : Nat) : Nat := 0x31 + nr * 2
def IT87_REG_AUTO_TEMP (nr i : Nat) : Nat := tbl IT87_REG_AUTO_BASE nr + i
def IT87_REG_AUTO_PWM (nr i : Nat) : Nat := tbl IT87_REG_AUTO_BASE nr + 5 + i

def NUM_VIN : Nat := 13
def NUM_VIN_LIMIT : Nat := 8
def NUM_TEMP : Nat := 6
def NUM_FAN : Nat := 6
def NUM_PWM : Nat := 6
def NUM_AUTO_PWM : Nat := 6

/-! ## Hardware state -/

/-- One access to an I/O port. -/
inductive PortEv where
  | outb (value port : Nat)
  | inb (port value : Nat)
  deriving DecidableEq, Repr

/-- One access to memory-mapped I/O. -/
inductive MmioEv where
  | readb (addr : Nat)
  | writeb (value addr : Nat)
  deriving DecidableEq, Repr

/-- One access to the PCI configuration space of the bridge. -/
inductive PciOp where
  | rd (off : Nat)
  | wr (off value : Nat)
  deriving DecidableEq, Repr

/-- The mutexes of the driver. -/
inductive Mutex where
  | mmio_lock
  | it87_ecio_lock
  | update_lock
  deriving DecidableEq, Repr

/-- One entry of the lock log: an operation on a mutex of the driver, or a call on the
bridge handle `it87_h2_global`, the object `mmio_lock` is there to guard. -/
inductive LockEv where
  | lock (m : Mutex)
  | unlock (m : Mutex)
  | handle
  deriving DecidableEq, Repr

/-- The PCI-to-ISA bridge device `h->bridge` points to: vendor id, configuration dwords,
the return codes of the upcoming configuration accesses (exhausted script: success) and
the accesses made so far. -/
structure PciDev where
  vendor : Nat
  cfg : Nat → Nat
  faults : List Int
  log : List PciOp

/-- Bridge handle `struct it87_h2ram_handle`; `bridge` records whether the pointer is
non-NULL, the arrays of two elements are functions of the index. -/
structure it87_h2ram_handle where
  bridge : Bool
  is_amd : Bool
  is_intel : Bool
  r48 : Nat
  r60 : Nat
  r6c : Nat
  rd8 : Nat
  r98 : Nat
  saved : Bool
  base : Nat → Nat
  pages : Nat → Nat
  have_ : Nat → Bool
  current_base : Nat

/-- The handle together with the device its `bridge` pointer designates. -/
structure H2Sys where
  h : it87_h2ram_handle
  dev : PciDev

/-- Everything outside one chip instance: ports, memory window, time, the global bridge
manager and the module parameters.  `now` is the number of ticks since boot; the kernel
variable `jiffies` holds it modulo `2 ^ BITS_PER_LONG`, and `HZ` and `BITS_PER_LONG` are
the two constants of the kernel build the driver depends on.  `locks` is the log of the
mutex operations and of the calls on the bridge handle, in program order. -/
structure World where
  ec_base : Nat
  ec_latch : Nat
  ec_regs : Nat → Nat
  port_in : Nat → Nat → Nat
  port_log : List PortEv
  region_ok : Nat → Bool
  mem : Nat → Nat
  mmio_log : List MmioEv
  now : Nat
  left : Nat
  polls : Nat → Nat
  HZ : Nat
  BITS_PER_LONG : Nat
  it87_h2_global : H2Sys
  it87_h2_global_ready : Bool
  it87_h2_global_inited : Bool
  update_vbat : Bool
  locks : List LockEv

/-! ## Port I/O -/

/-- Port read `inb(port)`: the environment controller decodes its address/data pair,
every other port answers from the oracle. -/
def inb (port : Nat) (w : World) : Nat × World :=
  let v :=
    if port = w.ec_base + IT87_DATA_REG_OFFSET then u8 (w.ec_regs w.ec_latch)
    else if port = w.ec_base + IT87_ADDR_REG_OFFSET then u8 w.ec_latch
    else u8 (w.port_in port w.port_log.length)
  (v, { w with port_log := w.port_log ++ [PortEv.inb port v] })

/-- Port write `outb(value, port)`; the value is a byte. -/
def outb (value port : Nat) (w : World) : World :=
  let v := u8 value
  let w1 := { w with port_log := w.port_log ++ [PortEv.outb v port] }
  if port = w.ec_base + IT87_ADDR_REG_OFFSET then { w1 with ec_latch := v }
  else if port = w.ec_base + IT87_DATA_REG_OFFSET then
    { w1 with ec_regs := fun i => if i = w.ec_latch then v else w.ec_regs i }
  else w1

/-- Read of the kernel tick counter `jiffies`: it returns the current tick `now`; after
`left` further reads the counter moves on to `now + 1`, a tick that is returned
`polls (now + 1) + 1` times in all. -/
def jiffies (w : World) : Nat × World :=
  (w.now,
    if w.left = 0 then { w with now := w.now + 1, left := w.polls (w.now + 1) }
    else { w with left := w.left - 1 })

/-- Kernel `time_after(a, b)`, `(long)((b) - (a)) < 0` on `unsigned long` of `bits`
bits: the difference `b - a` is taken modulo `2 ^ bits` and read as a signed number, so
`a` is after `b` when `a` is ahead of `b` by 1 to `2 ^ (bits - 1)` ticks modulo
`2 ^ bits`. -/
def time_after (bits a b : Nat) : Bool :=
  decide (2 ^ (bits - 1) ≤ (b % 2 ^ bits + 2 ^ bits - a % 2 ^ bits) % 2 ^ bits)

/-- Kernel `mutex_lock`. -/
def mutex_lock (m : Mutex) (w : World) : World :=
  { w with locks := w.locks ++ [LockEv.lock m] }

/-- Kernel `mutex_unlock`. -/
def mutex_unlock (m : Mutex) (w : World) : World :=
  { w with locks := w.locks ++ [LockEv.unlock m] }

/-- A call that is handed `&it87_h2_global`: the lock log records it, at the place the
call has in the program. -/
def h2_global_call (w : World) : World :=
  { w with locks := w.locks ++ [LockEv.handle] }

/-! ## PCI configuration access -/

/-- The next return code of the fault script, 0 when the script is exhausted. -/
def PciDev.next_ret (d : PciDev) : Int := d.faults.headD 0

/-- Dword read `pci_reg_read(d, off, &v)`: return code, value stored in `v`, device.
A failed read stores the all-ones error response, as `pci_read_config_dword` does. -/
def pci_reg_read (d : PciDev) (off : Nat) : Int × Nat × PciDev :=
  let d1 := { d with faults := d.faults.tail, log := d.log ++ [PciOp.rd off] }
  if d.next_ret = 0 then (0, u32 (d.cfg off), d1) else (d.next_ret, 0xFFFFFFFF, d1)

/-- Dword write `pci_reg_write(d, off, v)`: return code and device. -/
def pci_reg_write (d : PciDev) (off v : Nat) : Int × PciDev :=
  let d1 := { d with faults := d.faults.tail, log := d.log ++ [PciOp.wr off (u32 v)] }
  if d.next_ret = 0 then
    (0, { d1 with cfg := fun o => if o = off then u32 v else d.cfg o })
  else (d.next_ret, d1)

/-! ## Bridge window manager -/

def _intel_bios_mask_for_data_space (base : Nat) : Nat :=
  if base &&& not32 0xFFFFF = 0xFF400000 then 0x0001
  else if base &&& not32 0xFFFFF = 0xFF500000 then 0x0002
  else if base &&& not32 0xFFFFF = 0xFF600000 then 0x0004
  else if base &&& not32 0xFFFFF = 0xFF700000 then 0x0008
  else if base &&& not32 0xFFFF = 0x000E0000 then 0x0040
  else if base &&& not32 0xFFFF = 0x000F0000 then 0x0080
  else if base &&& not32 0x7FFFF = 0xFFC00000 then 0x0100
  else if base &&& not32 0x7FFFF = 0xFFC80000 then 0x0200
  else if base &&& not32 0x7FFFF = 0xFFD00000 then 0x0400
  else if base &&& not32 0x7FFFF = 0xFFD80000 then 0x0800
  else if base &&& not32 0x7FFFF = 0xFFE00000 then 0x1000
  else if base &&& not32 0x7FFFF = 0xFFE80000 then 0x2000
  else if base &&& not32 0x7FFFF = 0xFFF00000 then 0x4000
  else if base &&& not32 0x7FFFF = 0xFFF80000 then 0x8000
  else 0

def _intel_bios_mask_for_feat_space (base : Nat) : Nat :=
  if base &&& not32 0xFFFFF = 0xFF000000 then 0x0001
  else if base &&& not32 0xFFFFF = 0xFF100000 then 0x0002
  else if base &&& not32 0xFFFFF = 0xFF200000 then 0x0004
  else if base &&& not32 0xFFFFF = 0xFF300000 then 0x0008
  else if base &&& not32 0x7FFFF = 0xFF800000 then 0x0100
  else if base &&& not32 0x7FFFF = 0xFF880000 then 0x0200
  else if base &&& not32 0x7FFFF = 0xFF900000 then 0x0400
  else if base &&& not32 0x7FFFF = 0xFF980000 then 0x0800
  else if base &&& not32 0x7FFFF = 0xFFA00000 then 0x1000
  else if base &&& not32 0x7FFFF = 0xFFA80000 then 0x2000
  else if base &&& not32 0x7FFFF = 0xFFB00000 then 0x4000
  else if base &&& not32 0x7FFFF = 0xFFB80000 then 0x8000
  else 0

/-- Capture of the original bridge registers, once; the return codes of the reads are
not looked at. -/
def _save_regs (s : H2Sys) : H2Sys :=
  if !s.h.bridge || s.h.saved then s
  else if u16 s.dev.vendor = IT87_H2_VENDOR_AMD then
    let a := pci_reg_read s.dev 0x48
    let b := pci_reg_read a.2.2 0x60
    let c := pci_reg_read b.2.2 0x6c
    { h := { s.h with r48 := a.2.1, r60 := b.2.1, r6c := c.2.1, saved := true },
      dev := c.2.2 }
  else if u16 s.dev.vendor = IT87_H2_VENDOR_INTEL then
    let a := pci_reg_read s.dev 0xd8
    let b := pci_reg_read a.2.2 0x98
    { h := { s.h with rd8 := a.2.1, r98 := b.2.1, saved := true }, dev := b.2.2 }
  else { s with h := { s.h with saved := true } }

/-- Write-back of the captured registers; the return codes of the writes are not looked
at. -/
def _restore_regs (s : H2Sys) : H2Sys :=
  if !s.h.bridge || !s.h.saved then s
  else if u16 s.dev.vendor = IT87_H2_VENDOR_AMD then
    let a := pci_reg_write s.dev 0x48 s.h.r48
    let b := pci_reg_write a.2 0x60 s.h.r60
    let c := pci_reg_write b.2 0x6c s.h.r6c
    { h := { s.h with current_base := 0 }, dev := c.2 }
  else if u16 s.dev.vendor = IT87_H2_VENDOR_INTEL then
    let a := pci_reg_write s.dev 0xd8 s.h.rd8
    let b := pci_reg_write a.2 0x98 s.h.r98
    { s with dev := b.2 }
  else s

/-- START page of the AMD range register for a slot. -/
def amd_start (idx : Int) (base : Nat) : Nat :=
  if idx = 0 then (base >>> 16) &&& 0xFF00 else (base >>> 16) &&& 0xFFFF

/-- END page of the AMD range register for a slot, `start + pages` in `u32`. -/
def amd_end (idx : Int) (base pages : Nat) : Nat := u32 (amd_start idx base + pages)

/-- Value written to AMD register 0x60, `(end << 16) | (start & 0xFFFF)`. -/
def amd_range (idx : Int) (base pages : Nat) : Nat :=
  u32 (amd_end idx base pages <<< 16) ||| (amd_start idx base &&& 0xFFFF)

def _amd_enable_slot (s : H2Sys) (idx : Int) (base pages : Nat) : Int × H2Sys :=
  let a := pci_reg_write s.dev 0x60 (amd_range idx base pages)
  if a.1 ≠ 0 then (a.1, { s with dev := a.2 })
  else
    let b : Int × Nat × PciDev :=
      if idx = 0 then
        let r := pci_reg_read a.2 0x6C
        (r.1, r.2.1 &&& 0xFFFFFF00, r.2.2)
      else (0, 0xFFFF0000 ||| (amd_end idx base pages &&& 0xFFFF), a.2)
    if b.1 ≠ 0 then (b.1, { s with dev := b.2.2 })
    else
      let c := pci_reg_write b.2.2 0x6C b.2.1
      if c.1 ≠ 0 then (c.1, { s with dev := c.2 })
      else
        let e := pci_reg_read c.2 0x48
        if e.1 ≠ 0 then (e.1, { s with dev := e.2.2 })
        else
          let f := pci_reg_write e.2.2 0x48 (e.2.1 ||| BIT 5)
          if f.1 ≠ 0 then (f.1, { s with dev := f.2 })
          else (0, { h := { s.h with current_base := base }, dev := f.2 })

/-- Bit of BIOSDecodeEnable cleared for a slot. -/
def intel_mask (idx : Int) (base : Nat) : Nat :=
  if idx = 0 then BIT 0
  else
    let m1 := _intel_bios_mask_for_data_space base
    let m2 := if m1 = 0 then _intel_bios_mask_for_feat_space base else m1
    if m2 = 0 then 0x0001 else m2

/-- Value written to the Intel generic memory range register, `(start << 16) | 1`. -/
def intel_range (base : Nat) : Nat := u32 (((base >>> 16) &&& 0xFFFF) <<< 16) ||| 1

def _intel_enable_slot (s : H2Sys) (idx : Int) (base : Nat) : Int × H2Sys :=
  let a := pci_reg_read s.dev 0xD8
  if a.1 ≠ 0 then (a.1, { s with dev := a.2.2 })
  else
    let b := pci_reg_write a.2.2 0xD8 (a.2.1 &&& not32 (intel_mask idx base))
    if b.1 ≠ 0 then (b.1, { s with dev := b.2 })
    else
      let c := pci_reg_write b.2 0x98 (intel_range base)
      if c.1 ≠ 0 then (c.1, { s with dev := c.2 })
      else (0, { s with dev := c.2 })

def _enable_slot (s : H2Sys) (idx : Int) (base pages : Nat) : Int × H2Sys :=
  if !s.h.bridge then (-ENODEV, s)
  else
    let s1 := _save_regs s
    if u16 s1.dev.vendor = IT87_H2_VENDOR_AMD then _amd_enable_slot s1 idx base pages
    else if u16 s1.dev.vendor = IT87_H2_VENDOR_INTEL then _intel_enable_slot s1 idx base
    else (-ENODEV, s1)

/-- Handle after `memset(h, 0, sizeof(*h))`. -/
def zero_handle : it87_h2ram_handle :=
  { bridge := false, is_amd := false, is_intel := false,
    r48 := 0, r60 := 0, r6c := 0, rd8 := 0, r98 := 0, saved := false,
    base := fun _ => 0, pages := fun _ => 0, have_ := fun _ => false, current_base := 0 }

/-- Binding to the first AMD or Intel device among `bus`, the devices of class ISA
bridge in enumeration order; `pcim_ret` is what `pcim_enable_device` returns for it. -/
def it87_h2_init (bus : List PciDev) (pcim_ret : Int) (s : H2Sys) : Int × H2Sys :=
  match bus.find? (fun d =>
      u16 d.vendor = IT87_H2_VENDOR_AMD || u16 d.vendor = IT87_H2_VENDOR_INTEL) with
  | none => (-ENODEV, { s with h := zero_handle })
  | some d =>
    if pcim_ret ≠ 0 then (pcim_ret, { h := zero_handle, dev := d })
    else
      (0, { h := { zero_handle with
                   bridge := true,
                   is_amd := decide (u16 d.vendor = IT87_H2_VENDOR_AMD),
                   is_intel := decide (u16 d.vendor = IT87_H2_VENDOR_INTEL) },
            dev := d })

/-- Slot bookkeeping; `mmio_base` is a `u64` value and `size` a `u32` value. -/
def it87_h2_set_slot (s : H2Sys) (idx : Int) (mmio_base size : Nat) : Int × H2Sys :=
  if !s.h.bridge then (-ENODEV, s)
  else if idx < 0 ∨ idx > 1 then (-EINVAL, s)
  else if mmio_base = 0 ∨ size = 0 then (-EINVAL, s)
  else if mmio_base > 0xFFFFFFFF then (-ERANGE, s)
  else
    let base32 := u32 mmio_base &&& not32 0xFFFF
    let size1 := if size < 0x10000 then 0x10000 else size
    let pages0 := u32 (size1 + 0x10000 - 1) >>> 16
    let pages := if pages0 = 0 then 1 else pages0
    (0, { s with h := { s.h with
            base := fun i => if i = idx.toNat then base32 else s.h.base i,
            pages := fun i => if i = idx.toNat then pages else s.h.pages i,
            have_ := fun i => if i = idx.toNat then true else s.h.have_ i } })

def IT87_MMIO_ORIGINAL : Int := -1
def IT87_MMIO_DISABLED : Int := 0
def IT87_MMIO_ENABLED_2E : Int := 1
def IT87_MMIO_ENABLED_4E : Int := 2
def IT87_MMIO_ENABLED_BOTH : Int := 3

/-- Activation of one slot inside `it87_h2_set_state`: on AMD only when the tracked
base differs. -/
def set_state_slot (s : H2Sys) (idx : Int) : Int × H2Sys :=
  if s.h.is_amd then
    if s.h.current_base ≠ s.h.base idx.toNat then
      let r := _enable_slot s idx (s.h.base idx.toNat) (s.h.pages idx.toNat)
      if r.1 ≠ 0 then r else (0, r.2)
    else (0, s)
  else _enable_slot s idx (s.h.base idx.toNat) (s.h.pages idx.toNat)

def it87_h2_set_state (s : H2Sys) (st : Int) : Int × H2Sys :=
  if !s.h.bridge then (-ENODEV, s)
  else if st = IT87_MMIO_ORIGINAL ∨ st = IT87_MMIO_DISABLED then (0, _restore_regs s)
  else if st = IT87_MMIO_ENABLED_2E then
    if !s.h.have_ 0 then (-EINVAL, s) else set_state_slot s 0
  else if st = IT87_MMIO_ENABLED_4E then
    if !s.h.have_ 1 then (-EINVAL, s) else set_state_slot s 1
  else if st = IT87_MMIO_ENABLED_BOTH then
    if !s.h.have_ 0 || !s.h.have_ 1 then (-EINVAL, s)
    else if s.h.is_amd then set_state_slot s 0
    else
      let a := _enable_slot s 0 (s.h.base 0) (s.h.pages 0)
      if a.1 ≠ 0 then a
      else
        let b := _enable_slot a.2 1 (a.2.h.base 1) (a.2.h.pages 1)
        if b.1 ≠ 0 then b else (0, b.2)
  else (-EINVAL, s)

def it87_h2_get_state (s : H2Sys) : Int :=
  if !s.h.bridge then IT87_MMIO_ORIGINAL
  else if s.h.is_amd then
    if s.h.current_base = 0 then IT87_MMIO_ORIGINAL
    else if s.h.have_ 0 && s.h.current_base = s.h.base 0 then IT87_MMIO_ENABLED_2E
    else if s.h.have_ 1 && s.h.current_base = s.h.base 1 then IT87_MMIO_ENABLED_4E
    else IT87_MMIO_ORIGINAL
  else if s.h.have_ 0 && s.h.have_ 1 then IT87_MMIO_ENABLED_BOTH
  else if s.h.have_ 0 then IT87_MMIO_ENABLED_2E
  else if s.h.have_ 1 then IT87_MMIO_ENABLED_4E
  else IT87_MMIO_ORIGINAL

def it87_h2_use_slot (s : H2Sys) (idx : Int) : Int × H2Sys :=
  if !s.h.bridge then (-ENODEV, s)
  else if idx < 0 ∨ idx > 1 then (-EINVAL, s)
  else if !s.h.have_ idx.toNat then (-ENOENT, s)
  else if s.h.is_amd then
    if s.h.current_base ≠ s.h.base idx.toNat then
      _enable_slot s idx (s.h.base idx.toNat) (s.h.pages idx.toNat)
    else (0, s)
  else (0, s)

def it87_h2_release (s : H2Sys) : H2Sys :=
  if !s.h.bridge then s
  else
    let s1 := _restore_regs s
    { s1 with h := { s1.h with bridge := false } }

/-- Global entry point `it87_h2_global_use_slot`. -/
def it87_h2_global_use_slot (idx : Int) (w : World) : Int × World :=
  let w1 := mutex_lock Mutex.mmio_lock w
  if !w1.it87_h2_global_ready then (-ENODEV, mutex_unlock Mutex.mmio_lock w1)
  else
    let w2 := h2_global_call w1
    let r := it87_h2_use_slot w2.it87_h2_global idx
    (r.1, mutex_unlock Mutex.mmio_lock { w2 with it87_h2_global := r.2 })

/-! ## ECIO protocol engine -/

def it87_ecio_inb (port : Nat) (w : World) : Nat × World := inb port w

def it87_ecio_outb (value port : Nat) (w : World) : World := outb value port w

/-- Number of reads of `jiffies` that see the ticks `a, a+1, ..., a+n-1` completely. -/
def span (polls : Nat → Nat) : Nat → Nat → Nat
  | _, 0 => 0
  | a, n + 1 => polls a + 1 + span polls (a + 1) n

/-- Number of upcoming reads of `jiffies` that return a value before `deadline`. -/
def poll_budget (w : World) (deadline : Nat) : Nat :=
  if w.now < deadline then w.left + 1 + span w.polls (w.now + 1) (deadline - w.now - 1)
  else 0

/-- The polling loop shared by the two wait helpers,
`while (time_before(jiffies, deadline)) { status = inb(STAT); if (ready) return 0; ... }
return -ETIMEDOUT;`, unrolled at most `poll_budget` times: by then `jiffies` has reached
the deadline and the last read of it leaves the loop.  Inside the loop `jiffies` is never
more than `HZ` ticks away from the deadline, where `time_before` is the plain order. -/
def ecio_wait_loop (ready : Nat → Bool) (deadline : Nat) : Nat → World → Int × World
  | 0, w => (-ETIMEDOUT, (jiffies w).2)
  | n + 1, w =>
    let j := jiffies w
    if j.1 < deadline then
      let st := it87_ecio_inb ECIO_CMD_STAT j.2
      if ready st.1 then (0, st.2) else ecio_wait_loop ready deadline n st.2
    else (-ETIMEDOUT, j.2)

/-- Wait for IBF == 0, deadline `jiffies + ECIO_STEP_TIMEOUT` with `ECIO_STEP_TIMEOUT = HZ`. -/
def it87_ecio_wait_ibe (w : World) : Int × World :=
  let j := jiffies w
  ecio_wait_loop (fun status => status &&& ECIO_CMD_IBF = 0) (j.1 + w.HZ)
    (poll_budget j.2 (j.1 + w.HZ)) j.2

/-- Wait for OBF == 1. -/
def it87_ecio_wait_obf (w : World) : Int × World :=
  let j := jiffies w
  ecio_wait_loop (fun status => status &&& ECIO_CMD_OBF ≠ 0) (j.1 + w.HZ)
    (poll_budget j.2 (j.1 + w.HZ)) j.2

/-- Single read transaction; `value` is the content of `*value` on entry, the second
component its content on return. -/
def it87_ecio_read_once (offset value : Nat) (w : World) : Int × Nat × World :=
  let off_hi := (u16 offset >>> 8) &&& 0xFF
  let off_lo := u16 offset &&& 0xFF
  if off_hi = 0 then (-EINVAL, value, w)
  else
    let a := it87_ecio_wait_ibe w
    if a.1 ≠ 0 then (a.1, value, a.2)
    else
      let b := it87_ecio_wait_ibe (it87_ecio_outb ECIO_CMD_READ ECIO_CMD_STAT a.2)
      if b.1 ≠ 0 then (b.1, value, b.2)
      else
        let c := it87_ecio_wait_ibe b.2
        if c.1 ≠ 0 then (c.1, value, c.2)
        else
          let e := it87_ecio_wait_ibe (it87_ecio_outb off_hi ECIO_DATA c.2)
          if e.1 ≠ 0 then (e.1, value, e.2)
          else
            let f := it87_ecio_wait_ibe e.2
            if f.1 ≠ 0 then (f.1, value, f.2)
            else
              let g := it87_ecio_wait_ibe (it87_ecio_outb off_lo ECIO_DATA f.2)
              if g.1 ≠ 0 then (g.1, value, g.2)
              else
                let k := it87_ecio_wait_obf g.2
                if k.1 ≠ 0 then (k.1, value, k.2)
                else
                  let v := it87_ecio_inb ECIO_DATA k.2
                  (0, v.1, v.2)

/-- Single write transaction. -/
def it87_ecio_write_once (offset value : Nat) (w : World) : Int × World :=
  let off_hi := (u16 offset >>> 8) &&& 0xFF
  let off_lo := u16 offset &&& 0xFF
  if off_hi = 0 then (-EINVAL, w)
  else
    let a := it87_ecio_wait_ibe w
    if a.1 ≠ 0 then a
    else
      let b := it87_ecio_wait_ibe (it87_ecio_outb ECIO_CMD_WRITE ECIO_CMD_STAT a.2)
      if b.1 ≠ 0 then b
      else
        let c := it87_ecio_wait_ibe b.2
        if c.1 ≠ 0 then c
        else
          let e := it87_ecio_wait_ibe (it87_ecio_outb off_hi ECIO_DATA c.2)
          if e.1 ≠ 0 then e
          else
            let f := it87_ecio_wait_ibe e.2
            if f.1 ≠ 0 then f
            else
              let g := it87_ecio_wait_ibe (it87_ecio_outb off_lo ECIO_DATA f.2)
              if g.1 ≠ 0 then g
              else
                let k := it87_ecio_wait_ibe g.2
                if k.1 ≠ 0 then k
                else
                  let m := it87_ecio_wait_ibe (it87_ecio_outb value ECIO_DATA k.2)
                  if m.1 ≠ 0 then m else (0, m.2)

/-! ## Chip instance -/

/-- Chip models, `enum chips`. -/
inductive chips where
  | it87 | it8712 | it8716 | it8718 | it8720 | it8721 | it8728 | it8732
  | it8736 | it8738
  | it8771 | it8772 | it8781 | it8782 | it8783 | it8785 | it8786 | it8790
  | it8792 | it8603 | it8606 | it8607 | it8613 | it8620 | it8622 | it8625
  | it8628 | it8655 | it8665 | it8686 | it8688 | it8689 | it87952 | it8696
  | it8698
  deriving DecidableEq, Repr

/-- The functions the `read` pointer of an instance can hold. -/
inductive ReadFn where
  | it87_bridge_read | it87_h2ram_read | it87_mmio_read | it87_ecio_read
  | it87_io_read | _it87_io_read
  deriving DecidableEq, Repr

/-- The functions the `write` pointer of an instance can hold. -/
inductive WriteFn where
  | it87_bridge_write | it87_h2ram_write | it87_mmio_write | it87_ecio_write
  | it87_io_write | _it87_io_write
  deriving DecidableEq, Repr

/-- Per-chip state `struct it87_data`, the fields the register layer and the update
pass use.  `mmio` is the mapped address, 0 for NULL; arrays are functions of the index;
`in_` is the field `in`. -/
structure it87_data where
  type : chips
  features : Nat
  peci_mask : Nat
  old_peci_mask : Nat
  smbus_bitmap : Nat
  saved_bank : Nat
  ec_special_config : Nat
  sioaddr : Nat
  mmio : Nat
  mmio_bridge : Bool
  mmio_h2ram : Bool
  ecio_h2ram : Bool
  read : ReadFn
  write : WriteFn
  REG_FAN : List Nat
  REG_FANX : List Nat
  REG_FAN_MIN : List Nat
  REG_FANX_MIN : List Nat
  REG_PWM : List Nat
  REG_TEMP_OFFSET : List Nat
  REG_TEMP_LOW : List Nat
  REG_TEMP_HIGH : List Nat
  addr : Nat
  valid : Bool
  last_updated : Nat
  has_in : Nat
  in_ : Nat → Nat → Nat
  has_fan : Nat
  fan : Nat → Nat → Nat
  has_temp : Nat
  temp : Nat → Nat → Int
  num_temp_limit : Nat
  num_temp_offset : Nat
  sensor : Nat
  extra : Nat
  fan_div : Nat → Nat
  vid : Nat
  alarms : Nat
  beeps : Nat
  fan_main_ctrl : Nat
  fan_ctl : Nat
  has_pwm : Nat
  pwm_ctrl : Nat → Nat
  pwm_duty : Nat → Nat
  pwm_temp_map : Nat → Nat
  pwm_temp_map_mask : Nat
  pwm_temp_map_shift : Nat
  pwm_num_temp_map : Nat
  auto_pwm : Nat → Nat → Nat
  auto_temp : Nat → Nat → Int

def has_newer_autopwm (d : it87_data) : Bool := d.features &&& FEAT_NEWER_AUTOPWM ≠ 0
def has_old_autopwm (d : it87_data) : Bool := d.features &&& FEAT_OLD_AUTOPWM ≠ 0
def has_16bit_fans (d : it87_data) : Bool := d.features &&& FEAT_16BIT_FANS ≠ 0
def has_noconf (d : it87_data) : Bool := d.features &&& FEAT_NOCONF ≠ 0
def has_bank_sel (d : it87_data) : Bool := d.features &&& FEAT_BANK_SEL ≠ 0
def has_fanctl_onoff (d : it87_data) : Bool := d.features &&& FEAT_FANCTL_ONOFF ≠ 0

def has_temp_peci (d : it87_data) (nr : Nat) : Bool :=
  d.features &&& FEAT_TEMP_PECI ≠ 0 && d.peci_mask &&& BIT nr ≠ 0

def has_temp_old_peci (d : it87_data) (nr : Nat) : Bool :=
  d.features &&& FEAT_TEMP_OLD_PECI ≠ 0 && d.old_peci_mask &&& BIT nr ≠ 0

/-- Two's complement image of a C `int` in 32 bits. -/
def int_bits (x : Int) : Nat := (x % 2 ^ 32).toNat

/-- Conversion of a C `int` to `u8`. -/
def int_u8 (x : Int) : Nat := (x % 2 ^ 8).toNat

/-- Conversion of a C `int` to `u16`. -/
def int_u16 (x : Int) : Nat := (x % 2 ^ 16).toNat

/-- Conversion of a C `int` to `s8`. -/
def int_s8 (x : Int) : Int := (x + 128) % 256 - 128

/-- Assignment `a[i][j] = v` on a two-dimensional array. -/
def set2 {α : Type} (a : Nat → Nat → α) (i j : Nat) (v : α) : Nat → Nat → α :=
  fun x y => if x = i ∧ y = j then v else a x y

/-- Assignment `a[i] = v`. -/
def set1 {α : Type} (a : Nat → α) (i : Nat) (v : α) : Nat → α :=
  fun x => if x = i then v else a x

/-! ## Super-I/O configuration access -/

def __superio_enter (ioreg : Nat) (w : World) : World :=
  outb (if ioreg = REG_4E then 0xaa else 0x55) ioreg
    (outb 0x55 ioreg (outb 0x01 ioreg (outb 0x87 ioreg w)))

def superio_outb (ioreg reg val : Nat) (w : World) : World :=
  outb val (ioreg + 1) (outb reg ioreg w)

def superio_select (ioreg ldn : Nat) (w : World) : World :=
  outb ldn (ioreg + 1) (outb DEV ioreg w)

/-- Entry into configuration mode; `request_muxed_region` succeeds when the world
grants the region. -/
def superio_enter (ioreg : Nat) (noentry : Bool) (w : World) : Int × World :=
  if !w.region_ok ioreg then (-EBUSY, w)
  else if !noentry then (0, __superio_enter ioreg w)
  else (0, w)

def superio_exit (ioreg : Nat) (noexit : Bool) (w : World) : World :=
  if !noexit then outb 0x02 (ioreg + 1) (outb 0x02 ioreg w) else w

/-! ## Register transports -/

def _it87_io_read (d : it87_data) (reg : Nat) (w : World) : Int × World :=
  let r := inb (d.addr + IT87_DATA_REG_OFFSET) (outb reg (d.addr + IT87_ADDR_REG_OFFSET) w)
  ((r.1 : Int), r.2)

def _it87_io_write (d : it87_data) (reg value : Nat) (w : World) : World :=
  outb value (d.addr + IT87_DATA_REG_OFFSET) (outb reg (d.addr + IT87_ADDR_REG_OFFSET) w)

def smbus_disable (d : it87_data) (w : World) : Int × it87_data × World :=
  if d.smbus_bitmap ≠ 0 then
    let e := superio_enter d.sioaddr (has_noconf d) w
    if e.1 ≠ 0 then (e.1, d, e.2)
    else
      let w1 := superio_exit d.sioaddr (has_noconf d)
        (superio_outb d.sioaddr IT87_SPECIAL_CFG_REG
          (d.ec_special_config &&& not8 d.smbus_bitmap)
          (superio_select d.sioaddr PME e.2))
      if has_bank_sel d && d.mmio = 0 then
        let r := _it87_io_read d IT87_REG_BANK w1
        (0, { d with saved_bank := int_u8 r.1 }, r.2)
      else (0, d, w1)
  else (0, d, w)

def smbus_enable (d : it87_data) (w : World) : Int × World :=
  if d.smbus_bitmap ≠ 0 then
    let w1 :=
      if has_bank_sel d && d.mmio = 0 then _it87_io_write d IT87_REG_BANK d.saved_bank w
      else w
    let e := superio_enter d.sioaddr (has_noconf d) w1
    if e.1 ≠ 0 then (e.1, e.2)
    else
      (0, superio_exit d.sioaddr (has_noconf d)
        (superio_outb d.sioaddr IT87_SPECIAL_CFG_REG d.ec_special_config
          (superio_select d.sioaddr PME e.2)))
  else (0, w)

/-- Bank switch; `bank` is a `u8`, the result is the bank that was selected. -/
def it87_io_set_bank (d : it87_data) (bank : Nat) (w : World) : Nat × World :=
  if has_bank_sel d then
    let r := _it87_io_read d IT87_REG_BANK w
    let breg := int_u8 r.1
    let _bank := breg >>> 5
    if u8 bank ≠ _bank then
      (_bank, _it87_io_write d IT87_REG_BANK (u8 ((breg &&& 0x1f) ||| (u8 bank <<< 5))) r.2)
    else (_bank, r.2)
  else (u8 bank, w)

def it87_io_read (d : it87_data) (reg : Nat) (w : World) : Int × World :=
  let b := it87_io_set_bank d (u16 reg >>> 8) w
  let v := _it87_io_read d (u16 reg &&& 0xff) b.2
  (v.1, (it87_io_set_bank d b.1 v.2).2)

def it87_io_write (d : it87_data) (reg value : Nat) (w : World) : World :=
  let b := it87_io_set_bank d (u16 reg >>> 8) w
  (it87_io_set_bank d b.1 (_it87_io_write d (u16 reg &&& 0xff) value b.2)).2

/-- Kernel `readb`. -/
def readb (addr : Nat) (w : World) : Nat × World :=
  (u8 (w.mem addr), { w with mmio_log := w.mmio_log ++ [MmioEv.readb addr] })

/-- Kernel `writeb`. -/
def writeb (value addr : Nat) (w : World) : World :=
  { w with mem := fun a => if a = addr then u8 value else w.mem a,
           mmio_log := w.mmio_log ++ [MmioEv.writeb (u8 value) addr] }

def it87_mmio_read (d : it87_data) (reg : Nat) (w : World) : Int × World :=
  let r := readb (d.mmio + u16 reg) w
  ((r.1 : Int), r.2)

def it87_mmio_write (d : it87_data) (reg value : Nat) (w : World) : World :=
  writeb value (d.mmio + u16 reg) w

/-- Slot of an instance, `(data->sioaddr == REG_4E) ? 1 : 0`. -/
def slot_of (d : it87_data) : Int := if d.sioaddr = REG_4E then 1 else 0

def it87_bridge_read (d : it87_data) (reg : Nat) (w : World) : Int × World :=
  if d.mmio ≠ 0 && d.features &&& FEAT_MMIO = 0 && w.it87_h2_global_ready
      && d.mmio_bridge then
    let u := it87_h2_global_use_slot (slot_of d) w
    if u.1 ≠ 0 then (- EIO, u.2) else it87_mmio_read d reg u.2
  else it87_mmio_read d reg w

def it87_bridge_write (d : it87_data) (reg value : Nat) (w : World) : World :=
  if d.mmio ≠ 0 && d.features &&& FEAT_MMIO = 0 && w.it87_h2_global_ready
      && d.mmio_bridge then
    let u := it87_h2_global_use_slot (slot_of d) w
    if u.1 ≠ 0 then u.2 else it87_mmio_write d reg value u.2
  else it87_mmio_write d reg value w

def it87_h2ram_read (d : it87_data) (reg : Nat) (w : World) : Int × World :=
  if u16 reg ≥ H2RAM_LOW_BOUND ∧ u16 reg ≤ H2RAM_HI_BOUND then
    if d.mmio ≠ 0 && d.features &&& FEAT_MMIO = 0 && w.it87_h2_global_ready
        && d.mmio_h2ram then
      let u := it87_h2_global_use_slot (slot_of d) w
      if u.1 ≠ 0 then (- EIO, u.2) else it87_bridge_read d reg u.2
    else it87_bridge_read d reg w
  else _it87_io_read d reg w

def it87_h2ram_write (d : it87_data) (reg value : Nat) (w : World) : World :=
  if u16 reg ≥ H2RAM_LOW_BOUND ∧ u16 reg ≤ H2RAM_HI_BOUND then
    if d.mmio ≠ 0 && d.features &&& FEAT_MMIO = 0 && w.it87_h2_global_ready
        && d.mmio_h2ram then
      let u := it87_h2_global_use_slot (slot_of d) w
      if u.1 ≠ 0 then u.2 else it87_bridge_write d reg value u.2
    else it87_bridge_write d reg value w
  else _it87_io_write d reg value w

/-- ECIO transport read: the value returned is the local `value`, 0 unless the
transaction stored a byte. -/
def _it87_ecio_read (_d : it87_data) (reg : Nat) (w : World) : Int × World :=
  let r := it87_ecio_read_once reg 0 (mutex_lock Mutex.it87_ecio_lock w)
  ((r.2.1 : Int), mutex_unlock Mutex.it87_ecio_lock r.2.2)

def _it87_ecio_write (_d : it87_data) (reg value : Nat) (w : World) : World :=
  let r := it87_ecio_write_once reg value (mutex_lock Mutex.it87_ecio_lock w)
  mutex_unlock Mutex.it87_ecio_lock r.2

def it87_ecio_read (d : it87_data) (reg : Nat) (w : World) : Int × World :=
  if u16 reg ≥ H2RAM_LOW_BOUND ∧ u16 reg ≤ H2RAM_HI_BOUND ∧ d.ecio_h2ram then
    _it87_ecio_read d reg w
  else _it87_io_read d reg w

def it87_ecio_write (d : it87_data) (reg value : Nat) (w : World) : World :=
  if u16 reg ≥ H2RAM_LOW_BOUND ∧ u16 reg ≤ H2RAM_HI_BOUND ∧ d.ecio_h2ram then
    _it87_ecio_write d reg value w
  else _it87_io_write d reg value w

/-- Call through the pointer `data->read`. -/
def data_read (d : it87_data) (reg : Nat) (w : World) : Int × World :=
  match d.read with
  | ReadFn.it87_bridge_read => it87_bridge_read d reg w
  | ReadFn.it87_h2ram_read => it87_h2ram_read d reg w
  | ReadFn.it87_mmio_read => it87_mmio_read d reg w
  | ReadFn.it87_ecio_read => it87_ecio_read d reg w
  | ReadFn.it87_io_read => it87_io_read d reg w
  | ReadFn._it87_io_read => _it87_io_read d reg w

/-- Call through the pointer `data->write`. -/
def data_write (d : it87_data) (reg value : Nat) (w : World) : World :=
  match d.write with
  | WriteFn.it87_bridge_write => it87_bridge_write d reg value w
  | WriteFn.it87_h2ram_write => it87_h2ram_write d reg value w
  | WriteFn.it87_mmio_write => it87_mmio_write d reg value w
  | WriteFn.it87_ecio_write => it87_ecio_write d reg value w
  | WriteFn.it87_io_write => it87_io_write d reg value w
  | WriteFn._it87_io_write => _it87_io_write d reg value w

/-! ## Update cache -/

def temp_map_from_reg (d : it87_data) (reg : Nat) : Nat :=
  let map := u8 ((reg >>> d.pwm_temp_map_shift) &&& d.pwm_temp_map_mask)
  if map ≥ d.pwm_num_temp_map then 0 else map

/-- Loop body `data->auto_temp[nr][i + k] = data->read(data, IT87_REG_AUTO_TEMP(nr, i))`. -/
def read_auto_temp (nr k : Nat) (s : it87_data × World) (i : Nat) : it87_data × World :=
  let r := data_read s.1 (IT87_REG_AUTO_TEMP nr i) s.2
  ({ s.1 with auto_temp := set2 s.1.auto_temp nr (i + k) (int_s8 r.1) }, r.2)

/-- Loop body `data->auto_pwm[nr][i] = data->read(data, IT87_REG_AUTO_PWM(nr, i))`. -/
def read_auto_pwm (nr : Nat) (s : it87_data × World) (i : Nat) : it87_data × World :=
  let r := data_read s.1 (IT87_REG_AUTO_PWM nr i) s.2
  ({ s.1 with auto_pwm := set2 s.1.auto_pwm nr i (int_u8 r.1) }, r.2)

def it87_update_pwm_ctrl (d : it87_data) (nr : Nat) (w : World) : it87_data × World :=
  let r := data_read d (tbl d.REG_PWM nr) w
  let ctrl := int_u8 r.1
  let d1 := { d with pwm_ctrl := set1 d.pwm_ctrl nr ctrl }
  let s2 : it87_data × World :=
    if has_newer_autopwm d1 then
      let d2 := { d1 with pwm_temp_map := set1 d1.pwm_temp_map nr (temp_map_from_reg d1 ctrl) }
      let q := data_read d2 (tbl IT87_REG_PWM_DUTY nr) r.2
      ({ d2 with pwm_duty := set1 d2.pwm_duty nr (int_u8 q.1) }, q.2)
    else if ctrl &&& 0x80 ≠ 0 then
      ({ d1 with pwm_temp_map := set1 d1.pwm_temp_map nr (temp_map_from_reg d1 ctrl) }, r.2)
    else ({ d1 with pwm_duty := set1 d1.pwm_duty nr (ctrl &&& 0x7f) }, r.2)
  if has_old_autopwm s2.1 then
    (List.range 3).foldl (read_auto_pwm nr) ((List.range 5).foldl (read_auto_temp nr 0) s2)
  else if has_newer_autopwm s2.1 then
    let a := data_read s2.1 (IT87_REG_AUTO_TEMP nr 5) s2.2
    let s3 : it87_data × World :=
      ({ s2.1 with auto_temp := set2 s2.1.auto_temp nr 0 (int_s8 a.1) }, a.2)
    let s4 := (List.range 3).foldl (read_auto_temp nr 1) s3
    let b := data_read s4.1 (IT87_REG_AUTO_TEMP nr 3) s4.2
    let d5 := { s4.1 with auto_pwm := set2 s4.1.auto_pwm nr 0 (int_u8 b.1) }
    let c := data_read d5 (IT87_REG_AUTO_TEMP nr 4) b.2
    ({ d5 with auto_pwm := set2 d5.auto_pwm nr 1 (int_u8 c.1) }, c.2)
  else s2

/-- Body of the voltage loop of the refresh pass. -/
def update_in (s : it87_data × World) (i : Nat) : it87_data × World :=
  if s.1.has_in &&& BIT i = 0 then s
  else
    let a := data_read s.1 (tbl IT87_REG_VIN i) s.2
    let d1 := { s.1 with in_ := set2 s.1.in_ i 0 (int_u8 a.1) }
    if i ≥ NUM_VIN_LIMIT then (d1, a.2)
    else
      let b := data_read d1 (IT87_REG_VIN_MIN i) a.2
      let d2 := { d1 with in_ := set2 d1.in_ i 1 (int_u8 b.1) }
      let c := data_read d2 (IT87_REG_VIN_MAX i) b.2
      ({ d2 with in_ := set2 d2.in_ i 2 (int_u8 c.1) }, c.2)

/-- Body of the fan loop of the refresh pass. -/
def update_fan (s : it87_data × World) (i : Nat) : it87_data × World :=
  if s.1.has_fan &&& BIT i = 0 then s
  else
    let a := data_read s.1 (tbl s.1.REG_FAN_MIN i) s.2
    let d1 := { s.1 with fan := set2 s.1.fan i 1 (int_u16 a.1) }
    let b := data_read d1 (tbl d1.REG_FAN i) a.2
    let d2 := { d1 with fan := set2 d1.fan i 0 (int_u16 b.1) }
    if has_16bit_fans d2 then
      let c := data_read d2 (tbl d2.REG_FANX i) b.2
      let d3 := { d2 with fan := set2 d2.fan i 0 (u16 (d2.fan i 0 ||| (int_bits c.1 <<< 8))) }
      let e := data_read d3 (tbl d3.REG_FANX_MIN i) c.2
      ({ d3 with fan := set2 d3.fan i 1 (u16 (d3.fan i 1 ||| (int_bits e.1 <<< 8))) }, e.2)
    else (d2, b.2)

/-- Body of the temperature loop of the refresh pass. -/
def update_temp (s : it87_data × World) (i : Nat) : it87_data × World :=
  if s.1.has_temp &&& BIT i = 0 then s
  else
    let a := data_read s.1 (IT87_REG_TEMP i) s.2
    let d1 := { s.1 with temp := set2 s.1.temp i 0 (int_s8 a.1) }
    if i ≥ d1.num_temp_limit then (d1, a.2)
    else
      let s2 : it87_data × World :=
        if i < d1.num_temp_offset then
          let o := data_read d1 (tbl d1.REG_TEMP_OFFSET i) a.2
          ({ d1 with temp := set2 d1.temp i 3 (int_s8 o.1) }, o.2)
        else (d1, a.2)
      let b := data_read s2.1 (tbl s2.1.REG_TEMP_LOW i) s2.2
      let d3 := { s2.1 with temp := set2 s2.1.temp i 1 (int_s8 b.1) }
      let c := data_read d3 (tbl d3.REG_TEMP_HIGH i) b.2
      ({ d3 with temp := set2 d3.temp i 2 (int_s8 c.1) }, c.2)

/-- Body of the PWM loop of the refresh pass. -/
def update_pwm (s : it87_data × World) (i : Nat) : it87_data × World :=
  if s.1.has_pwm &&& BIT i = 0 then s else it87_update_pwm_ctrl s.1 i s.2

/-- The refresh pass of `it87_update_device` between `smbus_disable` and
`smbus_enable`. -/
def refresh_pass (d : it87_data) (w : World) : it87_data × World :=
  let w1 :=
    if w.update_vbat then
      let r := data_read d IT87_REG_CONFIG w
      data_write d IT87_REG_CONFIG (u8 (int_bits r.1 ||| 0x40)) r.2
    else w
  let s1 := (List.range NUM_VIN).foldl update_in (d, w1)
  let s2 := (List.range NUM_FAN).foldl update_fan s1
  let s3 := (List.range NUM_TEMP).foldl update_temp s2
  let s4 : it87_data × World :=
    if s3.1.has_fan &&& 0x07 ≠ 0 && !has_16bit_fans s3.1 then
      let r := data_read s3.1 IT87_REG_FAN_DIV s3.2
      let i := int_bits r.1
      let f0 := set1 s3.1.fan_div 0 (i &&& 0x07)
      let f1 := set1 f0 1 ((i >>> 3) &&& 0x07)
      let f2 := set1 f1 2 (if i &&& 0x40 ≠ 0 then 3 else 1)
      ({ s3.1 with fan_div := f2 }, r.2)
    else s3
  let a1 := data_read s4.1 IT87_REG_ALARM1 s4.2
  let a2 := data_read s4.1 IT87_REG_ALARM2 a1.2
  let a3 := data_read s4.1 IT87_REG_ALARM3 a2.2
  let al := u32 (int_bits a1.1 ||| (int_bits a2.1 <<< 8) ||| (int_bits a3.1 <<< 16))
  let d5 := { s4.1 with alarms := al }
  let bp := data_read d5 IT87_REG_BEEP_ENABLE a3.2
  let d6 := { d5 with beeps := int_u8 bp.1 }
  let mc := data_read d6 IT87_REG_FAN_MAIN_CTRL bp.2
  let d7 := { d6 with fan_main_ctrl := int_u8 mc.1 }
  let fc := data_read d7 IT87_REG_FAN_CTL mc.2
  let d8 := { d7 with fan_ctl := int_u8 fc.1 }
  let s9 := (List.range NUM_PWM).foldl update_pwm (d8, fc.2)
  let se := data_read s9.1 IT87_REG_TEMP_ENABLE s9.2
  let d10 := { s9.1 with sensor := int_u8 se.1 }
  let ex := data_read d10 IT87_REG_TEMP_EXTRA se.2
  let d11 := { d10 with extra := int_u8 ex.1 }
  if d11.type = chips.it8712 ∨ d11.type = chips.it8716 then
    let v := data_read d11 IT87_REG_VID ex.2
    ({ d11 with vid := int_u8 v.1 &&& 0x3f }, v.2)
  else (d11, ex.2)

/-- Cache refresh `it87_update_device`: the error of `ERR_PTR` (0 when the instance
itself is returned), the instance and the world. -/
def it87_update_device (d : it87_data) (w : World) : Int × it87_data × World :=
  let w0 := mutex_lock Mutex.update_lock w
  let j := jiffies w0
  if time_after j.2.BITS_PER_LONG j.1 (d.last_updated + j.2.HZ + j.2.HZ / 2) ∨ !d.valid then
    let sd := smbus_disable d j.2
    if sd.1 ≠ 0 then (sd.1, sd.2.1, mutex_unlock Mutex.update_lock sd.2.2)
    else
      let s := refresh_pass sd.2.1 sd.2.2
      let t := jiffies s.2
      let d1 := { s.1 with last_updated := t.1, valid := true }
      (0, d1, mutex_unlock Mutex.update_lock (smbus_enable d1 t.2).2)
  else (0, d, mutex_unlock Mutex.update_lock j.2)

/-! ## Concrete instances used to evaluate the model -/

/-- A bridge device with all registers zero and no access failure. -/
def quiet_dev (vendor : Nat) : PciDev :=
  { vendor := vendor, cfg := fun _ => 0, faults := [], log := [] }

/-- A world with zeroed hardware: chip at port 0x295, every oracle port reads 0,
each tick of `jiffies` is seen twice, `HZ = 4`, bridge manager not initialised. -/
def quiet_world : World :=
  { ec_base := 0x295, ec_latch := 0, ec_regs := fun _ => 0,
    port_in := fun _ _ => 0, port_log := [], region_ok := fun _ => true,
    mem := fun _ => 0, mmio_log := [],
    now := 100, left := 1, polls := fun _ => 1, HZ := 4, BITS_PER_LONG := 64,
    it87_h2_global := { h := zero_handle, dev := quiet_dev IT87_H2_VENDOR_AMD },
    it87_h2_global_ready := false, it87_h2_global_inited := false,
    update_vbat := false, locks := [] }

/-- An instance on port pair 0x295/0x296 with the given features and accessors and an
empty cache. -/
def plain_data (features : Nat) (rd : ReadFn) (wr : WriteFn) : it87_data :=
  { type := chips.it8728, features := features, peci_mask := 0, old_peci_mask := 0,
    smbus_bitmap := 0, saved_bank := 0,
    ec_special_config := 0, sioaddr := REG_2E, mmio := 0,
    mmio_bridge := false, mmio_h2ram := false, ecio_h2ram := false,
    read := rd, write := wr,
    REG_FAN := IT87_REG_FAN, REG_FANX := IT87_REG_FANX,
    REG_FAN_MIN := IT87_REG_FAN_MIN, REG_FANX_MIN := IT87_REG_FANX_MIN,
    REG_PWM := IT87_REG_PWM, REG_TEMP_OFFSET := IT87_REG_TEMP_OFFSET,
    REG_TEMP_LOW := IT87_REG_TEMP_LOW, REG_TEMP_HIGH := IT87_REG_TEMP_HIGH,
    addr := 0x295, valid := false, last_updated := 0,
    has_in := 0, in_ := fun _ _ => 0, has_fan := 0, fan := fun _ _ => 0,
    has_temp := 0, temp := fun _ _ => 0, num_temp_limit := 3, num_temp_offset := 0,
    sensor := 0, extra := 0, fan_div := fun _ => 0, vid := 0, alarms := 0, beeps := 0,
    fan_main_ctrl := 0, fan_ctl := 0, has_pwm := 0,
    pwm_ctrl := fun _ => 0, pwm_duty := fun _ => 0, pwm_temp_map := fun _ => 0,
    pwm_temp_map_mask := 0x03, pwm_temp_map_shift := 0, pwm_num_temp_map := 3,
    auto_pwm := fun _ _ => 0, auto_temp := fun _ _ => 0 }

/-- A bank-select chip using the banked port accessors. -/
def bank_data : it87_data :=
  plain_data FEAT_BANK_SEL ReadFn.it87_io_read WriteFn.it87_io_write

/-- Content of the bank register of the chip. -/
def bank_reg (w : World) : Nat := w.ec_regs IT87_REG_BANK

/-! ## Vocabulary of the bridge manager properties -/

/-- Offsets of the configuration writes in a log, oldest first. -/
def write_offsets (log : List PciOp) : List Nat :=
  log.filterMap (fun op => match op with
    | PciOp.wr off _ => some off
    | PciOp.rd _ => none)

/-- Configuration writes in a log as (offset, value), oldest first. -/
def pci_writes (log : List PciOp) : List (Nat × Nat) :=
  log.filterMap (fun op => match op with
    | PciOp.wr off v => some (off, v)
    | PciOp.rd _ => none)

/-- The handle is bound to an AMD bridge. -/
def amd_bound (s : H2Sys) : Prop :=
  s.h.bridge = true ∧ s.h.is_amd = true ∧ u16 s.dev.vendor = IT87_H2_VENDOR_AMD

/-- Consecutive calls of `it87_h2_use_slot`, with the list of their return values. -/
def use_slots (s : H2Sys) : List Int → List Int × H2Sys
  | [] => ([], s)
  | i :: rest =>
    let r := it87_h2_use_slot s i
    let t := use_slots r.2 rest
    (r.1 :: t.1, t.2)

/-- Number of calls in a sequence of slot activations whose slot base differs from the
base tracked at the time of the call, the tracked base being `cur` at the start and the
base of the slot last activated afterwards. -/
def switches (base : Nat → Nat) : Nat → List Int → Nat
  | _, [] => 0
  | cur, i :: rest =>
    (if cur ≠ base i.toNat then 1 else 0) + switches base (base i.toNat) rest

/-- Register values an AMD reprogram sequence for a slot leaves behind. -/
def amd_cfg_after (cfg : Nat → Nat) (idx : Int) (base pages : Nat) : Nat → Nat :=
  fun o =>
    if o = 0x48 then u32 (u32 (cfg 0x48) ||| BIT 5)
    else if o = 0x6C then
      u32 (if idx = 0 then u32 (cfg 0x6C) &&& 0xFFFFFF00
           else 0xFFFF0000 ||| (amd_end idx base pages &&& 0xFFFF))
    else if o = 0x60 then u32 (amd_range idx base pages)
    else cfg o

/-- Accesses of an AMD reprogram sequence for a slot, in order. -/
def amd_ops (cfg : Nat → Nat) (idx : Int) (base pages : Nat) : List PciOp :=
  if idx = 0 then
    [PciOp.wr 0x60 (u32 (amd_range idx base pages)), PciOp.rd 0x6C,
     PciOp.wr 0x6C (u32 (u32 (cfg 0x6C) &&& 0xFFFFFF00)), PciOp.rd 0x48,
     PciOp.wr 0x48 (u32 (u32 (cfg 0x48) ||| BIT 5))]
  else
    [PciOp.wr 0x60 (u32 (amd_range idx base pages)),
     PciOp.wr 0x6C (u32 (0xFFFF0000 ||| (amd_end idx base pages &&& 0xFFFF))), PciOp.rd 0x48,
     PciOp.wr 0x48 (u32 (u32 (cfg 0x48) ||| BIT 5))]

/-- Offsets written by `n` consecutive AMD reprogram sequences. -/
def reprogram_offsets : Nat → List Nat
  | 0 => []
  | n + 1 => [0x60, 0x6C, 0x48] ++ reprogram_offsets n

/-- An AMD bridge bound by `it87_h2_init` with slot 0 at 0xFE000000 and slot 1 at
0xFE010000, one page each, nothing programmed yet. -/
def amd_two_slots : H2Sys :=
  (it87_h2_set_slot
    (it87_h2_set_slot
      (it87_h2_init [quiet_dev IT87_H2_VENDOR_AMD] 0
        { h := zero_handle, dev := quiet_dev 0 }).2
      0 0xFE000000 0x10000).2
    1 0xFE010000 0x10000).2

/-- A call on the bridge handle. -/
inductive H2Op where
  | set_slot (idx : Int) (mmio_base size : Nat)
  | set_state (st : Int)
  | use_slot (idx : Int)
  deriving DecidableEq, Repr

/-- State after one call on the handle, its return value dropped. -/
def H2Op.run (s : H2Sys) : H2Op → H2Sys
  | H2Op.set_slot idx mmio_base size => (it87_h2_set_slot s idx mmio_base size).2
  | H2Op.set_state st => (it87_h2_set_state s st).2
  | H2Op.use_slot idx => (it87_h2_use_slot s idx).2

/-- State after a sequence of calls on the handle. -/
def run_ops (s : H2Sys) (ops : List H2Op) : H2Sys := ops.foldl H2Op.run s

/-- The call is a slot configuration. -/
def H2Op.configures : H2Op → Bool
  | H2Op.set_slot _ _ _ => true
  | _ => false

/-- The configuration writes logged so far end with the reprogram sequence of the slot
for the given window, started from some register content. -/
def reprogrammed_for (idx : Int) (base pages : Nat) (log : List PciOp) : Prop :=
  ∃ pre cfg, pci_writes log = pre ++ pci_writes (amd_ops cfg idx base pages)

/-- Configured slots have nonzero bases, different from each other. -/
def slots_distinct (h : it87_h2ram_handle) : Prop :=
  (h.have_ 0 = true → h.base 0 ≠ 0) ∧ (h.have_ 1 = true → h.base 1 ≠ 0) ∧
  (h.have_ 0 = true → h.have_ 1 = true → h.base 0 ≠ h.base 1)

/-- A nonzero tracked base is the base of a configured slot whose reprogram sequence
was the last thing written to the bridge. -/
def amd_tracked (s : H2Sys) : Prop :=
  s.h.current_base ≠ 0 →
    ∃ i : Int, (i = 0 ∨ i = 1) ∧ s.h.have_ i.toNat = true ∧
      s.h.current_base = s.h.base i.toNat ∧
      reprogrammed_for i (s.h.base i.toNat) (s.h.pages i.toNat) s.dev.log

/-- A freshly bound AMD bridge. -/
def amd_fresh : H2Sys :=
  (it87_h2_init [quiet_dev IT87_H2_VENDOR_AMD] 0 { h := zero_handle, dev := quiet_dev 0 }).2

/-- The bridge of `amd_two_slots` on which the tenth configuration access fails. -/
def amd_two_slots_faulty : H2Sys :=
  { amd_two_slots with
    dev := { quiet_dev IT87_H2_VENDOR_AMD with faults := [0, 0, 0, 0, 0, 0, 0, 0, 0, -5] } }

/-- Register values an Intel enable sequence for a slot leaves behind. -/
def intel_cfg_after (cfg : Nat → Nat) (idx : Int) (base : Nat) : Nat → Nat :=
  fun o =>
    if o = 0x98 then u32 (intel_range base)
    else if o = 0xD8 then u32 (u32 (cfg 0xD8) &&& not32 (intel_mask idx base))
    else cfg o

/-- The vendor of the bound device is AMD or Intel and `is_amd` says which. -/
def vendor_known (s : H2Sys) : Prop :=
  (u16 s.dev.vendor = IT87_H2_VENDOR_AMD ∧ s.h.is_amd = true) ∨
  (u16 s.dev.vendor = IT87_H2_VENDOR_INTEL ∧ s.h.is_amd = false)

/-- Nothing was captured or written yet: the registers the driver modifies hold the
values `c0` and no base is tracked. -/
def pristine (c0 : Nat → Nat) (s : H2Sys) : Prop :=
  s.h.bridge = true ∧ s.dev.faults = [] ∧ vendor_known s ∧ s.h.saved = false ∧
  s.h.current_base = 0 ∧
  s.dev.cfg 0x48 = c0 0x48 ∧ s.dev.cfg 0x60 = c0 0x60 ∧ s.dev.cfg 0x6C = c0 0x6C ∧
  s.dev.cfg 0xD8 = c0 0xD8 ∧ s.dev.cfg 0x98 = c0 0x98

/-- The original registers of the vendor were captured and the captured values are
`c0`. -/
def saved_ok (c0 : Nat → Nat) (s : H2Sys) : Prop :=
  s.h.bridge = true ∧ s.dev.faults = [] ∧ vendor_known s ∧ s.h.saved = true ∧
  (u16 s.dev.vendor = IT87_H2_VENDOR_AMD →
    s.h.r48 = c0 0x48 ∧ s.h.r60 = c0 0x60 ∧ s.h.r6c = c0 0x6C) ∧
  (u16 s.dev.vendor = IT87_H2_VENDOR_INTEL → s.h.rd8 = c0 0xD8 ∧ s.h.r98 = c0 0x98)

/-- The registers the driver modifies on the bound vendor hold the values `c0`, and on
AMD no base is tracked. -/
def restored (c0 : Nat → Nat) (s : H2Sys) : Prop :=
  (u16 s.dev.vendor = IT87_H2_VENDOR_AMD →
    s.dev.cfg 0x48 = c0 0x48 ∧ s.dev.cfg 0x60 = c0 0x60 ∧ s.dev.cfg 0x6C = c0 0x6C ∧
    s.h.current_base = 0) ∧
  (u16 s.dev.vendor = IT87_H2_VENDOR_INTEL →
    s.dev.cfg 0xD8 = c0 0xD8 ∧ s.dev.cfg 0x98 = c0 0x98)

/-- The original register values `c0` can still be brought back: either nothing was
touched or they were captured. -/
def restorable (c0 : Nat → Nat) (s : H2Sys) : Prop := pristine c0 s ∨ saved_ok c0 s

/-- An AMD bridge whose three decode registers hold nonzero values. -/
def amd_dev : PciDev :=
  { quiet_dev IT87_H2_VENDOR_AMD with
    cfg := fun o => if o = 0x48 then 0x0F else if o = 0x60 then 0xABCD
      else if o = 0x6C then 0x12345678 else 0 }

/-- A sequence of calls that programs both slots in turn, disables and re-enables. -/
def sample_ops : List H2Op :=
  [H2Op.set_slot 0 0xFE000000 0x10000, H2Op.set_slot 1 0xFE010000 0x20000,
   H2Op.use_slot 0, H2Op.use_slot 1, H2Op.set_state IT87_MMIO_DISABLED,
   H2Op.set_state IT87_MMIO_ENABLED_BOTH, H2Op.use_slot 1]

/-- The read of the ECIO status port issued after `n` earlier port accesses. -/
def stat_ev (w : World) (n : Nat) : PortEv :=
  PortEv.inb ECIO_CMD_STAT (u8 (w.port_in ECIO_CMD_STAT n))

/-- The event is a read of the ECIO status port. -/
def is_status_read : PortEv → Bool
  | PortEv.inb port _ => decide (port = ECIO_CMD_STAT)
  | PortEv.outb _ _ => false

/-- The ECIO status port is not one of the two ports the environment controller
decodes. -/
def stat_port_free (w : World) : Prop :=
  ECIO_CMD_STAT ≠ w.ec_base + IT87_DATA_REG_OFFSET ∧
  ECIO_CMD_STAT ≠ w.ec_base + IT87_ADDR_REG_OFFSET

/-- The status port reports input buffer empty on every read. -/
def always_ibe (w : World) : Prop :=
  ∀ n, u8 (w.port_in ECIO_CMD_STAT n) &&& ECIO_CMD_IBF = 0

/-- The status port reports output buffer full on every read. -/
def always_obf (w : World) : Prop :=
  ∀ n, u8 (w.port_in ECIO_CMD_STAT n) &&& ECIO_CMD_OBF ≠ 0

/-- The status port never reports input buffer empty. -/
def never_ibe (w : World) : Prop :=
  ∀ n, u8 (w.port_in ECIO_CMD_STAT n) &&& ECIO_CMD_IBF ≠ 0

/-- The status port never reports output buffer full. -/
def never_obf (w : World) : Prop :=
  ∀ n, u8 (w.port_in ECIO_CMD_STAT n) &&& ECIO_CMD_OBF = 0

/-- Two worlds with the same port oracle, chip address and tick rate. -/
def same_ports (a b : World) : Prop :=
  a.port_in = b.port_in ∧ a.ec_base = b.ec_base ∧ a.HZ = b.HZ

/-- A world whose ECIO status port always reads 0x01: input buffer empty, output
buffer full; the data port reads 0x5A. -/
def ready_world : World :=
  { quiet_world with
    port_in := fun port _ => if port = ECIO_CMD_STAT then 0x01
      else if port = ECIO_DATA then 0x5A else 0 }

/-- A world whose ECIO status port always reads 0x02: input buffer full. -/
def stuck_world : World :=
  { quiet_world with port_in := fun port _ => if port = ECIO_CMD_STAT then 0x02 else 0 }

/-- A world whose ECIO status port always reads 0x00: input buffer empty, output
buffer never full. -/
def silent_world : World :=
  { quiet_world with port_in := fun _ _ => 0 }

/-- The ECIO status port always reports ready: the timeout is at least two ticks, the
status port is an oracle port, and every read of it shows input buffer empty and output
buffer full. -/
def ecio_ready (w : World) : Prop :=
  2 ≤ w.HZ ∧ stat_port_free w ∧ always_ibe w ∧ always_obf w

/-- The status port always reports input buffer empty (timeout of at least two ticks,
status port an oracle port). -/
def ibe_ready (w : World) : Prop :=
  2 ≤ w.HZ ∧ stat_port_free w ∧ always_ibe w

/-! ## Accessor selection -/

def IT87_REG_FAN_8665 : List Nat := [0x0d, 0x0e, 0x0f, 0x80, 0x82, 0x93]
def IT87_REG_FAN_MIN_8665 : List Nat := [0x10, 0x11, 0x12, 0x84, 0x86, 0xb2]
def IT87_REG_FANX_8665 : List Nat := [0x18, 0x19, 0x1a, 0x81, 0x83, 0x94]
def IT87_REG_FANX_MIN_8665 : List Nat := [0x1b, 0x1c, 0x1d, 0x85, 0x87, 0xb3]
def IT87_REG_TEMP_OFFSET_8686 : List Nat := [0x56, 0x57, 0x59, 0x90, 0x91, 0x92]
def IT87_REG_PWM_8665 : List Nat := [0x15, 0x16, 0x17, 0x1e, 0x1f, 0x92]
def IT87_REG_TEMP_HIGH_8686 : List Nat := [0x40, 0x42, 0x44, 0xb4, 0xb6, 0xb8]
def IT87_REG_TEMP_LOW_8686 : List Nat := [0x41, 0x43, 0x45, 0xb5, 0xb7, 0xb9]

/-- Chip specific register pointers, the `switch (data->type)` of `it87_init_regs`. -/
def init_reg_pointers (d : it87_data) : it87_data :=
  match d.type with
  | chips.it8628 | chips.it8686 | chips.it8688 | chips.it8689 | chips.it8696
  | chips.it8698 =>
    { d with REG_FAN := IT87_REG_FAN, REG_FANX := IT87_REG_FANX,
             REG_FAN_MIN := IT87_REG_FAN_MIN, REG_FANX_MIN := IT87_REG_FANX_MIN,
             REG_PWM := IT87_REG_PWM, REG_TEMP_OFFSET := IT87_REG_TEMP_OFFSET_8686,
             REG_TEMP_LOW := IT87_REG_TEMP_LOW_8686,
             REG_TEMP_HIGH := IT87_REG_TEMP_HIGH_8686 }
  | chips.it8625 | chips.it8655 | chips.it8665 =>
    { d with REG_FAN := IT87_REG_FAN_8665, REG_FANX := IT87_REG_FANX_8665,
             REG_FAN_MIN := IT87_REG_FAN_MIN_8665, REG_FANX_MIN := IT87_REG_FANX_MIN_8665,
             REG_PWM := IT87_REG_PWM_8665, REG_TEMP_OFFSET := IT87_REG_TEMP_OFFSET,
             REG_TEMP_LOW := IT87_REG_TEMP_LOW, REG_TEMP_HIGH := IT87_REG_TEMP_HIGH }
  | chips.it8622 =>
    { d with REG_FAN := IT87_REG_FAN, REG_FANX := IT87_REG_FANX,
             REG_FAN_MIN := IT87_REG_FAN_MIN, REG_FANX_MIN := IT87_REG_FANX_MIN,
             REG_PWM := IT87_REG_PWM_8665, REG_TEMP_OFFSET := IT87_REG_TEMP_OFFSET,
             REG_TEMP_LOW := IT87_REG_TEMP_LOW, REG_TEMP_HIGH := IT87_REG_TEMP_HIGH }
  | chips.it8613 =>
    { d with REG_FAN := IT87_REG_FAN, REG_FANX := IT87_REG_FANX,
             REG_FAN_MIN := IT87_REG_FAN_MIN, REG_FANX_MIN := IT87_REG_FANX_MIN,
             REG_PWM := IT87_REG_PWM_8665, REG_TEMP_OFFSET := IT87_REG_TEMP_OFFSET,
             REG_TEMP_LOW := IT87_REG_TEMP_LOW, REG_TEMP_HIGH := IT87_REG_TEMP_HIGH }
  | _ =>
    { d with REG_FAN := IT87_REG_FAN, REG_FANX := IT87_REG_FANX,
             REG_FAN_MIN := IT87_REG_FAN_MIN, REG_FANX_MIN := IT87_REG_FANX_MIN,
             REG_PWM := IT87_REG_PWM, REG_TEMP_OFFSET := IT87_REG_TEMP_OFFSET,
             REG_TEMP_LOW := IT87_REG_TEMP_LOW, REG_TEMP_HIGH := IT87_REG_TEMP_HIGH }

/-- Register pointers and accessors of an instance, `it87_init_regs`. -/
def it87_init_regs (d : it87_data) : it87_data :=
  let d1 := init_reg_pointers d
  if d1.mmio ≠ 0 then
    if d1.mmio_bridge then
      { d1 with read := ReadFn.it87_bridge_read, write := WriteFn.it87_bridge_write }
    else if d1.mmio_h2ram then
      { d1 with read := ReadFn.it87_h2ram_read, write := WriteFn.it87_h2ram_write }
    else { d1 with read := ReadFn.it87_mmio_read, write := WriteFn.it87_mmio_write }
  else if d1.ecio_h2ram then
    { d1 with read := ReadFn.it87_ecio_read, write := WriteFn.it87_ecio_write }
  else if has_bank_sel d1 then
    { d1 with read := ReadFn.it87_io_read, write := WriteFn.it87_io_write }
  else { d1 with read := ReadFn._it87_io_read, write := WriteFn._it87_io_write }

/-- The six transports of the specification. -/
inductive Transport where
  | bridge_mmio | h2ram_hybrid | plain_mmio | ecio_hybrid | bank_select | plain_port
  deriving DecidableEq, Repr

/-- Read accessor of a transport. -/
def Transport.reader : Transport → ReadFn
  | Transport.bridge_mmio => ReadFn.it87_bridge_read
  | Transport.h2ram_hybrid => ReadFn.it87_h2ram_read
  | Transport.plain_mmio => ReadFn.it87_mmio_read
  | Transport.ecio_hybrid => ReadFn.it87_ecio_read
  | Transport.bank_select => ReadFn.it87_io_read
  | Transport.plain_port => ReadFn._it87_io_read

/-- Write accessor of a transport. -/
def Transport.writer : Transport → WriteFn
  | Transport.bridge_mmio => WriteFn.it87_bridge_write
  | Transport.h2ram_hybrid => WriteFn.it87_h2ram_write
  | Transport.plain_mmio => WriteFn.it87_mmio_write
  | Transport.ecio_hybrid => WriteFn.it87_ecio_write
  | Transport.bank_select => WriteFn.it87_io_write
  | Transport.plain_port => WriteFn._it87_io_write

/-- Eligibility of a transport for an instance, in the words of the specification: the
three MMIO transports need a mapped window (bridge-MMIO and H2RAM hybrid their instance
flag as well), ECIO needs `ecio_h2ram`, bank-select needs FEAT_BANK_SEL, plain port I/O
is always possible. -/
def Transport.eligible (d : it87_data) : Transport → Bool
  | Transport.bridge_mmio => decide (d.mmio ≠ 0) && d.mmio_bridge
  | Transport.h2ram_hybrid => decide (d.mmio ≠ 0) && d.mmio_h2ram
  | Transport.plain_mmio => decide (d.mmio ≠ 0)
  | Transport.ecio_hybrid => d.ecio_h2ram
  | Transport.bank_select => has_bank_sel d
  | Transport.plain_port => true

/-- The precedence order of the specification, highest first. -/
def transport_precedence : List Transport :=
  [Transport.bridge_mmio, Transport.h2ram_hybrid, Transport.plain_mmio,
   Transport.ecio_hybrid, Transport.bank_select, Transport.plain_port]

/-- The transport the specification selects: the first eligible one in precedence
order. -/
def spec_transport (d : it87_data) : Transport :=
  (transport_precedence.find? (Transport.eligible d)).getD Transport.plain_port

/-! ## Vocabulary of the transport and slot properties -/

/-- A bridge-MMIO instance at Super-I/O address 0x2E with its window mapped at
0xFE000000. -/
def bridge_data : it87_data :=
  { plain_data (FEAT_BANK_SEL ||| FEAT_BRIDGE_MMIO) ReadFn.it87_bridge_read
      WriteFn.it87_bridge_write with mmio := 0xFE000000, mmio_bridge := true }

/-- A world whose bridge manager is ready on an AMD bridge with no slot configured, so
that every slot activation fails. -/
def unconfigured_world : World :=
  { quiet_world with it87_h2_global := amd_fresh, it87_h2_global_ready := true }

/-- An ECIO-hybrid instance on port pair 0x295/0x296. -/
def ecio_data : it87_data :=
  { plain_data FEAT_ECIO_H2RAM ReadFn.it87_ecio_read WriteFn.it87_ecio_write with
    ecio_h2ram := true }

/-- A world whose ECIO status port always reads 0x01 (ready) and whose data port reads
0x00. -/
def zero_world : World :=
  { quiet_world with port_in := fun port _ => if port = ECIO_CMD_STAT then 0x01 else 0 }

/-- Page count of the specification, `max(1, ceil(size / 65536))`. -/
def spec_pages (size : Nat) : Nat := max 1 ((size + 65535) / 65536)

/-- The event is an access to one of the two ECIO ports. -/
def on_ecio_port : PortEv → Bool
  | PortEv.inb port _ => decide (port = ECIO_CMD_STAT) || decide (port = ECIO_DATA)
  | PortEv.outb _ port => decide (port = ECIO_CMD_STAT) || decide (port = ECIO_DATA)

/-- The event is an access to the address/data port pair of an instance. -/
def on_port_pair (d : it87_data) : PortEv → Bool
  | PortEv.inb port _ =>
    decide (port = d.addr + IT87_ADDR_REG_OFFSET) || decide (port = d.addr + IT87_DATA_REG_OFFSET)
  | PortEv.outb _ port =>
    decide (port = d.addr + IT87_ADDR_REG_OFFSET) || decide (port = d.addr + IT87_DATA_REG_OFFSET)

/-- From `w` to `w'` nothing happened but accesses to the two ECIO ports: the port log
grew by such accesses only, the MMIO log, the bridge manager, the tick rate and the word
size are the same. -/
def ecio_step (w w' : World) : Prop :=
  (∃ evs, w'.port_log = w.port_log ++ evs ∧ evs.all on_ecio_port = true) ∧
  w'.mmio_log = w.mmio_log ∧ w'.it87_h2_global = w.it87_h2_global ∧ w'.HZ = w.HZ ∧
  w'.BITS_PER_LONG = w.BITS_PER_LONG

/-- The port pair of an instance is apart from the two ECIO ports. -/
def pair_apart (d : it87_data) : Prop :=
  d.addr + IT87_ADDR_REG_OFFSET ≠ ECIO_CMD_STAT ∧ d.addr + IT87_ADDR_REG_OFFSET ≠ ECIO_DATA ∧
  d.addr + IT87_DATA_REG_OFFSET ≠ ECIO_CMD_STAT ∧ d.addr + IT87_DATA_REG_OFFSET ≠ ECIO_DATA

/-! ## Vocabulary of the refresh pass -/

/-- Reads through `data->read` of the registers of a list, in order, the values
dropped. -/
def read_regs (d : it87_data) : List Nat → World → World
  | [], w => w
  | r :: rs, w => read_regs d rs (data_read d r w).2

/-- The lists `f 0`, ..., `f (n - 1)` one after the other. -/
def regs_upto (f : Nat → List Nat) : Nat → List Nat
  | 0 => []
  | n + 1 => regs_upto f n ++ f n

/-- Registers of voltage channel `i`: none when the channel is not enabled. -/
def in_regs (d : it87_data) (i : Nat) : List Nat :=
  if d.has_in &&& BIT i = 0 then []
  else if i ≥ NUM_VIN_LIMIT then [tbl IT87_REG_VIN i]
  else [tbl IT87_REG_VIN i, IT87_REG_VIN_MIN i, IT87_REG_VIN_MAX i]

/-- Registers of fan channel `i`: none when the channel is not enabled. -/
def fan_regs (d : it87_data) (i : Nat) : List Nat :=
  if d.has_fan &&& BIT i = 0 then []
  else if has_16bit_fans d then
    [tbl d.REG_FAN_MIN i, tbl d.REG_FAN i, tbl d.REG_FANX i, tbl d.REG_FANX_MIN i]
  else [tbl d.REG_FAN_MIN i, tbl d.REG_FAN i]

/-- Registers of temperature channel `i`: none when the channel is not enabled. -/
def temp_regs (d : it87_data) (i : Nat) : List Nat :=
  if d.has_temp &&& BIT i = 0 then []
  else if i ≥ d.num_temp_limit then [IT87_REG_TEMP i]
  else if i < d.num_temp_offset then
    [IT87_REG_TEMP i, tbl d.REG_TEMP_OFFSET i, tbl d.REG_TEMP_LOW i, tbl d.REG_TEMP_HIGH i]
  else [IT87_REG_TEMP i, tbl d.REG_TEMP_LOW i, tbl d.REG_TEMP_HIGH i]

/-- Automatic fan control registers of PWM channel `i`. -/
def auto_regs (d : it87_data) (i : Nat) : List Nat :=
  if has_old_autopwm d then
    [IT87_REG_AUTO_TEMP i 0, IT87_REG_AUTO_TEMP i 1, IT87_REG_AUTO_TEMP i 2,
     IT87_REG_AUTO_TEMP i 3, IT87_REG_AUTO_TEMP i 4,
     IT87_REG_AUTO_PWM i 0, IT87_REG_AUTO_PWM i 1, IT87_REG_AUTO_PWM i 2]
  else if has_newer_autopwm d then
    [IT87_REG_AUTO_TEMP i 5, IT87_REG_AUTO_TEMP i 0, IT87_REG_AUTO_TEMP i 1,
     IT87_REG_AUTO_TEMP i 2, IT87_REG_AUTO_TEMP i 3, IT87_REG_AUTO_TEMP i 4]
  else []

/-- Registers of PWM channel `i`: none when the channel is not enabled. -/
def pwm_regs (d : it87_data) (i : Nat) : List Nat :=
  if d.has_pwm &&& BIT i = 0 then []
  else if has_newer_autopwm d then
    tbl d.REG_PWM i :: tbl IT87_REG_PWM_DUTY i :: auto_regs d i
  else tbl d.REG_PWM i :: auto_regs d i

/-- The registers one refresh pass reads, in order: the enabled voltage, fan and
temperature channels, the fan divisor, the alarm, beep and fan control registers, the
enabled PWM channels, the sensor type registers and the VID register. -/
def refresh_regs (d : it87_data) : List Nat :=
  regs_upto (in_regs d) NUM_VIN ++ regs_upto (fan_regs d) NUM_FAN ++
  regs_upto (temp_regs d) NUM_TEMP ++
  (if d.has_fan &&& 0x07 ≠ 0 && !has_16bit_fans d then [IT87_REG_FAN_DIV] else []) ++
  [IT87_REG_ALARM1, IT87_REG_ALARM2, IT87_REG_ALARM3, IT87_REG_BEEP_ENABLE,
   IT87_REG_FAN_MAIN_CTRL, IT87_REG_FAN_CTL] ++
  regs_upto (pwm_regs d) NUM_PWM ++ [IT87_REG_TEMP_ENABLE, IT87_REG_TEMP_EXTRA] ++
  (if d.type = chips.it8712 ∨ d.type = chips.it8716 then [IT87_REG_VID] else [])

/-- Re-arming of the battery voltage reading at the start of a refresh pass: with
`update_vbat` set, the configuration register is read and written back with bit 6
set. -/
def vbat_rearm (d : it87_data) (w : World) : World :=
  if w.update_vbat then
    data_write d IT87_REG_CONFIG (u8 (int_bits (data_read d IT87_REG_CONFIG w).1 ||| 0x40))
      (data_read d IT87_REG_CONFIG w).2
  else w

/-- The configuration of an instance: the instance with its cache emptied. -/
def config_of (d : it87_data) : it87_data :=
  { d with valid := false, last_updated := 0,
           in_ := fun _ _ => 0, fan := fun _ _ => 0, temp := fun _ _ => 0,
           sensor := 0, extra := 0, fan_div := fun _ => 0, vid := 0, alarms := 0,
           beeps := 0, fan_main_ctrl := 0, fan_ctl := 0,
           pwm_ctrl := fun _ => 0, pwm_duty := fun _ => 0, pwm_temp_map := fun _ => 0,
           auto_pwm := fun _ _ => 0, auto_temp := fun _ _ => 0 }

/-- The cache was never filled or `jiffies` is after `last_updated + HZ + HZ / 2`, as
`time_after` compares them. -/
def cache_stale (d : it87_data) (w : World) : Prop :=
  time_after w.BITS_PER_LONG w.now (d.last_updated + w.HZ + w.HZ / 2) = true ∨
    d.valid = false

/-- World in which `it87_update_device` calls `smbus_disable`: lock taken, `jiffies`
read. -/
def at_disable (w : World) : World := (jiffies (mutex_lock Mutex.update_lock w)).2

/-- An instance with three voltage, two fan and two temperature channels and one PWM
channel enabled, using the plain port accessors. -/
def sensor_data : it87_data :=
  { plain_data 0 ReadFn._it87_io_read WriteFn._it87_io_write with
    has_in := 0x07, has_fan := 0x03, has_temp := 0x03, has_pwm := 0x01 }

/-- The instance `sensor_data` with a valid cache stamped at tick 1000. -/
def aged_data : it87_data := { sensor_data with valid := true, last_updated := 1000 }

/-- A 32-bit kernel with `HZ = 250` at tick `1000 + 375 + 2 ^ 31 + 1`. -/
def wrapped_world : World :=
  { quiet_world with HZ := 250, BITS_PER_LONG := 32, now := 2147485024 }

/-- Part of the refresh pass: the fan divisor register, read when one of the first three
fans is enabled on a chip without 16-bit fan counters. -/
def pass_fan_div (s3 : it87_data × World) : it87_data × World :=
  if s3.1.has_fan &&& 0x07 ≠ 0 && !has_16bit_fans s3.1 then
    let r := data_read s3.1 IT87_REG_FAN_DIV s3.2
    let i := int_bits r.1
    let f0 := set1 s3.1.fan_div 0 (i &&& 0x07)
    let f1 := set1 f0 1 ((i >>> 3) &&& 0x07)
    let f2 := set1 f1 2 (if i &&& 0x40 ≠ 0 then 3 else 1)
    ({ s3.1 with fan_div := f2 }, r.2)
  else s3

/-- Part of the refresh pass: the three alarm registers, the beep enable register and
the two fan control registers. -/
def pass_status (s4 : it87_data × World) : it87_data × World :=
  let a1 := data_read s4.1 IT87_REG_ALARM1 s4.2
  let a2 := data_read s4.1 IT87_REG_ALARM2 a1.2
  let a3 := data_read s4.1 IT87_REG_ALARM3 a2.2
  let al := u32 (int_bits a1.1 ||| (int_bits a2.1 <<< 8) ||| (int_bits a3.1 <<< 16))
  let d5 := { s4.1 with alarms := al }
  let bp := data_read d5 IT87_REG_BEEP_ENABLE a3.2
  let d6 := { d5 with beeps := int_u8 bp.1 }
  let mc := data_read d6 IT87_REG_FAN_MAIN_CTRL bp.2
  let d7 := { d6 with fan_main_ctrl := int_u8 mc.1 }
  let fc := data_read d7 IT87_REG_FAN_CTL mc.2
  ({ d7 with fan_ctl := int_u8 fc.1 }, fc.2)

/-- Part of the refresh pass: the sensor type registers and, on IT8712F and IT8716F,
the VID register. -/
def pass_sensor (s9 : it87_data × World) : it87_data × World :=
  let se := data_read s9.1 IT87_REG_TEMP_ENABLE s9.2
  let d10 := { s9.1 with sensor := int_u8 se.1 }
  let ex := data_read d10 IT87_REG_TEMP_EXTRA se.2
  let d11 := { d10 with extra := int_u8 ex.1 }
  if d11.type = chips.it8712 ∨ d11.type = chips.it8716 then
    let v := data_read d11 IT87_REG_VID ex.2
    ({ d11 with vid := int_u8 v.1 &&& 0x3f }, v.2)
  else (d11, ex.2)

/-- World after exactly one refresh pass of a call of `it87_update_device` in which
`smbus_disable` succeeded: from the world `smbus_disable` left, the re-arming of the
battery reading, the reads of `refresh_regs` in order, the read of `jiffies` for the time
stamp, `smbus_enable` and the release of the lock. -/
def one_pass_world (d : it87_data) (w : World) : World :=
  let sd := smbus_disable d (at_disable w)
  mutex_unlock Mutex.update_lock
    (smbus_enable sd.2.1
      (jiffies (read_regs sd.2.1 (refresh_regs d) (vbat_rearm sd.2.1 sd.2.2))).2).2

/-- Tick returned by the read of `jiffies` that stamps the refresh. -/
def stamp_tick (d : it87_data) (w : World) : Nat :=
  let sd := smbus_disable d (at_disable w)
  (read_regs sd.2.1 (refresh_regs d) (vbat_rearm sd.2.1 sd.2.2)).now

/-! ## Vocabulary of the slot programming properties -/

/-- Bit of BIOSDecodeEnable of the address-range bucket that contains `base`, as the
specification selects it: the data-space table first, then the feature-space table,
bit 0 when no bucket matches. -/
def bucket_mask (base : Nat) : Nat :=
  if _intel_bios_mask_for_data_space base ≠ 0 then _intel_bios_mask_for_data_space base
  else if _intel_bios_mask_for_feat_space base ≠ 0 then _intel_bios_mask_for_feat_space base
  else 0x0001

/-- An Intel bridge bound by `it87_h2_init`, BIOSDecodeEnable holding 0xFFCF, no slot
configured. -/
def intel_fresh : H2Sys :=
  (it87_h2_init
    [{ quiet_dev IT87_H2_VENDOR_INTEL with cfg := fun o => if o = 0xD8 then 0xFFCF else 0 }]
    0 { h := zero_handle, dev := quiet_dev 0 }).2

/-- START field of a value of AMD register 0x60. -/
def range_start (v : Nat) : Nat := v &&& 0xFFFF

/-- END field of a value of AMD register 0x60. -/
def range_end (v : Nat) : Nat := v >>> 16

/-- A bound AMD bridge whose decode registers hold nonzero values, no slot
configured. -/
def amd_live : H2Sys := { h := amd_fresh.h, dev := amd_dev }

/-- An Intel bridge as `intel_fresh` whose BIOSDecodeEnable holds 0xFFFFFFFF. -/
def intel_live : H2Sys :=
  { h := intel_fresh.h,
    dev := { quiet_dev IT87_H2_VENDOR_INTEL with
             cfg := fun o => if o = 0xD8 then 0xFFFFFFFF else 0 } }

/-- The values a BIOSDecodeEnable mask helper can return. -/
def mask_values : List Nat :=
  [0, 0x0001, 0x0002, 0x0004, 0x0008, 0x0040, 0x0080, 0x0100, 0x0200, 0x0400, 0x0800,
   0x1000, 0x2000, 0x4000, 0x8000]

/-! ## Global bridge entry points and module initialisation -/

/-- Global entry point `it87_h2_global_init`; `bus` and `pcim_ret` are what the PCI core
answers to `it87_h2_init`. -/
def it87_h2_global_init (bus : List PciDev) (pcim_ret : Int) (w : World) : Int × World :=
  let w1 := h2_global_call (mutex_lock Mutex.mmio_lock w)
  let r := it87_h2_init bus pcim_ret w1.it87_h2_global
  let w2 := { w1 with it87_h2_global := r.2,
                      it87_h2_global_ready := if r.1 = 0 then true else w1.it87_h2_global_ready }
  (r.1, mutex_unlock Mutex.mmio_lock w2)

/-- Global entry point `it87_h2_global_set_slot`. -/
def it87_h2_global_set_slot (idx : Int) (mmio_base size : Nat) (w : World) : Int × World :=
  let w1 := mutex_lock Mutex.mmio_lock w
  if !w1.it87_h2_global_ready then (-ENODEV, mutex_unlock Mutex.mmio_lock w1)
  else
    let w2 := h2_global_call w1
    let r := it87_h2_set_slot w2.it87_h2_global idx mmio_base size
    (r.1, mutex_unlock Mutex.mmio_lock { w2 with it87_h2_global := r.2 })

/-- Global entry point `it87_h2_global_set_state`. -/
def it87_h2_global_set_state (st : Int) (w : World) : Int × World :=
  let w1 := mutex_lock Mutex.mmio_lock w
  if !w1.it87_h2_global_ready then (-ENODEV, mutex_unlock Mutex.mmio_lock w1)
  else
    let w2 := h2_global_call w1
    let r := it87_h2_set_state w2.it87_h2_global st
    (r.1, mutex_unlock Mutex.mmio_lock { w2 with it87_h2_global := r.2 })

/-- Global entry point `it87_h2_global_get_state`. -/
def it87_h2_global_get_state (w : World) : Int × World :=
  let w1 := mutex_lock Mutex.mmio_lock w
  if !w1.it87_h2_global_ready then (IT87_MMIO_ORIGINAL, mutex_unlock Mutex.mmio_lock w1)
  else
    let w2 := h2_global_call w1
    (it87_h2_get_state w2.it87_h2_global, mutex_unlock Mutex.mmio_lock w2)

/-- The last step of `sm_it87_init`: with the manager ready, the decode windows are
enabled when the state query reports ORIGINAL or DISABLED; the return code of the
request is only logged. -/
def sm_it87_init_windows (w : World) : World :=
  if w.it87_h2_global_ready then
    let st := it87_h2_global_get_state w
    if st.1 = IT87_MMIO_ORIGINAL ∨ st.1 = IT87_MMIO_DISABLED then
      (it87_h2_global_set_state IT87_MMIO_ENABLED_BOTH st.2).2
    else st.2
  else w

/-! ## Device initialisation and fan control -/

/-- Check of the tachometer enable bits, `it87_check_tachometers_reset`; `skip_fan` is
the field of the platform data, a `u8`.  The value written is the field
`data->fan_main_ctrl`. -/
def it87_check_tachometers_reset (d : it87_data) (skip_fan : Nat) (w : World) : World :=
  let mask := u8 (0x70 &&& not32 (u8 skip_fan <<< 4))
  let r := data_read d IT87_REG_FAN_MAIN_CTRL w
  let fan_main_ctrl := int_u8 r.1
  if fan_main_ctrl &&& mask = 0 then data_write d IT87_REG_FAN_MAIN_CTRL d.fan_main_ctrl r.2
  else r.2

/-- Conversion `pwm_to_reg`; `val` is a `long`, the result a `u8`. -/
def pwm_to_reg (d : it87_data) (val : Int) : Nat :=
  if has_newer_autopwm d then int_u8 val else int_u8 (val >>> 1)

/-- Mode of a PWM channel from the cached registers: 0 full speed, 1 manual,
2 automatic. -/
def pwm_mode (d : it87_data) (nr : Nat) : Int :=
  if has_fanctl_onoff d && decide (nr < 3) && decide (d.fan_main_ctrl &&& BIT nr = 0) then 0
  else if d.pwm_ctrl nr &&& 0x80 ≠ 0 then 2
  else if (!has_fanctl_onoff d || decide (nr ≥ 3)) &&
      decide (d.pwm_duty nr = pwm_to_reg d 0xff) then 0
  else 1

/-- The loop of `it87_update_smartfan_global` from channel `i` on, `n` channels left:
`all_auto` at its end. -/
def smartfan_all_auto (d : it87_data) : Nat → Nat → Bool
  | _, 0 => true
  | i, n + 1 =>
    if d.has_pwm &&& BIT i = 0 then smartfan_all_auto d (i + 1) n
    else if pwm_mode d i ≠ 2 then false
    else smartfan_all_auto d (i + 1) n

def it87_update_smartfan_global (d : it87_data) (w : World) : World :=
  let all_auto := smartfan_all_auto d 0 NUM_AUTO_PWM
  let val : Nat := if all_auto then 0x01 else 0x00
  let cur := data_read d IT87_SMARTFAN_ENABLE w
  if cur.1 ≥ 0 ∧ int_u8 cur.1 = val then cur.2
  else data_write d IT87_SMARTFAN_ENABLE val cur.2

/-! ## Attribute stores -/

/-- Lock of an instance for a register update, `it87_lock`. -/
def it87_lock (d : it87_data) (w : World) : Int × it87_data × World :=
  let sd := smbus_disable d (mutex_lock Mutex.update_lock w)
  if sd.1 ≠ 0 then (sd.1, sd.2.1, mutex_unlock Mutex.update_lock sd.2.2)
  else (0, sd.2.1, sd.2.2)

def it87_unlock (d : it87_data) (w : World) : World :=
  mutex_unlock Mutex.update_lock (smbus_enable d w).2

/-- Wrap of a value into `long` (64 bits, two's complement). -/
def s64 (x : Int) : Int := (x + 2 ^ 63) % 2 ^ 64 - 2 ^ 63

/-- Kernel `clamp_val` on `long`. -/
def clamp_val (x lo hi : Int) : Int := if x < lo then lo else if x > hi then hi else x

/-- Macro `TEMP_TO_REG`: millidegrees to degrees, rounded, clamped to `s8`; `/` of C
truncates. -/
def TEMP_TO_REG (val : Int) : Int :=
  clamp_val (if val < 0 then Int.tdiv (s64 (val - 500)) 1000
             else Int.tdiv (s64 (val + 500)) 1000) (-128) 127

/-- Store of a temperature limit or offset, `set_temp`; `val` is what `kstrtol` parsed
from the buffer, `none` when it failed, `count` the length of the buffer. -/
def set_temp (d : it87_data) (nr index : Nat) (val : Option Int) (count : Int) (w : World) :
    Int × it87_data × World :=
  match val with
  | none => (-EINVAL, d, w)
  | some v =>
    let l := it87_lock d w
    if l.1 ≠ 0 then (l.1, l.2.1, l.2.2)
    else
      let s : Nat × it87_data × World :=
        if index = 2 then (tbl l.2.1.REG_TEMP_HIGH nr, l.2.1, l.2.2)
        else if index = 3 then
          let r := data_read l.2.1 IT87_REG_BEEP_ENABLE l.2.2
          let regval := int_u8 r.1
          let w1 :=
            if regval &&& 0x80 = 0 then
              data_write l.2.1 IT87_REG_BEEP_ENABLE (u8 (regval ||| 0x80)) r.2
            else r.2
          (tbl l.2.1.REG_TEMP_OFFSET nr, { l.2.1 with valid := false }, w1)
        else (tbl l.2.1.REG_TEMP_LOW nr, l.2.1, l.2.2)
      let d2 := { s.2.1 with temp := set2 s.2.1.temp nr index (TEMP_TO_REG v) }
      let w2 := data_write d2 s.1 (int_u8 (d2.temp nr index)) s.2.2
      (count, d2, it87_unlock d2 w2)

/-- Store of a sensor type, `set_temp_type`; `val` is what `kstrtol` parsed from the
buffer, `none` when it failed, `count` the length of the buffer. -/
def set_temp_type (d : it87_data) (nr : Nat) (val : Option Int) (count : Int) (w : World) :
    Int × it87_data × World :=
  match val with
  | none => (-EINVAL, d, w)
  | some v0 =>
    let l := it87_lock d w
    if l.1 ≠ 0 then (l.1, l.2.1, l.2.2)
    else
      let d1 := l.2.1
      let r := data_read d1 IT87_REG_TEMP_ENABLE l.2.2
      let reg0 := u8 (u8 (int_u8 r.1 &&& not32 (1 <<< nr)) &&& not32 (8 <<< nr))
      let reg1 :=
        if has_temp_peci d1 nr && (decide (reg0 >>> 6 = nr + 1) || decide (v0 = 6)) then
          reg0 &&& 0x3f
        else reg0
      let e := data_read d1 IT87_REG_TEMP_EXTRA r.2
      let extra0 := int_u8 e.1
      let extra1 :=
        if has_temp_old_peci d1 nr && (decide (extra0 &&& 0x80 ≠ 0) || decide (v0 = 6)) then
          extra0 &&& 0x7f
        else extra0
      let v : Int := if v0 = 2 then 4 else v0
      let sel : Option (Nat × Nat) :=
        if v = 3 then some (u8 (reg1 ||| (1 <<< nr)), extra1)
        else if v = 4 then some (u8 (reg1 ||| (8 <<< nr)), extra1)
        else if has_temp_peci d1 nr && decide (v = 6) then
          some (u8 (reg1 ||| ((nr + 1) <<< 6)), extra1)
        else if has_temp_old_peci d1 nr && decide (v = 6) then some (reg1, u8 (extra1 ||| 0x80))
        else if v ≠ 0 then none
        else some (reg1, extra1)
      match sel with
      | none => (-EINVAL, d1, it87_unlock d1 e.2)
      | some (reg, extra) =>
        let d2 := { d1 with sensor := reg, extra := extra }
        let w1 := data_write d2 IT87_REG_TEMP_ENABLE d2.sensor e.2
        let w2 := if has_temp_old_peci d2 nr then data_write d2 IT87_REG_TEMP_EXTRA d2.extra w1
          else w1
        let d3 := { d2 with valid := false }
        (count, d3, it87_unlock d3 w2)

/-! ## Vocabulary of the initialisation and fan control properties -/

/-- The Intel bridge whose BIOSDecodeEnable holds 0xFFCF. -/
def intel_dev : PciDev :=
  { quiet_dev IT87_H2_VENDOR_INTEL with cfg := fun o => if o = 0xD8 then 0xFFCF else 0 }

/-- World at the last step of `sm_it87_init` on an Intel board with one chip at 0x2E:
manager initialised, slot 0 configured at 0xFE000000 for an H2RAM window. -/
def intel_init_world : World :=
  (it87_h2_global_set_slot 0 0xFE000000 0x1000
    (it87_h2_global_init [intel_dev] 0 quiet_world).2).2

/-- World at the last step of `sm_it87_init` on an Intel board with chips at 0x2E and
0x4E: both slots configured. -/
def intel_init_world2 : World :=
  (it87_h2_global_set_slot 1 0xFF510000 0x1000 intel_init_world).2

/-- World at the last step of `sm_it87_init` on an AMD board with one chip at 0x2E:
slot 0 configured, nothing programmed. -/
def amd_init_world : World :=
  (it87_h2_global_set_slot 0 0xFE000000 0x1000
    (it87_h2_global_init [amd_dev] 0 quiet_world).2).2

/-- World at the last step of `sm_it87_init` on an AMD board with chips at 0x2E and
0x4E: both slots configured, nothing programmed. -/
def amd_init_world2 : World :=
  (it87_h2_global_set_slot 1 0xFE010000 0x1000 amd_init_world).2

/-- An instance on the plain port accessors whose chip is freshly reset: every register
0, the cache empty. -/
def reset_data : it87_data := plain_data 0 ReadFn._it87_io_read WriteFn._it87_io_write

/-- Reading of a lock log from a state in which `mmio_lock` is held or free: the state
at the end, or `none` when a call on the bridge handle is met while the lock is free, an
acquisition while it is held, or a release while it is free. -/
def lock_scan : List LockEv → Bool → Option Bool
  | [], held => some held
  | LockEv.lock Mutex.mmio_lock :: rest, held =>
    if held then none else lock_scan rest true
  | LockEv.unlock Mutex.mmio_lock :: rest, held =>
    if held then lock_scan rest false else none
  | LockEv.handle :: rest, held => if held then lock_scan rest true else none
  | LockEv.lock Mutex.it87_ecio_lock :: rest, held => lock_scan rest held
  | LockEv.lock Mutex.update_lock :: rest, held => lock_scan rest held
  | LockEv.unlock Mutex.it87_ecio_lock :: rest, held => lock_scan rest held
  | LockEv.unlock Mutex.update_lock :: rest, held => lock_scan rest held

/-- Value the SmartFan global control byte is to have: 0x01 if every enabled PWM
channel is in automatic mode, 0x00 if an enabled channel is not. -/
def smartfan_target (d : it87_data) : Nat :=
  if ∀ i, i < NUM_AUTO_PWM → d.has_pwm &&& BIT i ≠ 0 → pwm_mode d i = 2 then 0x01 else 0x00

/-- Handle after `n` activations of the slot of an instance. -/
def nth_activation (d : it87_data) (s : H2Sys) : Nat → H2Sys
  | 0 => s
  | n + 1 => (it87_h2_use_slot (nth_activation d s n) (slot_of d)).2

/-- Every activation of the slot of the instance succeeds, however often it is
asked for. -/
def activations_succeed (d : it87_data) (w : World) : Prop :=
  ∀ n, (it87_h2_use_slot (nth_activation d w.it87_h2_global n) (slot_of d)).1 = 0

/-- The world `x` differs from `w` in the bridge manager by activations of the slot of
the instance only. -/
def tracks (d : it87_data) (w x : World) : Prop :=
  x.it87_h2_global_ready = w.it87_h2_global_ready ∧
  ∃ k, x.it87_h2_global = nth_activation d w.it87_h2_global k


/-- Port accesses of a completed ECIO read transaction of `offset` that starts after
`n` earlier port accesses and delivers `byte`. -/
def ecio_read_events (w : World) (n offset byte : Nat) : List PortEv :=
  [stat_ev w n, PortEv.outb ECIO_CMD_READ ECIO_CMD_STAT,
   stat_ev w (n + 2), stat_ev w (n + 3), PortEv.outb (offset / 256) ECIO_DATA,
   stat_ev w (n + 5), stat_ev w (n + 6), PortEv.outb (offset % 256) ECIO_DATA,
   stat_ev w (n + 8), stat_ev w (n + 9), PortEv.inb ECIO_DATA byte]

/-- Port accesses of a completed ECIO write transaction of `value` to `offset` that
starts after `n` earlier port accesses. -/
def ecio_write_events (w : World) (n offset value : Nat) : List PortEv :=
  [stat_ev w n, PortEv.outb ECIO_CMD_WRITE ECIO_CMD_STAT,
   stat_ev w (n + 2), stat_ev w (n + 3), PortEv.outb (offset / 256) ECIO_DATA,
   stat_ev w (n + 5), stat_ev w (n + 6), PortEv.outb (offset % 256) ECIO_DATA,
   stat_ev w (n + 8), stat_ev w (n + 9), PortEv.outb (u8 value) ECIO_DATA,
   stat_ev w (n + 11)]

/-- An ECIO-hybrid instance with PWM channels 0 and 1 enabled, both in automatic
mode. -/
def auto_fan_data : it87_data :=
  { ecio_data with has_pwm := 0x03, fan_main_ctrl := 0x07,
                   pwm_ctrl := fun _ => 0x80 }

/-- An H2RAM instance mapped at 0xFE000000 with PWM channel 0 enabled and in manual
mode. -/
def manual_fan_data : it87_data :=
  { plain_data (FEAT_BANK_SEL ||| FEAT_MMIO_H2RAM) ReadFn.it87_h2ram_read
      WriteFn.it87_h2ram_write with
    mmio := 0xFE000000, mmio_h2ram := true, has_pwm := 0x01, fan_main_ctrl := 0x07 }

/-- A world whose bridge manager is ready on an Intel bridge with slot 0 configured and
whose SmartFan byte holds 0x01. -/
def smartfan_world : World :=
  { intel_init_world with mem := fun a => if a = 0xFE000947 then 0x01 else 0 }

/-! # Theorems -/

/-! ## Bit arithmetic -/

theorem and_1f_eq (x : Nat) : x &&& 0x1f = x % 32 := by
  have h := Nat.and_pow_two_sub_one_eq_mod x 5
  simpa using h

theorem shr5_eq (x : Nat) : x >>> 5 = x / 32 := by
  simp [Nat.shiftRight_eq_div_pow]

theorem shl5_eq (x : Nat) : x <<< 5 = 32 * x := by
  simp [Nat.shiftLeft_eq, Nat.mul_comm]

theorem or_shl5 (a b : Nat) (h : a < 32) : a ||| 32 * b = 32 * b + a := by
  have h2 := Nat.mul_add_lt_is_or (show a < 2 ^ 5 by simpa using h) b
  rw [Nat.lor_comm]
  simpa using h2.symm

/-- Switching to a bank and back leaves a byte-wide bank register as it was. -/
theorem bank_round_trip (breg bank : Nat) (hb : breg < 256) :
    let b1 := if u8 bank ≠ breg >>> 5 then u8 ((breg &&& 0x1f) ||| (u8 bank <<< 5)) else breg
    (if u8 (breg >>> 5) ≠ b1 >>> 5 then
        u8 ((b1 &&& 0x1f) ||| (u8 (breg >>> 5) <<< 5)) else b1) = breg := by
  intro b1
  have hb1 : b1 = if u8 bank ≠ breg / 32 then (32 * u8 bank + breg % 32) % 256 else breg := by
    simp only [b1, and_1f_eq, shr5_eq, shl5_eq, u8]
    rw [or_shl5 _ _ (Nat.mod_lt _ (by norm_num))]
    norm_num
  rw [hb1]
  simp only [and_1f_eq, shr5_eq, shl5_eq, u8]
  have hk : bank % 2 ^ 8 < 256 := Nat.mod_lt _ (by norm_num)
  generalize bank % 2 ^ 8 = k at hk ⊢
  split_ifs with h1 h2 h2
  · rw [or_shl5 _ _ (Nat.mod_lt _ (by norm_num))]
    omega
  · omega
  · rw [or_shl5 _ _ (Nat.mod_lt _ (by norm_num))]
    omega
  · rfl

/-! ## Bank-switching port I/O -/

theorem io_read_chip (d : it87_data) (reg : Nat) (w : World) (ha : d.addr = w.ec_base) :
    (_it87_io_read d reg w).1 = (u8 (w.ec_regs (u8 reg)) : Nat) ∧
    (_it87_io_read d reg w).2.ec_regs = w.ec_regs ∧
    (_it87_io_read d reg w).2.ec_base = w.ec_base := by
  simp [_it87_io_read, inb, outb, ha, IT87_ADDR_REG_OFFSET, IT87_DATA_REG_OFFSET]

theorem io_write_chip (d : it87_data) (reg value : Nat) (w : World) (ha : d.addr = w.ec_base) :
    (_it87_io_write d reg value w).ec_regs
        = (fun i => if i = u8 reg then u8 value else w.ec_regs i) ∧
    (_it87_io_write d reg value w).ec_base = w.ec_base := by
  simp [_it87_io_write, outb, ha, IT87_ADDR_REG_OFFSET, IT87_DATA_REG_OFFSET]

theorem set_bank_chip (d : it87_data) (bank : Nat) (w : World) (hs : has_bank_sel d = true)
    (ha : d.addr = w.ec_base) :
    (it87_io_set_bank d bank w).1 = u8 (bank_reg w) >>> 5 ∧
    (it87_io_set_bank d bank w).2.ec_base = w.ec_base ∧
    (it87_io_set_bank d bank w).2.ec_regs = (fun i =>
      if i = IT87_REG_BANK then
        (if u8 bank ≠ u8 (bank_reg w) >>> 5 then
          u8 ((u8 (bank_reg w) &&& 0x1f) ||| (u8 bank <<< 5)) else bank_reg w)
      else w.ec_regs i) := by
  obtain ⟨r1, r2, r3⟩ := io_read_chip d IT87_REG_BANK w ha
  have hu : u8 IT87_REG_BANK = IT87_REG_BANK := by decide
  have hi : int_u8 ((u8 (w.ec_regs IT87_REG_BANK) : Nat) : Int) = u8 (w.ec_regs IT87_REG_BANK) := by
    simp [int_u8, u8]
    omega
  by_cases hc : u8 bank = u8 (bank_reg w) >>> 5
  · simp only [it87_io_set_bank, hs, if_true, r1, hu, hi, bank_reg] at hc ⊢
    simp [hc, r2, r3]
    funext i
    split_ifs with h <;> simp [h]
  · simp only [it87_io_set_bank, hs, if_true, r1, hu, hi, bank_reg] at hc ⊢
    obtain ⟨q1, q2⟩ := io_write_chip d IT87_REG_BANK
      (u8 ((u8 (w.ec_regs IT87_REG_BANK) &&& 0x1f) ||| (u8 bank <<< 5)))
      (_it87_io_read d IT87_REG_BANK w).2 (by rw [r3]; exact ha)
    simp [hc, q1, q2, r2, r3, hu]
    funext i
    split_ifs with h
    · simp [u8]
    · rfl

theorem u8_of_lt {x : Nat} (h : x < 256) : u8 x = x := by
  simp [u8]
  omega

theorem u8_lt (x : Nat) : u8 x < 256 := by
  simp [u8]
  omega

theorem u8_and_ff (x : Nat) : u8 (x &&& 0xff) = x &&& 0xff := by
  have h := Nat.and_pow_two_sub_one_eq_mod x 8
  have h2 : x &&& 0xff = x % 256 := by simpa using h
  rw [h2]
  simp [u8]

/-- Bank register after a switch to `bank` followed by a switch back, when the access
in between left it alone. -/
theorem set_bank_twice (d : it87_data) (bank : Nat) (w w2 : World)
    (hs : has_bank_sel d = true) (ha : d.addr = w.ec_base) (hb : bank_reg w < 256)
    (h2b : w2.ec_base = w.ec_base)
    (h2r : bank_reg w2 = bank_reg (it87_io_set_bank d bank w).2) :
    bank_reg (it87_io_set_bank d (it87_io_set_bank d bank w).1 w2).2 = bank_reg w := by
  obtain ⟨a1, a2, a3⟩ := set_bank_chip d bank w hs ha
  obtain ⟨c1, c2, c3⟩ := set_bank_chip d (it87_io_set_bank d bank w).1 w2 hs (by rw [h2b]; exact ha)
  have hrt := bank_round_trip (bank_reg w) bank hb
  simp only at hrt
  have hw1 : bank_reg (it87_io_set_bank d bank w).2 =
      if u8 bank ≠ bank_reg w >>> 5 then u8 ((bank_reg w &&& 0x1f) ||| (u8 bank <<< 5))
      else bank_reg w := by
    have hu : u8 (bank_reg w) = bank_reg w := u8_of_lt hb
    show (it87_io_set_bank d bank w).2.ec_regs IT87_REG_BANK = _
    rw [a3]
    simp only [if_true, hu]
  have hlt : bank_reg w2 < 256 := by
    rw [h2r, hw1]
    split_ifs
    · exact u8_lt _
    · exact hb
  have e : bank_reg (it87_io_set_bank d (it87_io_set_bank d bank w).1 w2).2 =
      if u8 (it87_io_set_bank d bank w).1 ≠ u8 (bank_reg w2) >>> 5 then
        u8 ((u8 (bank_reg w2) &&& 0x1f) ||| (u8 (it87_io_set_bank d bank w).1 <<< 5))
      else bank_reg w2 := by
    simp only [bank_reg, c3, if_true]
  rw [e, a1, u8_of_lt hlt, u8_of_lt hb, h2r, hw1]
  exact hrt

/-- C1 (amended): on a bank-select chip whose port pair the chip decodes, a banked read
of any register leaves the bank register as it was, and so does a banked write of any
value to any register whose low byte is not the bank register 0x06 itself. -/
theorem bank_register_restored (d : it87_data) (w : World) (reg value : Nat)
    (hs : has_bank_sel d = true) (ha : d.addr = w.ec_base) (hb : bank_reg w < 256) :
    bank_reg (it87_io_read d reg w).2 = bank_reg w ∧
    (u16 reg &&& 0xff ≠ IT87_REG_BANK →
      bank_reg (it87_io_write d reg value w) = bank_reg w) := by
  obtain ⟨a1, a2, a3⟩ := set_bank_chip d (u16 reg >>> 8) w hs ha
  constructor
  · obtain ⟨b1, b2, b3⟩ := io_read_chip d (u16 reg &&& 0xff)
      (it87_io_set_bank d (u16 reg >>> 8) w).2 (by rw [a2]; exact ha)
    simp only [it87_io_read]
    apply set_bank_twice d _ w _ hs ha hb
    · rw [b3, a2]
    · simp only [bank_reg, b2]
  · intro hne
    obtain ⟨b1, b2⟩ := io_write_chip d (u16 reg &&& 0xff) value
      (it87_io_set_bank d (u16 reg >>> 8) w).2 (by rw [a2]; exact ha)
    simp only [it87_io_write]
    apply set_bank_twice d _ w _ hs ha hb
    · rw [b2, a2]
    · simp only [bank_reg, b1, u8_and_ff]
      rw [if_neg (Ne.symm hne)]

/-- The amended C1 at a concrete chip: register 0x21d and a bank register holding 0x47. -/
theorem bank_register_restored_witness :
    bank_reg (it87_io_read bank_data 0x21d
        { quiet_world with ec_regs := fun i => if i = 6 then 0x47 else 0 }).2 = 0x47 ∧
    (u16 0x21d &&& 0xff ≠ IT87_REG_BANK →
      bank_reg (it87_io_write bank_data 0x21d 0x99
        { quiet_world with ec_regs := fun i => if i = 6 then 0x47 else 0 }) = 0x47) :=
  bank_register_restored bank_data
    { quiet_world with ec_regs := fun i => if i = 6 then 0x47 else 0 } 0x21d 0x99
    (by decide) (by rfl) (by decide)

/-- C1 as stated fails: a banked write of 0x01 to register 0x06, the bank register
itself, on a bank-select chip changes the bank register from 0x00 to 0x01. -/
theorem bank_register_write_changes_it :
    has_bank_sel bank_data = true ∧ bank_data.addr = quiet_world.ec_base ∧
    bank_reg quiet_world = 0x00 ∧
    bank_reg (it87_io_write bank_data 0x06 0x01 quiet_world) = 0x01 := by
  decide

/-! ## H2RAM hybrid transport -/

theorem use_slot_frame (idx : Int) (w : World) :
    (it87_h2_global_use_slot idx w).2.port_log = w.port_log ∧
    (it87_h2_global_use_slot idx w).2.mmio_log = w.mmio_log ∧
    (it87_h2_global_use_slot idx w).2.it87_h2_global_ready = w.it87_h2_global_ready := by
  unfold it87_h2_global_use_slot
  simp only [mutex_lock, mutex_unlock, h2_global_call]
  split_ifs <;> simp

theorem mmio_read_frame (d : it87_data) (reg : Nat) (w : World) :
    (it87_mmio_read d reg w).2.port_log = w.port_log ∧
    (it87_mmio_read d reg w).2.mmio_log = w.mmio_log ++ [MmioEv.readb (d.mmio + u16 reg)] := by
  simp [it87_mmio_read, readb]

theorem mmio_write_frame (d : it87_data) (reg value : Nat) (w : World) :
    (it87_mmio_write d reg value w).port_log = w.port_log ∧
    (it87_mmio_write d reg value w).mmio_log
      = w.mmio_log ++ [MmioEv.writeb (u8 value) (d.mmio + u16 reg)] := by
  simp [it87_mmio_write, writeb]

theorem bridge_read_frame (d : it87_data) (reg : Nat) (w : World) :
    (it87_bridge_read d reg w).2.port_log = w.port_log ∧
    ((it87_bridge_read d reg w).2.mmio_log
        = w.mmio_log ++ [MmioEv.readb (d.mmio + u16 reg)] ∨
      ((it87_bridge_read d reg w).1 = - EIO ∧
        (it87_bridge_read d reg w).2.mmio_log = w.mmio_log)) := by
  obtain ⟨u1, u2, _⟩ := use_slot_frame (slot_of d) w
  obtain ⟨m1, m2⟩ := mmio_read_frame d reg w
  obtain ⟨n1, n2⟩ := mmio_read_frame d reg (it87_h2_global_use_slot (slot_of d) w).2
  unfold it87_bridge_read
  dsimp only
  split_ifs
  · exact ⟨u1, Or.inr ⟨rfl, u2⟩⟩
  · exact ⟨n1.trans u1, Or.inl (by rw [n2, u2])⟩
  · exact ⟨m1, Or.inl m2⟩

theorem bridge_write_frame (d : it87_data) (reg value : Nat) (w : World) :
    (it87_bridge_write d reg value w).port_log = w.port_log ∧
    ((it87_bridge_write d reg value w).mmio_log
        = w.mmio_log ++ [MmioEv.writeb (u8 value) (d.mmio + u16 reg)] ∨
      (it87_bridge_write d reg value w).mmio_log = w.mmio_log) := by
  obtain ⟨u1, u2, _⟩ := use_slot_frame (slot_of d) w
  obtain ⟨m1, m2⟩ := mmio_write_frame d reg value w
  obtain ⟨n1, n2⟩ := mmio_write_frame d reg value (it87_h2_global_use_slot (slot_of d) w).2
  unfold it87_bridge_write
  dsimp only
  split_ifs
  · exact ⟨u1, Or.inr u2⟩
  · exact ⟨n1.trans u1, Or.inl (by rw [n2, u2])⟩
  · exact ⟨m1, Or.inl m2⟩

theorem u16_of_le_fff {reg : Nat} (h : reg ≤ 0xFFF) : u16 reg = reg := by
  simp [u16]
  omega

/-- C2: for `reg` in [0x800, 0xFFF] the H2RAM accessors make no port access at all, and
either make the one MMIO access at `mmio + reg` or stop after a failed bridge
activation; for `reg` below 0x800 they make exactly the two accesses of the
address/data port pair and touch neither the MMIO window nor the bridge manager. -/
theorem h2ram_range_split (d : it87_data) (w : World) (reg value : Nat) :
    (0x800 ≤ reg → reg ≤ 0xFFF →
      ((it87_h2ram_read d reg w).2.port_log = w.port_log ∧
        ((it87_h2ram_read d reg w).2.mmio_log = w.mmio_log ++ [MmioEv.readb (d.mmio + reg)] ∨
          ((it87_h2ram_read d reg w).1 = - EIO ∧
            (it87_h2ram_read d reg w).2.mmio_log = w.mmio_log))) ∧
      ((it87_h2ram_write d reg value w).port_log = w.port_log ∧
        ((it87_h2ram_write d reg value w).mmio_log
            = w.mmio_log ++ [MmioEv.writeb (u8 value) (d.mmio + reg)] ∨
          (it87_h2ram_write d reg value w).mmio_log = w.mmio_log))) ∧
    (reg < 0x800 →
      ((it87_h2ram_read d reg w).2.port_log = w.port_log ++
          [PortEv.outb (u8 reg) (d.addr + IT87_ADDR_REG_OFFSET),
           PortEv.inb (d.addr + IT87_DATA_REG_OFFSET) (it87_h2ram_read d reg w).1.toNat] ∧
        (it87_h2ram_read d reg w).2.mmio_log = w.mmio_log ∧
        (it87_h2ram_read d reg w).2.it87_h2_global = w.it87_h2_global ∧
        (it87_h2ram_read d reg w).2.locks = w.locks) ∧
      ((it87_h2ram_write d reg value w).port_log = w.port_log ++
          [PortEv.outb (u8 reg) (d.addr + IT87_ADDR_REG_OFFSET),
           PortEv.outb (u8 value) (d.addr + IT87_DATA_REG_OFFSET)] ∧
        (it87_h2ram_write d reg value w).mmio_log = w.mmio_log ∧
        (it87_h2ram_write d reg value w).it87_h2_global = w.it87_h2_global ∧
        (it87_h2ram_write d reg value w).locks = w.locks)) := by
  constructor
  · intro hlo hhi
    have hu : u16 reg = reg := u16_of_le_fff hhi
    have hr : u16 reg ≥ H2RAM_LOW_BOUND ∧ u16 reg ≤ H2RAM_HI_BOUND := by
      rw [hu]
      exact ⟨hlo, hhi⟩
    obtain ⟨u1, u2, _⟩ := use_slot_frame (slot_of d) w
    constructor
    · obtain ⟨b1, b2⟩ := bridge_read_frame d reg w
      obtain ⟨c1, c2⟩ := bridge_read_frame d reg (it87_h2_global_use_slot (slot_of d) w).2
      rw [hu] at b2 c2
      unfold it87_h2ram_read
      rw [if_pos hr]
      dsimp only
      split_ifs
      · exact ⟨u1, Or.inr ⟨rfl, u2⟩⟩
      · refine ⟨c1.trans u1, ?_⟩
        rw [u2] at c2
        exact c2
      · exact ⟨b1, b2⟩
    · obtain ⟨b1, b2⟩ := bridge_write_frame d reg value w
      obtain ⟨c1, c2⟩ := bridge_write_frame d reg value (it87_h2_global_use_slot (slot_of d) w).2
      rw [hu] at b2 c2
      unfold it87_h2ram_write
      rw [if_pos hr]
      dsimp only
      split_ifs
      · exact ⟨u1, Or.inr u2⟩
      · refine ⟨c1.trans u1, ?_⟩
        rw [u2] at c2
        exact c2
      · exact ⟨b1, b2⟩
  · intro hlt
    have hu : u16 reg = reg := u16_of_le_fff (by omega)
    have hr : ¬ (u16 reg ≥ H2RAM_LOW_BOUND ∧ u16 reg ≤ H2RAM_HI_BOUND) := by
      rw [hu]
      simp [H2RAM_LOW_BOUND]
      omega
    constructor
    · unfold it87_h2ram_read
      rw [if_neg hr]
      simp [_it87_io_read, inb, outb]
      split_ifs <;> simp
    · unfold it87_h2ram_write
      rw [if_neg hr]
      simp [_it87_io_write, outb]
      split_ifs <;> simp

/-- C2 on an instance with port pair 0x295/0x296 and window at 0xFE000000, for the
registers 0x947 and 0x13. -/
theorem h2ram_range_split_witness :
    (it87_h2ram_read { bank_data with mmio := 0xFE000000, mmio_h2ram := true } 0x947
        quiet_world).2.port_log = [] ∧
    (it87_h2ram_write { bank_data with mmio := 0xFE000000, mmio_h2ram := true } 0x947 0x01
        quiet_world).port_log = [] ∧
    (it87_h2ram_read { bank_data with mmio := 0xFE000000, mmio_h2ram := true } 0x13
        quiet_world).2.mmio_log = [] ∧
    (it87_h2ram_write { bank_data with mmio := 0xFE000000, mmio_h2ram := true } 0x13 0x77
        quiet_world).port_log = [PortEv.outb 0x13 0x295, PortEv.outb 0x77 0x296] :=
  ⟨((h2ram_range_split { bank_data with mmio := 0xFE000000, mmio_h2ram := true }
      quiet_world 0x947 0x01).1 (by decide) (by decide)).1.1,
   ((h2ram_range_split { bank_data with mmio := 0xFE000000, mmio_h2ram := true }
      quiet_world 0x947 0x01).1 (by decide) (by decide)).2.1,
   ((h2ram_range_split { bank_data with mmio := 0xFE000000, mmio_h2ram := true }
      quiet_world 0x13 0x77).2 (by decide)).1.2.1,
   ((h2ram_range_split { bank_data with mmio := 0xFE000000, mmio_h2ram := true }
      quiet_world 0x13 0x77).2 (by decide)).2.1⟩

/-! ## Bridge window manager: programming sequences without access failures -/

theorem pci_read_ok (d : PciDev) (off : Nat) (hf : d.faults = []) :
    pci_reg_read d off = (0, u32 (d.cfg off), { d with log := d.log ++ [PciOp.rd off] }) := by
  obtain ⟨v, cfg, faults, log⟩ := d
  simp only at hf
  subst hf
  simp [pci_reg_read, PciDev.next_ret]

theorem pci_write_ok (d : PciDev) (off v : Nat) (hf : d.faults = []) :
    pci_reg_write d off v =
      (0, { d with cfg := fun o => if o = off then u32 v else d.cfg o,
                   log := d.log ++ [PciOp.wr off (u32 v)] }) := by
  obtain ⟨vd, cfg, faults, log⟩ := d
  simp only at hf
  subst hf
  simp [pci_reg_write, PciDev.next_ret]

theorem amd_enable_slot_ok (s : H2Sys) (idx : Int) (base pages : Nat)
    (hf : s.dev.faults = []) :
    _amd_enable_slot s idx base pages =
      (0, { h := { s.h with current_base := base },
            dev := { s.dev with cfg := amd_cfg_after s.dev.cfg idx base pages,
                                log := s.dev.log ++ amd_ops s.dev.cfg idx base pages } }) := by
  obtain ⟨h, ⟨vd, cfg, faults, log⟩⟩ := s
  simp only at hf
  subst hf
  by_cases hi : idx = 0
  · subst hi
    simp [_amd_enable_slot, pci_write_ok, pci_read_ok, amd_cfg_after, amd_ops]
    funext o
    split_ifs <;> simp_all [amd_cfg_after]
  · simp [_amd_enable_slot, pci_write_ok, pci_read_ok, amd_cfg_after, amd_ops, hi]
    funext o
    split_ifs <;> simp_all [amd_cfg_after]

theorem pci_writes_append (a b : List PciOp) :
    pci_writes (a ++ b) = pci_writes a ++ pci_writes b := by
  simp [pci_writes, List.filterMap_append]

theorem write_offsets_eq (log : List PciOp) :
    write_offsets log = (pci_writes log).map Prod.fst := by
  induction log with
  | nil => rfl
  | cons op rest ih =>
    cases op <;> simp_all [write_offsets, pci_writes, List.filterMap_cons]

/-- Capturing the original registers reads only: device registers, handle slots and
tracked base stay, and no write is logged. -/
theorem save_regs_frame (s : H2Sys) (hf : s.dev.faults = []) :
    (_save_regs s).dev.cfg = s.dev.cfg ∧ (_save_regs s).dev.faults = [] ∧
    (_save_regs s).dev.vendor = s.dev.vendor ∧
    pci_writes (_save_regs s).dev.log = pci_writes s.dev.log ∧
    (_save_regs s).h.bridge = s.h.bridge ∧ (_save_regs s).h.is_amd = s.h.is_amd ∧
    (_save_regs s).h.base = s.h.base ∧ (_save_regs s).h.pages = s.h.pages ∧
    (_save_regs s).h.have_ = s.h.have_ ∧
    (_save_regs s).h.current_base = s.h.current_base := by
  unfold _save_regs
  split_ifs <;> simp [pci_read_ok, hf, pci_writes_append, pci_writes]

theorem amd_ops_offsets (cfg : Nat → Nat) (idx : Int) (base pages : Nat) :
    write_offsets (amd_ops cfg idx base pages) = [0x60, 0x6C, 0x48] := by
  unfold amd_ops
  split_ifs <;> rfl

/-- With no access failure, enabling a slot on an AMD bridge succeeds, appends exactly
the reprogram sequence of the slot and tracks its base. -/
theorem enable_slot_amd (s : H2Sys) (idx : Int) (base pages : Nat)
    (hb : s.h.bridge = true) (hv : u16 s.dev.vendor = IT87_H2_VENDOR_AMD)
    (hf : s.dev.faults = []) :
    (_enable_slot s idx base pages).1 = 0 ∧
    (_enable_slot s idx base pages).2.h = { (_save_regs s).h with current_base := base } ∧
    (_enable_slot s idx base pages).2.dev.cfg = amd_cfg_after s.dev.cfg idx base pages ∧
    (_enable_slot s idx base pages).2.dev.faults = [] ∧
    (_enable_slot s idx base pages).2.dev.vendor = s.dev.vendor ∧
    pci_writes (_enable_slot s idx base pages).2.dev.log
      = pci_writes s.dev.log ++ pci_writes (amd_ops s.dev.cfg idx base pages) := by
  obtain ⟨f1, f2, f3, f4, -⟩ := save_regs_frame s hf
  have e : _enable_slot s idx base pages = _amd_enable_slot (_save_regs s) idx base pages := by
    unfold _enable_slot
    simp [hb, f3, hv]
  rw [e, amd_enable_slot_ok _ idx base pages f2]
  simp [f1, f2, f3, f4, pci_writes_append]

/-- One activation on an AMD bridge: it succeeds, leaves the bridge bound and the slots
as configured, tracks the base of the slot, and writes the reprogram sequence exactly
when the tracked base differed. -/
theorem use_slot_amd (s : H2Sys) (idx : Int) (hb : amd_bound s) (hf : s.dev.faults = [])
    (hi : idx = 0 ∨ idx = 1) (hh : s.h.have_ idx.toNat = true) :
    (it87_h2_use_slot s idx).1 = 0 ∧
    amd_bound (it87_h2_use_slot s idx).2 ∧
    (it87_h2_use_slot s idx).2.dev.faults = [] ∧
    (it87_h2_use_slot s idx).2.h.base = s.h.base ∧
    (it87_h2_use_slot s idx).2.h.pages = s.h.pages ∧
    (it87_h2_use_slot s idx).2.h.have_ = s.h.have_ ∧
    (it87_h2_use_slot s idx).2.h.current_base = s.h.base idx.toNat ∧
    pci_writes (it87_h2_use_slot s idx).2.dev.log = pci_writes s.dev.log ++
      (if s.h.current_base ≠ s.h.base idx.toNat then
        pci_writes (amd_ops s.dev.cfg idx (s.h.base idx.toNat) (s.h.pages idx.toNat))
       else []) := by
  obtain ⟨b1, b2, b3⟩ := hb
  obtain ⟨e1, e2, e3, e4, e5, e6⟩ :=
    enable_slot_amd s idx (s.h.base idx.toNat) (s.h.pages idx.toNat) b1 b3 hf
  obtain ⟨f1, f2, f3, f4, f5, f6, f7, f8, f9, f10⟩ := save_regs_frame s hf
  have hr : ¬ (idx < 0 ∨ idx > 1) := by omega
  have e : it87_h2_use_slot s idx =
      if s.h.current_base ≠ s.h.base idx.toNat then
        _enable_slot s idx (s.h.base idx.toNat) (s.h.pages idx.toNat)
      else (0, s) := by
    unfold it87_h2_use_slot
    simp [b1, b2, hh, hr]
  rw [e]
  split_ifs with hc
  · refine ⟨e1, ⟨?_, ?_, ?_⟩, e4, ?_, ?_, ?_, ?_, e6⟩
    · rw [e2]; exact f5.trans b1
    · rw [e2]; exact f6.trans b2
    · rw [e5]; exact b3
    · rw [e2]; exact f7
    · rw [e2]; exact f8
    · rw [e2]; exact f9
    · rw [e2]
  · simp only [not_not] at hc
    exact ⟨rfl, ⟨b1, b2, b3⟩, hf, rfl, rfl, rfl, hc, by simp⟩

theorem write_offsets_append (a b : List PciOp) :
    write_offsets (a ++ b) = write_offsets a ++ write_offsets b := by
  simp [write_offsets, List.filterMap_append]

/-- Offsets written by one activation on an AMD bridge. -/
theorem use_slot_amd_offsets (s : H2Sys) (idx : Int) (hb : amd_bound s)
    (hf : s.dev.faults = []) (hi : idx = 0 ∨ idx = 1) (hh : s.h.have_ idx.toNat = true) :
    write_offsets (it87_h2_use_slot s idx).2.dev.log = write_offsets s.dev.log ++
      (if s.h.current_base ≠ s.h.base idx.toNat then [0x60, 0x6C, 0x48] else []) := by
  obtain ⟨-, -, -, -, -, -, -, e⟩ := use_slot_amd s idx hb hf hi hh
  rw [write_offsets_eq, e, write_offsets_eq]
  split_ifs
  · rw [List.map_append, ← write_offsets_eq (amd_ops _ _ _ _), amd_ops_offsets]
  · simp

theorem use_slots_amd (idxs : List Int) :
    ∀ s : H2Sys, amd_bound s → s.dev.faults = [] →
      s.h.have_ 0 = true → s.h.have_ 1 = true → (∀ i ∈ idxs, i = 0 ∨ i = 1) →
      (use_slots s idxs).1 = idxs.map (fun _ => 0) ∧
      write_offsets (use_slots s idxs).2.dev.log = write_offsets s.dev.log ++
        reprogram_offsets (switches s.h.base s.h.current_base idxs) := by
  induction idxs with
  | nil =>
    intro s _ _ _ _ _
    simp [use_slots, switches, reprogram_offsets]
  | cons i rest ih =>
    intro s hb hf h0 h1 hi
    have hi0 : i = 0 ∨ i = 1 := hi i (List.mem_cons_self _ _)
    have hh : s.h.have_ i.toNat = true := by
      rcases hi0 with h | h <;> subst h <;> simpa
    obtain ⟨a1, a2, a3, a4, a5, a6, a7, a8⟩ := use_slot_amd s i hb hf hi0 hh
    have ao := use_slot_amd_offsets s i hb hf hi0 hh
    obtain ⟨r1, r2⟩ := ih (it87_h2_use_slot s i).2 a2 a3 (by rw [a6]; exact h0)
      (by rw [a6]; exact h1) (fun j hj => hi j (List.mem_cons_of_mem _ hj))
    constructor
    · simp [use_slots, a1, r1]
    · simp only [use_slots, switches]
      rw [r2, ao, a4, a7]
      split_ifs with hc
      · simp [reprogram_offsets, Nat.add_comm 1]
      · simp

/-- C3: on an AMD bridge with both slots configured at distinct bases and no access
failure, every activation in a sequence succeeds and the offsets written are one
reprogram sequence (0x60, 0x6C, 0x48) for exactly the calls whose slot base differs from
the base tracked at that call; when slot 0 is not the tracked window at the start,
activating slots 0, 1, 0 writes exactly three sequences and activating slot 0 twice
writes exactly one. -/
theorem amd_use_slot_reprograms (s : H2Sys) (idxs : List Int) (hb : amd_bound s)
    (hf : s.dev.faults = []) (h0 : s.h.have_ 0 = true) (h1 : s.h.have_ 1 = true)
    (hd : s.h.base 0 ≠ s.h.base 1) (hi : ∀ i ∈ idxs, i = 0 ∨ i = 1) :
    ((use_slots s idxs).1 = idxs.map (fun _ => 0) ∧
      write_offsets (use_slots s idxs).2.dev.log = write_offsets s.dev.log ++
        reprogram_offsets (switches s.h.base s.h.current_base idxs)) ∧
    (s.h.current_base ≠ s.h.base 0 →
      write_offsets (use_slots s [0, 1, 0]).2.dev.log = write_offsets s.dev.log ++
        [0x60, 0x6C, 0x48, 0x60, 0x6C, 0x48, 0x60, 0x6C, 0x48] ∧
      write_offsets (use_slots s [0, 0]).2.dev.log = write_offsets s.dev.log ++
        [0x60, 0x6C, 0x48]) := by
  refine ⟨use_slots_amd idxs s hb hf h0 h1 hi, fun hc => ⟨?_, ?_⟩⟩
  · obtain ⟨-, r⟩ := use_slots_amd [0, 1, 0] s hb hf h0 h1 (by decide)
    rw [r]
    simp [switches, reprogram_offsets, hc, hd, Ne.symm hd]
  · obtain ⟨-, r⟩ := use_slots_amd [0, 0] s hb hf h0 h1 (by decide)
    rw [r]
    simp [switches, reprogram_offsets, hc]

/-- C3 on a freshly bound AMD bridge with slots at 0xFE000000 and 0xFE010000. -/
theorem amd_use_slot_reprograms_witness :
    ((use_slots amd_two_slots [1, 1, 0]).1 = [0, 0, 0] ∧
      write_offsets (use_slots amd_two_slots [1, 1, 0]).2.dev.log = [0x60, 0x6C, 0x48, 0x60, 0x6C, 0x48]) ∧
    write_offsets (use_slots amd_two_slots [0, 1, 0]).2.dev.log =
      [0x60, 0x6C, 0x48, 0x60, 0x6C, 0x48, 0x60, 0x6C, 0x48] ∧
    write_offsets (use_slots amd_two_slots [0, 0]).2.dev.log = [0x60, 0x6C, 0x48] :=
  have h := amd_use_slot_reprograms amd_two_slots [1, 1, 0]
    ⟨by decide, by decide, by decide⟩ (by decide) (by decide) (by decide) (by decide)
    (by decide)
  ⟨h.1, h.2 (by decide)⟩

/-! ## AMD bridge: the tracked base and the programmed window -/

/-- Restoring on an AMD bridge either does nothing or clears the tracked base; slots,
binding and fault script stay. -/
theorem restore_regs_amd (s : H2Sys) (hb : amd_bound s) (hf : s.dev.faults = []) :
    amd_bound (_restore_regs s) ∧ (_restore_regs s).dev.faults = [] ∧
    (_restore_regs s).h.base = s.h.base ∧ (_restore_regs s).h.pages = s.h.pages ∧
    (_restore_regs s).h.have_ = s.h.have_ ∧
    (_restore_regs s = s ∨ (_restore_regs s).h.current_base = 0) := by
  obtain ⟨b1, b2, b3⟩ := hb
  unfold _restore_regs
  split_ifs with h1
  · exact ⟨⟨b1, b2, b3⟩, hf, rfl, rfl, rfl, Or.inl rfl⟩
  · simp [amd_bound, pci_write_ok, hf, b1, b2, b3]

/-- On a bound AMD bridge without access failure the per-slot step of
`it87_h2_set_state` is the activation `it87_h2_use_slot`. -/
theorem set_state_slot_amd (s : H2Sys) (idx : Int) (hb : amd_bound s)
    (hf : s.dev.faults = []) (hi : idx = 0 ∨ idx = 1) (hh : s.h.have_ idx.toNat = true) :
    set_state_slot s idx = it87_h2_use_slot s idx := by
  obtain ⟨b1, b2, b3⟩ := hb
  obtain ⟨e1, -⟩ := enable_slot_amd s idx (s.h.base idx.toNat) (s.h.pages idx.toNat) b1 b3 hf
  have hr : ¬ (idx < 0 ∨ idx > 1) := by omega
  unfold set_state_slot it87_h2_use_slot
  simp only [b1, b2, hh, hr, Bool.not_true, if_true, Bool.false_eq_true, if_false]
  by_cases hc : s.h.current_base = s.h.base idx.toNat
  · simp [hc]
  · simp only [hc, ne_eq, not_false_eq_true, if_true, e1, not_true_eq_false, if_false]
    exact Prod.ext e1.symm rfl

/-- An activation on an AMD bridge keeps the link between tracked base and last
reprogram sequence. -/
theorem use_slot_amd_tracked (s : H2Sys) (idx : Int) (hb : amd_bound s)
    (hf : s.dev.faults = []) (hi : idx = 0 ∨ idx = 1) (hh : s.h.have_ idx.toNat = true)
    (hd : slots_distinct s.h) (ht : amd_tracked s) :
    reprogrammed_for idx (s.h.base idx.toNat) (s.h.pages idx.toNat)
      (it87_h2_use_slot s idx).2.dev.log := by
  obtain ⟨a1, a2, a3, a4, a5, a6, a7, a8⟩ := use_slot_amd s idx hb hf hi hh
  by_cases hc : s.h.current_base = s.h.base idx.toNat
  · rw [if_neg (not_not.mpr hc)] at a8
    have hnz : s.h.current_base ≠ 0 := by
      rw [hc]
      rcases hi with h | h <;> subst h
      · exact hd.1 hh
      · exact hd.2.1 hh
    obtain ⟨i, i1, i2, i3, pre, cfg, i4⟩ := ht hnz
    have hii : i = idx := by
      rcases hi with h | h <;> rcases i1 with g | g <;> subst h <;> subst g
      · rfl
      · exact absurd (i3.symm.trans hc).symm (hd.2.2 hh i2)
      · exact absurd (i3.symm.trans hc) (hd.2.2 i2 hh)
      · rfl
    subst hii
    exact ⟨pre, cfg, by rw [a8, i4]; simp⟩
  · rw [if_pos hc] at a8
    exact ⟨_, _, a8⟩

theorem amd_tracked_of_use (s : H2Sys) (idx : Int) (hb : amd_bound s)
    (hf : s.dev.faults = []) (hi : idx = 0 ∨ idx = 1) (hh : s.h.have_ idx.toNat = true)
    (hd : slots_distinct s.h) (ht : amd_tracked s) :
    amd_tracked (it87_h2_use_slot s idx).2 := by
  obtain ⟨a1, a2, a3, a4, a5, a6, a7, a8⟩ := use_slot_amd s idx hb hf hi hh
  have hp := use_slot_amd_tracked s idx hb hf hi hh hd ht
  intro _
  refine ⟨idx, hi, ?_, ?_, ?_⟩
  · rw [a6]; exact hh
  · rw [a7, a4]
  · rw [a4, a5]; exact hp

/-- An activation with any argument keeps the properties the amended C4 rests on. -/
theorem use_slot_amd_inv (s : H2Sys) (idx : Int) (hb : amd_bound s)
    (hf : s.dev.faults = []) (hd : slots_distinct s.h) (ht : amd_tracked s) :
    amd_bound (it87_h2_use_slot s idx).2 ∧ (it87_h2_use_slot s idx).2.dev.faults = [] ∧
    slots_distinct (it87_h2_use_slot s idx).2.h ∧ amd_tracked (it87_h2_use_slot s idx).2 := by
  by_cases hv : (idx = 0 ∨ idx = 1) ∧ s.h.have_ idx.toNat = true
  · obtain ⟨hi, hh⟩ := hv
    obtain ⟨a1, a2, a3, a4, a5, a6, a7, a8⟩ := use_slot_amd s idx hb hf hi hh
    refine ⟨a2, a3, ?_, amd_tracked_of_use s idx hb hf hi hh hd ht⟩
    simp only [slots_distinct, a4, a6]
    exact hd
  · have e : (it87_h2_use_slot s idx).2 = s := by
      unfold it87_h2_use_slot
      split_ifs with h1 h2 h3 h4 h5 <;> try rfl
      exfalso
      apply hv
      constructor
      · omega
      · simpa using h3
    rw [e]
    exact ⟨hb, hf, hd, ht⟩

theorem set_state_amd_inv (s : H2Sys) (st : Int) (hb : amd_bound s)
    (hf : s.dev.faults = []) (hd : slots_distinct s.h) (ht : amd_tracked s) :
    amd_bound (it87_h2_set_state s st).2 ∧ (it87_h2_set_state s st).2.dev.faults = [] ∧
    slots_distinct (it87_h2_set_state s st).2.h ∧ amd_tracked (it87_h2_set_state s st).2 := by
  have u0 := fun hh => set_state_slot_amd s 0 hb hf (Or.inl rfl) hh
  have u1 := fun hh => set_state_slot_amd s 1 hb hf (Or.inr rfl) hh
  have key : (it87_h2_set_state s st).2 = s ∨ (it87_h2_set_state s st).2 = _restore_regs s ∨
      (it87_h2_set_state s st).2 = (it87_h2_use_slot s 0).2 ∨
      (it87_h2_set_state s st).2 = (it87_h2_use_slot s 1).2 := by
    unfold it87_h2_set_state
    split_ifs with h1 h2 h3 h4 h5 h6 h7 h8 h9
    · exact Or.inl rfl
    · exact Or.inr (Or.inl rfl)
    · exact Or.inl rfl
    · rw [u0 (by simpa using h4)]
      exact Or.inr (Or.inr (Or.inl rfl))
    · exact Or.inl rfl
    · rw [u1 (by simpa using h6)]
      exact Or.inr (Or.inr (Or.inr rfl))
    · exact Or.inl rfl
    · have hh : s.h.have_ 0 = true := by
        simp only [Bool.or_eq_true, Bool.not_eq_true', not_or] at h8
        simpa using h8.1
      rw [u0 hh]
      exact Or.inr (Or.inr (Or.inl rfl))
    · exact absurd hb.2.1 h9
    · exact Or.inl rfl
  obtain ⟨r1, r2, r3, r4, r5, r6⟩ := restore_regs_amd s hb hf
  rcases key with k | k | k | k <;> rw [k]
  · exact ⟨hb, hf, hd, ht⟩
  · refine ⟨r1, r2, ?_, ?_⟩
    · simp only [slots_distinct, r3, r5]
      exact hd
    · rcases r6 with h | h
      · simp only [h]
        exact ht
      · intro hne
        exact absurd h hne
  · exact use_slot_amd_inv s 0 hb hf hd ht
  · exact use_slot_amd_inv s 1 hb hf hd ht

theorem run_ops_amd_inv (ops : List H2Op) :
    ∀ s : H2Sys, amd_bound s → s.dev.faults = [] → slots_distinct s.h → amd_tracked s →
      (∀ op ∈ ops, op.configures = false) →
      amd_bound (run_ops s ops) ∧ (run_ops s ops).dev.faults = [] ∧
      slots_distinct (run_ops s ops).h ∧ amd_tracked (run_ops s ops) := by
  induction ops with
  | nil =>
    intro s hb hf hd ht _
    exact ⟨hb, hf, hd, ht⟩
  | cons op rest ih =>
    intro s hb hf hd ht hc
    have hop : op.configures = false := hc op (List.mem_cons_self _ _)
    have step : amd_bound (op.run s) ∧ (op.run s).dev.faults = [] ∧
        slots_distinct (op.run s).h ∧ amd_tracked (op.run s) := by
      cases op with
      | set_slot idx b sz => simp [H2Op.configures] at hop
      | set_state st => exact set_state_amd_inv s st hb hf hd ht
      | use_slot idx => exact use_slot_amd_inv s idx hb hf hd ht
    obtain ⟨s1, s2, s3, s4⟩ := step
    exact ih (op.run s) s1 s2 s3 s4 (fun o ho => hc o (List.mem_cons_of_mem _ ho))

theorem use_slot_ret_zero (s : H2Sys) (idx : Int) (hb : s.h.bridge = true)
    (hr : (it87_h2_use_slot s idx).1 = 0) :
    (idx = 0 ∨ idx = 1) ∧ s.h.have_ idx.toNat = true := by
  unfold it87_h2_use_slot at hr
  simp only [hb, Bool.not_true, Bool.false_eq_true, if_false] at hr
  split_ifs at hr with h1 h2
  · simp [EINVAL] at hr
  · simp [ENOENT] at hr
  · exact ⟨by omega, by simpa using h2⟩
  · exact ⟨by omega, by simpa using h2⟩
  · exact ⟨by omega, by simpa using h2⟩

/-- The third configuration write from the end is the range register write of the
reprogram sequence. -/
theorem reprogrammed_for_range (idx : Int) (base pages : Nat) (log : List PciOp)
    (h : reprogrammed_for idx base pages log) :
    (pci_writes log).reverse[2]? = some (0x60, u32 (amd_range idx base pages)) := by
  obtain ⟨pre, cfg, e⟩ := h
  rw [e]
  unfold amd_ops
  split_ifs <;> simp [pci_writes]

/-- C4 (amended): on an AMD bridge without access failure whose configured slots have
nonzero, pairwise different bases and on which nothing is programmed yet, after any
sequence of `it87_h2_use_slot` and `it87_h2_set_state` calls, whenever
`it87_h2_use_slot(idx)` returns 0 the tracked base is `base[idx]` and the last
configuration writes are the reprogram sequence of slot `idx` for `base[idx]` and
`pages[idx]`. -/
theorem amd_use_slot_programs (s : H2Sys) (ops : List H2Op) (idx : Int)
    (hb : amd_bound s) (hf : s.dev.faults = []) (hd : slots_distinct s.h)
    (h0 : s.h.current_base = 0) (hc : ∀ op ∈ ops, op.configures = false)
    (hr : (it87_h2_use_slot (run_ops s ops) idx).1 = 0) :
    (it87_h2_use_slot (run_ops s ops) idx).2.h.current_base
      = (it87_h2_use_slot (run_ops s ops) idx).2.h.base idx.toNat ∧
    reprogrammed_for idx ((it87_h2_use_slot (run_ops s ops) idx).2.h.base idx.toNat)
      ((it87_h2_use_slot (run_ops s ops) idx).2.h.pages idx.toNat)
      (it87_h2_use_slot (run_ops s ops) idx).2.dev.log := by
  have ht : amd_tracked s := fun hne => absurd h0 hne
  obtain ⟨t1, t2, t3, t4⟩ := run_ops_amd_inv ops s hb hf hd ht hc
  obtain ⟨hi, hh⟩ := use_slot_ret_zero (run_ops s ops) idx t1.1 hr
  obtain ⟨a1, a2, a3, a4, a5, a6, a7, a8⟩ := use_slot_amd (run_ops s ops) idx t1 t2 hi hh
  have hp := use_slot_amd_tracked (run_ops s ops) idx t1 t2 hi hh t3 t4
  rw [a4, a5, a7]
  exact ⟨rfl, hp⟩

/-- The amended C4 on the bridge with slots at 0xFE000000 and 0xFE010000, after slot 1
was activated, the bridge disabled, slot 0 activated and both requested. -/
theorem amd_use_slot_programs_witness :
    (it87_h2_use_slot (run_ops amd_two_slots
      [H2Op.use_slot 1, H2Op.set_state IT87_MMIO_DISABLED, H2Op.use_slot 0,
       H2Op.set_state IT87_MMIO_ENABLED_BOTH]) 1).2.h.current_base = 0xFE010000 ∧
    reprogrammed_for 1 0xFE010000 1
      (it87_h2_use_slot (run_ops amd_two_slots
        [H2Op.use_slot 1, H2Op.set_state IT87_MMIO_DISABLED, H2Op.use_slot 0,
         H2Op.set_state IT87_MMIO_ENABLED_BOTH]) 1).2.dev.log :=
  amd_use_slot_programs amd_two_slots
    [H2Op.use_slot 1, H2Op.set_state IT87_MMIO_DISABLED, H2Op.use_slot 0,
     H2Op.set_state IT87_MMIO_ENABLED_BOTH] 1
    ⟨by decide, by decide, by decide⟩ (by decide) ⟨by decide, by decide, by decide⟩
    (by decide) (by decide) (by decide)

/-- C4 as stated fails on configurations `it87_h2_set_slot` accepts.  (1) A base below
64 KiB is aligned down to 0, the value of "nothing programmed": the activation returns
0 and nothing was ever written.  (2) Two slots with the same base: activating slot 1
after slot 0 returns 0 while the last sequence written is the one of slot 0.  (3) A
slot configured again with another size after it was programmed: the activation
returns 0 and the bridge keeps the old page count.  (4) A failed write in the middle of
a reprogram leaves the tracked base on the old slot: the next activation of the old
slot returns 0 while register 0x60 holds the range of the other slot. -/
theorem amd_use_slot_not_programmed :
    ((it87_h2_set_slot amd_fresh 0 0x1234 1).1 = 0 ∧
      (it87_h2_use_slot (it87_h2_set_slot amd_fresh 0 0x1234 1).2 0).1 = 0 ∧
      pci_writes (it87_h2_use_slot (it87_h2_set_slot amd_fresh 0 0x1234 1).2 0).2.dev.log = [] ∧
      ¬ reprogrammed_for 0 0 1
        (it87_h2_use_slot (it87_h2_set_slot amd_fresh 0 0x1234 1).2 0).2.dev.log) ∧
    ((it87_h2_set_slot amd_fresh 0 0xFE120000 0x10000).1 = 0 ∧
      (it87_h2_set_slot (it87_h2_set_slot amd_fresh 0 0xFE120000 0x10000).2
        1 0xFE120000 0x10000).1 = 0 ∧
      (it87_h2_use_slot (run_ops amd_fresh
        [H2Op.set_slot 0 0xFE120000 0x10000, H2Op.set_slot 1 0xFE120000 0x10000,
         H2Op.use_slot 0]) 1).1 = 0 ∧
      ¬ reprogrammed_for 1 0xFE120000 1
        (it87_h2_use_slot (run_ops amd_fresh
          [H2Op.set_slot 0 0xFE120000 0x10000, H2Op.set_slot 1 0xFE120000 0x10000,
           H2Op.use_slot 0]) 1).2.dev.log) ∧
    ((it87_h2_set_slot (it87_h2_use_slot amd_two_slots 0).2 0 0xFE000000 0x20000).1 = 0 ∧
      (it87_h2_use_slot (run_ops amd_two_slots
        [H2Op.use_slot 0, H2Op.set_slot 0 0xFE000000 0x20000]) 0).1 = 0 ∧
      (run_ops amd_two_slots
        [H2Op.use_slot 0, H2Op.set_slot 0 0xFE000000 0x20000]).h.pages 0 = 2 ∧
      ¬ reprogrammed_for 0 0xFE000000 2
        (it87_h2_use_slot (run_ops amd_two_slots
          [H2Op.use_slot 0, H2Op.set_slot 0 0xFE000000 0x20000]) 0).2.dev.log) ∧
    ((it87_h2_use_slot amd_two_slots_faulty 0).1 = 0 ∧
      (it87_h2_use_slot (it87_h2_use_slot amd_two_slots_faulty 0).2 1).1 = -5 ∧
      (it87_h2_use_slot (run_ops amd_two_slots_faulty
        [H2Op.use_slot 0, H2Op.use_slot 1]) 0).1 = 0 ∧
      (it87_h2_use_slot (run_ops amd_two_slots_faulty
        [H2Op.use_slot 0, H2Op.use_slot 1]) 0).2.dev.cfg 0x60 = amd_range 1 0xFE010000 1 ∧
      amd_range 1 0xFE010000 1 ≠ amd_range 0 0xFE000000 1) := by
  refine ⟨⟨by decide, by decide, by decide, ?_⟩, ⟨by decide, by decide, by decide, ?_⟩,
    ⟨by decide, by decide, by decide, ?_⟩, by decide, by decide, by decide, by decide,
    by decide⟩
  · intro h
    exact absurd (reprogrammed_for_range _ _ _ _ h) (by decide)
  · intro h
    exact absurd (reprogrammed_for_range _ _ _ _ h) (by decide)
  · intro h
    exact absurd (reprogrammed_for_range _ _ _ _ h) (by decide)

/-! ## Capture and restore of the original bridge registers -/

theorem u32_of_lt {x : Nat} (h : x < 2 ^ 32) : u32 x = x := by
  simp only [u32]
  exact Nat.mod_eq_of_lt h

theorem intel_enable_slot_ok (s : H2Sys) (idx : Int) (base : Nat) (hf : s.dev.faults = []) :
    _intel_enable_slot s idx base =
      (0, { s with dev := { s.dev with
              cfg := intel_cfg_after s.dev.cfg idx base,
              log := s.dev.log ++ [PciOp.rd 0xD8,
                PciOp.wr 0xD8 (u32 (u32 (s.dev.cfg 0xD8) &&& not32 (intel_mask idx base))),
                PciOp.wr 0x98 (u32 (intel_range base))] } }) := by
  obtain ⟨h, ⟨vd, cfg, faults, log⟩⟩ := s
  simp only at hf
  subst hf
  simp [_intel_enable_slot, pci_write_ok, pci_read_ok, intel_cfg_after]
  funext o
  split_ifs <;> simp_all [intel_cfg_after]

theorem vendor_ne : IT87_H2_VENDOR_AMD ≠ IT87_H2_VENDOR_INTEL := by decide

theorem vendor_ne_symm : ¬ IT87_H2_VENDOR_INTEL = IT87_H2_VENDOR_AMD := by decide

/-- Capturing establishes `saved_ok` and changes neither registers nor tracked base. -/
theorem save_regs_saved_ok (c0 : Nat → Nat) (s : H2Sys) (hw : ∀ off, c0 off < 2 ^ 32)
    (hr : pristine c0 s ∨ saved_ok c0 s) : saved_ok c0 (_save_regs s) := by
  rcases hr with ⟨p1, p2, p3, p4, p5, p6, p7, p8, p9, p10⟩ | hs
  · rcases p3 with ⟨v, a⟩ | ⟨v, a⟩
    · have e : _save_regs s =
          { h := { s.h with r48 := u32 (s.dev.cfg 0x48), r60 := u32 (s.dev.cfg 0x60),
                            r6c := u32 (s.dev.cfg 0x6c), saved := true },
            dev := { s.dev with log := s.dev.log ++ [PciOp.rd 0x48, PciOp.rd 0x60, PciOp.rd 0x6c] } } := by
        unfold _save_regs
        simp [p1, p4, v, pci_read_ok, p2]
      rw [e]
      refine ⟨p1, p2, Or.inl ⟨v, a⟩, rfl, fun _ => ⟨?_, ?_, ?_⟩, fun h => ?_⟩
      · show u32 (s.dev.cfg 0x48) = c0 0x48
        rw [p6, u32_of_lt (hw _)]
      · show u32 (s.dev.cfg 0x60) = c0 0x60
        rw [p7, u32_of_lt (hw _)]
      · show u32 (s.dev.cfg 0x6C) = c0 0x6C
        rw [p8, u32_of_lt (hw _)]
      · exact absurd (v.symm.trans h) vendor_ne
    · have hna : u16 s.dev.vendor ≠ IT87_H2_VENDOR_AMD := by
        rw [v]
        exact Ne.symm vendor_ne
      have e : _save_regs s =
          { h := { s.h with rd8 := u32 (s.dev.cfg 0xd8), r98 := u32 (s.dev.cfg 0x98),
                            saved := true },
            dev := { s.dev with log := s.dev.log ++ [PciOp.rd 0xd8, PciOp.rd 0x98] } } := by
        unfold _save_regs
        simp [p1, p4, v, vendor_ne_symm, pci_read_ok, p2]
      rw [e]
      refine ⟨p1, p2, Or.inr ⟨v, a⟩, rfl, fun h => absurd h hna, fun _ => ⟨?_, ?_⟩⟩
      · show u32 (s.dev.cfg 0xD8) = c0 0xD8
        rw [p9, u32_of_lt (hw _)]
      · show u32 (s.dev.cfg 0x98) = c0 0x98
        rw [p10, u32_of_lt (hw _)]
  · have e : _save_regs s = s := by
      unfold _save_regs
      simp [hs.2.2.2.1]
    rw [e]
    exact hs

/-- Enabling a slot on either vendor succeeds and keeps the captured values. -/
theorem enable_slot_saved_ok (c0 : Nat → Nat) (s : H2Sys) (idx : Int) (base pages : Nat)
    (hw : ∀ off, c0 off < 2 ^ 32) (hr : pristine c0 s ∨ saved_ok c0 s) :
    (_enable_slot s idx base pages).1 = 0 ∧ saved_ok c0 (_enable_slot s idx base pages).2 := by
  have hb : s.h.bridge = true := by
    rcases hr with h | h
    · exact h.1
    · exact h.1
  obtain ⟨q1, q2, q3, q4, q5, q6⟩ := save_regs_saved_ok c0 s hw hr
  rcases q3 with ⟨v, a⟩ | ⟨v, a⟩
  · have e : _enable_slot s idx base pages = _amd_enable_slot (_save_regs s) idx base pages := by
      unfold _enable_slot
      simp [hb, v]
    rw [e, amd_enable_slot_ok _ idx base pages q2]
    exact ⟨rfl, q1, q2, Or.inl ⟨v, a⟩, q4, q5, q6⟩
  · have hna : u16 (_save_regs s).dev.vendor ≠ IT87_H2_VENDOR_AMD := by
      rw [v]
      exact Ne.symm vendor_ne
    have e : _enable_slot s idx base pages = _intel_enable_slot (_save_regs s) idx base := by
      unfold _enable_slot
      simp [hb, v, vendor_ne_symm]
    rw [e, intel_enable_slot_ok _ idx base q2]
    exact ⟨rfl, q1, q2, Or.inr ⟨v, a⟩, q4, q5, q6⟩

/-- Restoring keeps the invariant and brings back the values `c0`. -/
theorem restore_regs_restored (c0 : Nat → Nat) (s : H2Sys) (hw : ∀ off, c0 off < 2 ^ 32)
    (hr : pristine c0 s ∨ saved_ok c0 s) :
    (pristine c0 (_restore_regs s) ∨ saved_ok c0 (_restore_regs s)) ∧
    restored c0 (_restore_regs s) ∧ (_restore_regs s).dev.vendor = s.dev.vendor := by
  rcases hr with hp | ⟨q1, q2, q3, q4, q5, q6⟩
  · have e : _restore_regs s = s := by
      unfold _restore_regs
      simp [hp.2.2.2.1]
    rw [e]
    obtain ⟨p1, p2, p3, p4, p5, p6, p7, p8, p9, p10⟩ := hp
    exact ⟨Or.inl ⟨p1, p2, p3, p4, p5, p6, p7, p8, p9, p10⟩,
      ⟨fun _ => ⟨p6, p7, p8, p5⟩, fun _ => ⟨p9, p10⟩⟩, rfl⟩
  · rcases q3 with ⟨v, a⟩ | ⟨v, a⟩
    · obtain ⟨x1, x2, x3⟩ := q5 v
      have e : _restore_regs s =
          { h := { s.h with current_base := 0 },
            dev := { s.dev with
              cfg := fun o => if o = 0x6c then u32 s.h.r6c else if o = 0x60 then u32 s.h.r60
                else if o = 0x48 then u32 s.h.r48 else s.dev.cfg o,
              log := s.dev.log ++ [PciOp.wr 0x48 (u32 s.h.r48), PciOp.wr 0x60 (u32 s.h.r60),
                PciOp.wr 0x6c (u32 s.h.r6c)] } } := by
        unfold _restore_regs
        simp [q1, q4, v, pci_write_ok, q2]
      rw [e]
      refine ⟨Or.inr ⟨q1, q2, Or.inl ⟨v, a⟩, q4, q5, q6⟩, ⟨fun _ => ⟨?_, ?_, ?_, rfl⟩, fun h => ?_⟩, rfl⟩
      · show (if (0x48 : Nat) = 0x6c then u32 s.h.r6c else if (0x48 : Nat) = 0x60 then u32 s.h.r60
          else if (0x48 : Nat) = 0x48 then u32 s.h.r48 else s.dev.cfg 0x48) = c0 0x48
        rw [x1]
        simp [u32_of_lt (hw _)]
      · show (if (0x60 : Nat) = 0x6c then u32 s.h.r6c else if (0x60 : Nat) = 0x60 then u32 s.h.r60
          else if (0x60 : Nat) = 0x48 then u32 s.h.r48 else s.dev.cfg 0x60) = c0 0x60
        rw [x2]
        simp [u32_of_lt (hw _)]
      · show (if (0x6C : Nat) = 0x6c then u32 s.h.r6c else if (0x6C : Nat) = 0x60 then u32 s.h.r60
          else if (0x6C : Nat) = 0x48 then u32 s.h.r48 else s.dev.cfg 0x6C) = c0 0x6C
        rw [x3]
        simp [u32_of_lt (hw _)]
      · exact absurd (v.symm.trans h) vendor_ne
    · have hna : u16 s.dev.vendor ≠ IT87_H2_VENDOR_AMD := by
        rw [v]
        exact Ne.symm vendor_ne
      obtain ⟨x1, x2⟩ := q6 v
      have e : _restore_regs s =
          { s with dev := { s.dev with
              cfg := fun o => if o = 0x98 then u32 s.h.r98 else if o = 0xd8 then u32 s.h.rd8
                else s.dev.cfg o,
              log := s.dev.log ++ [PciOp.wr 0xd8 (u32 s.h.rd8), PciOp.wr 0x98 (u32 s.h.r98)] } } := by
        unfold _restore_regs
        simp [q1, q4, v, vendor_ne_symm, pci_write_ok, q2]
      rw [e]
      refine ⟨Or.inr ⟨q1, q2, Or.inr ⟨v, a⟩, q4, q5, q6⟩, ⟨fun h => absurd h hna, fun _ => ⟨?_, ?_⟩⟩, rfl⟩
      · show (if (0xD8 : Nat) = 0x98 then u32 s.h.r98 else if (0xD8 : Nat) = 0xd8 then u32 s.h.rd8
          else s.dev.cfg 0xD8) = c0 0xD8
        rw [x1]
        simp [u32_of_lt (hw _)]
      · show (if (0x98 : Nat) = 0x98 then u32 s.h.r98 else if (0x98 : Nat) = 0xd8 then u32 s.h.rd8
          else s.dev.cfg 0x98) = c0 0x98
        rw [x2]
        simp [u32_of_lt (hw _)]

theorem use_slot_state (s : H2Sys) (idx : Int) :
    (it87_h2_use_slot s idx).2 = s ∨
    (it87_h2_use_slot s idx).2
      = (_enable_slot s idx (s.h.base idx.toNat) (s.h.pages idx.toNat)).2 := by
  unfold it87_h2_use_slot
  split_ifs <;> simp

theorem set_state_slot_state (s : H2Sys) (idx : Int) :
    (set_state_slot s idx).2 = s ∨
    (set_state_slot s idx).2
      = (_enable_slot s idx (s.h.base idx.toNat) (s.h.pages idx.toNat)).2 := by
  unfold set_state_slot
  dsimp only
  split_ifs <;> simp

theorem enable_slot_restorable (c0 : Nat → Nat) (s : H2Sys) (idx : Int) (base pages : Nat)
    (hw : ∀ off, c0 off < 2 ^ 32) (hr : restorable c0 s) :
    restorable c0 (_enable_slot s idx base pages).2 :=
  Or.inr (enable_slot_saved_ok c0 s idx base pages hw hr).2

theorem use_slot_restorable (c0 : Nat → Nat) (s : H2Sys) (idx : Int)
    (hw : ∀ off, c0 off < 2 ^ 32) (hr : restorable c0 s) :
    restorable c0 (it87_h2_use_slot s idx).2 := by
  rcases use_slot_state s idx with e | e <;> rw [e]
  · exact hr
  · exact enable_slot_restorable c0 s idx _ _ hw hr

/-- A slot configuration changes nothing but the slot arrays of the handle. -/
theorem set_slot_state (s : H2Sys) (idx : Int) (mmio_base size : Nat) :
    ∃ b p hv, (it87_h2_set_slot s idx mmio_base size).2
      = { s with h := { s.h with base := b, pages := p, have_ := hv } } := by
  unfold it87_h2_set_slot
  dsimp only
  split_ifs <;> first
    | exact ⟨s.h.base, s.h.pages, s.h.have_, rfl⟩
    | exact ⟨_, _, _, rfl⟩

theorem set_slot_restorable (c0 : Nat → Nat) (s : H2Sys) (idx : Int) (mmio_base size : Nat)
    (hr : restorable c0 s) : restorable c0 (it87_h2_set_slot s idx mmio_base size).2 := by
  obtain ⟨b, p, hv, e⟩ := set_slot_state s idx mmio_base size
  rw [e]
  rcases hr with ⟨p1, p2, p3, p4, p5, p6⟩ | ⟨q1, q2, q3, q4, q5⟩
  · exact Or.inl ⟨p1, p2, p3, p4, p5, p6⟩
  · exact Or.inr ⟨q1, q2, q3, q4, q5⟩

theorem set_state_restorable (c0 : Nat → Nat) (s : H2Sys) (st : Int)
    (hw : ∀ off, c0 off < 2 ^ 32) (hr : restorable c0 s) :
    restorable c0 (it87_h2_set_state s st).2 := by
  have key : (it87_h2_set_state s st).2 = s ∨ (it87_h2_set_state s st).2 = _restore_regs s ∨
      (it87_h2_set_state s st).2 = (set_state_slot s 0).2 ∨
      (it87_h2_set_state s st).2 = (set_state_slot s 1).2 ∨
      (it87_h2_set_state s st).2 = (_enable_slot s 0 (s.h.base 0) (s.h.pages 0)).2 ∨
      (it87_h2_set_state s st).2 =
        (_enable_slot (_enable_slot s 0 (s.h.base 0) (s.h.pages 0)).2 1
          ((_enable_slot s 0 (s.h.base 0) (s.h.pages 0)).2.h.base 1)
          ((_enable_slot s 0 (s.h.base 0) (s.h.pages 0)).2.h.pages 1)).2 := by
    unfold it87_h2_set_state
    dsimp only
    split_ifs <;> simp
  rcases key with k | k | k | k | k | k <;> rw [k]
  · exact hr
  · exact (restore_regs_restored c0 s hw hr).1
  · rcases set_state_slot_state s 0 with e | e <;> rw [e]
    · exact hr
    · exact enable_slot_restorable c0 s 0 _ _ hw hr
  · rcases set_state_slot_state s 1 with e | e <;> rw [e]
    · exact hr
    · exact enable_slot_restorable c0 s 1 _ _ hw hr
  · exact enable_slot_restorable c0 s 0 _ _ hw hr
  · exact enable_slot_restorable c0 _ 1 _ _ hw (enable_slot_restorable c0 s 0 _ _ hw hr)

theorem run_ops_restorable (c0 : Nat → Nat) (hw : ∀ off, c0 off < 2 ^ 32) (ops : List H2Op) :
    ∀ s : H2Sys, restorable c0 s → restorable c0 (run_ops s ops) := by
  induction ops with
  | nil =>
    intro s hr
    exact hr
  | cons op rest ih =>
    intro s hr
    apply ih
    cases op with
    | set_slot idx b sz => exact set_slot_restorable c0 s idx b sz hr
    | set_state st => exact set_state_restorable c0 s st hw hr
    | use_slot idx => exact use_slot_restorable c0 s idx hw hr

/-- A successful `it87_h2_init` leaves a bound, untouched bridge. -/
theorem init_pristine (bus : List PciDev) (pcim_ret : Int) (s0 : H2Sys)
    (hi : (it87_h2_init bus pcim_ret s0).1 = 0)
    (hf : (it87_h2_init bus pcim_ret s0).2.dev.faults = []) :
    pristine (it87_h2_init bus pcim_ret s0).2.dev.cfg (it87_h2_init bus pcim_ret s0).2 := by
  unfold it87_h2_init at hi hf ⊢
  cases hfind : bus.find? (fun d =>
      decide (u16 d.vendor = IT87_H2_VENDOR_AMD) || decide (u16 d.vendor = IT87_H2_VENDOR_INTEL)) with
  | none =>
    rw [hfind] at hi
    simp [ENODEV] at hi
  | some d =>
    rw [hfind] at hi hf
    simp only
    by_cases hp : pcim_ret = 0
    · have hv := List.find?_some hfind
      simp only [Bool.or_eq_true, decide_eq_true_eq] at hv
      simp only [hp, ne_eq, not_true_eq_false, if_false] at hf ⊢
      refine ⟨rfl, hf, ?_, rfl, rfl, rfl, rfl, rfl, rfl, rfl⟩
      rcases hv with h | h
      · exact Or.inl ⟨h, by simp [h]⟩
      · exact Or.inr ⟨h, by simp [h, vendor_ne_symm]⟩
    · simp only [hp, ne_eq, not_false_eq_true, if_true] at hi

/-- C5: after a successful `it87_h2_init` of a bridge whose configuration accesses all
succeed, and any sequence of `it87_h2_set_slot`, `it87_h2_set_state` and
`it87_h2_use_slot` calls, each of `it87_h2_release`, `it87_h2_set_state(ORIGINAL)` and
`it87_h2_set_state(DISABLED)` leaves the registers the driver modifies on that vendor
(AMD 0x48, 0x60, 0x6C; Intel 0xD8, 0x98) at their values at init time, and on AMD the
tracked base at 0. -/
theorem release_restores (bus : List PciDev) (pcim_ret : Int) (s0 : H2Sys) (ops : List H2Op)
    (hi : (it87_h2_init bus pcim_ret s0).1 = 0)
    (hf : (it87_h2_init bus pcim_ret s0).2.dev.faults = [])
    (hw : ∀ off, (it87_h2_init bus pcim_ret s0).2.dev.cfg off < 2 ^ 32) :
    restored (it87_h2_init bus pcim_ret s0).2.dev.cfg
      (it87_h2_release (run_ops (it87_h2_init bus pcim_ret s0).2 ops)) ∧
    restored (it87_h2_init bus pcim_ret s0).2.dev.cfg
      (it87_h2_set_state (run_ops (it87_h2_init bus pcim_ret s0).2 ops) IT87_MMIO_ORIGINAL).2 ∧
    restored (it87_h2_init bus pcim_ret s0).2.dev.cfg
      (it87_h2_set_state (run_ops (it87_h2_init bus pcim_ret s0).2 ops) IT87_MMIO_DISABLED).2 := by
  have hr := run_ops_restorable _ hw ops _ (Or.inl (init_pristine bus pcim_ret s0 hi hf))
  have hb : (run_ops (it87_h2_init bus pcim_ret s0).2 ops).h.bridge = true := by
    rcases hr with h | h
    · exact h.1
    · exact h.1
  obtain ⟨-, r, -⟩ := restore_regs_restored _ _ hw hr
  refine ⟨?_, ?_, ?_⟩
  · unfold it87_h2_release
    simp only [hb, Bool.not_true, Bool.false_eq_true, if_false]
    exact r
  · unfold it87_h2_set_state
    simp only [hb, Bool.not_true, Bool.false_eq_true, if_false, true_or, if_true]
    exact r
  · unfold it87_h2_set_state
    simp only [hb, Bool.not_true, Bool.false_eq_true, if_false, or_true, if_true]
    exact r

/-- C5 on an AMD bridge found behind a foreign device on the bus, after both slots were
programmed in turn. -/
theorem release_restores_witness :
    restored amd_dev.cfg
      (it87_h2_release (run_ops
        (it87_h2_init [quiet_dev 0x1234, amd_dev] 0 { h := zero_handle, dev := quiet_dev 0 }).2
        sample_ops)) ∧
    restored amd_dev.cfg
      (it87_h2_set_state (run_ops
        (it87_h2_init [quiet_dev 0x1234, amd_dev] 0 { h := zero_handle, dev := quiet_dev 0 }).2
        sample_ops) IT87_MMIO_ORIGINAL).2 ∧
    restored amd_dev.cfg
      (it87_h2_set_state (run_ops
        (it87_h2_init [quiet_dev 0x1234, amd_dev] 0 { h := zero_handle, dev := quiet_dev 0 }).2
        sample_ops) IT87_MMIO_DISABLED).2 :=
  release_restores [quiet_dev 0x1234, amd_dev] 0 { h := zero_handle, dev := quiet_dev 0 }
    sample_ops (by decide) (by decide)
    (fun off => by
      show (if off = 0x48 then 0x0F else if off = 0x60 then 0xABCD
        else if off = 0x6C then 0x12345678 else 0) < 2 ^ 32
      split_ifs <;> decide)

/-- The sample sequence does reprogram the bridge before the release: register 0x60
holds the range of slot 1 and the tracked base is its base. -/
theorem sample_ops_program :
    (run_ops (it87_h2_init [quiet_dev 0x1234, amd_dev] 0
      { h := zero_handle, dev := quiet_dev 0 }).2 sample_ops).dev.cfg 0x60
        = amd_range 1 0xFE010000 2 ∧
    (run_ops (it87_h2_init [quiet_dev 0x1234, amd_dev] 0
      { h := zero_handle, dev := quiet_dev 0 }).2 sample_ops).h.current_base = 0xFE010000 ∧
    amd_range 1 0xFE010000 2 ≠ amd_dev.cfg 0x60 := by
  decide

/-! ## Intel bridge: one generic memory range register for two slots -/

theorem same_ports_refl (w : World) : same_ports w w := ⟨rfl, rfl, rfl⟩

theorem same_ports_trans {a b c : World} (h1 : same_ports a b) (h2 : same_ports b c) :
    same_ports a c :=
  ⟨h1.1.trans h2.1, h1.2.1.trans h2.2.1, h1.2.2.trans h2.2.2⟩

theorem jiffies_frame (w : World) :
    same_ports (jiffies w).2 w ∧ (jiffies w).2.port_log = w.port_log ∧
    (jiffies w).1 = w.now ∧ w.now ≤ (jiffies w).2.now ∧ (jiffies w).2.now ≤ w.now + 1 ∧
    (jiffies w).2.polls = w.polls := by
  unfold jiffies same_ports
  split_ifs <;> simp

theorem ecio_outb_frame (value port : Nat) (w : World) :
    same_ports (it87_ecio_outb value port w) w ∧
    (it87_ecio_outb value port w).port_log = w.port_log ++ [PortEv.outb (u8 value) port] ∧
    (it87_ecio_outb value port w).now = w.now ∧
    (it87_ecio_outb value port w).left = w.left ∧
    (it87_ecio_outb value port w).polls = w.polls := by
  unfold it87_ecio_outb outb same_ports
  dsimp only
  split_ifs <;> simp

theorem ecio_inb_stat (w : World) (hs : stat_port_free w) :
    (it87_ecio_inb ECIO_CMD_STAT w).1 = u8 (w.port_in ECIO_CMD_STAT w.port_log.length) ∧
    same_ports (it87_ecio_inb ECIO_CMD_STAT w).2 w ∧
    (it87_ecio_inb ECIO_CMD_STAT w).2.port_log
      = w.port_log ++ [stat_ev w w.port_log.length] ∧
    (it87_ecio_inb ECIO_CMD_STAT w).2.now = w.now ∧
    (it87_ecio_inb ECIO_CMD_STAT w).2.left = w.left ∧
    (it87_ecio_inb ECIO_CMD_STAT w).2.polls = w.polls := by
  obtain ⟨h1, h2⟩ := hs
  simp [it87_ecio_inb, inb, same_ports, stat_ev, h1, h2]

theorem stat_ev_congr {a b : World} (h : same_ports a b) (n : Nat) :
    stat_ev a n = stat_ev b n := by
  simp [stat_ev, h.1]

theorem stat_port_free_congr {a b : World} (h : same_ports a b) (hs : stat_port_free b) :
    stat_port_free a := by
  simpa [stat_port_free, h.2.1] using hs

/-- A wait whose status test succeeds on the first poll returns 0 after exactly one
read of the status port, provided the timeout is at least two ticks. -/
theorem wait_first_poll (ready : Nat → Bool) (w : World) (h2 : 2 ≤ w.HZ)
    (hs : stat_port_free w)
    (hr : ready (u8 (w.port_in ECIO_CMD_STAT w.port_log.length)) = true) :
    (ecio_wait_loop ready ((jiffies w).1 + w.HZ)
        (poll_budget (jiffies w).2 ((jiffies w).1 + w.HZ)) (jiffies w).2).1 = 0 ∧
    same_ports (ecio_wait_loop ready ((jiffies w).1 + w.HZ)
        (poll_budget (jiffies w).2 ((jiffies w).1 + w.HZ)) (jiffies w).2).2 w ∧
    (ecio_wait_loop ready ((jiffies w).1 + w.HZ)
        (poll_budget (jiffies w).2 ((jiffies w).1 + w.HZ)) (jiffies w).2).2.port_log
      = w.port_log ++ [stat_ev w w.port_log.length] ∧
    w.now ≤ (ecio_wait_loop ready ((jiffies w).1 + w.HZ)
        (poll_budget (jiffies w).2 ((jiffies w).1 + w.HZ)) (jiffies w).2).2.now := by
  obtain ⟨j1, j2, j3, j4, j5, j6⟩ := jiffies_frame w
  obtain ⟨k1, k2, k3, k4, k5, k6⟩ := jiffies_frame (jiffies w).2
  have hlt : (jiffies w).2.now < (jiffies w).1 + w.HZ := by omega
  have hpos : poll_budget (jiffies w).2 ((jiffies w).1 + w.HZ) ≠ 0 := by
    unfold poll_budget
    rw [if_pos hlt]
    omega
  obtain ⟨n, hn⟩ := Nat.exists_eq_succ_of_ne_zero hpos
  rw [hn]
  have hs2 : stat_port_free (jiffies (jiffies w).2).2 :=
    stat_port_free_congr (same_ports_trans k1 j1) hs
  obtain ⟨i1, i2, i3, i4, -⟩ := ecio_inb_stat (jiffies (jiffies w).2).2 hs2
  have hp : (jiffies (jiffies w).2).2.port_in = w.port_in := (same_ports_trans k1 j1).1
  have hl : (jiffies (jiffies w).2).2.port_log = w.port_log := k2.trans j2
  have hready : ready (it87_ecio_inb ECIO_CMD_STAT (jiffies (jiffies w).2).2).1 = true := by
    rw [i1, hp, hl]
    exact hr
  unfold ecio_wait_loop
  dsimp only
  rw [if_pos (by rw [k3]; exact hlt), if_pos hready]
  refine ⟨rfl, same_ports_trans i2 (same_ports_trans k1 j1), ?_, ?_⟩
  · rw [i3, hl]
    rw [stat_ev_congr (same_ports_trans k1 j1)]
  · rw [i4]
    omega

theorem wait_ibe_ready (w : World) (h2 : 2 ≤ w.HZ) (hs : stat_port_free w)
    (hr : always_ibe w) :
    (it87_ecio_wait_ibe w).1 = 0 ∧ same_ports (it87_ecio_wait_ibe w).2 w ∧
    (it87_ecio_wait_ibe w).2.port_log = w.port_log ++ [stat_ev w w.port_log.length] ∧
    w.now ≤ (it87_ecio_wait_ibe w).2.now := by
  unfold it87_ecio_wait_ibe
  exact wait_first_poll _ w h2 hs (by simpa using hr w.port_log.length)

theorem wait_obf_ready (w : World) (h2 : 2 ≤ w.HZ) (hs : stat_port_free w)
    (hr : always_obf w) :
    (it87_ecio_wait_obf w).1 = 0 ∧ same_ports (it87_ecio_wait_obf w).2 w ∧
    (it87_ecio_wait_obf w).2.port_log = w.port_log ++ [stat_ev w w.port_log.length] ∧
    w.now ≤ (it87_ecio_wait_obf w).2.now := by
  unfold it87_ecio_wait_obf
  exact wait_first_poll _ w h2 hs (by simpa using hr w.port_log.length)

theorem ibe_ready_congr {a b : World} (h : same_ports a b) (hr : ibe_ready b) :
    ibe_ready a := by
  obtain ⟨r1, r2, r3⟩ := hr
  refine ⟨by rw [h.2.2]; exact r1, stat_port_free_congr h r2, ?_⟩
  intro n
  rw [h.1]
  exact r3 n

theorem wait_plain (root w : World) (hr : ibe_ready root) (hp : same_ports w root) :
    (it87_ecio_wait_ibe w).1 = 0 ∧ same_ports (it87_ecio_wait_ibe w).2 root ∧
    (it87_ecio_wait_ibe w).2.port_log = w.port_log ++ [stat_ev root w.port_log.length] ∧
    w.now ≤ (it87_ecio_wait_ibe w).2.now := by
  obtain ⟨r1, r2, r3⟩ := ibe_ready_congr hp hr
  obtain ⟨a1, a2, a3, a4⟩ := wait_ibe_ready w r1 r2 r3
  exact ⟨a1, same_ports_trans a2 hp, by rw [a3, stat_ev_congr hp], a4⟩

theorem wait_plain_obf (root w : World) (hr : ecio_ready root) (hp : same_ports w root) :
    (it87_ecio_wait_obf w).1 = 0 ∧ same_ports (it87_ecio_wait_obf w).2 root ∧
    (it87_ecio_wait_obf w).2.port_log = w.port_log ++ [stat_ev root w.port_log.length] := by
  obtain ⟨r1, r2, r3, r4⟩ := hr
  obtain ⟨q1, q2, -⟩ := ibe_ready_congr hp ⟨r1, r2, r3⟩
  have q4 : always_obf w := fun n => by
    rw [hp.1]
    exact r4 n
  obtain ⟨a1, a2, a3, -⟩ := wait_obf_ready w q1 q2 q4
  exact ⟨a1, same_ports_trans a2 hp, by rw [a3, stat_ev_congr hp]⟩

theorem wait_after_outb (root w : World) (value port : Nat) (hr : ibe_ready root)
    (hp : same_ports w root) :
    (it87_ecio_wait_ibe (it87_ecio_outb value port w)).1 = 0 ∧
    same_ports (it87_ecio_wait_ibe (it87_ecio_outb value port w)).2 root ∧
    (it87_ecio_wait_ibe (it87_ecio_outb value port w)).2.port_log
      = w.port_log ++ [PortEv.outb (u8 value) port, stat_ev root (w.port_log.length + 1)] ∧
    w.now ≤ (it87_ecio_wait_ibe (it87_ecio_outb value port w)).2.now := by
  obtain ⟨o1, o2, o3, -⟩ := ecio_outb_frame value port w
  obtain ⟨a1, a2, a3, a4⟩ :=
    wait_plain root (it87_ecio_outb value port w) hr (same_ports_trans o1 hp)
  refine ⟨a1, a2, ?_, ?_⟩
  · rw [a3, o2]
    simp
  · rw [o3] at a4
    exact a4

theorem off_hi_eq (offset : Nat) (h : offset ≤ 0xFFFF) :
    (u16 offset >>> 8) &&& 0xFF = offset / 256 := by
  have e : ∀ x : Nat, x &&& 0xFF = x % 256 := fun x => by
    simpa using Nat.and_pow_two_sub_one_eq_mod x 8
  rw [e]
  simp only [u16, Nat.shiftRight_eq_div_pow]
  omega

theorem off_lo_eq (offset : Nat) (_h : offset ≤ 0xFFFF) :
    u16 offset &&& 0xFF = offset % 256 := by
  have e : ∀ x : Nat, x &&& 0xFF = x % 256 := fun x => by
    simpa using Nat.and_pow_two_sub_one_eq_mod x 8
  rw [e]
  simp only [u16]
  omega

theorem inb_logs (port : Nat) (w : World) :
    (it87_ecio_inb port w).2.port_log
      = w.port_log ++ [PortEv.inb port (it87_ecio_inb port w).1] := rfl

/-- C8: with a status port that always reports ready, for every offset from 0x0100 to
0xFFFF and every value, `it87_ecio_write_once` returns 0 and its port accesses are
exactly: status read, 0xB1 to 0x3F4, two status reads, high byte to 0x3F0, two status
reads, low byte to 0x3F0, two status reads, the value to 0x3F0, status read;
`it87_ecio_read_once` returns 0 and its accesses are exactly: status read, 0xB0 to
0x3F4, two status reads, high byte, two status reads, low byte, two status reads (the
second one the output-buffer-full wait), then the read of 0x3F0 whose byte it
returns. -/
theorem ecio_handshake (w : World) (offset value v0 : Nat) (hlo : 0x100 ≤ offset)
    (hhi : offset ≤ 0xFFFF) (hr : ecio_ready w) :
    ((it87_ecio_write_once offset value w).1 = 0 ∧
      (it87_ecio_write_once offset value w).2.port_log = w.port_log ++
        [stat_ev w w.port_log.length,
         PortEv.outb ECIO_CMD_WRITE ECIO_CMD_STAT,
         stat_ev w (w.port_log.length + 2), stat_ev w (w.port_log.length + 3),
         PortEv.outb (offset / 256) ECIO_DATA,
         stat_ev w (w.port_log.length + 5), stat_ev w (w.port_log.length + 6),
         PortEv.outb (offset % 256) ECIO_DATA,
         stat_ev w (w.port_log.length + 8), stat_ev w (w.port_log.length + 9),
         PortEv.outb (u8 value) ECIO_DATA,
         stat_ev w (w.port_log.length + 11)]) ∧
    ((it87_ecio_read_once offset v0 w).1 = 0 ∧
      (it87_ecio_read_once offset v0 w).2.2.port_log = w.port_log ++
        [stat_ev w w.port_log.length,
         PortEv.outb ECIO_CMD_READ ECIO_CMD_STAT,
         stat_ev w (w.port_log.length + 2), stat_ev w (w.port_log.length + 3),
         PortEv.outb (offset / 256) ECIO_DATA,
         stat_ev w (w.port_log.length + 5), stat_ev w (w.port_log.length + 6),
         PortEv.outb (offset % 256) ECIO_DATA,
         stat_ev w (w.port_log.length + 8), stat_ev w (w.port_log.length + 9),
         PortEv.inb ECIO_DATA (it87_ecio_read_once offset v0 w).2.1]) := by
  have hoff : ¬ ((u16 offset >>> 8) &&& 0xFF = 0) := by
    rw [off_hi_eq offset hhi]
    omega
  have hu1 : u8 (offset / 256) = offset / 256 := u8_of_lt (by omega)
  have hu2 : u8 (offset % 256) = offset % 256 := u8_of_lt (by omega)
  have hcw : u8 ECIO_CMD_WRITE = ECIO_CMD_WRITE := by decide
  have hcr : u8 ECIO_CMD_READ = ECIO_CMD_READ := by decide
  have hq : ibe_ready w := ⟨hr.1, hr.2.1, hr.2.2.1⟩
  obtain ⟨a1, a2, a3, -⟩ := wait_plain w w hq (same_ports_refl w)
  constructor
  · obtain ⟨b1, b2, b3, -⟩ := wait_after_outb w _ ECIO_CMD_WRITE ECIO_CMD_STAT hq a2
    obtain ⟨c1, c2, c3, -⟩ := wait_plain w _ hq b2
    obtain ⟨e1, e2, e3, -⟩ := wait_after_outb w _ ((u16 offset >>> 8) &&& 0xFF) ECIO_DATA hq c2
    obtain ⟨f1, f2, f3, -⟩ := wait_plain w _ hq e2
    obtain ⟨g1, g2, g3, -⟩ := wait_after_outb w _ (u16 offset &&& 0xFF) ECIO_DATA hq f2
    obtain ⟨k1, k2, k3, -⟩ := wait_plain w _ hq g2
    obtain ⟨m1, m2, m3, -⟩ := wait_after_outb w _ value ECIO_DATA hq k2
    unfold it87_ecio_write_once
    dsimp only
    rw [if_neg hoff]
    simp only [a1, b1, c1, e1, f1, g1, k1, m1, ne_eq, not_true_eq_false, if_false, true_and]
    rw [m3, k3, g3, f3, e3, c3, b3, a3]
    simp [off_hi_eq offset hhi, off_lo_eq offset hhi, hu1, hu2, hcw]
  · obtain ⟨b1, b2, b3, -⟩ := wait_after_outb w _ ECIO_CMD_READ ECIO_CMD_STAT hq a2
    obtain ⟨c1, c2, c3, -⟩ := wait_plain w _ hq b2
    obtain ⟨e1, e2, e3, -⟩ := wait_after_outb w _ ((u16 offset >>> 8) &&& 0xFF) ECIO_DATA hq c2
    obtain ⟨f1, f2, f3, -⟩ := wait_plain w _ hq e2
    obtain ⟨g1, g2, g3, -⟩ := wait_after_outb w _ (u16 offset &&& 0xFF) ECIO_DATA hq f2
    obtain ⟨k1, k2, k3⟩ := wait_plain_obf w _ hr g2
    unfold it87_ecio_read_once
    dsimp only
    rw [if_neg hoff]
    simp only [a1, b1, c1, e1, f1, g1, k1, ne_eq, not_true_eq_false, if_false, true_and]
    rw [inb_logs, k3, g3, f3, e3, c3, b3, a3]
    simp [off_hi_eq offset hhi, off_lo_eq offset hhi, hu1, hu2, hcr]

/-- C8 at offset 0x0905 and value 0x01 on a world whose status port always reads 0x01
and whose data port reads 0x5A. -/
theorem ecio_handshake_witness :
    ((it87_ecio_write_once 0x0905 0x01 ready_world).1 = 0 ∧
      (it87_ecio_write_once 0x0905 0x01 ready_world).2.port_log =
        [PortEv.inb 0x3F4 0x01, PortEv.outb 0xB1 0x3F4,
         PortEv.inb 0x3F4 0x01, PortEv.inb 0x3F4 0x01, PortEv.outb 0x09 0x3F0,
         PortEv.inb 0x3F4 0x01, PortEv.inb 0x3F4 0x01, PortEv.outb 0x05 0x3F0,
         PortEv.inb 0x3F4 0x01, PortEv.inb 0x3F4 0x01, PortEv.outb 0x01 0x3F0,
         PortEv.inb 0x3F4 0x01]) ∧
    ((it87_ecio_read_once 0x0905 0 ready_world).1 = 0 ∧
      (it87_ecio_read_once 0x0905 0 ready_world).2.2.port_log =
        [PortEv.inb 0x3F4 0x01, PortEv.outb 0xB0 0x3F4,
         PortEv.inb 0x3F4 0x01, PortEv.inb 0x3F4 0x01, PortEv.outb 0x09 0x3F0,
         PortEv.inb 0x3F4 0x01, PortEv.inb 0x3F4 0x01, PortEv.outb 0x05 0x3F0,
         PortEv.inb 0x3F4 0x01, PortEv.inb 0x3F4 0x01, PortEv.inb 0x3F0 0x5A]) :=
  ecio_handshake ready_world 0x0905 0x01 0 (by decide) (by decide)
    ⟨by decide, ⟨by decide, by decide⟩,
      fun _ => (by decide : u8 0x01 &&& ECIO_CMD_IBF = 0),
      fun _ => (by decide : u8 0x01 &&& ECIO_CMD_OBF ≠ 0)⟩

/-! ## ECIO timeouts -/

/-- A read of `jiffies` that returns a value before the deadline uses up one unit of
the poll budget. -/
theorem budget_step (w : World) (deadline : Nat) (h : w.now < deadline) :
    poll_budget (jiffies w).2 deadline + 1 = poll_budget w deadline := by
  unfold poll_budget jiffies
  rw [if_pos h]
  by_cases hl : w.left = 0
  · simp only [hl, if_true]
    by_cases hd : w.now + 1 < deadline
    · rw [if_pos hd]
      obtain ⟨k, hk⟩ : ∃ k, deadline - w.now - 1 = k + 1 := ⟨deadline - w.now - 2, by omega⟩
      have hk2 : deadline - (w.now + 1) - 1 = k := by omega
      rw [hk, hk2]
      simp only [span]
      omega
    · rw [if_neg hd]
      have hk : deadline - w.now - 1 = 0 := by omega
      rw [hk]
      simp [span]
  · simp only [hl, if_false]
    rw [if_pos h]
    omega

/-- A wait loop whose status test never succeeds ends with -ETIMEDOUT once `jiffies`
has reached the deadline, having done nothing but read the status port. -/
theorem loop_never (ready : Nat → Bool) (deadline : Nat) (fuel : Nat) :
    ∀ w : World, stat_port_free w →
      (∀ n, ready (u8 (w.port_in ECIO_CMD_STAT n)) = false) →
      poll_budget w deadline ≤ fuel →
      (ecio_wait_loop ready deadline fuel w).1 = -ETIMEDOUT ∧
      same_ports (ecio_wait_loop ready deadline fuel w).2 w ∧
      deadline ≤ (ecio_wait_loop ready deadline fuel w).2.now ∧
      ∃ evs, (ecio_wait_loop ready deadline fuel w).2.port_log = w.port_log ++ evs ∧
        evs.all is_status_read = true := by
  induction fuel with
  | zero =>
    intro w _ _ hb
    obtain ⟨j1, j2, j3, j4, j5, j6⟩ := jiffies_frame w
    have hge : deadline ≤ w.now := by
      by_contra hlt
      have hlt2 : w.now < deadline := by omega
      have := budget_step w deadline hlt2
      omega
    unfold ecio_wait_loop
    exact ⟨rfl, j1, (by show deadline ≤ (jiffies w).2.now; omega), [], by rw [j2]; simp, rfl⟩
  | succ n ih =>
    intro w hs hr hb
    obtain ⟨j1, j2, j3, j4, j5, j6⟩ := jiffies_frame w
    unfold ecio_wait_loop
    dsimp only
    by_cases hlt : w.now < deadline
    · have hs2 : stat_port_free (jiffies w).2 := stat_port_free_congr j1 hs
      obtain ⟨i1, i2, i3, i4, i5, i6⟩ := ecio_inb_stat (jiffies w).2 hs2
      have hnr : ¬ ready (it87_ecio_inb ECIO_CMD_STAT (jiffies w).2).1 = true := by
        rw [i1, j1.1, hr]
        simp
      rw [if_pos (by rw [j3]; exact hlt), if_neg hnr]
      have hp : same_ports (it87_ecio_inb ECIO_CMD_STAT (jiffies w).2).2 w :=
        same_ports_trans i2 j1
      have hbud : poll_budget (it87_ecio_inb ECIO_CMD_STAT (jiffies w).2).2 deadline
          = poll_budget (jiffies w).2 deadline := by
        unfold poll_budget
        rw [i4, i5, i6]
      have hstep := budget_step w deadline hlt
      obtain ⟨r1, r2, r3, evs, r4, r5⟩ := ih (it87_ecio_inb ECIO_CMD_STAT (jiffies w).2).2
        (stat_port_free_congr hp hs) (fun k => by rw [hp.1]; exact hr k)
        (by rw [hbud]; omega)
      refine ⟨r1, same_ports_trans r2 hp, r3,
        stat_ev (jiffies w).2 (jiffies w).2.port_log.length :: evs, ?_, ?_⟩
      · rw [r4, i3, j2]
        simp
      · simp [r5, stat_ev, is_status_read]
    · rw [if_neg (by rw [j3]; exact hlt)]
      exact ⟨rfl, j1, (by show deadline ≤ (jiffies w).2.now; omega), [], by rw [j2]; simp, rfl⟩

theorem wait_ibe_never (w : World) (hs : stat_port_free w) (hn : never_ibe w) :
    (it87_ecio_wait_ibe w).1 = -ETIMEDOUT ∧ same_ports (it87_ecio_wait_ibe w).2 w ∧
    w.now + w.HZ ≤ (it87_ecio_wait_ibe w).2.now ∧
    ∃ evs, (it87_ecio_wait_ibe w).2.port_log = w.port_log ++ evs ∧
      evs.all is_status_read = true := by
  obtain ⟨j1, j2, j3, j4, j5, j6⟩ := jiffies_frame w
  obtain ⟨r1, r2, r3, evs, r4, r5⟩ := loop_never (fun status => status &&& ECIO_CMD_IBF = 0)
    ((jiffies w).1 + w.HZ) (poll_budget (jiffies w).2 ((jiffies w).1 + w.HZ)) (jiffies w).2
    (stat_port_free_congr j1 hs)
    (fun n => by
      rw [j1.1]
      simpa using hn n)
    (Nat.le_refl _)
  unfold it87_ecio_wait_ibe
  dsimp only
  refine ⟨r1, same_ports_trans r2 j1, by rw [j3] at r3; exact r3, evs, ?_, r5⟩
  rw [r4, j2]

theorem wait_obf_never (w : World) (hs : stat_port_free w) (hn : never_obf w) :
    (it87_ecio_wait_obf w).1 = -ETIMEDOUT ∧ same_ports (it87_ecio_wait_obf w).2 w ∧
    w.now + w.HZ ≤ (it87_ecio_wait_obf w).2.now ∧
    ∃ evs, (it87_ecio_wait_obf w).2.port_log = w.port_log ++ evs ∧
      evs.all is_status_read = true := by
  obtain ⟨j1, j2, j3, j4, j5, j6⟩ := jiffies_frame w
  obtain ⟨r1, r2, r3, evs, r4, r5⟩ := loop_never (fun status => status &&& ECIO_CMD_OBF ≠ 0)
    ((jiffies w).1 + w.HZ) (poll_budget (jiffies w).2 ((jiffies w).1 + w.HZ)) (jiffies w).2
    (stat_port_free_congr j1 hs)
    (fun n => by
      rw [j1.1]
      simpa using hn n)
    (Nat.le_refl _)
  unfold it87_ecio_wait_obf
  dsimp only
  refine ⟨r1, same_ports_trans r2 j1, by rw [j3] at r3; exact r3, evs, ?_, r5⟩
  rw [r4, j2]

/-- A wait loop entered with `jiffies` not past the deadline is left no later than one
tick after the deadline, and in any case no later than one tick after its start. -/
theorem loop_now_le (ready : Nat → Bool) (deadline : Nat) (fuel : Nat) :
    ∀ w : World, (ecio_wait_loop ready deadline fuel w).2.now ≤ max w.now deadline + 1 := by
  induction fuel with
  | zero =>
    intro w
    obtain ⟨-, -, -, -, j5, -⟩ := jiffies_frame w
    unfold ecio_wait_loop
    show (jiffies w).2.now ≤ _
    omega
  | succ n ih =>
    intro w
    obtain ⟨-, -, j3, -, j5, -⟩ := jiffies_frame w
    have hst : (it87_ecio_inb ECIO_CMD_STAT (jiffies w).2).2.now = (jiffies w).2.now := rfl
    have hi := ih (it87_ecio_inb ECIO_CMD_STAT (jiffies w).2).2
    unfold ecio_wait_loop
    dsimp only
    split_ifs with h1 h2
    · show (it87_ecio_inb ECIO_CMD_STAT (jiffies w).2).2.now ≤ _
      omega
    · rw [j3] at h1
      omega
    · show (jiffies w).2.now ≤ _
      omega

/-- Every wait for input buffer empty is over `ECIO_STEP_TIMEOUT = HZ` ticks after it
began, or one tick later. -/
theorem wait_ibe_now_le (w : World) :
    (it87_ecio_wait_ibe w).2.now ≤ w.now + max w.HZ 1 + 1 := by
  obtain ⟨-, -, j3, -, j5, -⟩ := jiffies_frame w
  have h := loop_now_le (fun status => status &&& ECIO_CMD_IBF = 0) ((jiffies w).1 + w.HZ)
    (poll_budget (jiffies w).2 ((jiffies w).1 + w.HZ)) (jiffies w).2
  unfold it87_ecio_wait_ibe
  dsimp only
  omega

/-- Every wait for output buffer full is over `ECIO_STEP_TIMEOUT = HZ` ticks after it
began, or one tick later. -/
theorem wait_obf_now_le (w : World) :
    (it87_ecio_wait_obf w).2.now ≤ w.now + max w.HZ 1 + 1 := by
  obtain ⟨-, -, j3, -, j5, -⟩ := jiffies_frame w
  have h := loop_now_le (fun status => status &&& ECIO_CMD_OBF ≠ 0) ((jiffies w).1 + w.HZ)
    (poll_budget (jiffies w).2 ((jiffies w).1 + w.HZ)) (jiffies w).2
  unfold it87_ecio_wait_obf
  dsimp only
  omega

/-- A wait that succeeds on its first poll has read `jiffies` twice. -/
theorem wait_first_poll_now (ready : Nat → Bool) (w : World) (h2 : 2 ≤ w.HZ)
    (hs : stat_port_free w)
    (hr : ready (u8 (w.port_in ECIO_CMD_STAT w.port_log.length)) = true) :
    (ecio_wait_loop ready ((jiffies w).1 + w.HZ)
        (poll_budget (jiffies w).2 ((jiffies w).1 + w.HZ)) (jiffies w).2).2.now
      ≤ w.now + 2 := by
  obtain ⟨j1, j2, j3, j4, j5, j6⟩ := jiffies_frame w
  obtain ⟨k1, k2, k3, k4, k5, k6⟩ := jiffies_frame (jiffies w).2
  have hlt : (jiffies w).2.now < (jiffies w).1 + w.HZ := by omega
  have hpos : poll_budget (jiffies w).2 ((jiffies w).1 + w.HZ) ≠ 0 := by
    unfold poll_budget
    rw [if_pos hlt]
    omega
  obtain ⟨n, hn⟩ := Nat.exists_eq_succ_of_ne_zero hpos
  rw [hn]
  have hs2 : stat_port_free (jiffies (jiffies w).2).2 :=
    stat_port_free_congr (same_ports_trans k1 j1) hs
  obtain ⟨i1, i2, i3, i4, -⟩ := ecio_inb_stat (jiffies (jiffies w).2).2 hs2
  have hp : (jiffies (jiffies w).2).2.port_in = w.port_in := (same_ports_trans k1 j1).1
  have hl : (jiffies (jiffies w).2).2.port_log = w.port_log := k2.trans j2
  have hready : ready (it87_ecio_inb ECIO_CMD_STAT (jiffies (jiffies w).2).2).1 = true := by
    rw [i1, hp, hl]
    exact hr
  unfold ecio_wait_loop
  dsimp only
  rw [if_pos (by rw [k3]; exact hlt), if_pos hready]
  dsimp only
  rw [i4]
  omega

theorem wait_plain_now (root w : World) (hr : ibe_ready root) (hp : same_ports w root) :
    (it87_ecio_wait_ibe w).2.now ≤ w.now + 2 := by
  obtain ⟨r1, r2, r3⟩ := ibe_ready_congr hp hr
  unfold it87_ecio_wait_ibe
  exact wait_first_poll_now _ w r1 r2 (by simpa using r3 w.port_log.length)

theorem wait_after_outb_now (root w : World) (value port : Nat) (hr : ibe_ready root)
    (hp : same_ports w root) :
    (it87_ecio_wait_ibe (it87_ecio_outb value port w)).2.now ≤ w.now + 2 := by
  obtain ⟨o1, o2, o3, -⟩ := ecio_outb_frame value port w
  have h := wait_plain_now root (it87_ecio_outb value port w) hr (same_ports_trans o1 hp)
  rw [o3] at h
  exact h

/-- C9: for every offset from 0x0100 to 0xFFFF, (a) if the status port never reports
input buffer empty, `it87_ecio_read_once` and `it87_ecio_write_once` return -ETIMEDOUT
when `jiffies` has advanced by `ECIO_STEP_TIMEOUT = HZ`, not earlier and at most one tick
later, having only read the status port (no byte written, no data read, `*value`
untouched); (b) if the status port always reports input buffer empty but never output
buffer full, `it87_ecio_read_once` returns -ETIMEDOUT after the command and the two
offset bytes, followed by status reads only, not earlier than `HZ` ticks after the call
and at most 13 ticks later: two reads of `jiffies` for each of the six waits that
succeed, and the tick in which the last wait is left. -/
theorem ecio_timeout (w : World) (offset value v0 : Nat) (hlo : 0x100 ≤ offset)
    (hhi : offset ≤ 0xFFFF) (hs : stat_port_free w) :
    (never_ibe w →
      ((it87_ecio_read_once offset v0 w).1 = -ETIMEDOUT ∧
        (it87_ecio_read_once offset v0 w).2.1 = v0 ∧
        w.now + w.HZ ≤ (it87_ecio_read_once offset v0 w).2.2.now ∧
        (it87_ecio_read_once offset v0 w).2.2.now ≤ w.now + max w.HZ 1 + 1 ∧
        ∃ evs, (it87_ecio_read_once offset v0 w).2.2.port_log = w.port_log ++ evs ∧
          evs.all is_status_read = true) ∧
      ((it87_ecio_write_once offset value w).1 = -ETIMEDOUT ∧
        w.now + w.HZ ≤ (it87_ecio_write_once offset value w).2.now ∧
        (it87_ecio_write_once offset value w).2.now ≤ w.now + max w.HZ 1 + 1 ∧
        ∃ evs, (it87_ecio_write_once offset value w).2.port_log = w.port_log ++ evs ∧
          evs.all is_status_read = true)) ∧
    (2 ≤ w.HZ → always_ibe w → never_obf w →
      (it87_ecio_read_once offset v0 w).1 = -ETIMEDOUT ∧
      (it87_ecio_read_once offset v0 w).2.1 = v0 ∧
      w.now + w.HZ ≤ (it87_ecio_read_once offset v0 w).2.2.now ∧
      (it87_ecio_read_once offset v0 w).2.2.now ≤ w.now + w.HZ + 13 ∧
      ∃ evs, (it87_ecio_read_once offset v0 w).2.2.port_log = w.port_log ++
          [stat_ev w w.port_log.length,
           PortEv.outb ECIO_CMD_READ ECIO_CMD_STAT,
           stat_ev w (w.port_log.length + 2), stat_ev w (w.port_log.length + 3),
           PortEv.outb (offset / 256) ECIO_DATA,
           stat_ev w (w.port_log.length + 5), stat_ev w (w.port_log.length + 6),
           PortEv.outb (offset % 256) ECIO_DATA,
           stat_ev w (w.port_log.length + 8)] ++ evs ∧
        evs.all is_status_read = true) := by
  have hoff : ¬ ((u16 offset >>> 8) &&& 0xFF = 0) := by
    rw [off_hi_eq offset hhi]
    omega
  have hne : (-ETIMEDOUT : Int) ≠ 0 := by decide
  constructor
  · intro hn
    obtain ⟨a1, a2, a3, evs, a4, a5⟩ := wait_ibe_never w hs hn
    have a6 := wait_ibe_now_le w
    constructor
    · unfold it87_ecio_read_once
      dsimp only
      rw [if_neg hoff, if_pos (by rw [a1]; exact hne)]
      exact ⟨a1, rfl, a3, a6, evs, a4, a5⟩
    · unfold it87_ecio_write_once
      dsimp only
      rw [if_neg hoff, if_pos (by rw [a1]; exact hne)]
      exact ⟨a1, a3, a6, evs, a4, a5⟩
  · intro h2 hi ho
    have hq : ibe_ready w := ⟨h2, hs, hi⟩
    have hu1 : u8 (offset / 256) = offset / 256 := u8_of_lt (by omega)
    have hu2 : u8 (offset % 256) = offset % 256 := u8_of_lt (by omega)
    have hcr : u8 ECIO_CMD_READ = ECIO_CMD_READ := by decide
    obtain ⟨a1, a2, a3, a4⟩ := wait_plain w w hq (same_ports_refl w)
    obtain ⟨b1, b2, b3, b4⟩ := wait_after_outb w _ ECIO_CMD_READ ECIO_CMD_STAT hq a2
    obtain ⟨c1, c2, c3, c4⟩ := wait_plain w _ hq b2
    obtain ⟨e1, e2, e3, e4⟩ := wait_after_outb w _ ((u16 offset >>> 8) &&& 0xFF) ECIO_DATA hq c2
    obtain ⟨f1, f2, f3, f4⟩ := wait_plain w _ hq e2
    obtain ⟨g1, g2, g3, g4⟩ := wait_after_outb w _ (u16 offset &&& 0xFF) ECIO_DATA hq f2
    obtain ⟨k1, k2, k3, evs, k4, k5⟩ := wait_obf_never _ (stat_port_free_congr g2 hs)
      (fun n => by
        rw [g2.1]
        exact ho n)
    rw [g2.2.2] at k3
    have a5 := wait_plain_now w w hq (same_ports_refl w)
    have b5 := wait_after_outb_now w _ ECIO_CMD_READ ECIO_CMD_STAT hq a2
    have c5 := wait_plain_now w _ hq b2
    have e5 := wait_after_outb_now w _ ((u16 offset >>> 8) &&& 0xFF) ECIO_DATA hq c2
    have f5 := wait_plain_now w _ hq e2
    have g5 := wait_after_outb_now w _ (u16 offset &&& 0xFF) ECIO_DATA hq f2
    have k6 := wait_obf_now_le (it87_ecio_wait_ibe (it87_ecio_outb
        (u16 offset &&& 0xFF) ECIO_DATA (it87_ecio_wait_ibe (it87_ecio_wait_ibe
        (it87_ecio_outb ((u16 offset >>> 8) &&& 0xFF) ECIO_DATA (it87_ecio_wait_ibe
        (it87_ecio_wait_ibe (it87_ecio_outb ECIO_CMD_READ ECIO_CMD_STAT
        (it87_ecio_wait_ibe w).2)).2).2)).2).2)).2
    rw [g2.2.2] at k6
    unfold it87_ecio_read_once
    dsimp only
    rw [if_neg hoff]
    simp only [a1, b1, c1, e1, f1, g1, ne_eq, not_true_eq_false, if_false]
    rw [if_pos (by rw [k1]; exact hne)]
    dsimp only
    have ht : w.now + w.HZ ≤ (it87_ecio_wait_obf (it87_ecio_wait_ibe (it87_ecio_outb
        (u16 offset &&& 0xFF) ECIO_DATA (it87_ecio_wait_ibe (it87_ecio_wait_ibe
        (it87_ecio_outb ((u16 offset >>> 8) &&& 0xFF) ECIO_DATA (it87_ecio_wait_ibe
        (it87_ecio_wait_ibe (it87_ecio_outb ECIO_CMD_READ ECIO_CMD_STAT
        (it87_ecio_wait_ibe w).2)).2).2)).2).2)).2).2.now := by
      omega
    have hu : (it87_ecio_wait_obf (it87_ecio_wait_ibe (it87_ecio_outb
        (u16 offset &&& 0xFF) ECIO_DATA (it87_ecio_wait_ibe (it87_ecio_wait_ibe
        (it87_ecio_outb ((u16 offset >>> 8) &&& 0xFF) ECIO_DATA (it87_ecio_wait_ibe
        (it87_ecio_wait_ibe (it87_ecio_outb ECIO_CMD_READ ECIO_CMD_STAT
        (it87_ecio_wait_ibe w).2)).2).2)).2).2)).2).2.now ≤ w.now + w.HZ + 13 := by
      omega
    refine ⟨k1, rfl, ht, hu, evs, ?_, k5⟩
    rw [k4, g3, f3, e3, c3, b3, a3]
    simp [off_hi_eq offset hhi, off_lo_eq offset hhi, hu1, hu2, hcr]

/-- C9 at offset 0x0905: on a world whose status port always reads 0x02 nothing but
status reads happens and the call is over 4 or 5 ticks after it began, `HZ` being 4; on
a world whose status port always reads 0x00 the read stops after the command and offset
bytes; both return -ETIMEDOUT. -/
theorem ecio_timeout_witness :
    ((it87_ecio_read_once 0x0905 0 stuck_world).1 = -ETIMEDOUT ∧
      (it87_ecio_read_once 0x0905 0 stuck_world).2.1 = 0 ∧
      stuck_world.now + stuck_world.HZ ≤ (it87_ecio_read_once 0x0905 0 stuck_world).2.2.now ∧
      (it87_ecio_read_once 0x0905 0 stuck_world).2.2.now
        ≤ stuck_world.now + max stuck_world.HZ 1 + 1 ∧
      ∃ evs, (it87_ecio_read_once 0x0905 0 stuck_world).2.2.port_log
          = stuck_world.port_log ++ evs ∧ evs.all is_status_read = true) ∧
    ((it87_ecio_write_once 0x0905 0x01 stuck_world).1 = -ETIMEDOUT ∧
      stuck_world.now + stuck_world.HZ ≤ (it87_ecio_write_once 0x0905 0x01 stuck_world).2.now ∧
      (it87_ecio_write_once 0x0905 0x01 stuck_world).2.now
        ≤ stuck_world.now + max stuck_world.HZ 1 + 1 ∧
      ∃ evs, (it87_ecio_write_once 0x0905 0x01 stuck_world).2.port_log
          = stuck_world.port_log ++ evs ∧ evs.all is_status_read = true) ∧
    (it87_ecio_read_once 0x0905 0 silent_world).1 = -ETIMEDOUT ∧
    (it87_ecio_read_once 0x0905 0 silent_world).2.2.now
      ≤ silent_world.now + silent_world.HZ + 13 :=
  ⟨((ecio_timeout stuck_world 0x0905 0x01 0 (by decide) (by decide)
      ⟨by decide, by decide⟩).1
      (fun _ => (by decide : u8 0x02 &&& ECIO_CMD_IBF ≠ 0))).1,
   ((ecio_timeout stuck_world 0x0905 0x01 0 (by decide) (by decide)
      ⟨by decide, by decide⟩).1
      (fun _ => (by decide : u8 0x02 &&& ECIO_CMD_IBF ≠ 0))).2,
   ((ecio_timeout silent_world 0x0905 0x01 0 (by decide) (by decide)
      ⟨by decide, by decide⟩).2 (by decide)
      (fun _ => (by decide : u8 0x00 &&& ECIO_CMD_IBF = 0))
      (fun _ => (by decide : u8 0x00 &&& ECIO_CMD_OBF = 0))).1,
   ((ecio_timeout silent_world 0x0905 0x01 0 (by decide) (by decide)
      ⟨by decide, by decide⟩).2 (by decide)
      (fun _ => (by decide : u8 0x00 &&& ECIO_CMD_IBF = 0))
      (fun _ => (by decide : u8 0x00 &&& ECIO_CMD_OBF = 0))).2.2.2.1⟩

/-- The timed-out write on the stuck world, evaluated: polls of the status port
while `jiffies` runs from 100 to the deadline 104, no byte written (seven polls). -/
theorem ecio_timeout_trace :
    (it87_ecio_write_once 0x0905 0x01 stuck_world).1 = -110 ∧
    (it87_ecio_write_once 0x0905 0x01 stuck_world).2.port_log
      = List.replicate 7 (PortEv.inb 0x3F4 0x02) ∧
    (it87_ecio_write_once 0x0905 0x01 stuck_world).2.now = 104 := by
  decide

/-! ## Tick comparison -/

theorem mod_below_twice (x m : Nat) (hx : x < 2 * m) :
    x % m = if x < m then x else x - m := by
  split_ifs with h
  · exact Nat.mod_eq_of_lt h
  · rw [Nat.mod_eq_sub_mod (by omega)]
    exact Nat.mod_eq_of_lt (by omega)

theorem two_pow_pred (bits : Nat) (hb : 1 ≤ bits) : 2 ^ bits = 2 * 2 ^ (bits - 1) := by
  obtain ⟨k, rfl⟩ : ∃ k, bits = k + 1 := ⟨bits - 1, by omega⟩
  rw [Nat.add_sub_cancel, pow_succ]
  omega

/-- The wrapped difference `(b - a) mod m` of two tick values. -/
theorem wrap_sub_ahead (a d m : Nat) (hm : 0 < m) (hd : d < m) :
    ((a + d) % m + m - a % m) % m = d := by
  have hr : a % m < m := Nat.mod_lt a hm
  have e1 : (a + d) % m = (a % m + d) % m := by
    rw [Nat.add_mod, Nat.mod_eq_of_lt hd]
  rw [e1, mod_below_twice (a % m + d) m (by omega)]
  split_ifs with h
  · rw [mod_below_twice _ m (by omega)]
    split_ifs <;> omega
  · rw [mod_below_twice _ m (by omega)]
    split_ifs <;> omega

theorem wrap_sub_behind (b e m : Nat) (he1 : 0 < e) (he2 : e < m) :
    (b % m + m - (b + e) % m) % m = m - e := by
  have hm : 0 < m := by omega
  have hr : b % m < m := Nat.mod_lt b hm
  have e1 : (b + e) % m = (b % m + e) % m := by
    rw [Nat.add_mod, Nat.mod_eq_of_lt he2]
  rw [e1, mod_below_twice (b % m + e) m (by omega)]
  split_ifs with h
  · rw [mod_below_twice _ m (by omega)]
    split_ifs <;> omega
  · rw [mod_below_twice _ m (by omega)]
    split_ifs <;> omega

/-- A tick value `a` that is not ahead of `b`, with `b` less than half the range ahead
of `a`, is not after `b`. -/
theorem time_after_of_le (bits a b : Nat) (h1 : a ≤ b) (h2 : b - a < 2 ^ (bits - 1))
    (hb : 1 ≤ bits) : time_after bits a b = false := by
  have hp := two_pow_pred bits hb
  have hpos : 0 < 2 ^ (bits - 1) := Nat.pow_pos (by decide)
  obtain ⟨d, rfl⟩ : ∃ d, b = a + d := ⟨b - a, by omega⟩
  have hd : d < 2 ^ (bits - 1) := by omega
  unfold time_after
  rw [wrap_sub_ahead a d (2 ^ bits) (by omega) (by omega)]
  exact decide_eq_false (by omega)

/-- A tick value `a` ahead of `b` by 1 to half the range is after `b`. -/
theorem time_after_of_lt (bits a b : Nat) (h1 : b < a) (h2 : a - b ≤ 2 ^ (bits - 1))
    (hb : 1 ≤ bits) : time_after bits a b = true := by
  have hp := two_pow_pred bits hb
  have hpos : 0 < 2 ^ (bits - 1) := Nat.pow_pos (by decide)
  obtain ⟨e, rfl⟩ : ∃ e, a = b + e := ⟨a - b, by omega⟩
  have he : e ≤ 2 ^ (bits - 1) := by omega
  unfold time_after
  rw [wrap_sub_behind b e (2 ^ bits) (by omega) (by omega)]
  exact decide_eq_true (by omega)

/-- A tick value `a` ahead of `b` by more than half the range and less than the whole
range is not after `b`: the signed difference has wrapped. -/
theorem time_after_wrapped (bits a b : Nat) (h1 : b < a) (h2 : 2 ^ (bits - 1) < a - b)
    (h3 : a - b < 2 ^ bits) (hb : 1 ≤ bits) : time_after bits a b = false := by
  have hp := two_pow_pred bits hb
  obtain ⟨e, rfl⟩ : ∃ e, a = b + e := ⟨a - b, by omega⟩
  unfold time_after
  rw [wrap_sub_behind b e (2 ^ bits) (by omega) (by omega)]
  exact decide_eq_false (by omega)

/-! ## Update cache -/

theorem jiffies_conf (x : World) :
    (jiffies x).1 = x.now ∧ (jiffies x).2.HZ = x.HZ ∧
    (jiffies x).2.BITS_PER_LONG = x.BITS_PER_LONG := by
  unfold jiffies
  dsimp only
  split_ifs <;> exact ⟨rfl, rfl, rfl⟩

/-- A cache stamped at a tick that is not in the future and read no later than
`last_updated + HZ + HZ / 2` is not stale for `time_after`, `HZ + HZ / 2` being less than
half the range of `unsigned long`. -/
theorem fresh_not_after (d : it87_data) (w : World) (hr : d.last_updated ≤ w.now)
    (hn : w.now ≤ d.last_updated + w.HZ + w.HZ / 2)
    (hw : w.HZ + w.HZ / 2 < 2 ^ (w.BITS_PER_LONG - 1)) (hb : 1 ≤ w.BITS_PER_LONG) :
    time_after w.BITS_PER_LONG w.now (d.last_updated + w.HZ + w.HZ / 2) = false :=
  time_after_of_le _ _ _ hn (by omega) hb

/-- C10: when the cache is valid and `jiffies` is not after
`last_updated + HZ + HZ / 2`, the `time_after` of the source being false,
`it87_update_device` returns the instance unchanged (every cached field, `valid` and
`last_updated`) and touches no port, no MMIO byte, no chip register and nothing of the
bridge manager; a second call that is still inside the window returns the same instance
again. -/
theorem update_device_fresh (d : it87_data) (w : World) (hv : d.valid = true)
    (hf : time_after w.BITS_PER_LONG w.now (d.last_updated + w.HZ + w.HZ / 2) = false) :
    (it87_update_device d w).1 = 0 ∧
    (it87_update_device d w).2.1 = d ∧
    (it87_update_device d w).2.2.port_log = w.port_log ∧
    (it87_update_device d w).2.2.mmio_log = w.mmio_log ∧
    (it87_update_device d w).2.2.mem = w.mem ∧
    (it87_update_device d w).2.2.ec_regs = w.ec_regs ∧
    (it87_update_device d w).2.2.ec_latch = w.ec_latch ∧
    (it87_update_device d w).2.2.it87_h2_global = w.it87_h2_global ∧
    (it87_update_device d w).2.2.HZ = w.HZ ∧
    (it87_update_device d w).2.2.BITS_PER_LONG = w.BITS_PER_LONG ∧
    (time_after w.BITS_PER_LONG (it87_update_device d w).2.2.now
        (d.last_updated + w.HZ + w.HZ / 2) = false →
      (it87_update_device d (it87_update_device d w).2.2).2.1 = d) := by
  have key : ∀ x : World,
      time_after x.BITS_PER_LONG x.now (d.last_updated + x.HZ + x.HZ / 2) = false →
      it87_update_device d x =
        (0, d, mutex_unlock Mutex.update_lock (jiffies (mutex_lock Mutex.update_lock x)).2) := by
    intro x hx
    obtain ⟨j1, j2, j3⟩ := jiffies_conf (mutex_lock Mutex.update_lock x)
    have hx2 : time_after (mutex_lock Mutex.update_lock x).BITS_PER_LONG
        (mutex_lock Mutex.update_lock x).now
        (d.last_updated + (mutex_lock Mutex.update_lock x).HZ +
          (mutex_lock Mutex.update_lock x).HZ / 2) = false := hx
    unfold it87_update_device
    dsimp only
    rw [if_neg]
    rw [j1, j2, j3, hx2, hv]
    simp
  have frame : ∀ x : World,
      (mutex_unlock Mutex.update_lock (jiffies (mutex_lock Mutex.update_lock x)).2).port_log
        = x.port_log ∧
      (mutex_unlock Mutex.update_lock (jiffies (mutex_lock Mutex.update_lock x)).2).mmio_log
        = x.mmio_log ∧
      (mutex_unlock Mutex.update_lock (jiffies (mutex_lock Mutex.update_lock x)).2).mem
        = x.mem ∧
      (mutex_unlock Mutex.update_lock (jiffies (mutex_lock Mutex.update_lock x)).2).ec_regs
        = x.ec_regs ∧
      (mutex_unlock Mutex.update_lock (jiffies (mutex_lock Mutex.update_lock x)).2).ec_latch
        = x.ec_latch ∧
      (mutex_unlock Mutex.update_lock
          (jiffies (mutex_lock Mutex.update_lock x)).2).it87_h2_global = x.it87_h2_global ∧
      (mutex_unlock Mutex.update_lock (jiffies (mutex_lock Mutex.update_lock x)).2).HZ
        = x.HZ ∧
      (mutex_unlock Mutex.update_lock
          (jiffies (mutex_lock Mutex.update_lock x)).2).BITS_PER_LONG = x.BITS_PER_LONG := by
    intro x
    unfold jiffies mutex_lock mutex_unlock
    dsimp only
    split_ifs <;> simp
  rw [key w hf]
  obtain ⟨f1, f2, f3, f4, f5, f6, f7, f8⟩ := frame w
  refine ⟨rfl, rfl, f1, f2, f3, f4, f5, f6, f7, f8, ?_⟩
  intro h2
  rw [key _ (by rw [f7, f8]; exact h2)]

/-- C10 on a valid cache refreshed at tick 99, read at tick 100 with `HZ = 4` on a
64-bit kernel. -/
theorem update_device_fresh_witness :
    (it87_update_device { bank_data with valid := true, last_updated := 99, alarms := 0x55 }
        quiet_world).2.1
      = { bank_data with valid := true, last_updated := 99, alarms := 0x55 } ∧
    (it87_update_device { bank_data with valid := true, last_updated := 99, alarms := 0x55 }
        quiet_world).2.2.port_log = [] :=
  have h := update_device_fresh
    { bank_data with valid := true, last_updated := 99, alarms := 0x55 } quiet_world
    (by decide)
    (fresh_not_after
      { bank_data with valid := true, last_updated := 99, alarms := 0x55 } quiet_world
      (by decide) (by decide) (by decide) (by decide))
  ⟨h.2.1, h.2.2.1⟩

set_option maxRecDepth 100000 in
/-- Outside the window the same call does go to the hardware: with the cache refreshed
at tick 90 the banked reads of the alarm registers appear in the port log. -/
theorem update_device_stale_reads :
    (it87_update_device { bank_data with valid := true, last_updated := 90 }
        quiet_world).2.2.port_log ≠ [] ∧
    (it87_update_device { bank_data with valid := true, last_updated := 90 }
        quiet_world).2.1.last_updated = 100 := by
  decide

/-! ## Accessor selection -/

theorem init_reg_pointers_frame (d : it87_data) :
    (init_reg_pointers d).mmio = d.mmio ∧ (init_reg_pointers d).mmio_bridge = d.mmio_bridge ∧
    (init_reg_pointers d).mmio_h2ram = d.mmio_h2ram ∧
    (init_reg_pointers d).ecio_h2ram = d.ecio_h2ram ∧
    (init_reg_pointers d).features = d.features := by
  unfold init_reg_pointers
  split <;> exact ⟨rfl, rfl, rfl, rfl, rfl⟩

theorem reader_injective (a b : Transport) (h : a.reader = b.reader) : a = b := by
  cases a <;> cases b <;> first | rfl | exact absurd h (by decide)

/-- C12: for every instance `it87_init_regs` installs the read and the write accessor
of one and the same transport, the one the precedence order of the specification
selects (bridge-MMIO, H2RAM hybrid, plain MMIO, ECIO hybrid, bank-select, plain port),
and no other transport has that read accessor. -/
theorem init_regs_selects_transport (d : it87_data) :
    (it87_init_regs d).read = (spec_transport d).reader ∧
    (it87_init_regs d).write = (spec_transport d).writer ∧
    (∀ t : Transport, (it87_init_regs d).read = t.reader → t = spec_transport d) := by
  obtain ⟨f1, f2, f3, f4, f5⟩ := init_reg_pointers_frame d
  have hb : has_bank_sel (init_reg_pointers d) = has_bank_sel d := by
    simp only [has_bank_sel, f5]
  have key : (it87_init_regs d).read = (spec_transport d).reader ∧
      (it87_init_regs d).write = (spec_transport d).writer := by
    unfold it87_init_regs spec_transport transport_precedence
    dsimp only
    rw [f1, f2, f3, f4, hb]
    by_cases h1 : d.mmio = 0 <;> cases h2 : d.mmio_bridge <;> cases h3 : d.mmio_h2ram <;>
      cases h4 : d.ecio_h2ram <;> cases h5 : has_bank_sel d <;>
      simp [List.find?, Transport.eligible, Transport.reader, Transport.writer, h1, h2, h3,
        h4, h5]
  exact ⟨key.1, key.2, fun t ht => reader_injective _ _ (ht.symm.trans key.1)⟩

/-! ## Bridge-MMIO transport -/

theorem use_slot_mem (idx : Int) (w : World) :
    (it87_h2_global_use_slot idx w).2.mem = w.mem := by
  unfold it87_h2_global_use_slot
  simp only [mutex_lock, mutex_unlock, h2_global_call]
  split_ifs <;> simp

theorem and_3ff_eq (x : Nat) : x &&& 0x3FF = x % 1024 := by
  have h := Nat.and_pow_two_sub_one_eq_mod x 10
  simpa using h

/-- C13 (amended): for every register number the bridge-MMIO accessors either stop
after a failed slot activation or make exactly one MMIO access, at offset `reg` from
the mapped base, unmasked; that offset is `reg & 0x3FF`, inside the 1 KiB window,
exactly when `reg <= 0x3FF`. -/
theorem bridge_access_offset (d : it87_data) (w : World) (reg value : Nat) :
    ((it87_bridge_read d reg w).2.mmio_log
        = w.mmio_log ++ [MmioEv.readb (d.mmio + u16 reg)] ∨
      ((it87_bridge_read d reg w).1 = - EIO ∧
        (it87_bridge_read d reg w).2.mmio_log = w.mmio_log)) ∧
    ((it87_bridge_write d reg value w).mmio_log
        = w.mmio_log ++ [MmioEv.writeb (u8 value) (d.mmio + u16 reg)] ∨
      (it87_bridge_write d reg value w).mmio_log = w.mmio_log) ∧
    (u16 reg ≤ 0x3FF ↔ u16 reg = u16 reg &&& 0x3FF) := by
  refine ⟨(bridge_read_frame d reg w).2, (bridge_write_frame d reg value w).2, ?_⟩
  rw [and_3ff_eq]
  omega

/-- C13 as stated fails: on a bridge-MMIO instance mapped at 0xFE000000 the accessors
called with register 0x400 access the byte at offset 0x400, outside the 1 KiB window,
not the byte at offset `0x400 & 0x3FF = 0`. -/
theorem bridge_access_unmasked :
    (it87_bridge_read bridge_data 0x400 quiet_world).2.mmio_log
      = [MmioEv.readb (0xFE000000 + 0x400)] ∧
    (it87_bridge_write bridge_data 0x400 0x12 quiet_world).mmio_log
      = [MmioEv.writeb 0x12 (0xFE000000 + 0x400)] ∧
    (0x400 &&& 0x3FF) = 0 ∧
    (it87_bridge_read bridge_data 0x400 unconfigured_world).1 = - EIO ∧
    (it87_bridge_read bridge_data 0x400
      { unconfigured_world with it87_h2_global := amd_two_slots }).2.mmio_log
      = [MmioEv.readb (0xFE000000 + 0x400)] := by
  decide

/-- C14: on an instance with a mapped window, no FEAT_MMIO, `mmio_bridge` set and the
bridge manager ready, when activating the slot of the instance (slot 1 if the
Super-I/O address is 0x4E, else slot 0) fails, `it87_bridge_read` returns -EIO and
`it87_bridge_write` returns, both without any MMIO access. -/
theorem bridge_activation_failure (d : it87_data) (w : World) (reg value : Nat)
    (hm : d.mmio ≠ 0) (hf : d.features &&& FEAT_MMIO = 0)
    (hr : w.it87_h2_global_ready = true) (hb : d.mmio_bridge = true)
    (hfail : (it87_h2_global_use_slot (if d.sioaddr = 0x4E then 1 else 0) w).1 ≠ 0) :
    (it87_bridge_read d reg w).1 = - EIO ∧
    (it87_bridge_read d reg w).2.mmio_log = w.mmio_log ∧
    (it87_bridge_read d reg w).2.mem = w.mem ∧
    (it87_bridge_write d reg value w).mmio_log = w.mmio_log ∧
    (it87_bridge_write d reg value w).mem = w.mem := by
  obtain ⟨-, u2, -⟩ := use_slot_frame (slot_of d) w
  have u3 := use_slot_mem (slot_of d) w
  have hs : slot_of d = (if d.sioaddr = 0x4E then 1 else 0) := rfl
  rw [← hs] at hfail
  have hc : (decide (d.mmio ≠ 0) && decide (d.features &&& FEAT_MMIO = 0)
      && w.it87_h2_global_ready && d.mmio_bridge) = true := by
    simp [hm, hf, hr, hb]
  unfold it87_bridge_read it87_bridge_write
  dsimp only
  rw [if_pos hc, if_pos hfail, if_pos hc, if_pos hfail]
  exact ⟨rfl, u2, u3, u2, u3⟩

/-- C14 on a bridge-MMIO instance whose slot was never configured. -/
theorem bridge_activation_failure_witness :
    (it87_bridge_read bridge_data 0x13 unconfigured_world).1 = - EIO ∧
    (it87_bridge_read bridge_data 0x13 unconfigured_world).2.mmio_log = [] ∧
    (it87_bridge_read bridge_data 0x13 unconfigured_world).2.mem = unconfigured_world.mem ∧
    (it87_bridge_write bridge_data 0x13 0x77 unconfigured_world).mmio_log = [] ∧
    (it87_bridge_write bridge_data 0x13 0x77 unconfigured_world).mem
      = unconfigured_world.mem :=
  bridge_activation_failure bridge_data unconfigured_world 0x13 0x77
    (by decide) (by decide) (by decide) (by decide) (by decide)

/-! ## Slot bookkeeping -/

/-- C15 as stated fails: on a bound bridge `it87_h2_set_slot(0, 0xFE001234,
0xFFFFFFFF)` is accepted, aligns the base down to 0xFE000000, sets `have[0]`, leaves
slot 1 and the PCI log alone, but stores 1 page: `size + 0xFFFF` wraps in 32 bits and the
guard `pages == 0` turns the result into 1, whereas `max(1, ceil(size / 65536))` is
65536; so for 0xFFFF0001, while 0xFFFF0000 still gives the ceiling 65535. -/
theorem set_slot_pages_wrap :
    amd_fresh.h.bridge = true ∧
    (it87_h2_set_slot amd_fresh 0 0xFE001234 0xFFFFFFFF).1 = 0 ∧
    (it87_h2_set_slot amd_fresh 0 0xFE001234 0xFFFFFFFF).2.h.base 0 = 0xFE000000 ∧
    (it87_h2_set_slot amd_fresh 0 0xFE001234 0xFFFFFFFF).2.h.have_ 0 = true ∧
    (it87_h2_set_slot amd_fresh 0 0xFE001234 0xFFFFFFFF).2.h.have_ 1 = false ∧
    (it87_h2_set_slot amd_fresh 0 0xFE001234 0xFFFFFFFF).2.dev.log = [] ∧
    (it87_h2_set_slot amd_fresh 0 0xFE001234 0xFFFFFFFF).2.h.pages 0 = 1 ∧
    spec_pages 0xFFFFFFFF = 65536 ∧
    (it87_h2_set_slot amd_fresh 0 0xFE001234 0xFFFF0001).2.h.pages 0 = 1 ∧
    spec_pages 0xFFFF0001 = 65536 ∧
    (it87_h2_set_slot amd_fresh 0 0xFE001234 0xFFFF0000).2.h.pages 0 = 65535 ∧
    spec_pages 0xFFFF0000 = 65535 := by
  decide

/-- C16: `it87_h2_set_slot` returns -ENODEV when no bridge is bound, else -EINVAL when
`idx` is not 0 or 1, else -EINVAL when `mmio_base` or `size` is 0, else -ERANGE when
`mmio_base` exceeds 0xFFFFFFFF, else 0; it returns 0 exactly when none of the four
conditions holds, and whenever it returns nonzero the handle and the device are
unchanged. -/
theorem set_slot_failures (s : H2Sys) (idx : Int) (mmio_base size : Nat) :
    (s.h.bridge = false → (it87_h2_set_slot s idx mmio_base size).1 = -ENODEV) ∧
    (s.h.bridge = true → (idx < 0 ∨ idx > 1) →
      (it87_h2_set_slot s idx mmio_base size).1 = -EINVAL) ∧
    (s.h.bridge = true → (idx = 0 ∨ idx = 1) → (mmio_base = 0 ∨ size = 0) →
      (it87_h2_set_slot s idx mmio_base size).1 = -EINVAL) ∧
    (s.h.bridge = true → (idx = 0 ∨ idx = 1) → mmio_base ≠ 0 → size ≠ 0 →
      0xFFFFFFFF < mmio_base → (it87_h2_set_slot s idx mmio_base size).1 = -ERANGE) ∧
    ((it87_h2_set_slot s idx mmio_base size).1 = 0 ↔
      (s.h.bridge = true ∧ (idx = 0 ∨ idx = 1) ∧ mmio_base ≠ 0 ∧ size ≠ 0 ∧
        mmio_base ≤ 0xFFFFFFFF)) ∧
    ((it87_h2_set_slot s idx mmio_base size).1 ≠ 0 →
      (it87_h2_set_slot s idx mmio_base size).2 = s) := by
  have e1 : (-ENODEV : Int) ≠ 0 := by decide
  have e2 : (-EINVAL : Int) ≠ 0 := by decide
  have e3 : (-ERANGE : Int) ≠ 0 := by decide
  unfold it87_h2_set_slot
  dsimp only
  by_cases hb : s.h.bridge = true
  · simp only [hb, Bool.not_true, Bool.false_eq_true, if_false]
    by_cases hi : idx < 0 ∨ idx > 1
    · rw [if_pos hi]
      refine ⟨by simp, fun _ _ => rfl, ?_, ?_, ?_, fun _ => rfl⟩
      · intro _ h
        omega
      · intro _ h
        omega
      · constructor
        · intro h
          exact absurd h e2
        · intro h
          omega
    · rw [if_neg hi]
      have hi2 : idx = 0 ∨ idx = 1 := by omega
      by_cases hz : mmio_base = 0 ∨ size = 0
      · rw [if_pos hz]
        refine ⟨by simp, fun _ h => absurd h hi, fun _ _ _ => rfl, ?_, ?_, fun _ => rfl⟩
        · intro _ _ h1 h2
          rcases hz with h | h
          · exact absurd h h1
          · exact absurd h h2
        · constructor
          · intro h
            exact absurd h e2
          · intro h
            rcases hz with g | g
            · exact absurd g h.2.2.1
            · exact absurd g h.2.2.2.1
      · rw [if_neg hz]
        by_cases hg : mmio_base > 0xFFFFFFFF
        · rw [if_pos hg]
          refine ⟨by simp, fun _ h => absurd h hi, fun _ _ h => absurd h hz,
            fun _ _ _ _ _ => rfl, ?_, fun _ => rfl⟩
          constructor
          · intro h
            exact absurd h e3
          · intro h
            omega
        · rw [if_neg hg]
          refine ⟨by simp, fun _ h => absurd h hi, fun _ _ h => absurd h hz, ?_, ?_, ?_⟩
          · intro _ _ _ _ h
            omega
          · constructor
            · intro _
              refine ⟨trivial, hi2, ?_, ?_, ?_⟩
              · exact fun h => hz (Or.inl h)
              · exact fun h => hz (Or.inr h)
              · omega
            · intro _
              rfl
          · intro h
            exact absurd rfl h
  · have hb2 : s.h.bridge = false := by simpa using hb
    rw [hb2]
    simp [ENODEV]

/-- C16 on a bound AMD handle: slot index 2 is refused with -EINVAL, a base above
32 bits with -ERANGE, and both calls leave handle and device as they were. -/
theorem set_slot_failures_witness :
    (it87_h2_set_slot amd_fresh 2 0xFE000000 0x1000).1 = -EINVAL ∧
    (it87_h2_set_slot amd_fresh 2 0xFE000000 0x1000).2 = amd_fresh ∧
    (it87_h2_set_slot amd_fresh 1 0x100000000 0x1000).1 = -ERANGE ∧
    (it87_h2_set_slot amd_fresh 1 0x100000000 0x1000).2 = amd_fresh :=
  ⟨(set_slot_failures amd_fresh 2 0xFE000000 0x1000).2.1 (by decide) (by decide),
   (set_slot_failures amd_fresh 2 0xFE000000 0x1000).2.2.2.2.2 (by decide),
   (set_slot_failures amd_fresh 1 0x100000000 0x1000).2.2.2.1 (by decide) (by decide)
     (by decide) (by decide) (by decide),
   (set_slot_failures amd_fresh 1 0x100000000 0x1000).2.2.2.2.2 (by decide)⟩

/-! ## ECIO offsets and error reporting -/

/-- C17: for every offset below 0x0100 the two ECIO transactions return -EINVAL at
once: the world, with its port log, is the one they were given and `*value` is
untouched. -/
theorem ecio_low_offset_rejected (w : World) (offset value v0 : Nat) (h : offset < 0x100) :
    it87_ecio_read_once offset v0 w = (-EINVAL, v0, w) ∧
    it87_ecio_write_once offset value w = (-EINVAL, w) := by
  have hu : u16 offset = offset := by
    simp only [u16]
    omega
  have hz : (u16 offset >>> 8) &&& 0xFF = 0 := by
    rw [hu, Nat.shiftRight_eq_div_pow]
    have : offset / 2 ^ 8 = 0 := by omega
    rw [this]
    rfl
  unfold it87_ecio_read_once it87_ecio_write_once
  dsimp only
  rw [if_pos hz, if_pos hz]
  exact ⟨rfl, rfl⟩

/-- C17 at offset 0x00FF on a world whose status port is ready. -/
theorem ecio_low_offset_rejected_witness :
    it87_ecio_read_once 0x00FF 0x33 ready_world = (-EINVAL, 0x33, ready_world) ∧
    it87_ecio_write_once 0x00FF 0x01 ready_world = (-EINVAL, ready_world) :=
  ecio_low_offset_rejected ready_world 0x00FF 0x01 0x33 (by decide)

/-- C18 at a failing input: on an ECIO-hybrid instance the read of register 0x905
through `it87_ecio_read` returns 0 when the transaction times out (status port stuck at
0x02) and returns 0 as well when the transaction succeeds with the data byte 0x00: the
failed read cannot be told from that successful one. -/
theorem ecio_read_failure_hidden :
    ecio_data.ecio_h2ram = true ∧
    (it87_ecio_read_once 0x905 0 stuck_world).1 = -ETIMEDOUT ∧
    (it87_ecio_read ecio_data 0x905 stuck_world).1 = 0 ∧
    (it87_ecio_read_once 0x905 0 zero_world).1 = 0 ∧
    (it87_ecio_read ecio_data 0x905 zero_world).1 = 0 ∧
    (it87_ecio_read_once 0x0005 0 zero_world).1 = -EINVAL ∧
    (_it87_ecio_read ecio_data 0x0005 zero_world).1 = 0 := by
  decide

/-! ## ECIO hybrid transport -/

theorem ecio_step_refl (w : World) : ecio_step w w :=
  ⟨⟨[], by simp, rfl⟩, rfl, rfl, rfl, rfl⟩

theorem ecio_step_trans {a b c : World} (h1 : ecio_step a b) (h2 : ecio_step b c) :
    ecio_step a c := by
  obtain ⟨⟨e1, l1, p1⟩, m1, g1, z1, b1⟩ := h1
  obtain ⟨⟨e2, l2, p2⟩, m2, g2, z2, b2⟩ := h2
  refine ⟨⟨e1 ++ e2, ?_, ?_⟩, m2.trans m1, g2.trans g1, z2.trans z1, b2.trans b1⟩
  · rw [l2, l1, List.append_assoc]
  · rw [List.all_append, p1, p2]
    rfl

theorem ecio_step_jiffies (w : World) : ecio_step w (jiffies w).2 := by
  unfold jiffies
  dsimp only
  split_ifs <;> exact ⟨⟨[], by simp, rfl⟩, rfl, rfl, rfl, rfl⟩

theorem ecio_step_lock (m : Mutex) (w : World) : ecio_step w (mutex_lock m w) :=
  ⟨⟨[], by simp [mutex_lock], rfl⟩, rfl, rfl, rfl, rfl⟩

theorem ecio_step_unlock (m : Mutex) (w : World) : ecio_step w (mutex_unlock m w) :=
  ⟨⟨[], by simp [mutex_unlock], rfl⟩, rfl, rfl, rfl, rfl⟩

theorem ecio_step_inb (port : Nat) (w : World)
    (hp : port = ECIO_CMD_STAT ∨ port = ECIO_DATA) :
    ecio_step w (it87_ecio_inb port w).2 := by
  refine ⟨⟨[PortEv.inb port (it87_ecio_inb port w).1], rfl, ?_⟩, rfl, rfl, rfl, rfl⟩
  rcases hp with h | h <;> simp [on_ecio_port, h]

theorem ecio_step_outb (value port : Nat) (w : World)
    (hp : port = ECIO_CMD_STAT ∨ port = ECIO_DATA) :
    ecio_step w (it87_ecio_outb value port w) := by
  have hm : (it87_ecio_outb value port w).port_log
        = w.port_log ++ [PortEv.outb (u8 value) port] ∧
      (it87_ecio_outb value port w).mmio_log = w.mmio_log ∧
      (it87_ecio_outb value port w).it87_h2_global = w.it87_h2_global ∧
      (it87_ecio_outb value port w).HZ = w.HZ ∧
      (it87_ecio_outb value port w).BITS_PER_LONG = w.BITS_PER_LONG := by
    unfold it87_ecio_outb outb
    dsimp only
    split_ifs <;> exact ⟨rfl, rfl, rfl, rfl, rfl⟩
  refine ⟨⟨_, hm.1, ?_⟩, hm.2.1, hm.2.2.1, hm.2.2.2⟩
  rcases hp with h | h <;> simp [on_ecio_port, h]

theorem ecio_step_loop (ready : Nat → Bool) (deadline : Nat) (fuel : Nat) :
    ∀ w : World, ecio_step w (ecio_wait_loop ready deadline fuel w).2 := by
  induction fuel with
  | zero =>
    intro w
    unfold ecio_wait_loop
    exact ecio_step_jiffies w
  | succ n ih =>
    intro w
    unfold ecio_wait_loop
    dsimp only
    have s1 := ecio_step_jiffies w
    have s2 := ecio_step_inb ECIO_CMD_STAT (jiffies w).2 (Or.inl rfl)
    split_ifs
    · exact ecio_step_trans s1 s2
    · exact ecio_step_trans s1 (ecio_step_trans s2 (ih _))
    · exact s1

theorem ecio_step_wait_ibe (w : World) : ecio_step w (it87_ecio_wait_ibe w).2 := by
  unfold it87_ecio_wait_ibe
  exact ecio_step_trans (ecio_step_jiffies w) (ecio_step_loop _ _ _ _)

theorem ecio_step_wait_obf (w : World) : ecio_step w (it87_ecio_wait_obf w).2 := by
  unfold it87_ecio_wait_obf
  exact ecio_step_trans (ecio_step_jiffies w) (ecio_step_loop _ _ _ _)

theorem ecio_step_send (value port : Nat) (w : World)
    (hp : port = ECIO_CMD_STAT ∨ port = ECIO_DATA) :
    ecio_step w (it87_ecio_wait_ibe (it87_ecio_outb value port w)).2 :=
  ecio_step_trans (ecio_step_outb value port w hp) (ecio_step_wait_ibe _)

theorem ecio_step_ite {w : World} {c : Prop} [Decidable c] {x y : Int × World}
    (hx : ecio_step w x.2) (hy : ecio_step w y.2) :
    ecio_step w (if c then x else y).2 := by
  split_ifs
  · exact hx
  · exact hy

theorem ecio_step_ite3 {w : World} {c : Prop} [Decidable c] {x y : Int × Nat × World}
    (hx : ecio_step w x.2.2) (hy : ecio_step w y.2.2) :
    ecio_step w (if c then x else y).2.2 := by
  split_ifs
  · exact hx
  · exact hy

/-- Whatever the status port answers, a read transaction touches the two ECIO ports
only. -/
theorem ecio_step_read_once (offset v0 : Nat) (w : World) :
    ecio_step w (it87_ecio_read_once offset v0 w).2.2 := by
  have a := ecio_step_wait_ibe w
  have b := ecio_step_trans a (ecio_step_send ECIO_CMD_READ ECIO_CMD_STAT _ (Or.inl rfl))
  have c := ecio_step_trans b (ecio_step_wait_ibe _)
  have e := ecio_step_trans c
    (ecio_step_send ((u16 offset >>> 8) &&& 0xFF) ECIO_DATA _ (Or.inr rfl))
  have f := ecio_step_trans e (ecio_step_wait_ibe _)
  have g := ecio_step_trans f (ecio_step_send (u16 offset &&& 0xFF) ECIO_DATA _ (Or.inr rfl))
  have k := ecio_step_trans g (ecio_step_wait_obf _)
  have v := ecio_step_trans k (ecio_step_inb ECIO_DATA _ (Or.inr rfl))
  unfold it87_ecio_read_once
  dsimp only
  refine ecio_step_ite3 (by dsimp only; exact ecio_step_refl w) ?_
  refine ecio_step_ite3 (by dsimp only; exact a) ?_
  refine ecio_step_ite3 (by dsimp only; exact b) ?_
  refine ecio_step_ite3 (by dsimp only; exact c) ?_
  refine ecio_step_ite3 (by dsimp only; exact e) ?_
  refine ecio_step_ite3 (by dsimp only; exact f) ?_
  refine ecio_step_ite3 (by dsimp only; exact g) ?_
  refine ecio_step_ite3 (by dsimp only; exact k) ?_
  dsimp only
  exact v

/-- Whatever the status port answers, a write transaction touches the two ECIO ports
only. -/
theorem ecio_step_write_once (offset value : Nat) (w : World) :
    ecio_step w (it87_ecio_write_once offset value w).2 := by
  have a := ecio_step_wait_ibe w
  have b := ecio_step_trans a (ecio_step_send ECIO_CMD_WRITE ECIO_CMD_STAT _ (Or.inl rfl))
  have c := ecio_step_trans b (ecio_step_wait_ibe _)
  have e := ecio_step_trans c
    (ecio_step_send ((u16 offset >>> 8) &&& 0xFF) ECIO_DATA _ (Or.inr rfl))
  have f := ecio_step_trans e (ecio_step_wait_ibe _)
  have g := ecio_step_trans f (ecio_step_send (u16 offset &&& 0xFF) ECIO_DATA _ (Or.inr rfl))
  have k := ecio_step_trans g (ecio_step_wait_ibe _)
  have m := ecio_step_trans k (ecio_step_send value ECIO_DATA _ (Or.inr rfl))
  unfold it87_ecio_write_once
  dsimp only
  refine ecio_step_ite (ecio_step_refl w) ?_
  refine ecio_step_ite a ?_
  refine ecio_step_ite b ?_
  refine ecio_step_ite c ?_
  refine ecio_step_ite e ?_
  refine ecio_step_ite f ?_
  refine ecio_step_ite g ?_
  refine ecio_step_ite k ?_
  refine ecio_step_ite m ?_
  dsimp only
  exact m

theorem ecio_not_pair (d : it87_data) (hp : pair_apart d) (evs : List PortEv)
    (h : evs.all on_ecio_port = true) : evs.all (fun e => !on_port_pair d e) = true := by
  obtain ⟨p1, p2, p3, p4⟩ := hp
  rw [List.all_eq_true] at h ⊢
  intro e he
  have hx := h e he
  cases e with
  | outb v port =>
    simp only [on_ecio_port, Bool.or_eq_true, decide_eq_true_eq] at hx
    simp only [on_port_pair, Bool.not_eq_true', Bool.or_eq_false_iff, decide_eq_false_iff_not]
    rcases hx with g | g <;> subst g
    · exact ⟨Ne.symm p1, Ne.symm p3⟩
    · exact ⟨Ne.symm p2, Ne.symm p4⟩
  | inb port v =>
    simp only [on_ecio_port, Bool.or_eq_true, decide_eq_true_eq] at hx
    simp only [on_port_pair, Bool.not_eq_true', Bool.or_eq_false_iff, decide_eq_false_iff_not]
    rcases hx with g | g <;> subst g
    · exact ⟨Ne.symm p1, Ne.symm p3⟩
    · exact ⟨Ne.symm p2, Ne.symm p4⟩

/-- C19: on an instance with `ecio_h2ram` set, for `reg` in [0x800, 0xFFF] the ECIO
accessors access the ports 0x3F4 and 0x3F0 only (no access to the address/data pair of
the instance when that pair is apart from the ECIO ports, no MMIO access, bridge
manager untouched); for `reg` below 0x800 they make exactly the two accesses of the
address/data pair. -/
theorem ecio_range_split (d : it87_data) (w : World) (reg value : Nat)
    (he : d.ecio_h2ram = true) :
    (0x800 ≤ reg → reg ≤ 0xFFF →
      (∃ evs, (it87_ecio_read d reg w).2.port_log = w.port_log ++ evs ∧
        evs.all on_ecio_port = true ∧
        (pair_apart d → evs.all (fun e => !on_port_pair d e) = true) ∧
        (it87_ecio_read d reg w).2.mmio_log = w.mmio_log ∧
        (it87_ecio_read d reg w).2.it87_h2_global = w.it87_h2_global) ∧
      (∃ evs, (it87_ecio_write d reg value w).port_log = w.port_log ++ evs ∧
        evs.all on_ecio_port = true ∧
        (pair_apart d → evs.all (fun e => !on_port_pair d e) = true) ∧
        (it87_ecio_write d reg value w).mmio_log = w.mmio_log ∧
        (it87_ecio_write d reg value w).it87_h2_global = w.it87_h2_global)) ∧
    (reg < 0x800 →
      (it87_ecio_read d reg w).2.port_log = w.port_log ++
          [PortEv.outb (u8 reg) (d.addr + IT87_ADDR_REG_OFFSET),
           PortEv.inb (d.addr + IT87_DATA_REG_OFFSET) (it87_ecio_read d reg w).1.toNat] ∧
      (it87_ecio_read d reg w).2.mmio_log = w.mmio_log ∧
      (it87_ecio_write d reg value w).port_log = w.port_log ++
          [PortEv.outb (u8 reg) (d.addr + IT87_ADDR_REG_OFFSET),
           PortEv.outb (u8 value) (d.addr + IT87_DATA_REG_OFFSET)] ∧
      (it87_ecio_write d reg value w).mmio_log = w.mmio_log) := by
  constructor
  · intro hlo hhi
    have hu : u16 reg = reg := u16_of_le_fff hhi
    have hr : u16 reg ≥ H2RAM_LOW_BOUND ∧ u16 reg ≤ H2RAM_HI_BOUND ∧ d.ecio_h2ram = true := by
      rw [hu]
      exact ⟨hlo, hhi, he⟩
    constructor
    · have st : ecio_step w (_it87_ecio_read d reg w).2 := by
        unfold _it87_ecio_read
        exact ecio_step_trans (ecio_step_lock _ w)
          (ecio_step_trans (ecio_step_read_once _ _ _) (ecio_step_unlock _ _))
      obtain ⟨⟨evs, l, p⟩, m, g, -⟩ := st
      unfold it87_ecio_read
      rw [if_pos hr]
      exact ⟨evs, l, p, fun hp => ecio_not_pair d hp evs p, m, g⟩
    · have st : ecio_step w (_it87_ecio_write d reg value w) := by
        unfold _it87_ecio_write
        exact ecio_step_trans (ecio_step_lock _ w)
          (ecio_step_trans (ecio_step_write_once _ _ _) (ecio_step_unlock _ _))
      obtain ⟨⟨evs, l, p⟩, m, g, -⟩ := st
      unfold it87_ecio_write
      rw [if_pos hr]
      exact ⟨evs, l, p, fun hp => ecio_not_pair d hp evs p, m, g⟩
  · intro hlt
    have hu : u16 reg = reg := u16_of_le_fff (by omega)
    have hr : ¬ (u16 reg ≥ H2RAM_LOW_BOUND ∧ u16 reg ≤ H2RAM_HI_BOUND ∧ d.ecio_h2ram = true) := by
      rw [hu]
      simp [H2RAM_LOW_BOUND]
      omega
    unfold it87_ecio_read it87_ecio_write
    rw [if_neg hr, if_neg hr]
    simp [_it87_io_read, _it87_io_write, inb, outb]
    split_ifs <;> simp

/-- C19 on an ECIO-hybrid instance with port pair 0x295/0x296 for the registers 0x905
and 0x13: the read of 0x905 stays on the ECIO ports and off the pair, the write of 0x13
is the two accesses of the pair. -/
theorem ecio_range_split_witness :
    (∃ evs, (it87_ecio_read ecio_data 0x905 ready_world).2.port_log
        = ready_world.port_log ++ evs ∧
      evs.all on_ecio_port = true ∧
      evs.all (fun e => !on_port_pair ecio_data e) = true) ∧
    (it87_ecio_write ecio_data 0x13 0x77 ready_world).port_log
      = ready_world.port_log ++ [PortEv.outb (u8 0x13) (ecio_data.addr + IT87_ADDR_REG_OFFSET),
          PortEv.outb (u8 0x77) (ecio_data.addr + IT87_DATA_REG_OFFSET)] :=
  ⟨(((ecio_range_split ecio_data ready_world 0x905 0x01 (by decide)).1
      (by decide) (by decide)).1).elim
      (fun evs h => ⟨evs, h.1, h.2.1,
        h.2.2.1 ⟨by decide, by decide, by decide, by decide⟩⟩),
   ((ecio_range_split ecio_data ready_world 0x13 0x77 (by decide)).2 (by decide)).2.2.1⟩

/-- The read of register 0x905 on the ready world, evaluated: the ECIO handshake and
the byte 0x5A of the data port. -/
theorem ecio_hybrid_read_trace :
    (it87_ecio_read ecio_data 0x905 ready_world).1 = 0x5A ∧
    (it87_ecio_read ecio_data 0x905 ready_world).2.port_log =
      [PortEv.inb 0x3F4 0x01, PortEv.outb 0xB0 0x3F4,
       PortEv.inb 0x3F4 0x01, PortEv.inb 0x3F4 0x01, PortEv.outb 0x09 0x3F0,
       PortEv.inb 0x3F4 0x01, PortEv.inb 0x3F4 0x01, PortEv.outb 0x05 0x3F0,
       PortEv.inb 0x3F4 0x01, PortEv.inb 0x3F4 0x01, PortEv.inb 0x3F0 0x5A] ∧
    pair_apart ecio_data := by
  refine ⟨by decide, by decide, by decide, by decide, by decide, by decide⟩

/-! ## Refresh pass -/

theorem data_read_config (d : it87_data) (reg : Nat) (w : World) :
    data_read d reg w = data_read (config_of d) reg w := by
  unfold data_read
  cases h : d.read <;> simp only [config_of, h] <;> rfl

theorem data_read_congr (a b : it87_data) (h : config_of a = config_of b) (reg : Nat)
    (w : World) : data_read a reg w = data_read b reg w := by
  rw [data_read_config a, h, ← data_read_config b]

/-- The cache fields of an instance have no influence on a register read. -/
theorem data_read_cache (d : it87_data) (valid : Bool) (last_updated : Nat)
    (in_ fan : Nat → Nat → Nat) (temp : Nat → Nat → Int) (sensor extra : Nat)
    (fan_div : Nat → Nat) (vid alarms beeps fan_main_ctrl fan_ctl : Nat)
    (pwm_ctrl pwm_duty pwm_temp_map : Nat → Nat) (auto_pwm : Nat → Nat → Nat)
    (auto_temp : Nat → Nat → Int) (reg : Nat) (w : World) :
    data_read { d with valid := valid, last_updated := last_updated, in_ := in_, fan := fan,
                       temp := temp, sensor := sensor, extra := extra, fan_div := fan_div,
                       vid := vid, alarms := alarms, beeps := beeps,
                       fan_main_ctrl := fan_main_ctrl, fan_ctl := fan_ctl,
                       pwm_ctrl := pwm_ctrl, pwm_duty := pwm_duty,
                       pwm_temp_map := pwm_temp_map, auto_pwm := auto_pwm,
                       auto_temp := auto_temp } reg w
      = data_read d reg w :=
  data_read_congr _ _ rfl reg w

theorem read_regs_append (d : it87_data) (xs ys : List Nat) :
    ∀ w : World, read_regs d (xs ++ ys) w = read_regs d ys (read_regs d xs w) := by
  induction xs with
  | nil => intro w; rfl
  | cons x xs ih =>
    intro w
    simp only [List.cons_append, read_regs]
    exact ih _

theorem update_in_reads (d : it87_data) (s : it87_data × World) (i : Nat)
    (h : config_of s.1 = config_of d) :
    (update_in s i).2 = read_regs d (in_regs d i) s.2 ∧
    config_of (update_in s i).1 = config_of d := by
  have hin : d.has_in = s.1.has_in := (congrArg (fun x => x.has_in) h).symm
  have hr := data_read_congr s.1 d h
  unfold in_regs
  rw [hin]
  unfold update_in
  dsimp only
  split_ifs
  · exact ⟨rfl, h⟩
  · refine ⟨?_, h⟩
    simp only [read_regs, data_read_cache, hr]
  · refine ⟨?_, h⟩
    simp only [read_regs, data_read_cache, hr]

theorem update_fan_reads (d : it87_data) (s : it87_data × World) (i : Nat)
    (h : config_of s.1 = config_of d) :
    (update_fan s i).2 = read_regs d (fan_regs d i) s.2 ∧
    config_of (update_fan s i).1 = config_of d := by
  have h1 : d.has_fan = s.1.has_fan := (congrArg (fun x => x.has_fan) h).symm
  have h2 : d.features = s.1.features := (congrArg (fun x => x.features) h).symm
  have h3 : d.REG_FAN = s.1.REG_FAN := (congrArg (fun x => x.REG_FAN) h).symm
  have h4 : d.REG_FANX = s.1.REG_FANX := (congrArg (fun x => x.REG_FANX) h).symm
  have h5 : d.REG_FAN_MIN = s.1.REG_FAN_MIN := (congrArg (fun x => x.REG_FAN_MIN) h).symm
  have h6 : d.REG_FANX_MIN = s.1.REG_FANX_MIN := (congrArg (fun x => x.REG_FANX_MIN) h).symm
  have hr := data_read_congr s.1 d h
  unfold fan_regs has_16bit_fans
  rw [h1, h2, h3, h4, h5, h6]
  unfold update_fan has_16bit_fans
  dsimp only
  split_ifs
  · exact ⟨rfl, h⟩
  · refine ⟨?_, h⟩
    simp only [read_regs, data_read_cache, hr]
  · refine ⟨?_, h⟩
    simp only [read_regs, data_read_cache, hr]

theorem update_temp_reads (d : it87_data) (s : it87_data × World) (i : Nat)
    (h : config_of s.1 = config_of d) :
    (update_temp s i).2 = read_regs d (temp_regs d i) s.2 ∧
    config_of (update_temp s i).1 = config_of d := by
  have h1 : d.has_temp = s.1.has_temp := (congrArg (fun x => x.has_temp) h).symm
  have h2 : d.num_temp_limit = s.1.num_temp_limit :=
    (congrArg (fun x => x.num_temp_limit) h).symm
  have h3 : d.num_temp_offset = s.1.num_temp_offset :=
    (congrArg (fun x => x.num_temp_offset) h).symm
  have h4 : d.REG_TEMP_OFFSET = s.1.REG_TEMP_OFFSET :=
    (congrArg (fun x => x.REG_TEMP_OFFSET) h).symm
  have h5 : d.REG_TEMP_LOW = s.1.REG_TEMP_LOW := (congrArg (fun x => x.REG_TEMP_LOW) h).symm
  have h6 : d.REG_TEMP_HIGH = s.1.REG_TEMP_HIGH := (congrArg (fun x => x.REG_TEMP_HIGH) h).symm
  have hr := data_read_congr s.1 d h
  unfold temp_regs
  rw [h1, h2, h3, h4, h5, h6]
  unfold update_temp
  dsimp only
  split_ifs
  · exact ⟨rfl, h⟩
  · refine ⟨?_, h⟩
    simp only [read_regs, data_read_cache, hr]
  · refine ⟨?_, h⟩
    simp only [read_regs, data_read_cache, hr]
  · refine ⟨?_, h⟩
    simp only [read_regs, data_read_cache, hr]

theorem update_pwm_reads (d : it87_data) (s : it87_data × World) (i : Nat)
    (h : config_of s.1 = config_of d) :
    (update_pwm s i).2 = read_regs d (pwm_regs d i) s.2 ∧
    config_of (update_pwm s i).1 = config_of d := by
  have h1 : d.has_pwm = s.1.has_pwm := (congrArg (fun x => x.has_pwm) h).symm
  have h2 : d.features = s.1.features := (congrArg (fun x => x.features) h).symm
  have h3 : d.REG_PWM = s.1.REG_PWM := (congrArg (fun x => x.REG_PWM) h).symm
  have hr := data_read_congr s.1 d h
  have r5 : List.range 5 = [0, 1, 2, 3, 4] := by decide
  have r3 : List.range 3 = [0, 1, 2] := by decide
  unfold pwm_regs auto_regs has_newer_autopwm has_old_autopwm
  rw [h1, h2, h3]
  unfold update_pwm it87_update_pwm_ctrl has_newer_autopwm has_old_autopwm
  simp only [r5, r3, List.foldl, read_auto_temp, read_auto_pwm]
  split_ifs
  all_goals first
    | exact ⟨rfl, h⟩
    | (refine ⟨?_, h⟩
       simp only [read_regs, data_read_cache, hr])

theorem fold_reads (d : it87_data) (step : it87_data × World → Nat → it87_data × World)
    (regs : Nat → List Nat)
    (hstep : ∀ s i, config_of s.1 = config_of d →
      (step s i).2 = read_regs d (regs i) s.2 ∧ config_of (step s i).1 = config_of d)
    (n : Nat) (s : it87_data × World) (h : config_of s.1 = config_of d) :
    ((List.range n).foldl step s).2 = read_regs d (regs_upto regs n) s.2 ∧
    config_of ((List.range n).foldl step s).1 = config_of d := by
  induction n with
  | zero => exact ⟨rfl, h⟩
  | succ n ih =>
    rw [List.range_succ, List.foldl_append]
    simp only [List.foldl, regs_upto]
    obtain ⟨a, b⟩ := hstep _ n ih.2
    rw [read_regs_append, a, ih.1]
    exact ⟨rfl, b⟩

/-- The refresh pass is its parts one after the other. -/
theorem refresh_pass_eq (d : it87_data) (w : World) :
    refresh_pass d w =
      pass_sensor ((List.range NUM_PWM).foldl update_pwm
        (pass_status (pass_fan_div ((List.range NUM_TEMP).foldl update_temp
          ((List.range NUM_FAN).foldl update_fan
            ((List.range NUM_VIN).foldl update_in (d, vbat_rearm d w))))))) :=
  rfl

theorem pass_fan_div_reads (d : it87_data) (s : it87_data × World)
    (h : config_of s.1 = config_of d) :
    (pass_fan_div s).2 = read_regs d
      (if d.has_fan &&& 0x07 ≠ 0 && !has_16bit_fans d then [IT87_REG_FAN_DIV] else []) s.2 ∧
    config_of (pass_fan_div s).1 = config_of d := by
  have h1 : d.has_fan = s.1.has_fan := (congrArg (fun x => x.has_fan) h).symm
  have h2 : d.features = s.1.features := (congrArg (fun x => x.features) h).symm
  have hr := data_read_congr s.1 d h
  unfold has_16bit_fans
  rw [h1, h2]
  unfold pass_fan_div has_16bit_fans
  dsimp only
  split_ifs
  all_goals first
    | exact ⟨rfl, h⟩
    | (refine ⟨?_, h⟩
       simp only [read_regs, hr])

theorem pass_status_reads (d : it87_data) (s : it87_data × World)
    (h : config_of s.1 = config_of d) :
    (pass_status s).2 = read_regs d
      [IT87_REG_ALARM1, IT87_REG_ALARM2, IT87_REG_ALARM3, IT87_REG_BEEP_ENABLE,
       IT87_REG_FAN_MAIN_CTRL, IT87_REG_FAN_CTL] s.2 ∧
    config_of (pass_status s).1 = config_of d := by
  have hr := data_read_congr s.1 d h
  unfold pass_status
  dsimp only
  refine ⟨?_, h⟩
  simp only [read_regs, data_read_cache, hr]

theorem pass_sensor_reads (d : it87_data) (s : it87_data × World)
    (h : config_of s.1 = config_of d) :
    (pass_sensor s).2 = read_regs d
      ([IT87_REG_TEMP_ENABLE, IT87_REG_TEMP_EXTRA] ++
       (if d.type = chips.it8712 ∨ d.type = chips.it8716 then [IT87_REG_VID] else [])) s.2 ∧
    config_of (pass_sensor s).1 = config_of d := by
  have h1 : d.type = s.1.type := (congrArg (fun x => x.type) h).symm
  have hr := data_read_congr s.1 d h
  rw [h1]
  unfold pass_sensor
  dsimp only
  split_ifs
  · refine ⟨?_, h⟩
    simp only [List.cons_append, List.nil_append, read_regs, data_read_cache, hr]
  · refine ⟨?_, h⟩
    simp only [List.cons_append, List.nil_append, List.append_nil, read_regs,
      data_read_cache, hr]

/-- The world after a refresh pass is the world after the reads of `refresh_regs`, in
that order, and the pass leaves the configuration of the instance alone. -/
theorem refresh_pass_reads (d : it87_data) (w : World) :
    (refresh_pass d w).2 = read_regs d (refresh_regs d) (vbat_rearm d w) ∧
    config_of (refresh_pass d w).1 = config_of d := by
  obtain ⟨a1, a2⟩ := fold_reads d update_in (in_regs d) (update_in_reads d) NUM_VIN
    (d, vbat_rearm d w) rfl
  obtain ⟨b1, b2⟩ := fold_reads d update_fan (fan_regs d) (update_fan_reads d) NUM_FAN _ a2
  obtain ⟨c1, c2⟩ := fold_reads d update_temp (temp_regs d) (update_temp_reads d) NUM_TEMP _ b2
  obtain ⟨e1, e2⟩ := pass_fan_div_reads d _ c2
  obtain ⟨f1, f2⟩ := pass_status_reads d _ e2
  obtain ⟨g1, g2⟩ := fold_reads d update_pwm (pwm_regs d) (update_pwm_reads d) NUM_PWM _ f2
  obtain ⟨k1, k2⟩ := pass_sensor_reads d _ g2
  rw [refresh_pass_eq]
  refine ⟨?_, k2⟩
  rw [k1, g1, f1, e1, c1, b1, a1]
  unfold refresh_regs
  simp only [read_regs_append]

theorem outb_HZ (v p : Nat) (w : World) : (outb v p w).HZ = w.HZ := by
  unfold outb
  dsimp only
  split_ifs <;> rfl

theorem outb_now (v p : Nat) (w : World) : (outb v p w).now = w.now := by
  unfold outb
  dsimp only
  split_ifs <;> rfl

theorem inb_HZ (p : Nat) (w : World) : (inb p w).2.HZ = w.HZ := rfl

theorem inb_now (p : Nat) (w : World) : (inb p w).2.now = w.now := rfl

theorem jiffies_HZ (w : World) : (jiffies w).2.HZ = w.HZ := by
  unfold jiffies
  dsimp only
  split_ifs <;> rfl

theorem use_slot_HZ (idx : Int) (w : World) :
    (it87_h2_global_use_slot idx w).2.HZ = w.HZ := by
  unfold it87_h2_global_use_slot
  simp only [mutex_lock, mutex_unlock, h2_global_call]
  split_ifs <;> rfl

theorem io_read_HZ (d : it87_data) (reg : Nat) (w : World) :
    (_it87_io_read d reg w).2.HZ = w.HZ := by
  simp only [_it87_io_read, inb_HZ, outb_HZ]

theorem io_write_HZ (d : it87_data) (reg value : Nat) (w : World) :
    (_it87_io_write d reg value w).HZ = w.HZ := by
  simp only [_it87_io_write, outb_HZ]

theorem set_bank_HZ (d : it87_data) (bank : Nat) (w : World) :
    (it87_io_set_bank d bank w).2.HZ = w.HZ := by
  unfold it87_io_set_bank
  dsimp only
  split_ifs <;> simp only [io_read_HZ, io_write_HZ]

theorem mmio_read_HZ (d : it87_data) (reg : Nat) (w : World) :
    (it87_mmio_read d reg w).2.HZ = w.HZ := rfl

theorem mmio_write_HZ (d : it87_data) (reg value : Nat) (w : World) :
    (it87_mmio_write d reg value w).HZ = w.HZ := rfl

theorem bridge_read_HZ (d : it87_data) (reg : Nat) (w : World) :
    (it87_bridge_read d reg w).2.HZ = w.HZ := by
  unfold it87_bridge_read
  dsimp only
  split_ifs <;> simp only [mmio_read_HZ, use_slot_HZ]

theorem bridge_write_HZ (d : it87_data) (reg value : Nat) (w : World) :
    (it87_bridge_write d reg value w).HZ = w.HZ := by
  unfold it87_bridge_write
  dsimp only
  split_ifs <;> simp only [mmio_write_HZ, use_slot_HZ]

theorem ecio_step_read (d : it87_data) (reg : Nat) (w : World) :
    ecio_step w (_it87_ecio_read d reg w).2 := by
  unfold _it87_ecio_read
  exact ecio_step_trans (ecio_step_lock _ w)
    (ecio_step_trans (ecio_step_read_once _ _ _) (ecio_step_unlock _ _))

theorem ecio_step_write (d : it87_data) (reg value : Nat) (w : World) :
    ecio_step w (_it87_ecio_write d reg value w) := by
  unfold _it87_ecio_write
  exact ecio_step_trans (ecio_step_lock _ w)
    (ecio_step_trans (ecio_step_write_once _ _ _) (ecio_step_unlock _ _))

/-- No register read changes the tick rate. -/
theorem data_read_HZ (d : it87_data) (reg : Nat) (w : World) :
    (data_read d reg w).2.HZ = w.HZ := by
  unfold data_read
  split
  · exact bridge_read_HZ d reg w
  · unfold it87_h2ram_read
    dsimp only
    split_ifs <;> simp only [bridge_read_HZ, use_slot_HZ, io_read_HZ]
  · rfl
  · unfold it87_ecio_read
    split_ifs
    · exact (ecio_step_read d reg w).2.2.2.1
    · exact io_read_HZ d reg w
  · unfold it87_io_read
    simp only [set_bank_HZ, io_read_HZ]
  · exact io_read_HZ d reg w

/-- No register write changes the tick rate. -/
theorem data_write_HZ (d : it87_data) (reg value : Nat) (w : World) :
    (data_write d reg value w).HZ = w.HZ := by
  unfold data_write
  split
  · exact bridge_write_HZ d reg value w
  · unfold it87_h2ram_write
    dsimp only
    split_ifs <;> simp only [bridge_write_HZ, use_slot_HZ, io_write_HZ]
  · rfl
  · unfold it87_ecio_write
    split_ifs
    · exact (ecio_step_write d reg value w).2.2.2.1
    · exact io_write_HZ d reg value w
  · unfold it87_io_write
    simp only [set_bank_HZ, io_write_HZ]
  · exact io_write_HZ d reg value w

theorem read_regs_HZ (d : it87_data) (regs : List Nat) :
    ∀ w : World, (read_regs d regs w).HZ = w.HZ := by
  induction regs with
  | nil => intro w; rfl
  | cons r rs ih =>
    intro w
    simp only [read_regs]
    rw [ih, data_read_HZ]

theorem vbat_rearm_HZ (d : it87_data) (w : World) : (vbat_rearm d w).HZ = w.HZ := by
  unfold vbat_rearm
  split_ifs
  · rw [data_write_HZ, data_read_HZ]
  · rfl

theorem superio_enter_clock (ioreg : Nat) (noentry : Bool) (w : World) :
    (superio_enter ioreg noentry w).2.HZ = w.HZ ∧
    (superio_enter ioreg noentry w).2.now = w.now := by
  unfold superio_enter __superio_enter
  split_ifs <;> simp only [outb_HZ, outb_now, and_self]

theorem superio_tail_clock (ioreg : Nat) (noexit : Bool) (a b c : Nat) (w : World) :
    (superio_exit ioreg noexit (superio_outb ioreg a b (superio_select ioreg c w))).HZ = w.HZ ∧
    (superio_exit ioreg noexit (superio_outb ioreg a b (superio_select ioreg c w))).now
      = w.now := by
  unfold superio_exit superio_outb superio_select
  split_ifs <;> simp only [outb_HZ, outb_now, and_self]

theorem smbus_disable_HZ (d : it87_data) (w : World) :
    (smbus_disable d w).2.2.HZ = w.HZ := by
  unfold smbus_disable
  dsimp only
  split_ifs <;>
    simp only [io_read_HZ, (superio_tail_clock _ _ _ _ _ _).1, (superio_enter_clock _ _ _).1]

theorem smbus_enable_clock (d : it87_data) (w : World) :
    (smbus_enable d w).2.HZ = w.HZ ∧ (smbus_enable d w).2.now = w.now := by
  unfold smbus_enable
  dsimp only
  split_ifs <;>
    simp only [(superio_tail_clock _ _ _ _ _ _).1, (superio_tail_clock _ _ _ _ _ _).2,
      (superio_enter_clock _ _ _).1, (superio_enter_clock _ _ _).2, _it87_io_write, outb_HZ,
      outb_now, and_self]

theorem outb_bits (v p : Nat) (w : World) :
    (outb v p w).BITS_PER_LONG = w.BITS_PER_LONG := by
  unfold outb
  dsimp only
  split_ifs <;> rfl

theorem inb_bits (p : Nat) (w : World) : (inb p w).2.BITS_PER_LONG = w.BITS_PER_LONG := rfl

theorem jiffies_bits (w : World) : (jiffies w).2.BITS_PER_LONG = w.BITS_PER_LONG := by
  unfold jiffies
  dsimp only
  split_ifs <;> rfl

theorem use_slot_bits (idx : Int) (w : World) :
    (it87_h2_global_use_slot idx w).2.BITS_PER_LONG = w.BITS_PER_LONG := by
  unfold it87_h2_global_use_slot
  simp only [mutex_lock, mutex_unlock, h2_global_call]
  split_ifs <;> rfl

theorem io_read_bits (d : it87_data) (reg : Nat) (w : World) :
    (_it87_io_read d reg w).2.BITS_PER_LONG = w.BITS_PER_LONG := by
  simp only [_it87_io_read, inb_bits, outb_bits]

theorem io_write_bits (d : it87_data) (reg value : Nat) (w : World) :
    (_it87_io_write d reg value w).BITS_PER_LONG = w.BITS_PER_LONG := by
  simp only [_it87_io_write, outb_bits]

theorem set_bank_bits (d : it87_data) (bank : Nat) (w : World) :
    (it87_io_set_bank d bank w).2.BITS_PER_LONG = w.BITS_PER_LONG := by
  unfold it87_io_set_bank
  dsimp only
  split_ifs <;> simp only [io_read_bits, io_write_bits]

theorem mmio_read_bits (d : it87_data) (reg : Nat) (w : World) :
    (it87_mmio_read d reg w).2.BITS_PER_LONG = w.BITS_PER_LONG := rfl

theorem mmio_write_bits (d : it87_data) (reg value : Nat) (w : World) :
    (it87_mmio_write d reg value w).BITS_PER_LONG = w.BITS_PER_LONG := rfl

theorem bridge_read_bits (d : it87_data) (reg : Nat) (w : World) :
    (it87_bridge_read d reg w).2.BITS_PER_LONG = w.BITS_PER_LONG := by
  unfold it87_bridge_read
  dsimp only
  split_ifs <;> simp only [mmio_read_bits, use_slot_bits]

theorem bridge_write_bits (d : it87_data) (reg value : Nat) (w : World) :
    (it87_bridge_write d reg value w).BITS_PER_LONG = w.BITS_PER_LONG := by
  unfold it87_bridge_write
  dsimp only
  split_ifs <;> simp only [mmio_write_bits, use_slot_bits]

/-- No register read changes the word size. -/
theorem data_read_bits (d : it87_data) (reg : Nat) (w : World) :
    (data_read d reg w).2.BITS_PER_LONG = w.BITS_PER_LONG := by
  unfold data_read
  split
  · exact bridge_read_bits d reg w
  · unfold it87_h2ram_read
    dsimp only
    split_ifs <;> simp only [bridge_read_bits, use_slot_bits, io_read_bits]
  · rfl
  · unfold it87_ecio_read
    split_ifs
    · exact (ecio_step_read d reg w).2.2.2.2
    · exact io_read_bits d reg w
  · unfold it87_io_read
    simp only [set_bank_bits, io_read_bits]
  · exact io_read_bits d reg w

/-- No register write changes the word size. -/
theorem data_write_bits (d : it87_data) (reg value : Nat) (w : World) :
    (data_write d reg value w).BITS_PER_LONG = w.BITS_PER_LONG := by
  unfold data_write
  split
  · exact bridge_write_bits d reg value w
  · unfold it87_h2ram_write
    dsimp only
    split_ifs <;> simp only [bridge_write_bits, use_slot_bits, io_write_bits]
  · rfl
  · unfold it87_ecio_write
    split_ifs
    · exact (ecio_step_write d reg value w).2.2.2.2
    · exact io_write_bits d reg value w
  · unfold it87_io_write
    simp only [set_bank_bits, io_write_bits]
  · exact io_write_bits d reg value w

theorem read_regs_bits (d : it87_data) (regs : List Nat) :
    ∀ w : World, (read_regs d regs w).BITS_PER_LONG = w.BITS_PER_LONG := by
  induction regs with
  | nil => intro w; rfl
  | cons r rs ih =>
    intro w
    simp only [read_regs]
    rw [ih, data_read_bits]

theorem vbat_rearm_bits (d : it87_data) (w : World) :
    (vbat_rearm d w).BITS_PER_LONG = w.BITS_PER_LONG := by
  unfold vbat_rearm
  split_ifs
  · rw [data_write_bits, data_read_bits]
  · rfl

theorem superio_enter_bits (ioreg : Nat) (noentry : Bool) (w : World) :
    (superio_enter ioreg noentry w).2.BITS_PER_LONG = w.BITS_PER_LONG := by
  unfold superio_enter __superio_enter
  split_ifs <;> simp only [outb_bits]

theorem superio_tail_bits (ioreg : Nat) (noexit : Bool) (a b c : Nat) (w : World) :
    (superio_exit ioreg noexit
      (superio_outb ioreg a b (superio_select ioreg c w))).BITS_PER_LONG
      = w.BITS_PER_LONG := by
  unfold superio_exit superio_outb superio_select
  split_ifs <;> simp only [outb_bits]

theorem smbus_disable_bits (d : it87_data) (w : World) :
    (smbus_disable d w).2.2.BITS_PER_LONG = w.BITS_PER_LONG := by
  unfold smbus_disable
  dsimp only
  split_ifs <;> simp only [io_read_bits, superio_tail_bits, superio_enter_bits]

theorem smbus_enable_bits (d : it87_data) (w : World) :
    (smbus_enable d w).2.BITS_PER_LONG = w.BITS_PER_LONG := by
  unfold smbus_enable
  dsimp only
  split_ifs <;> simp only [superio_tail_bits, superio_enter_bits, _it87_io_write, outb_bits]

/-- The configuration of the instance `smbus_disable` hands on is that of its
argument, the saved bank apart. -/
theorem smbus_disable_regs (d : it87_data) (w : World) :
    refresh_regs (smbus_disable d w).2.1 = refresh_regs d := by
  unfold smbus_disable
  dsimp only
  split_ifs <;> rfl

theorem smbus_enable_congr (a b : it87_data) (h : config_of a = config_of b) (w : World) :
    smbus_enable a w = smbus_enable b w := by
  have e : ∀ x : it87_data, smbus_enable x w = smbus_enable (config_of x) w := fun _ => rfl
  rw [e a, h, ← e b]

/-- A call on a valid cache inside the window returns at once. -/
theorem update_device_hit (d : it87_data) (x : World) (hv : d.valid = true)
    (hx : time_after x.BITS_PER_LONG x.now (d.last_updated + x.HZ + x.HZ / 2) = false) :
    it87_update_device d x =
      (0, d, mutex_unlock Mutex.update_lock (jiffies (mutex_lock Mutex.update_lock x)).2) := by
  obtain ⟨j1, j2, j3⟩ := jiffies_conf (mutex_lock Mutex.update_lock x)
  have hx2 : time_after (mutex_lock Mutex.update_lock x).BITS_PER_LONG
      (mutex_lock Mutex.update_lock x).now
      (d.last_updated + (mutex_lock Mutex.update_lock x).HZ +
        (mutex_lock Mutex.update_lock x).HZ / 2) = false := hx
  unfold it87_update_device
  dsimp only
  rw [if_neg]
  rw [j1, j2, j3, hx2, hv]
  simp

theorem hit_frame (x : World) :
    (mutex_unlock Mutex.update_lock (jiffies (mutex_lock Mutex.update_lock x)).2).port_log
      = x.port_log ∧
    (mutex_unlock Mutex.update_lock (jiffies (mutex_lock Mutex.update_lock x)).2).mmio_log
      = x.mmio_log ∧
    (mutex_unlock Mutex.update_lock (jiffies (mutex_lock Mutex.update_lock x)).2).mem
      = x.mem ∧
    (mutex_unlock Mutex.update_lock (jiffies (mutex_lock Mutex.update_lock x)).2).ec_regs
      = x.ec_regs ∧
    (mutex_unlock Mutex.update_lock (jiffies (mutex_lock Mutex.update_lock x)).2).ec_latch
      = x.ec_latch ∧
    (mutex_unlock Mutex.update_lock
        (jiffies (mutex_lock Mutex.update_lock x)).2).it87_h2_global = x.it87_h2_global := by
  unfold jiffies mutex_lock mutex_unlock
  dsimp only
  split_ifs <;> simp

theorem mem_regs_upto (f : Nat → List Nat) (r : Nat) (i : Nat) (hr : r ∈ f i) :
    ∀ n, i < n → r ∈ regs_upto f n := by
  intro n
  induction n with
  | zero => intro h; omega
  | succ n ih =>
    intro h
    simp only [regs_upto, List.mem_append]
    by_cases hi : i < n
    · exact Or.inl (ih hi)
    · have : i = n := by omega
      subst this
      exact Or.inr hr

/-- What a stale call yields when `smbus_disable` succeeds. -/
theorem update_device_miss (d : it87_data) (w : World) (hs : cache_stale d w)
    (hd : (smbus_disable d (at_disable w)).1 = 0) :
    (it87_update_device d w).1 = 0 ∧
    (it87_update_device d w).2.1.valid = true ∧
    (it87_update_device d w).2.1.last_updated = stamp_tick d w ∧
    (it87_update_device d w).2.2 = one_pass_world d w := by
  obtain ⟨j1, j2, j3⟩ := jiffies_conf (mutex_lock Mutex.update_lock w)
  have hc : time_after (jiffies (mutex_lock Mutex.update_lock w)).2.BITS_PER_LONG
      (jiffies (mutex_lock Mutex.update_lock w)).1
      (d.last_updated + (jiffies (mutex_lock Mutex.update_lock w)).2.HZ +
        (jiffies (mutex_lock Mutex.update_lock w)).2.HZ / 2) = true ∨ (!d.valid) = true := by
    rw [j1, j2, j3]
    rcases hs with h | h
    · exact Or.inl h
    · exact Or.inr (by rw [h]; rfl)
  have hd2 : ¬ (smbus_disable d (jiffies (mutex_lock Mutex.update_lock w)).2).1 ≠ 0 := by
    intro h
    exact h hd
  obtain ⟨p1, p2⟩ := refresh_pass_reads (smbus_disable d (at_disable w)).2.1
    (smbus_disable d (at_disable w)).2.2
  rw [smbus_disable_regs] at p1
  unfold it87_update_device
  dsimp only
  rw [if_pos hc, if_neg hd2]
  refine ⟨rfl, rfl, ?_, ?_⟩
  · show (jiffies (refresh_pass _ _).2).1 = _
    unfold stamp_tick
    dsimp only
    rw [← p1]
    rfl
  · unfold one_pass_world
    dsimp only
    rw [← p1, ← smbus_enable_congr _ _ p2]
    rfl

theorem jiffies_now (x : World) :
    (jiffies x).1 = x.now ∧ x.now ≤ (jiffies x).2.now ∧ (jiffies x).2.now ≤ x.now + 1 := by
  unfold jiffies
  dsimp only
  split_ifs <;> simp

theorem one_pass_bits (d : it87_data) (w : World) :
    (one_pass_world d w).BITS_PER_LONG = w.BITS_PER_LONG := by
  unfold one_pass_world
  dsimp only
  have e1 : ∀ x : World, (mutex_unlock Mutex.update_lock x).BITS_PER_LONG = x.BITS_PER_LONG :=
    fun _ => rfl
  have e3 : (at_disable w).BITS_PER_LONG = w.BITS_PER_LONG := by
    unfold at_disable
    rw [jiffies_bits]
    rfl
  rw [e1, smbus_enable_bits, jiffies_bits, read_regs_bits, vbat_rearm_bits,
    smbus_disable_bits, e3]

/-- The cache is stale when `jiffies` is past `last_updated + HZ + HZ / 2` by no more
than half the range of `unsigned long`. -/
theorem stale_of_age (d : it87_data) (w : World)
    (h1 : d.last_updated + w.HZ + w.HZ / 2 < w.now)
    (h2 : w.now - (d.last_updated + w.HZ + w.HZ / 2) ≤ 2 ^ (w.BITS_PER_LONG - 1))
    (hb : 1 ≤ w.BITS_PER_LONG) : cache_stale d w :=
  Or.inl (time_after_of_lt _ _ _ h1 h2 hb)

theorem one_pass_clock (d : it87_data) (w : World) :
    (one_pass_world d w).HZ = w.HZ ∧
    stamp_tick d w ≤ (one_pass_world d w).now ∧
    (one_pass_world d w).now ≤ stamp_tick d w + 1 := by
  unfold one_pass_world stamp_tick
  dsimp only
  have e1 : ∀ x : World, (mutex_unlock Mutex.update_lock x).HZ = x.HZ := fun _ => rfl
  have e2 : ∀ x : World, (mutex_unlock Mutex.update_lock x).now = x.now := fun _ => rfl
  have e3 : (at_disable w).HZ = w.HZ := by
    unfold at_disable
    rw [jiffies_HZ]
    rfl
  rw [e1, e2, (smbus_enable_clock _ _).1, (smbus_enable_clock _ _).2, jiffies_HZ,
    read_regs_HZ, vbat_rearm_HZ, smbus_disable_HZ, e3]
  exact ⟨rfl, (jiffies_now _).2⟩

/-- C11 (amended): when the cache is not valid or `jiffies` is after
`last_updated + HZ + HZ / 2` as `time_after` compares them, that is ahead of it by 1 to
`2 ^ (BITS_PER_LONG - 1)` ticks modulo `2 ^ BITS_PER_LONG`, a call of
`it87_update_device` in which `smbus_disable` succeeds returns the instance with `valid`
set and `last_updated` the tick read at the end of the pass; the world it leaves is the
one of exactly one refresh pass, the reads of `refresh_regs` in order; that list holds
the input, fan, temperature and PWM register of every enabled channel and the three
alarm registers; and the call that follows at once returns the same instance and touches
no port, no MMIO byte, no chip register and nothing of the bridge manager.  The tick
rate is at least 1 and `HZ + HZ / 2` is less than half the range of `unsigned long`. -/
theorem update_device_refreshes (d : it87_data) (w : World) (hs : cache_stale d w)
    (hd : (smbus_disable d (at_disable w)).1 = 0) (hz : 1 ≤ w.HZ)
    (hw : w.HZ + w.HZ / 2 < 2 ^ (w.BITS_PER_LONG - 1)) :
    (it87_update_device d w).1 = 0 ∧
    (it87_update_device d w).2.1.valid = true ∧
    (it87_update_device d w).2.1.last_updated = stamp_tick d w ∧
    (it87_update_device d w).2.2 = one_pass_world d w ∧
    (it87_update_device d w).2.1.last_updated ≤ (it87_update_device d w).2.2.now ∧
    (it87_update_device d w).2.2.now ≤ (it87_update_device d w).2.1.last_updated + 1 ∧
    (∀ i, i < NUM_VIN → d.has_in &&& BIT i ≠ 0 → tbl IT87_REG_VIN i ∈ refresh_regs d) ∧
    (∀ i, i < NUM_FAN → d.has_fan &&& BIT i ≠ 0 → tbl d.REG_FAN i ∈ refresh_regs d) ∧
    (∀ i, i < NUM_TEMP → d.has_temp &&& BIT i ≠ 0 → IT87_REG_TEMP i ∈ refresh_regs d) ∧
    (∀ i, i < NUM_PWM → d.has_pwm &&& BIT i ≠ 0 → tbl d.REG_PWM i ∈ refresh_regs d) ∧
    IT87_REG_ALARM1 ∈ refresh_regs d ∧ IT87_REG_ALARM2 ∈ refresh_regs d ∧
    IT87_REG_ALARM3 ∈ refresh_regs d ∧
    (it87_update_device (it87_update_device d w).2.1 (it87_update_device d w).2.2).1 = 0 ∧
    (it87_update_device (it87_update_device d w).2.1 (it87_update_device d w).2.2).2.1
      = (it87_update_device d w).2.1 ∧
    (it87_update_device (it87_update_device d w).2.1
        (it87_update_device d w).2.2).2.2.port_log = (it87_update_device d w).2.2.port_log ∧
    (it87_update_device (it87_update_device d w).2.1
        (it87_update_device d w).2.2).2.2.mmio_log = (it87_update_device d w).2.2.mmio_log ∧
    (it87_update_device (it87_update_device d w).2.1
        (it87_update_device d w).2.2).2.2.mem = (it87_update_device d w).2.2.mem ∧
    (it87_update_device (it87_update_device d w).2.1
        (it87_update_device d w).2.2).2.2.ec_regs = (it87_update_device d w).2.2.ec_regs ∧
    (it87_update_device (it87_update_device d w).2.1
        (it87_update_device d w).2.2).2.2.ec_latch = (it87_update_device d w).2.2.ec_latch ∧
    (it87_update_device (it87_update_device d w).2.1
        (it87_update_device d w).2.2).2.2.it87_h2_global
      = (it87_update_device d w).2.2.it87_h2_global := by
  obtain ⟨r1, r2, r3, r4⟩ := update_device_miss d w hs hd
  obtain ⟨c1, c2, c3⟩ := one_pass_clock d w
  have c4 := one_pass_bits d w
  have hb : 1 ≤ w.BITS_PER_LONG := by
    by_contra hn
    have h0 : w.BITS_PER_LONG = 0 := by omega
    rw [h0] at hw
    simp at hw
    omega
  have hfresh : time_after (it87_update_device d w).2.2.BITS_PER_LONG
      (it87_update_device d w).2.2.now
      ((it87_update_device d w).2.1.last_updated +
        (it87_update_device d w).2.2.HZ + (it87_update_device d w).2.2.HZ / 2) = false := by
    rw [r3, r4, c1, c4]
    exact time_after_of_le _ _ _ (by omega) (by omega) hb
  have hit := update_device_hit (it87_update_device d w).2.1 (it87_update_device d w).2.2
    r2 hfresh
  obtain ⟨f1, f2, f3, f4, f5, f6⟩ := hit_frame (it87_update_device d w).2.2
  refine ⟨r1, r2, r3, r4, ?_, ?_, ?_, ?_, ?_, ?_, ?_, ?_, ?_, ?_⟩
  · rw [r3, r4]
    exact c2
  · rw [r3, r4]
    exact c3
  · intro i hi hb
    unfold refresh_regs
    simp only [List.mem_append]
    refine Or.inl (Or.inl (Or.inl (Or.inl (Or.inl (Or.inl (Or.inl ?_))))))
    refine mem_regs_upto (in_regs d) _ i ?_ NUM_VIN hi
    unfold in_regs
    rw [if_neg hb]
    split_ifs <;> simp
  · intro i hi hb
    unfold refresh_regs
    simp only [List.mem_append]
    refine Or.inl (Or.inl (Or.inl (Or.inl (Or.inl (Or.inl (Or.inr ?_))))))
    refine mem_regs_upto (fan_regs d) _ i ?_ NUM_FAN hi
    unfold fan_regs
    rw [if_neg hb]
    split_ifs <;> simp
  · intro i hi hb
    unfold refresh_regs
    simp only [List.mem_append]
    refine Or.inl (Or.inl (Or.inl (Or.inl (Or.inl (Or.inr ?_)))))
    refine mem_regs_upto (temp_regs d) _ i ?_ NUM_TEMP hi
    unfold temp_regs
    rw [if_neg hb]
    split_ifs <;> simp
  · intro i hi hb
    unfold refresh_regs
    simp only [List.mem_append]
    refine Or.inl (Or.inl (Or.inr ?_))
    refine mem_regs_upto (pwm_regs d) _ i ?_ NUM_PWM hi
    unfold pwm_regs
    rw [if_neg hb]
    split_ifs <;> simp
  · unfold refresh_regs
    simp
  · unfold refresh_regs
    simp
  · unfold refresh_regs
    simp
  · rw [hit]
    exact ⟨rfl, rfl, f1, f2, f3, f4, f5, f6⟩

/-- C11 on an instance with a valid cache stamped at tick 90 and read at tick 100, three
voltage, two fan, two temperature channels and one PWM channel, no SMBus bit to clear,
`HZ = 4` on a 64-bit kernel. -/
theorem update_device_refreshes_witness :
    (it87_update_device { sensor_data with valid := true, last_updated := 90 }
      quiet_world).1 = 0 ∧
    (it87_update_device { sensor_data with valid := true, last_updated := 90 }
      quiet_world).2.1.last_updated
      = stamp_tick { sensor_data with valid := true, last_updated := 90 } quiet_world ∧
    (it87_update_device { sensor_data with valid := true, last_updated := 90 }
      quiet_world).2.2
      = one_pass_world { sensor_data with valid := true, last_updated := 90 } quiet_world ∧
    tbl IT87_REG_VIN 2
      ∈ refresh_regs { sensor_data with valid := true, last_updated := 90 } ∧
    (it87_update_device
        (it87_update_device { sensor_data with valid := true, last_updated := 90 }
          quiet_world).2.1
        (it87_update_device { sensor_data with valid := true, last_updated := 90 }
          quiet_world).2.2).2.2.port_log
      = (it87_update_device { sensor_data with valid := true, last_updated := 90 }
          quiet_world).2.2.port_log :=
  have h := update_device_refreshes { sensor_data with valid := true, last_updated := 90 }
    quiet_world
    (stale_of_age { sensor_data with valid := true, last_updated := 90 } quiet_world
      (by decide) (by decide) (by decide))
    rfl (by decide) (by decide)
  ⟨h.1, h.2.2.1, h.2.2.2.1, h.2.2.2.2.2.2.1 2 (by decide) (by decide),
   h.2.2.2.2.2.2.2.2.2.2.2.2.2.2.2.1⟩

/-- C11 as stated fails on a 32-bit kernel: with a valid cache stamped at tick 1000 and
`HZ = 250`, at tick `1375 + 2 ^ 31 + 1` the tick counter is past
`last_updated + HZ + HZ / 2`, `smbus_disable` would succeed and there are registers to
read, but the signed difference of `time_after` has wrapped: the call reads no
register and returns the instance with `last_updated` still 1000. -/
theorem update_device_wrapped_age :
    aged_data.valid = true ∧
    aged_data.last_updated + wrapped_world.HZ + wrapped_world.HZ / 2 < wrapped_world.now ∧
    (smbus_disable aged_data (at_disable wrapped_world)).1 = 0 ∧
    refresh_regs aged_data ≠ [] ∧
    (it87_update_device aged_data wrapped_world).1 = 0 ∧
    (it87_update_device aged_data wrapped_world).2.2.port_log = [] ∧
    (it87_update_device aged_data wrapped_world).2.1.last_updated = 1000 ∧
    (it87_update_device aged_data wrapped_world).2.1.last_updated
      ≠ (it87_update_device aged_data wrapped_world).2.2.now := by
  refine ⟨by decide, by decide, by decide, by decide, by decide, by decide, by decide,
    by decide⟩

/-- The registers of a refresh pass of that instance, evaluated. -/
theorem refresh_regs_sample :
    refresh_regs sensor_data =
      [0x20, 0x31, 0x30, 0x21, 0x33, 0x32, 0x22, 0x35, 0x34,
       0x10, 0x0d, 0x11, 0x0e,
       0x29, 0x41, 0x40, 0x2a, 0x43, 0x42,
       0x0b,
       0x01, 0x02, 0x03, 0x5c, 0x13, 0x14,
       0x15,
       0x51, 0x55] := by
  decide

/-! ## AMD slot programming: register values -/

theorem pci_write_ret0 (d : PciDev) (off v : Nat) (h : (pci_reg_write d off v).1 = 0) :
    (pci_reg_write d off v).2.cfg = (fun o => if o = off then u32 v else d.cfg o) := by
  unfold pci_reg_write at h ⊢
  dsimp only at h ⊢
  split_ifs at h ⊢ with h1
  · rfl
  · exact absurd h h1

theorem pci_read_ret0 (d : PciDev) (off : Nat) (h : (pci_reg_read d off).1 = 0) :
    (pci_reg_read d off).2.1 = u32 (d.cfg off) := by
  unfold pci_reg_read at h ⊢
  dsimp only at h ⊢
  split_ifs at h ⊢ with h1
  · rfl
  · exact absurd h h1

theorem pci_read_cfg (d : PciDev) (off : Nat) : (pci_reg_read d off).2.2.cfg = d.cfg := by
  unfold pci_reg_read
  dsimp only
  split_ifs <;> rfl

theorem pci_write_split (d : PciDev) (off v : Nat) :
    ∃ r d2, pci_reg_write d off v = (r, d2) ∧
      (r = 0 → d2.cfg = (fun o => if o = off then u32 v else d.cfg o)) := by
  refine ⟨_, _, rfl, ?_⟩
  exact pci_write_ret0 d off v

theorem pci_read_split (d : PciDev) (off : Nat) :
    ∃ r v d2, pci_reg_read d off = (r, v, d2) ∧ d2.cfg = d.cfg ∧
      (r = 0 → v = u32 (d.cfg off)) := by
  refine ⟨_, _, _, rfl, pci_read_cfg d off, ?_⟩
  exact pci_read_ret0 d off

/-- A call of `_amd_enable_slot` that returns 0 tracks the base and leaves the register
values of the reprogram sequence. -/
theorem amd_enable_slot_ret0 (s : H2Sys) (idx : Int) (base pages : Nat)
    (hok : (_amd_enable_slot s idx base pages).1 = 0) :
    (_amd_enable_slot s idx base pages).2.h.current_base = base ∧
    (_amd_enable_slot s idx base pages).2.dev.cfg
      = amd_cfg_after s.dev.cfg idx base pages := by
  unfold _amd_enable_slot at hok ⊢
  dsimp only at hok ⊢
  obtain ⟨ra, da, ea, ca⟩ := pci_write_split s.dev 0x60 (amd_range idx base pages)
  rw [ea] at hok ⊢
  dsimp only at hok ⊢
  by_cases ha : ra = 0
  · subst ha
    have ca := ca rfl
    simp only [ne_eq, not_true_eq_false, if_false] at hok ⊢
    by_cases hi : idx = 0
    · subst hi
      simp only [if_true] at hok ⊢
      obtain ⟨rb, vb, db, eb, cb, wb⟩ := pci_read_split da 0x6C
      rw [eb] at hok ⊢
      dsimp only at hok ⊢
      by_cases hb : rb = 0
      · subst hb
        have wb := wb rfl
        simp only [ne_eq, not_true_eq_false, if_false] at hok ⊢
        obtain ⟨rc, dc, ec, cc⟩ := pci_write_split db 0x6C (vb &&& 0xFFFFFF00)
        rw [ec] at hok ⊢
        dsimp only at hok ⊢
        by_cases hc : rc = 0
        · subst hc
          have cc := cc rfl
          simp only [ne_eq, not_true_eq_false, if_false] at hok ⊢
          obtain ⟨re, ve, de, ee, ce, we⟩ := pci_read_split dc 0x48
          rw [ee] at hok ⊢
          dsimp only at hok ⊢
          by_cases he : re = 0
          · subst he
            have we := we rfl
            simp only [ne_eq, not_true_eq_false, if_false] at hok ⊢
            obtain ⟨rf, df, ef, cf⟩ := pci_write_split de 0x48 (ve ||| BIT 5)
            rw [ef] at hok ⊢
            dsimp only at hok ⊢
            by_cases hf : rf = 0
            · subst hf
              have cf := cf rfl
              simp only [ne_eq, not_true_eq_false, if_false]
              refine ⟨trivial, ?_⟩
              rw [cf, ce, cc, cb, ca] at *
              subst we wb
              funext o
              simp only [amd_cfg_after, if_true]
              split_ifs <;> simp_all
            · simp only [ne_eq, hf, not_false_eq_true, if_true] at hok
          · simp only [ne_eq, he, not_false_eq_true, if_true] at hok
        · simp only [ne_eq, hc, not_false_eq_true, if_true] at hok
      · simp only [ne_eq, hb, not_false_eq_true, if_true] at hok
    · simp only [hi, if_false, ne_eq, not_true_eq_false] at hok ⊢
      obtain ⟨rc, dc, ec, cc⟩ :=
        pci_write_split da 0x6C (0xFFFF0000 ||| (amd_end idx base pages &&& 0xFFFF))
      rw [ec] at hok ⊢
      dsimp only at hok ⊢
      by_cases hc : rc = 0
      · subst hc
        have cc := cc rfl
        simp only [ne_eq, not_true_eq_false, if_false] at hok ⊢
        obtain ⟨re, ve, de, ee, ce, we⟩ := pci_read_split dc 0x48
        rw [ee] at hok ⊢
        dsimp only at hok ⊢
        by_cases he : re = 0
        · subst he
          have we := we rfl
          simp only [ne_eq, not_true_eq_false, if_false] at hok ⊢
          obtain ⟨rf, df, ef, cf⟩ := pci_write_split de 0x48 (ve ||| BIT 5)
          rw [ef] at hok ⊢
          dsimp only at hok ⊢
          by_cases hf : rf = 0
          · subst hf
            have cf := cf rfl
            simp only [ne_eq, not_true_eq_false, if_false]
            refine ⟨trivial, ?_⟩
            rw [cf, ce, cc, ca] at *
            subst we
            funext o
            simp only [amd_cfg_after, hi, if_false]
            split_ifs <;> simp_all
          · simp only [ne_eq, hf, not_false_eq_true, if_true] at hok
        · simp only [ne_eq, he, not_false_eq_true, if_true] at hok
      · simp only [ne_eq, hc, not_false_eq_true, if_true] at hok
  · simp only [ne_eq, ha, not_false_eq_true, if_true] at hok

theorem and_ffff_eq (x : Nat) : x &&& 0xFFFF = x % 65536 := by
  have h := Nat.and_pow_two_sub_one_eq_mod x 16
  simpa using h

theorem and_ff_eq (x : Nat) : x &&& 0xFF = x % 256 := by
  have h := Nat.and_pow_two_sub_one_eq_mod x 8
  simpa using h

theorem shl16_eq (x : Nat) : x <<< 16 = 65536 * x := by
  simp [Nat.shiftLeft_eq, Nat.mul_comm]

theorem shr16_eq (x : Nat) : x >>> 16 = x / 65536 := by
  simp [Nat.shiftRight_eq_div_pow]

theorem or_shl16 (a b : Nat) (h : b < 65536) : 65536 * a ||| b = 65536 * a + b := by
  have h2 := Nat.mul_add_lt_is_or (show b < 2 ^ 16 by simpa using h) a
  simpa using h2.symm

theorem and_ff00_eq (x : Nat) : x &&& 0xFF00 = x % 65536 - x % 256 := by
  have e : x &&& 0xFF00 = ((x >>> 8) &&& 0xFF) <<< 8 := by
    apply Nat.eq_of_testBit_eq
    intro i
    have h0 : (0xFF00 : Nat) = (2 ^ 8 - 1) <<< 8 := by decide
    have h1 : (0xFF : Nat) = 2 ^ 8 - 1 := by decide
    rw [h0, h1]
    simp only [Nat.testBit_and, Nat.testBit_shiftLeft, Nat.testBit_shiftRight,
      Nat.testBit_two_pow_sub_one]
    by_cases h : 8 ≤ i
    · have e2 : 8 + (i - 8) = i := by omega
      simp [h, e2]
    · simp [h]
  rw [e, and_ff_eq, Nat.shiftRight_eq_div_pow, Nat.shiftLeft_eq]
  omega

theorem or_ffff0000 (t : Nat) :
    u32 (0xFFFF0000 ||| (u32 t &&& 0xFFFF)) = 0xFFFF0000 ||| (t &&& 0xFFFF) := by
  rw [and_ffff_eq, and_ffff_eq]
  have e1 : u32 t % 65536 = t % 65536 := by
    unfold u32
    omega
  rw [e1]
  have e2 : (0xFFFF0000 : Nat) = 65536 * 65535 := by norm_num
  rw [e2, or_shl16 _ _ (Nat.mod_lt _ (by norm_num))]
  unfold u32
  omega

/-- The value written to register 0x60, in plain arithmetic. -/
theorem amd_range_eq (idx : Int) (base pages : Nat) :
    u32 (amd_range idx base pages)
      = (((amd_start idx base + pages) <<< 16) ||| amd_start idx base) % 2 ^ 32 := by
  have hs : amd_start idx base < 65536 := by
    unfold amd_start
    split_ifs
    · rw [and_ff00_eq]
      omega
    · rw [and_ffff_eq]
      omega
  unfold amd_range amd_end u32
  rw [and_ffff_eq, shl16_eq, shl16_eq, or_shl16 _ _ hs]
  have h2 : 65536 * ((amd_start idx base + pages) % 2 ^ 32) % 2 ^ 32 % 65536 = 0 := by omega
  have h3 : 65536 * ((amd_start idx base + pages) % 2 ^ 32) % 2 ^ 32
      = 65536 * (65536 * ((amd_start idx base + pages) % 2 ^ 32) % 2 ^ 32 / 65536) := by omega
  rw [h3, or_shl16 _ _ (by omega)]
  omega

/-- C23: after a call of `_amd_enable_slot` that returns 0, with START the page of the
base masked with 0xFF00 for slot 0 and with 0xFFFF for slot 1 and END = START + pages,
register 0x60 holds `((END << 16) | START) mod 2^32`, register 0x6C holds its previous
value with the low 8 bits cleared for slot 0 and `0xFFFF0000 | (END & 0xFFFF)` for slot
1, register 0x48 holds its previous value with bit 5 set and every other bit as it was,
and `current_base` is `base`. -/
theorem amd_enable_slot_registers (s : H2Sys) (idx : Int) (base pages : Nat)
    (hw : ∀ off, s.dev.cfg off < 2 ^ 32)
    (hok : (_amd_enable_slot s idx base pages).1 = 0) :
    (_amd_enable_slot s idx base pages).2.dev.cfg 0x60
      = ((((if idx = 0 then (base >>> 16) &&& 0xFF00 else (base >>> 16) &&& 0xFFFF) + pages)
            <<< 16) |||
          (if idx = 0 then (base >>> 16) &&& 0xFF00 else (base >>> 16) &&& 0xFFFF)) % 2 ^ 32 ∧
    (_amd_enable_slot s idx base pages).2.dev.cfg 0x6C
      = (if idx = 0 then s.dev.cfg 0x6C &&& 0xFFFFFF00
         else 0xFFFF0000 |||
           (((if idx = 0 then (base >>> 16) &&& 0xFF00 else (base >>> 16) &&& 0xFFFF) + pages)
             &&& 0xFFFF)) ∧
    (_amd_enable_slot s idx base pages).2.dev.cfg 0x48 = s.dev.cfg 0x48 ||| BIT 5 ∧
    (∀ j, ((_amd_enable_slot s idx base pages).2.dev.cfg 0x48).testBit j
      = (decide (j = 5) || (s.dev.cfg 0x48).testBit j)) ∧
    (_amd_enable_slot s idx base pages).2.h.current_base = base := by
  obtain ⟨r1, r2⟩ := amd_enable_slot_ret0 s idx base pages hok
  have h48 : (_amd_enable_slot s idx base pages).2.dev.cfg 0x48 = s.dev.cfg 0x48 ||| BIT 5 := by
    rw [r2]
    simp only [amd_cfg_after, if_true]
    rw [u32_of_lt (hw 0x48)]
    exact u32_of_lt (Nat.or_lt_two_pow (hw 0x48) (by decide))
  refine ⟨?_, ?_, h48, ?_, r1⟩
  · rw [r2]
    have e := amd_range_eq idx base pages
    unfold amd_start at e
    simp only [amd_cfg_after]
    exact e
  · rw [r2]
    by_cases hi : idx = 0
    · simp only [amd_cfg_after, hi, if_true]
      have e : (0x6C : Nat) ≠ 0x48 := by decide
      rw [if_neg e, u32_of_lt (hw 0x6C)]
      exact u32_of_lt (Nat.lt_of_le_of_lt Nat.and_le_left (hw 0x6C))
    · simp only [amd_cfg_after, amd_end, amd_start, hi, if_false, if_true]
      have e : (0x6C : Nat) ≠ 0x48 := by decide
      rw [if_neg e]
      exact or_ffff0000 _
  · intro j
    rw [h48, Nat.testBit_or]
    have hb : BIT 5 = 2 ^ 5 := by decide
    rw [hb, Nat.testBit_two_pow, Bool.or_comm]
    congr 1
    simp [eq_comm]

theorem amd_dev_dword (off : Nat) : amd_live.dev.cfg off < 2 ^ 32 := by
  show (if off = 0x48 then 0x0F else if off = 0x60 then 0xABCD
      else if off = 0x6C then 0x12345678 else 0) < 2 ^ 32
  split_ifs <;> norm_num

/-- C23 on a bridge with registers 0x48 = 0x0F, 0x6C = 0x12345678 for slot 1 at
0xFE010000 with 2 pages. -/
theorem amd_enable_slot_registers_witness :
    (_amd_enable_slot amd_live 1 0xFE010000 2).2.dev.cfg 0x60
      = (((0xFE010000 >>> 16) &&& 0xFFFF) + 2) <<< 16 ||| ((0xFE010000 >>> 16) &&& 0xFFFF) ∧
    (_amd_enable_slot amd_live 1 0xFE010000 2).2.dev.cfg 0x48 = amd_live.dev.cfg 0x48 ||| BIT 5 ∧
    (_amd_enable_slot amd_live 1 0xFE010000 2).2.h.current_base = 0xFE010000 :=
  have h := amd_enable_slot_registers amd_live 1 0xFE010000 2 amd_dev_dword (by decide)
  ⟨h.1, h.2.2.1, h.2.2.2.2⟩

/-- The same call and the call for slot 0, evaluated. -/
theorem amd_enable_slot_values :
    (_amd_enable_slot amd_live 1 0xFE010000 2).2.dev.cfg 0x60 = 0xFE03FE01 ∧
    (_amd_enable_slot amd_live 1 0xFE010000 2).2.dev.cfg 0x6C = 0xFFFFFE03 ∧
    (_amd_enable_slot amd_live 1 0xFE010000 2).2.dev.cfg 0x48 = 0x2F ∧
    (_amd_enable_slot amd_live 0 0xFE000000 1).2.dev.cfg 0x60 = 0xFE01FE00 ∧
    (_amd_enable_slot amd_live 0 0xFE000000 1).2.dev.cfg 0x6C = 0x12345600 ∧
    (_amd_enable_slot amd_live 0 0xFE000000 1).2.dev.cfg 0x48 = 0x2F := by
  decide

/-! ## AMD slot programming: the programmed range and the requested window -/

/-- C28 (amended): after a call of `_amd_enable_slot` that returns 0 for a 64 KiB-aligned
32-bit base and at least one page with `(base >> 16) + pages <= 0xFFFF`, the range
[START, END] in register 0x60 has START <= base >> 16 and END = START + pages; for
slot 1 it contains the requested window; for slot 0 it contains the requested window
exactly when the low 8 bits of `base >> 16` are zero. -/
theorem amd_range_window (s : H2Sys) (idx : Int) (base pages : Nat)
    (hi : idx = 0 ∨ idx = 1) (hb : base < 2 ^ 32) (hal : base % 65536 = 0) (hp : 1 ≤ pages)
    (hbd : (base >>> 16) + pages ≤ 0xFFFF)
    (hok : (_amd_enable_slot s idx base pages).1 = 0) :
    range_start ((_amd_enable_slot s idx base pages).2.dev.cfg 0x60) ≤ base >>> 16 ∧
    range_end ((_amd_enable_slot s idx base pages).2.dev.cfg 0x60)
      = range_start ((_amd_enable_slot s idx base pages).2.dev.cfg 0x60) + pages ∧
    (idx = 1 →
      (base >>> 16) + pages ≤ range_end ((_amd_enable_slot s idx base pages).2.dev.cfg 0x60)) ∧
    (idx = 0 →
      ((base >>> 16) + pages ≤ range_end ((_amd_enable_slot s idx base pages).2.dev.cfg 0x60)
        ↔ (base >>> 16) &&& 0xFF = 0)) := by
  obtain ⟨-, r2⟩ := amd_enable_slot_ret0 s idx base pages hok
  have hv : (_amd_enable_slot s idx base pages).2.dev.cfg 0x60
      = 65536 * (amd_start idx base + pages) + amd_start idx base := by
    rw [r2]
    have e1 : (0x60 : Nat) ≠ 0x48 := by decide
    have e2 : (0x60 : Nat) ≠ 0x6C := by decide
    simp only [amd_cfg_after, if_neg e1, if_neg e2, if_true]
    rw [amd_range_eq, shl16_eq]
    have hs : amd_start idx base ≤ base >>> 16 := by
      unfold amd_start
      split_ifs
      · rw [and_ff00_eq]
        omega
      · rw [and_ffff_eq]
        omega
    rw [or_shl16 _ _ (by omega)]
    omega
  have hs0 : idx = 0 → amd_start idx base = (base >>> 16) - (base >>> 16) % 256 := by
    intro h
    unfold amd_start
    rw [if_pos h, and_ff00_eq]
    omega
  have hs1 : idx = 1 → amd_start idx base = base >>> 16 := by
    intro h
    have h0 : ¬ idx = 0 := by omega
    unfold amd_start
    rw [if_neg h0, and_ffff_eq]
    omega
  rw [hv]
  unfold range_start range_end
  rw [and_ffff_eq, shr16_eq, and_ff_eq]
  rcases hi with h | h
  · have e := hs0 h
    refine ⟨by omega, by omega, fun h1 => by omega, fun _ => by omega⟩
  · have e := hs1 h
    refine ⟨by omega, by omega, fun _ => by omega, fun h0 => by omega⟩

/-- C28 (amended) for slot 1 at 0xFE010000 with 2 pages and for slot 0 at the 16
MiB-aligned base 0xFE000000 with 1 page. -/
theorem amd_range_window_witness :
    ((0xFE010000 >>> 16) + 2
      ≤ range_end ((_amd_enable_slot amd_live 1 0xFE010000 2).2.dev.cfg 0x60)) ∧
    ((0xFE000000 >>> 16) + 1
      ≤ range_end ((_amd_enable_slot amd_live 0 0xFE000000 1).2.dev.cfg 0x60)) :=
  ⟨(amd_range_window amd_live 1 0xFE010000 2 (Or.inr rfl) (by decide) (by decide) (by decide)
      (by decide) (by decide)).2.2.1 rfl,
   ((amd_range_window amd_live 0 0xFE000000 1 (Or.inl rfl) (by decide) (by decide) (by decide)
      (by decide) (by decide)).2.2.2 rfl).2 (by decide)⟩

/-- C28 as stated fails for slot 0: at the 64 KiB-aligned base 0xFE010000 with 1 page
the call returns 0 and register 0x60 holds START = 0xFE00 and END = 0xFE01, while the
requested window ends at page 0xFE02. -/
theorem amd_slot0_range_short :
    (0xFE010000 : Nat) % 65536 = 0 ∧ (0xFE010000 >>> 16) + 1 ≤ 0xFFFF ∧
    (_amd_enable_slot amd_live 0 0xFE010000 1).1 = 0 ∧
    (_amd_enable_slot amd_live 0 0xFE010000 1).2.dev.cfg 0x60 = 0xFE01FE00 ∧
    range_start ((_amd_enable_slot amd_live 0 0xFE010000 1).2.dev.cfg 0x60) = 0xFE00 ∧
    range_end ((_amd_enable_slot amd_live 0 0xFE010000 1).2.dev.cfg 0x60) = 0xFE01 ∧
    ¬ ((0xFE010000 >>> 16) + 1
        ≤ range_end ((_amd_enable_slot amd_live 0 0xFE010000 1).2.dev.cfg 0x60)) := by
  decide

/-! ## Intel slot programming: register values -/

/-- A call of `_intel_enable_slot` that returns 0 leaves the register values of the
enable sequence and the handle as it was. -/
theorem intel_enable_slot_ret0 (s : H2Sys) (idx : Int) (base : Nat)
    (hok : (_intel_enable_slot s idx base).1 = 0) :
    (_intel_enable_slot s idx base).2.h = s.h ∧
    (_intel_enable_slot s idx base).2.dev.cfg = intel_cfg_after s.dev.cfg idx base := by
  unfold _intel_enable_slot at hok ⊢
  dsimp only at hok ⊢
  obtain ⟨ra, va, da, ea, ca, wa⟩ := pci_read_split s.dev 0xD8
  rw [ea] at hok ⊢
  dsimp only at hok ⊢
  by_cases ha : ra = 0
  · subst ha
    have wa := wa rfl
    simp only [ne_eq, not_true_eq_false, if_false] at hok ⊢
    obtain ⟨rb, db, eb, cb⟩ := pci_write_split da 0xD8 (va &&& not32 (intel_mask idx base))
    rw [eb] at hok ⊢
    dsimp only at hok ⊢
    by_cases hb : rb = 0
    · subst hb
      have cb := cb rfl
      simp only [ne_eq, not_true_eq_false, if_false] at hok ⊢
      obtain ⟨rc, dc, ec, cc⟩ := pci_write_split db 0x98 (intel_range base)
      rw [ec] at hok ⊢
      dsimp only at hok ⊢
      by_cases hc : rc = 0
      · subst hc
        have cc := cc rfl
        simp only [ne_eq, not_true_eq_false, if_false]
        refine ⟨trivial, ?_⟩
        rw [cc, cb, ca] at *
        subst wa
        funext o
        simp only [intel_cfg_after]
      · simp only [ne_eq, hc, not_false_eq_true, if_true] at hok
    · simp only [ne_eq, hb, not_false_eq_true, if_true] at hok
  · simp only [ne_eq, ha, not_false_eq_true, if_true] at hok

theorem ite_mem_values {c : Prop} [Decidable c] {a b : Nat} (ha : a ∈ mask_values)
    (hb : b ∈ mask_values) : (if c then a else b) ∈ mask_values := by
  split_ifs
  · exact ha
  · exact hb

theorem data_space_values (base : Nat) :
    _intel_bios_mask_for_data_space base ∈ mask_values := by
  unfold _intel_bios_mask_for_data_space
  repeat' apply ite_mem_values
  all_goals decide

theorem feat_space_values (base : Nat) :
    _intel_bios_mask_for_feat_space base ∈ mask_values := by
  unfold _intel_bios_mask_for_feat_space
  repeat' apply ite_mem_values
  all_goals decide

theorem mask_values_bit : ∀ m ∈ mask_values, m = 0 ∨ ∃ k, k < 16 ∧ m = 2 ^ k := by
  decide

/-- The bucket of a base selects exactly one of the 16 bits. -/
theorem bucket_mask_bit (base : Nat) : ∃ k, k < 16 ∧ bucket_mask base = 2 ^ k := by
  unfold bucket_mask
  split_ifs with h1 h2
  · rcases mask_values_bit _ (data_space_values base) with h | h
    · exact absurd h h1
    · exact h
  · rcases mask_values_bit _ (feat_space_values base) with h | h
    · exact absurd h h2
    · exact h
  · exact ⟨0, by decide, by decide⟩

theorem intel_mask_eq (idx : Int) (base : Nat) :
    intel_mask idx base = if idx = 0 then 1 else bucket_mask base := by
  unfold intel_mask bucket_mask
  dsimp only
  by_cases hi : idx = 0
  · rw [if_pos hi, if_pos hi]
    decide
  · rw [if_neg hi, if_neg hi]
    by_cases h1 : _intel_bios_mask_for_data_space base = 0
    · simp [h1]
    · simp [h1]

theorem not32_bit (k j : Nat) (hk : k < 16) :
    (not32 (2 ^ k)).testBit j = (decide (j < 32) && decide (j ≠ k)) := by
  have h1 : (2 : Nat) ^ k < 2 ^ 32 :=
    Nat.pow_lt_pow_right (by norm_num) (by omega)
  have h2 : not32 (2 ^ k) = 2 ^ 32 - (2 ^ k + 1) := by
    unfold not32 u32
    rw [Nat.mod_eq_of_lt h1]
    omega
  rw [h2, Nat.testBit_two_pow_sub_succ h1, Nat.testBit_two_pow]
  by_cases h : k = j
  · subst h
    simp
  · have h3 : ¬ j = k := fun e => h e.symm
    simp [h, h3]

theorem testBit_high (a j : Nat) (ha : a < 2 ^ 32) (hj : ¬ j < 32) : a.testBit j = false := by
  apply Nat.testBit_lt_two_pow
  exact Nat.lt_of_lt_of_le ha (Nat.pow_le_pow_right (by norm_num) (by omega))

theorem intel_range_eq (base : Nat) (hb : base < 2 ^ 32) :
    u32 (intel_range base) = ((base >>> 16) <<< 16) ||| 1 := by
  have hx : base >>> 16 < 65536 := by
    rw [shr16_eq]
    omega
  unfold intel_range
  rw [and_ffff_eq, Nat.mod_eq_of_lt hx]
  have h1 : (base >>> 16) <<< 16 < 2 ^ 32 := by
    rw [shl16_eq]
    omega
  rw [u32_of_lt h1]
  exact u32_of_lt (Nat.or_lt_two_pow h1 (by norm_num))

/-- C24 (amended): a call of `_intel_enable_slot` that returns 0 clears in register
0xD8 exactly one bit and leaves every other bit of it as it was: for slot 0 bit 0,
whatever the base, for any other slot the bit of the bucket that contains the base
(data-space table first, then feature-space table, bit 0 when no bucket matches); and
it leaves `((base >> 16) << 16) | 1` in register 0x98 and every other register as it
was. -/
theorem intel_enable_slot_bits (s : H2Sys) (idx : Int) (base : Nat) (hb : base < 2 ^ 32)
    (hw : ∀ off, s.dev.cfg off < 2 ^ 32) (hok : (_intel_enable_slot s idx base).1 = 0) :
    (∃ k, k < 16 ∧ (if idx = 0 then 1 else bucket_mask base) = 2 ^ k ∧
      ∀ j, ((_intel_enable_slot s idx base).2.dev.cfg 0xD8).testBit j
        = ((s.dev.cfg 0xD8).testBit j && decide (j ≠ k))) ∧
    (_intel_enable_slot s idx base).2.dev.cfg 0x98 = ((base >>> 16) <<< 16) ||| 1 ∧
    (∀ off, off ≠ 0xD8 → off ≠ 0x98 →
      (_intel_enable_slot s idx base).2.dev.cfg off = s.dev.cfg off) := by
  obtain ⟨-, r2⟩ := intel_enable_slot_ret0 s idx base hok
  have hk : ∃ k, k < 16 ∧ (if idx = 0 then 1 else bucket_mask base) = 2 ^ k := by
    split_ifs
    · exact ⟨0, by decide, by decide⟩
    · exact bucket_mask_bit base
  obtain ⟨k, k1, k2⟩ := hk
  refine ⟨⟨k, k1, k2, ?_⟩, ?_, ?_⟩
  · intro j
    have e1 : (0xD8 : Nat) ≠ 0x98 := by decide
    rw [r2]
    simp only [intel_cfg_after, if_neg e1, if_true]
    rw [intel_mask_eq, k2, u32_of_lt (hw 0xD8),
      u32_of_lt (Nat.lt_of_le_of_lt Nat.and_le_left (hw 0xD8)), Nat.testBit_and,
      not32_bit k j k1]
    by_cases hj : j < 32
    · simp [hj]
    · simp [hj, testBit_high _ j (hw 0xD8) hj]
  · rw [r2]
    simp only [intel_cfg_after, if_true]
    exact intel_range_eq base hb
  · intro off h1 h2
    rw [r2]
    simp only [intel_cfg_after, if_neg h1, if_neg h2]

theorem intel_live_dword (off : Nat) : intel_live.dev.cfg off < 2 ^ 32 := by
  show (if off = 0xD8 then 0xFFFFFFFF else 0) < 2 ^ 32
  split_ifs <;> norm_num

/-- C24 (amended) on a bridge whose register 0xD8 holds 0xFFFFFFFF, for slot 1 at
0xFF510000, a base of the second data-space bucket. -/
theorem intel_enable_slot_bits_witness :
    bucket_mask 0xFF510000 = 2 ^ 1 ∧
    (_intel_enable_slot intel_live 1 0xFF510000).2.dev.cfg 0x98
      = ((0xFF510000 >>> 16) <<< 16) ||| 1 ∧
    (_intel_enable_slot intel_live 1 0xFF510000).2.dev.cfg 0x60 = intel_live.dev.cfg 0x60 :=
  have h := intel_enable_slot_bits intel_live 1 0xFF510000 (by decide) intel_live_dword
    (by decide)
  ⟨by decide, h.2.1, h.2.2 0x60 (by decide) (by decide)⟩

/-- C24 as stated fails for slot 0: the base 0xFF510000 lies in the bucket of bit 1,
but `_intel_enable_slot(0, 0xFF510000)` clears bit 0 of register 0xD8 (0xFFCF becomes
0xFFCE) and leaves bit 1 set. -/
theorem intel_slot0_clears_bit0 :
    bucket_mask 0xFF510000 = 0x0002 ∧
    intel_fresh.dev.cfg 0xD8 = 0xFFCF ∧
    (_intel_enable_slot intel_fresh 0 0xFF510000).1 = 0 ∧
    (_intel_enable_slot intel_fresh 0 0xFF510000).2.dev.cfg 0xD8 = 0xFFCE ∧
    ((_intel_enable_slot intel_fresh 0 0xFF510000).2.dev.cfg 0xD8).testBit 1 = true ∧
    ((_intel_enable_slot intel_fresh 0 0xFF510000).2.dev.cfg 0xD8).testBit 0 = false ∧
    (_intel_enable_slot intel_fresh 1 0xFF510000).2.dev.cfg 0xD8 = 0xFFCD := by
  decide

/-! ## Bank switch -/

/-- C25: on a bank-select chip whose port pair the chip decodes, for every bank `b` in
0..7 `it87_io_set_bank` returns the bank in the top 3 bits of the bank register and
leaves the register with top 3 bits `b` and its low 5 bits and every other chip register
unchanged; when `b` is the selected bank already, the only port accesses are the two of
the register read; on a chip without bank-select it returns `b` and accesses
nothing. -/
theorem set_bank_effect (d : it87_data) (w : World) (b : Nat) (hb : b ≤ 7) :
    (has_bank_sel d = true → d.addr = w.ec_base → bank_reg w < 256 →
      (it87_io_set_bank d b w).1 = bank_reg w >>> 5 ∧
      bank_reg (it87_io_set_bank d b w).2 >>> 5 = b ∧
      bank_reg (it87_io_set_bank d b w).2 &&& 0x1f = bank_reg w &&& 0x1f ∧
      (∀ i, i ≠ IT87_REG_BANK → (it87_io_set_bank d b w).2.ec_regs i = w.ec_regs i) ∧
      (b = bank_reg w >>> 5 →
        (it87_io_set_bank d b w).2.ec_regs = w.ec_regs ∧
        (it87_io_set_bank d b w).2.port_log = w.port_log ++
          [PortEv.outb IT87_REG_BANK (d.addr + IT87_ADDR_REG_OFFSET),
           PortEv.inb (d.addr + IT87_DATA_REG_OFFSET) (bank_reg w)])) ∧
    (has_bank_sel d = false → it87_io_set_bank d b w = (b, w)) := by
  have hub : u8 b = b := u8_of_lt (by omega)
  constructor
  · intro hs ha hr
    obtain ⟨a1, -, a3⟩ := set_bank_chip d b w hs ha
    have hur : u8 (bank_reg w) = bank_reg w := u8_of_lt hr
    rw [hur] at a1 a3
    rw [hub] at a3
    have hnew : bank_reg (it87_io_set_bank d b w).2
        = if b ≠ bank_reg w >>> 5 then u8 ((bank_reg w &&& 0x1f) ||| (b <<< 5))
          else bank_reg w := by
      show (it87_io_set_bank d b w).2.ec_regs IT87_REG_BANK = _
      rw [a3]
      simp only [if_true]
    have hval : u8 ((bank_reg w &&& 0x1f) ||| (b <<< 5)) = 32 * b + bank_reg w % 32 := by
      rw [and_1f_eq, shl5_eq, or_shl5 _ _ (Nat.mod_lt _ (by norm_num))]
      unfold u8
      omega
    refine ⟨a1, ?_, ?_, ?_, ?_⟩
    · rw [hnew]
      split_ifs with h
      · rw [hval, shr5_eq]
        omega
      · exact (not_not.mp h).symm
    · rw [hnew]
      split_ifs with h
      · rw [hval, and_1f_eq, and_1f_eq]
        omega
      · rfl
    · intro i hi
      rw [a3]
      simp only [if_neg hi]
    · intro hsel
      constructor
      · rw [a3]
        funext i
        have hn : ¬ (b ≠ bank_reg w >>> 5) := fun h => h hsel
        simp only [if_neg hn]
        split_ifs with h
        · rw [h]
          rfl
        · rfl
      · obtain ⟨r1, -, -⟩ := io_read_chip d IT87_REG_BANK w ha
        have hu : u8 IT87_REG_BANK = IT87_REG_BANK := by decide
        have hi : int_u8 ((_it87_io_read d IT87_REG_BANK w).1) = bank_reg w := by
          rw [r1, hu]
          show int_u8 ((u8 (bank_reg w) : Nat) : Int) = bank_reg w
          rw [hur]
          simp only [int_u8]
          omega
        have hn : ¬ (u8 b ≠ int_u8 ((_it87_io_read d IT87_REG_BANK w).1) >>> 5) := by
          rw [hi, hub]
          exact fun h => h hsel
        unfold it87_io_set_bank
        dsimp only
        rw [if_pos hs, if_neg hn]
        have hv : u8 (w.ec_regs (u8 IT87_REG_BANK)) = bank_reg w := by
          rw [hu]
          exact hur
        simp [_it87_io_read, inb, outb, ha, IT87_ADDR_REG_OFFSET, IT87_DATA_REG_OFFSET, hu, hv]
        exact hur
  · intro hs
    unfold it87_io_set_bank
    rw [hs, hub]
    rfl

/-- C25 on the bank-select chip with bank register 0x45 (bank 2 selected): the switch
to bank 5 returns 2 and leaves 0xA5, the switch to bank 2 writes nothing. -/
theorem set_bank_effect_witness :
    (it87_io_set_bank bank_data 5
        { quiet_world with ec_regs := fun i => if i = 0x06 then 0x45 else 0 }).1
      = bank_reg { quiet_world with ec_regs := fun i => if i = 0x06 then 0x45 else 0 } >>> 5 ∧
    bank_reg (it87_io_set_bank bank_data 5
        { quiet_world with ec_regs := fun i => if i = 0x06 then 0x45 else 0 }).2 >>> 5 = 5 ∧
    (it87_io_set_bank bank_data 2
        { quiet_world with ec_regs := fun i => if i = 0x06 then 0x45 else 0 }).2.port_log
      = [PortEv.outb 0x06 0x295, PortEv.inb 0x296 0x45] :=
  have h5 := (set_bank_effect bank_data
    { quiet_world with ec_regs := fun i => if i = 0x06 then 0x45 else 0 } 5 (by decide)).1
    (by decide) (by decide) (by decide)
  have h2 := (set_bank_effect bank_data
    { quiet_world with ec_regs := fun i => if i = 0x06 then 0x45 else 0 } 2 (by decide)).1
    (by decide) (by decide) (by decide)
  ⟨h5.1, h5.2.1, (h2.2.2.2.2 (by decide)).2⟩

/-- The two switches evaluated: return value 2, register 0xA5 after the switch to bank
5, and the write to the data port in its log. -/
theorem set_bank_values :
    (it87_io_set_bank bank_data 5
        { quiet_world with ec_regs := fun i => if i = 0x06 then 0x45 else 0 }).1 = 2 ∧
    bank_reg (it87_io_set_bank bank_data 5
        { quiet_world with ec_regs := fun i => if i = 0x06 then 0x45 else 0 }).2 = 0xA5 ∧
    (it87_io_set_bank bank_data 5
        { quiet_world with ec_regs := fun i => if i = 0x06 then 0x45 else 0 }).2.port_log
      = [PortEv.outb 0x06 0x295, PortEv.inb 0x296 0x45,
         PortEv.outb 0x06 0x295, PortEv.outb 0xA5 0x296] ∧
    it87_io_set_bank (plain_data 0 ReadFn._it87_io_read WriteFn._it87_io_write) 5 quiet_world
      = (5, quiet_world) := by
  refine ⟨by decide, by decide, by decide, rfl⟩


/-! ## Tachometer enable bits at initialisation -/

/-- C29 at a failing input: on a freshly reset chip (FAN_MAIN_CTRL reads 0x00, cache
field `fan_main_ctrl` 0, no fan skipped) the mask is 0x70 and `r & mask` is 0, but the
byte written to register 0x13 is 0x00, not `r | mask` = 0x70; with a stale cache field
0x33 the byte written is 0x33.  When `r & mask` is not 0 nothing is written. -/
theorem tachometers_reset_writes_cache :
    (it87_check_tachometers_reset reset_data 0 quiet_world).port_log
      = [PortEv.outb 0x13 0x295, PortEv.inb 0x296 0x00,
         PortEv.outb 0x13 0x295, PortEv.outb 0x00 0x296] ∧
    (it87_check_tachometers_reset reset_data 0 quiet_world).ec_regs 0x13 = 0x00 ∧
    (0x00 ||| u8 (0x70 &&& not32 (u8 0 <<< 4))) = 0x70 ∧
    (it87_check_tachometers_reset { reset_data with fan_main_ctrl := 0x33 } 0
        quiet_world).ec_regs 0x13 = 0x33 ∧
    (it87_check_tachometers_reset reset_data 0
        { quiet_world with ec_regs := fun i => if i = 0x13 then 0x10 else 0 }).port_log
      = [PortEv.outb 0x13 0x295, PortEv.inb 0x296 0x10] := by
  decide

/-! ## Logical state of the bridge and the windows enabled at module load -/

/-- C27 at a failing input: on an Intel bridge `it87_h2_get_state` reports ENABLED_2E
directly after `it87_h2_set_slot` alone, with no configuration access made, and again
directly after `it87_h2_set_state(DISABLED)` has written the original values back; on
an AMD bridge both queries report ORIGINAL. -/
theorem intel_state_from_bookkeeping :
    it87_h2_get_state (it87_h2_set_slot intel_fresh 0 0xFE000000 0x1000).2
      = IT87_MMIO_ENABLED_2E ∧
    (it87_h2_set_slot intel_fresh 0 0xFE000000 0x1000).2.dev.log = [] ∧
    (it87_h2_set_state (it87_h2_set_state
        (it87_h2_set_slot intel_fresh 0 0xFE000000 0x1000).2 IT87_MMIO_ENABLED_2E).2
      IT87_MMIO_DISABLED).1 = 0 ∧
    (it87_h2_set_state (it87_h2_set_state
        (it87_h2_set_slot intel_fresh 0 0xFE000000 0x1000).2 IT87_MMIO_ENABLED_2E).2
      IT87_MMIO_DISABLED).2.dev.cfg 0x98 = 0 ∧
    (it87_h2_set_state (it87_h2_set_state
        (it87_h2_set_slot intel_fresh 0 0xFE000000 0x1000).2 IT87_MMIO_ENABLED_2E).2
      IT87_MMIO_DISABLED).2.dev.cfg 0xD8 = 0xFFCF ∧
    it87_h2_get_state (it87_h2_set_state (it87_h2_set_state
        (it87_h2_set_slot intel_fresh 0 0xFE000000 0x1000).2 IT87_MMIO_ENABLED_2E).2
      IT87_MMIO_DISABLED).2 = IT87_MMIO_ENABLED_2E ∧
    it87_h2_get_state (it87_h2_set_slot amd_fresh 0 0xFE000000 0x1000).2
      = IT87_MMIO_ORIGINAL ∧
    it87_h2_get_state (it87_h2_set_state (it87_h2_set_state
        (it87_h2_set_slot amd_fresh 0 0xFE000000 0x1000).2 IT87_MMIO_ENABLED_2E).2
      IT87_MMIO_DISABLED).2 = IT87_MMIO_ORIGINAL ∧
    it87_h2_get_state (it87_h2_set_state
        (it87_h2_set_slot amd_fresh 0 0xFE000000 0x1000).2 IT87_MMIO_ENABLED_2E).2
      = IT87_MMIO_ENABLED_2E := by
  decide

/-- C26 at failing inputs: at the last step of `sm_it87_init` on an Intel board with
slot 0 configured (and likewise with both slots) the state query reports an enabled
state, no request is made and no register of the bridge is written, whereas the
request itself would put the range of slot 0 into register 0x98; on an AMD board with
slot 0 alone configured the request for both slots is refused with -EINVAL and
nothing is written; on an AMD board with both slots configured slot 0 is programmed. -/
theorem init_windows_not_enabled :
    intel_init_world.it87_h2_global_ready = true ∧
    intel_init_world.it87_h2_global.h.have_ 0 = true ∧
    (it87_h2_global_get_state intel_init_world).1 = IT87_MMIO_ENABLED_2E ∧
    (sm_it87_init_windows intel_init_world).it87_h2_global.dev.log = [] ∧
    (sm_it87_init_windows intel_init_world).it87_h2_global.dev.cfg 0x98 = 0 ∧
    (sm_it87_init_windows intel_init_world).it87_h2_global.dev.cfg 0xD8 = 0xFFCF ∧
    (it87_h2_global_set_state IT87_MMIO_ENABLED_2E intel_init_world).2.it87_h2_global.dev.cfg
      0x98 = 0xFE000001 ∧
    (it87_h2_global_get_state intel_init_world2).1 = IT87_MMIO_ENABLED_BOTH ∧
    (sm_it87_init_windows intel_init_world2).it87_h2_global.dev.log = [] ∧
    (it87_h2_global_get_state amd_init_world).1 = IT87_MMIO_ORIGINAL ∧
    (it87_h2_global_set_state IT87_MMIO_ENABLED_BOTH
      (it87_h2_global_get_state amd_init_world).2).1 = -EINVAL ∧
    (sm_it87_init_windows amd_init_world).it87_h2_global.dev.log = [] ∧
    (sm_it87_init_windows amd_init_world).it87_h2_global.h.current_base = 0 ∧
    (sm_it87_init_windows amd_init_world2).it87_h2_global.h.current_base = 0xFE000000 ∧
    write_offsets (sm_it87_init_windows amd_init_world2).it87_h2_global.dev.log
      = [0x60, 0x6C, 0x48] := by
  decide

/-! ## Locking of the global bridge entry points -/

/-- The lock logs evaluated: after initialisation and the configuration of slot 0 the
log holds two sections with one call on the handle each, and an activation adds a
third; a call on the handle outside a section would break the discipline. -/
theorem lock_log_values :
    intel_init_world.locks
      = [LockEv.lock Mutex.mmio_lock, LockEv.handle, LockEv.unlock Mutex.mmio_lock,
         LockEv.lock Mutex.mmio_lock, LockEv.handle, LockEv.unlock Mutex.mmio_lock] ∧
    (it87_h2_global_use_slot 0 quiet_world).2.locks
      = [LockEv.lock Mutex.mmio_lock, LockEv.unlock Mutex.mmio_lock] ∧
    lock_scan (it87_h2_global_use_slot 0 intel_init_world).2.locks false = some false ∧
    lock_scan [LockEv.handle, LockEv.lock Mutex.mmio_lock, LockEv.unlock Mutex.mmio_lock]
      false = none ∧
    lock_scan [LockEv.lock Mutex.mmio_lock, LockEv.unlock Mutex.mmio_lock, LockEv.handle]
      false = none := by
  decide

/-! ## Stores that invalidate the cache -/

theorem smbus_disable_ret (d : it87_data) (w : World) :
    (smbus_disable d w).1 = 0 ∨ (smbus_disable d w).1 = -EBUSY := by
  unfold smbus_disable superio_enter
  dsimp only
  split_ifs <;> simp_all

theorem it87_lock_ret (d : it87_data) (w : World) :
    (it87_lock d w).1 = 0 ∨ (it87_lock d w).1 = -EBUSY := by
  unfold it87_lock
  dsimp only
  rcases smbus_disable_ret d (mutex_lock Mutex.update_lock w) with h | h
  · left
    rw [if_neg (by rw [h]; decide)]
  · right
    rw [if_pos (by rw [h]; decide)]
    exact h

theorem set_temp_offset_valid (d : it87_data) (w : World) (nr : Nat) (val : Option Int)
    (count : Int) (hc : 0 ≤ count) (hok : (set_temp d nr 3 val count w).1 = count) :
    (set_temp d nr 3 val count w).2.1.valid = false := by
  cases val with
  | none =>
    have e : (set_temp d nr 3 none count w).1 = -EINVAL := rfl
    rw [e] at hok
    have : (-EINVAL : Int) = -22 := rfl
    omega
  | some v =>
    rcases it87_lock_ret d w with h | h
    · have h0 : ¬ (it87_lock d w).1 ≠ 0 := by
        rw [h]
        decide
      simp only [set_temp, if_neg h0]
      rfl
    · have h0 : (it87_lock d w).1 ≠ 0 := by
        rw [h]
        decide
      have e : (set_temp d nr 3 (some v) count w).1 = (it87_lock d w).1 := by
        simp only [set_temp, if_pos h0]
      rw [e, h] at hok
      have : (-EBUSY : Int) = -16 := rfl
      omega

theorem set_temp_type_valid (d : it87_data) (w : World) (nr : Nat) (val : Option Int)
    (count : Int) (hc : 0 ≤ count) (hok : (set_temp_type d nr val count w).1 = count) :
    (set_temp_type d nr val count w).2.1.valid = false := by
  have e22 : (-EINVAL : Int) = -22 := rfl
  cases val with
  | none =>
    have e : (set_temp_type d nr none count w).1 = -EINVAL := rfl
    rw [e] at hok
    omega
  | some v =>
    rcases it87_lock_ret d w with h | h
    · have h0 : ¬ (it87_lock d w).1 ≠ 0 := by
        rw [h]
        decide
      simp only [set_temp_type, if_neg h0] at hok ⊢
      split at hok
      · dsimp only at hok
        omega
      · rfl
    · have h0 : (it87_lock d w).1 ≠ 0 := by
        rw [h]
        decide
      have e : (set_temp_type d nr (some v) count w).1 = (it87_lock d w).1 := by
        simp only [set_temp_type, if_pos h0]
      rw [e, h] at hok
      have : (-EBUSY : Int) = -16 := rfl
      omega

theorem refresh_when_invalid (e : it87_data) (x : World) (t : Nat) (hv : e.valid = false)
    (hd : (smbus_disable { e with last_updated := t } (at_disable x)).1 = 0) :
    (it87_update_device { e with last_updated := t } x).1 = 0 ∧
    (it87_update_device { e with last_updated := t } x).2.1.valid = true ∧
    (it87_update_device { e with last_updated := t } x).2.2
      = one_pass_world { e with last_updated := t } x := by
  obtain ⟨r1, r2, -, r4⟩ := update_device_miss { e with last_updated := t } x (Or.inr hv) hd
  exact ⟨r1, r2, r4⟩

theorem set_temp_accepts (d : it87_data) (w : World) (nr index : Nat) (v count : Int)
    (hl : (it87_lock d w).1 = 0) : (set_temp d nr index (some v) count w).1 = count := by
  have h0 : ¬ (it87_lock d w).1 ≠ 0 := fun h => h hl
  simp only [set_temp, if_neg h0]

theorem set_temp_type_accepts (d : it87_data) (w : World) (nr : Nat) (v count : Int)
    (hl : (it87_lock d w).1 = 0) (hv : v = 0 ∨ v = 2 ∨ v = 3 ∨ v = 4) :
    (set_temp_type d nr (some v) count w).1 = count := by
  have h0 : ¬ (it87_lock d w).1 ≠ 0 := fun h => h hl
  simp only [set_temp_type, if_neg h0]
  rcases hv with h | h | h | h <;> subst h <;> simp

/-- C21: a store of a temperature offset (`set_temp` with index 3) and a store of a
sensor type (`set_temp_type`) that succeed, that is, return the length of the buffer,
leave `valid` false, and the call of `it87_update_device` that follows, whatever
`last_updated` is, makes a full refresh pass when its `smbus_disable` succeeds; with
the lock taken every parsed offset is stored, and the types 0, 2, 3 and 4 are
accepted on every chip. -/
theorem store_invalidates_cache (d : it87_data) (w x : World) (nr t : Nat)
    (val : Option Int) (count : Int) (hc : 0 ≤ count) :
    ((set_temp d nr 3 val count w).1 = count →
      (set_temp d nr 3 val count w).2.1.valid = false ∧
      ((smbus_disable { (set_temp d nr 3 val count w).2.1 with last_updated := t }
          (at_disable x)).1 = 0 →
        (it87_update_device
            { (set_temp d nr 3 val count w).2.1 with last_updated := t } x).1 = 0 ∧
        (it87_update_device
            { (set_temp d nr 3 val count w).2.1 with last_updated := t } x).2.1.valid = true ∧
        (it87_update_device
            { (set_temp d nr 3 val count w).2.1 with last_updated := t } x).2.2
          = one_pass_world { (set_temp d nr 3 val count w).2.1 with last_updated := t } x)) ∧
    ((set_temp_type d nr val count w).1 = count →
      (set_temp_type d nr val count w).2.1.valid = false ∧
      ((smbus_disable { (set_temp_type d nr val count w).2.1 with last_updated := t }
          (at_disable x)).1 = 0 →
        (it87_update_device
            { (set_temp_type d nr val count w).2.1 with last_updated := t } x).1 = 0 ∧
        (it87_update_device
            { (set_temp_type d nr val count w).2.1 with last_updated := t } x).2.1.valid
          = true ∧
        (it87_update_device
            { (set_temp_type d nr val count w).2.1 with last_updated := t } x).2.2
          = one_pass_world
              { (set_temp_type d nr val count w).2.1 with last_updated := t } x)) ∧
    ((it87_lock d w).1 = 0 →
      (∀ v, (set_temp d nr 3 (some v) count w).1 = count) ∧
      (∀ v, v = 0 ∨ v = 2 ∨ v = 3 ∨ v = 4 →
        (set_temp_type d nr (some v) count w).1 = count)) := by
  refine ⟨fun hok => ?_, fun hok => ?_, fun hl => ?_⟩
  · have hv := set_temp_offset_valid d w nr val count hc hok
    exact ⟨hv, fun hd => refresh_when_invalid _ x t hv hd⟩
  · have hv := set_temp_type_valid d w nr val count hc hok
    exact ⟨hv, fun hd => refresh_when_invalid _ x t hv hd⟩
  · exact ⟨fun v => set_temp_accepts d w nr 3 v count hl,
      fun v hv => set_temp_type_accepts d w nr v count hl hv⟩

/-- C21 on an instance whose cache was refreshed at tick 99: the offset 5000 for
channel 0 and the sensor type 4 for channel 1 are stored, and `valid` is false
afterwards. -/
theorem store_invalidates_cache_witness :
    (set_temp { sensor_data with valid := true, last_updated := 99 } 0 3 (some 5000) 5
      quiet_world).2.1.valid = false ∧
    (set_temp_type { sensor_data with valid := true, last_updated := 99 } 1 (some 4) 2
      quiet_world).2.1.valid = false :=
  ⟨((store_invalidates_cache { sensor_data with valid := true, last_updated := 99 }
        quiet_world quiet_world 0 99 (some 5000) 5 (by decide)).1 (by decide)).1,
   ((store_invalidates_cache { sensor_data with valid := true, last_updated := 99 }
        quiet_world quiet_world 1 99 (some 4) 2 (by decide)).2.1 (by decide)).1⟩

/-- The two stores evaluated: the offset register 0x56 receives 5, the sensor type
register 0x51 receives 0x10, and a store of a limit (index 1) leaves `valid` as it
was. -/
theorem store_values :
    (set_temp { sensor_data with valid := true, last_updated := 99 } 0 3 (some 5000) 5
      quiet_world).2.2.ec_regs 0x56 = 5 ∧
    (set_temp { sensor_data with valid := true, last_updated := 99 } 0 3 (some 5000) 5
      quiet_world).2.2.ec_regs 0x5c = 0x80 ∧
    (set_temp_type { sensor_data with valid := true, last_updated := 99 } 1 (some 4) 2
      quiet_world).2.2.ec_regs 0x51 = 0x10 ∧
    (set_temp_type { sensor_data with valid := true, last_updated := 99 } 1 (some 7) 2
      quiet_world).1 = -EINVAL ∧
    (set_temp { sensor_data with valid := true, last_updated := 99 } 0 1 (some 5000) 5
      quiet_world).2.1.valid = true ∧
    TEMP_TO_REG (-1500) = -2 ∧ TEMP_TO_REG 200000 = 127 := by
  decide


/-! ## SmartFan global control byte -/

/-- The loop with its early exit decides whether every enabled channel from `i` to
`i + n - 1` is in automatic mode. -/
theorem smartfan_all_auto_iff (d : it87_data) (n : Nat) :
    ∀ i, smartfan_all_auto d i n = true ↔
      ∀ k, i ≤ k → k < i + n → d.has_pwm &&& BIT k ≠ 0 → pwm_mode d k = 2 := by
  induction n with
  | zero =>
    intro i
    simp only [smartfan_all_auto, true_iff]
    intro k h1 h2
    omega
  | succ n ih =>
    intro i
    unfold smartfan_all_auto
    split_ifs with h1 h2
    · rw [ih (i + 1)]
      constructor
      · intro h k hk1 hk2 hen
        by_cases e : k = i
        · subst e
          exact absurd h1 hen
        · exact h k (by omega) (by omega) hen
      · intro h k hk1 hk2 hen
        exact h k (by omega) (by omega) hen
    · constructor
      · intro h
        exact absurd h (by decide)
      · intro h
        exact absurd (h i (Nat.le_refl i) (by omega) h1) h2
    · rw [ih (i + 1)]
      have h2' : pwm_mode d i = 2 := not_not.mp h2
      constructor
      · intro h k hk1 hk2 hen
        by_cases e : k = i
        · subst e
          exact h2'
        · exact h k (by omega) (by omega) hen
      · intro h k hk1 hk2 hen
        exact h k (by omega) (by omega) hen

theorem smartfan_val_eq (d : it87_data) :
    (if smartfan_all_auto d 0 NUM_AUTO_PWM = true then (0x01 : Nat) else 0x00)
      = smartfan_target d := by
  unfold smartfan_target
  have h := smartfan_all_auto_iff d NUM_AUTO_PWM 0
  by_cases c : smartfan_all_auto d 0 NUM_AUTO_PWM = true
  · rw [if_pos c, if_pos]
    intro i hi hen
    exact (h.mp c) i (Nat.zero_le i) (by omega) hen
  · rw [if_neg c, if_neg]
    intro hall
    apply c
    apply h.mpr
    intro k _ hk hen
    exact hall k (by omega) hen

/-- What `it87_update_smartfan_global` does, on any transport: no write when the byte
read back is the target value, else the write of the target value. -/
theorem smartfan_global_eq (d : it87_data) (w : World) :
    it87_update_smartfan_global d w =
      if (data_read d IT87_SMARTFAN_ENABLE w).1 ≥ 0 ∧
          int_u8 (data_read d IT87_SMARTFAN_ENABLE w).1 = smartfan_target d then
        (data_read d IT87_SMARTFAN_ENABLE w).2
      else data_write d IT87_SMARTFAN_ENABLE (smartfan_target d)
        (data_read d IT87_SMARTFAN_ENABLE w).2 := by
  unfold it87_update_smartfan_global
  dsimp only
  rw [smartfan_val_eq]

theorem tracks_refl (d : it87_data) (w : World) : tracks d w w := ⟨rfl, 0, rfl⟩

/-- Under successful activations a slot activation returns 0 and changes neither memory
nor the MMIO log. -/
theorem use_slot_tracks (d : it87_data) (w x : World) (ht : tracks d w x)
    (hs : activations_succeed d w) (hr : x.it87_h2_global_ready = true) :
    (it87_h2_global_use_slot (slot_of d) x).1 = 0 ∧
    tracks d w (it87_h2_global_use_slot (slot_of d) x).2 ∧
    (it87_h2_global_use_slot (slot_of d) x).2.mem = x.mem ∧
    (it87_h2_global_use_slot (slot_of d) x).2.mmio_log = x.mmio_log := by
  obtain ⟨t1, k, t2⟩ := ht
  have h0 := hs k
  rw [← t2] at h0
  have hn : ¬ ((!(mutex_lock Mutex.mmio_lock x).it87_h2_global_ready) = true) := by
    show ¬ ((!x.it87_h2_global_ready) = true)
    rw [hr]
    decide
  unfold it87_h2_global_use_slot
  dsimp only
  rw [if_neg hn]
  refine ⟨h0, ⟨t1, k + 1, ?_⟩, rfl, rfl⟩
  show (it87_h2_use_slot x.it87_h2_global (slot_of d)).2 = nth_activation d w.it87_h2_global (k + 1)
  rw [t2]
  rfl

theorem mmio_read_val (d : it87_data) (reg : Nat) (x : World) :
    (it87_mmio_read d reg x).1 = (u8 (x.mem (d.mmio + u16 reg)) : Nat) ∧
    (it87_mmio_read d reg x).2.mem = x.mem ∧
    (it87_mmio_read d reg x).2.mmio_log = x.mmio_log ++ [MmioEv.readb (d.mmio + u16 reg)] ∧
    (it87_mmio_read d reg x).2.it87_h2_global = x.it87_h2_global ∧
    (it87_mmio_read d reg x).2.it87_h2_global_ready = x.it87_h2_global_ready :=
  ⟨rfl, rfl, rfl, rfl, rfl⟩

theorem mmio_write_val (d : it87_data) (reg value : Nat) (x : World) :
    (it87_mmio_write d reg value x).mem
      = (fun a => if a = d.mmio + u16 reg then u8 value else x.mem a) ∧
    (it87_mmio_write d reg value x).mmio_log
      = x.mmio_log ++ [MmioEv.writeb (u8 value) (d.mmio + u16 reg)] ∧
    (it87_mmio_write d reg value x).it87_h2_global = x.it87_h2_global ∧
    (it87_mmio_write d reg value x).it87_h2_global_ready = x.it87_h2_global_ready :=
  ⟨rfl, rfl, rfl, rfl⟩

theorem tracks_of_eq (d : it87_data) (w x y : World) (ht : tracks d w x)
    (h1 : y.it87_h2_global = x.it87_h2_global)
    (h2 : y.it87_h2_global_ready = x.it87_h2_global_ready) : tracks d w y := by
  obtain ⟨t1, k, t2⟩ := ht
  exact ⟨h2.trans t1, k, h1.trans t2⟩

theorem bridge_read_tracks (d : it87_data) (reg : Nat) (w x : World) (ht : tracks d w x)
    (hs : activations_succeed d w) :
    (it87_bridge_read d reg x).1 = (u8 (x.mem (d.mmio + u16 reg)) : Nat) ∧
    tracks d w (it87_bridge_read d reg x).2 ∧
    (it87_bridge_read d reg x).2.mem = x.mem ∧
    (it87_bridge_read d reg x).2.mmio_log
      = x.mmio_log ++ [MmioEv.readb (d.mmio + u16 reg)] := by
  unfold it87_bridge_read
  dsimp only
  by_cases hc : (decide (d.mmio ≠ 0) && decide (d.features &&& FEAT_MMIO = 0)
      && x.it87_h2_global_ready && d.mmio_bridge) = true
  · have hr : x.it87_h2_global_ready = true := by
      simp only [Bool.and_eq_true] at hc
      exact hc.1.2
    obtain ⟨u1, u2, u3, u4⟩ := use_slot_tracks d w x ht hs hr
    obtain ⟨m1, m2, m3, m4, m5⟩ := mmio_read_val d reg (it87_h2_global_use_slot (slot_of d) x).2
    rw [if_pos hc, if_neg (by rw [u1]; decide)]
    exact ⟨by rw [m1, u3], tracks_of_eq d w _ _ u2 m4 m5, by rw [m2, u3], by rw [m3, u4]⟩
  · rw [if_neg hc]
    obtain ⟨m1, m2, m3, m4, m5⟩ := mmio_read_val d reg x
    exact ⟨m1, tracks_of_eq d w _ _ ht m4 m5, m2, m3⟩

theorem bridge_write_tracks (d : it87_data) (reg value : Nat) (w x : World)
    (ht : tracks d w x) (hs : activations_succeed d w) :
    tracks d w (it87_bridge_write d reg value x) ∧
    (it87_bridge_write d reg value x).mem
      = (fun a => if a = d.mmio + u16 reg then u8 value else x.mem a) ∧
    (it87_bridge_write d reg value x).mmio_log
      = x.mmio_log ++ [MmioEv.writeb (u8 value) (d.mmio + u16 reg)] := by
  unfold it87_bridge_write
  dsimp only
  by_cases hc : (decide (d.mmio ≠ 0) && decide (d.features &&& FEAT_MMIO = 0)
      && x.it87_h2_global_ready && d.mmio_bridge) = true
  · have hr : x.it87_h2_global_ready = true := by
      simp only [Bool.and_eq_true] at hc
      exact hc.1.2
    obtain ⟨u1, u2, u3, u4⟩ := use_slot_tracks d w x ht hs hr
    obtain ⟨m1, m2, m3, m4⟩ :=
      mmio_write_val d reg value (it87_h2_global_use_slot (slot_of d) x).2
    rw [if_pos hc, if_neg (by rw [u1]; decide)]
    exact ⟨tracks_of_eq d w _ _ u2 m3 m4, by rw [m1, u3], by rw [m2, u4]⟩
  · rw [if_neg hc]
    obtain ⟨m1, m2, m3, m4⟩ := mmio_write_val d reg value x
    exact ⟨tracks_of_eq d w _ _ ht m3 m4, m1, m2⟩

theorem h2ram_read_tracks (d : it87_data) (reg : Nat) (w x : World) (ht : tracks d w x)
    (hs : activations_succeed d w) (hlo : H2RAM_LOW_BOUND ≤ u16 reg)
    (hhi : u16 reg ≤ H2RAM_HI_BOUND) :
    (it87_h2ram_read d reg x).1 = (u8 (x.mem (d.mmio + u16 reg)) : Nat) ∧
    tracks d w (it87_h2ram_read d reg x).2 ∧
    (it87_h2ram_read d reg x).2.mem = x.mem ∧
    (it87_h2ram_read d reg x).2.mmio_log
      = x.mmio_log ++ [MmioEv.readb (d.mmio + u16 reg)] := by
  unfold it87_h2ram_read
  dsimp only
  rw [if_pos ⟨hlo, hhi⟩]
  by_cases hc : (decide (d.mmio ≠ 0) && decide (d.features &&& FEAT_MMIO = 0)
      && x.it87_h2_global_ready && d.mmio_h2ram) = true
  · have hr : x.it87_h2_global_ready = true := by
      simp only [Bool.and_eq_true] at hc
      exact hc.1.2
    obtain ⟨u1, u2, u3, u4⟩ := use_slot_tracks d w x ht hs hr
    obtain ⟨b1, b2, b3, b4⟩ :=
      bridge_read_tracks d reg w (it87_h2_global_use_slot (slot_of d) x).2 u2 hs
    rw [if_pos hc, if_neg (by rw [u1]; decide)]
    exact ⟨by rw [b1, u3], b2, by rw [b3, u3], by rw [b4, u4]⟩
  · rw [if_neg hc]
    exact bridge_read_tracks d reg w x ht hs

theorem h2ram_write_tracks (d : it87_data) (reg value : Nat) (w x : World)
    (ht : tracks d w x) (hs : activations_succeed d w) (hlo : H2RAM_LOW_BOUND ≤ u16 reg)
    (hhi : u16 reg ≤ H2RAM_HI_BOUND) :
    (it87_h2ram_write d reg value x).mem
      = (fun a => if a = d.mmio + u16 reg then u8 value else x.mem a) ∧
    (it87_h2ram_write d reg value x).mmio_log
      = x.mmio_log ++ [MmioEv.writeb (u8 value) (d.mmio + u16 reg)] := by
  unfold it87_h2ram_write
  dsimp only
  rw [if_pos ⟨hlo, hhi⟩]
  by_cases hc : (decide (d.mmio ≠ 0) && decide (d.features &&& FEAT_MMIO = 0)
      && x.it87_h2_global_ready && d.mmio_h2ram) = true
  · have hr : x.it87_h2_global_ready = true := by
      simp only [Bool.and_eq_true] at hc
      exact hc.1.2
    obtain ⟨u1, u2, u3, u4⟩ := use_slot_tracks d w x ht hs hr
    obtain ⟨b1, b2, b3⟩ :=
      bridge_write_tracks d reg value w (it87_h2_global_use_slot (slot_of d) x).2 u2 hs
    rw [if_pos hc, if_neg (by rw [u1]; decide)]
    exact ⟨by rw [b2, u3], by rw [b3, u4]⟩
  · rw [if_neg hc]
    obtain ⟨b1, b2, b3⟩ := bridge_write_tracks d reg value w x ht hs
    exact ⟨b2, b3⟩

theorem ecio_ready_congr {a b : World} (h : same_ports a b) (hr : ecio_ready b) :
    ecio_ready a := by
  obtain ⟨r1, r2, r3, r4⟩ := hr
  obtain ⟨q1, q2, q3⟩ := ibe_ready_congr h ⟨r1, r2, r3⟩
  refine ⟨q1, q2, q3, ?_⟩
  intro n
  rw [h.1]
  exact r4 n

/-- A write transaction on a world with the ports of a ready world. -/
theorem write_once_plain (root w : World) (offset value : Nat) (hlo : 0x100 ≤ offset)
    (hhi : offset ≤ 0xFFFF) (hr : ecio_ready root) (hp : same_ports w root) :
    (it87_ecio_write_once offset value w).1 = 0 ∧
    same_ports (it87_ecio_write_once offset value w).2 root ∧
    (it87_ecio_write_once offset value w).2.port_log
      = w.port_log ++ ecio_write_events root w.port_log.length offset value := by
  have hoff : ¬ ((u16 offset >>> 8) &&& 0xFF = 0) := by
    rw [off_hi_eq offset hhi]
    omega
  have hu1 : u8 (offset / 256) = offset / 256 := u8_of_lt (by omega)
  have hu2 : u8 (offset % 256) = offset % 256 := u8_of_lt (by omega)
  have hcw : u8 ECIO_CMD_WRITE = ECIO_CMD_WRITE := by decide
  have hq : ibe_ready root := ⟨hr.1, hr.2.1, hr.2.2.1⟩
  obtain ⟨a1, a2, a3, -⟩ := wait_plain root w hq hp
  obtain ⟨b1, b2, b3, -⟩ := wait_after_outb root _ ECIO_CMD_WRITE ECIO_CMD_STAT hq a2
  obtain ⟨c1, c2, c3, -⟩ := wait_plain root _ hq b2
  obtain ⟨e1, e2, e3, -⟩ := wait_after_outb root _ ((u16 offset >>> 8) &&& 0xFF) ECIO_DATA hq c2
  obtain ⟨f1, f2, f3, -⟩ := wait_plain root _ hq e2
  obtain ⟨g1, g2, g3, -⟩ := wait_after_outb root _ (u16 offset &&& 0xFF) ECIO_DATA hq f2
  obtain ⟨k1, k2, k3, -⟩ := wait_plain root _ hq g2
  obtain ⟨m1, m2, m3, -⟩ := wait_after_outb root _ value ECIO_DATA hq k2
  unfold it87_ecio_write_once
  dsimp only
  rw [if_neg hoff]
  simp only [a1, b1, c1, e1, f1, g1, k1, m1, ne_eq, not_true_eq_false, if_false, true_and]
  refine ⟨m2, ?_⟩
  rw [m3, k3, g3, f3, e3, c3, b3, a3]
  simp [ecio_write_events, off_hi_eq offset hhi, off_lo_eq offset hhi, hu1, hu2, hcw]

/-- A read transaction on a world with the ports of a ready world. -/
theorem read_once_plain (root w : World) (offset v0 : Nat) (hlo : 0x100 ≤ offset)
    (hhi : offset ≤ 0xFFFF) (hr : ecio_ready root) (hp : same_ports w root) :
    (it87_ecio_read_once offset v0 w).1 = 0 ∧
    (it87_ecio_read_once offset v0 w).2.1 < 256 ∧
    same_ports (it87_ecio_read_once offset v0 w).2.2 root ∧
    (it87_ecio_read_once offset v0 w).2.2.port_log
      = w.port_log ++ ecio_read_events root w.port_log.length offset
          (it87_ecio_read_once offset v0 w).2.1 := by
  have hoff : ¬ ((u16 offset >>> 8) &&& 0xFF = 0) := by
    rw [off_hi_eq offset hhi]
    omega
  have hu1 : u8 (offset / 256) = offset / 256 := u8_of_lt (by omega)
  have hu2 : u8 (offset % 256) = offset % 256 := u8_of_lt (by omega)
  have hcr : u8 ECIO_CMD_READ = ECIO_CMD_READ := by decide
  have hq : ibe_ready root := ⟨hr.1, hr.2.1, hr.2.2.1⟩
  obtain ⟨a1, a2, a3, -⟩ := wait_plain root w hq hp
  obtain ⟨b1, b2, b3, -⟩ := wait_after_outb root _ ECIO_CMD_READ ECIO_CMD_STAT hq a2
  obtain ⟨c1, c2, c3, -⟩ := wait_plain root _ hq b2
  obtain ⟨e1, e2, e3, -⟩ := wait_after_outb root _ ((u16 offset >>> 8) &&& 0xFF) ECIO_DATA hq c2
  obtain ⟨f1, f2, f3, -⟩ := wait_plain root _ hq e2
  obtain ⟨g1, g2, g3, -⟩ := wait_after_outb root _ (u16 offset &&& 0xFF) ECIO_DATA hq f2
  obtain ⟨k1, k2, k3⟩ := wait_plain_obf root _ hr g2
  have hv : ∀ x : World, (it87_ecio_inb ECIO_DATA x).1 < 256 := by
    intro x
    unfold it87_ecio_inb inb
    dsimp only
    split_ifs <;> exact u8_lt _
  have hsp : ∀ x : World, same_ports (it87_ecio_inb ECIO_DATA x).2 x := fun _ => ⟨rfl, rfl, rfl⟩
  unfold it87_ecio_read_once
  dsimp only
  rw [if_neg hoff]
  simp only [a1, b1, c1, e1, f1, g1, k1, ne_eq, not_true_eq_false, if_false, true_and]
  refine ⟨hv _, same_ports_trans (hsp _) k2, ?_⟩
  rw [inb_logs, k3, g3, f3, e3, c3, b3, a3]
  simp [ecio_read_events, off_hi_eq offset hhi, off_lo_eq offset hhi, hu1, hu2, hcr]

theorem int_u8_cast (b : Nat) (h : b < 256) : int_u8 (b : Int) = b := by
  unfold int_u8
  omega

theorem smartfan_target_cases (d : it87_data) :
    smartfan_target d = 0x01 ∨ smartfan_target d = 0x00 := by
  unfold smartfan_target
  split_ifs
  · exact Or.inl rfl
  · exact Or.inr rfl

theorem smartfan_target_u8 (d : it87_data) : u8 (smartfan_target d) = smartfan_target d := by
  rcases smartfan_target_cases d with h | h <;> rw [h] <;> decide

/-- The ECIO transport read on a ready world: the byte of the data port, after the
eleven port accesses of the read transaction. -/
theorem ecio_read_plain (d : it87_data) (root w : World) (reg : Nat) (hlo : 0x100 ≤ reg)
    (hhi : reg ≤ 0xFFFF) (hr : ecio_ready root) (hp : same_ports w root) :
    ∃ byte : Nat, byte < 256 ∧ (_it87_ecio_read d reg w).1 = (byte : Int) ∧
      same_ports (_it87_ecio_read d reg w).2 root ∧
      (_it87_ecio_read d reg w).2.port_log
        = w.port_log ++ ecio_read_events root w.port_log.length reg byte := by
  have hl : same_ports (mutex_lock Mutex.it87_ecio_lock w) root := hp
  obtain ⟨-, r2, r3, r4⟩ := read_once_plain root _ reg 0 hlo hhi hr hl
  exact ⟨_, r2, rfl, r3, r4⟩

/-- The ECIO transport write on a ready world: the twelve port accesses of the write
transaction. -/
theorem ecio_write_plain (d : it87_data) (root w : World) (reg value : Nat)
    (hlo : 0x100 ≤ reg) (hhi : reg ≤ 0xFFFF) (hr : ecio_ready root)
    (hp : same_ports w root) :
    (_it87_ecio_write d reg value w).port_log
      = w.port_log ++ ecio_write_events root w.port_log.length reg value := by
  have hl : same_ports (mutex_lock Mutex.it87_ecio_lock w) root := hp
  obtain ⟨-, -, r3⟩ := write_once_plain root _ reg value hlo hhi hr hl
  exact r3

/-- On an Intel bridge the activation of a configured slot returns 0 and leaves the
manager as it was. -/
theorem use_slot_intel (s : H2Sys) (idx : Int) (hb : s.h.bridge = true)
    (hi : 0 ≤ idx ∧ idx ≤ 1) (hh : s.h.have_ idx.toNat = true)
    (ha : s.h.is_amd = false) : it87_h2_use_slot s idx = (0, s) := by
  unfold it87_h2_use_slot
  rw [hb, hh, ha]
  have hn : ¬ (idx < 0 ∨ idx > 1) := by omega
  simp [hn]

theorem activations_intel (d : it87_data) (w : World)
    (hb : w.it87_h2_global.h.bridge = true)
    (hh : w.it87_h2_global.h.have_ (slot_of d).toNat = true)
    (ha : w.it87_h2_global.h.is_amd = false) : activations_succeed d w := by
  have hi : 0 ≤ slot_of d ∧ slot_of d ≤ 1 := by
    unfold slot_of
    split_ifs <;> omega
  have hfix : ∀ n, nth_activation d w.it87_h2_global n = w.it87_h2_global := by
    intro n
    induction n with
    | zero => rfl
    | succ n ih =>
      show (it87_h2_use_slot (nth_activation d w.it87_h2_global n) (slot_of d)).2 = _
      rw [ih, use_slot_intel _ _ hb hi hh ha]
  intro n
  rw [hfix n, use_slot_intel _ _ hb hi hh ha]

/-- C30: `it87_update_smartfan_global` computes the target value 0x01 when every
enabled PWM channel below `NUM_AUTO_PWM` is in automatic mode (`pwm_mode` is 2) and 0x00
when an enabled channel is not, reads register 0x947 and writes the target value unless
the byte read back is that value. On an H2RAM instance whose slot activations succeed
the byte at `mmio + 0x947` is the target value afterwards, with the single `readb` and
memory untouched when it already was, with the `readb` followed by the `writeb` of the
target value otherwise. On an ECIO instance whose controller is always ready the port
accesses are the read transaction alone when the byte it delivers is the target value,
and the read transaction followed by the write transaction of the target value
otherwise. -/
theorem smartfan_global_byte (d : it87_data) (w : World) :
    (((∀ i, i < NUM_AUTO_PWM → d.has_pwm &&& BIT i ≠ 0 → pwm_mode d i = 2) →
        smartfan_target d = 0x01) ∧
      ((∃ i, i < NUM_AUTO_PWM ∧ d.has_pwm &&& BIT i ≠ 0 ∧ pwm_mode d i ≠ 2) →
        smartfan_target d = 0x00)) ∧
    (it87_update_smartfan_global d w =
      if (data_read d IT87_SMARTFAN_ENABLE w).1 ≥ 0 ∧
          int_u8 (data_read d IT87_SMARTFAN_ENABLE w).1 = smartfan_target d then
        (data_read d IT87_SMARTFAN_ENABLE w).2
      else data_write d IT87_SMARTFAN_ENABLE (smartfan_target d)
        (data_read d IT87_SMARTFAN_ENABLE w).2) ∧
    (d.read = ReadFn.it87_h2ram_read → d.write = WriteFn.it87_h2ram_write →
      activations_succeed d w →
      u8 ((it87_update_smartfan_global d w).mem (d.mmio + IT87_SMARTFAN_ENABLE))
        = smartfan_target d ∧
      (u8 (w.mem (d.mmio + IT87_SMARTFAN_ENABLE)) = smartfan_target d →
        (it87_update_smartfan_global d w).mem = w.mem ∧
        (it87_update_smartfan_global d w).mmio_log
          = w.mmio_log ++ [MmioEv.readb (d.mmio + IT87_SMARTFAN_ENABLE)]) ∧
      (u8 (w.mem (d.mmio + IT87_SMARTFAN_ENABLE)) ≠ smartfan_target d →
        (it87_update_smartfan_global d w).mmio_log
          = w.mmio_log ++ [MmioEv.readb (d.mmio + IT87_SMARTFAN_ENABLE),
              MmioEv.writeb (smartfan_target d) (d.mmio + IT87_SMARTFAN_ENABLE)])) ∧
    (d.read = ReadFn.it87_ecio_read → d.write = WriteFn.it87_ecio_write →
      d.ecio_h2ram = true → ecio_ready w →
      ∃ byte : Nat, byte < 256 ∧ (data_read d IT87_SMARTFAN_ENABLE w).1 = (byte : Int) ∧
        (byte = smartfan_target d →
          (it87_update_smartfan_global d w).port_log
            = w.port_log ++
                ecio_read_events w w.port_log.length IT87_SMARTFAN_ENABLE byte) ∧
        (byte ≠ smartfan_target d →
          (it87_update_smartfan_global d w).port_log
            = w.port_log ++
                (ecio_read_events w w.port_log.length IT87_SMARTFAN_ENABLE byte ++
                 ecio_write_events w (w.port_log.length + 11) IT87_SMARTFAN_ENABLE
                   (smartfan_target d)))) := by
  have hreg : u16 IT87_SMARTFAN_ENABLE = IT87_SMARTFAN_ENABLE := by decide
  have hlo : H2RAM_LOW_BOUND ≤ u16 IT87_SMARTFAN_ENABLE := by decide
  have hhi : u16 IT87_SMARTFAN_ENABLE ≤ H2RAM_HI_BOUND := by decide
  refine ⟨⟨fun h => ?_, fun h => ?_⟩, smartfan_global_eq d w, fun hrd hwr hs => ?_,
    fun hrd hwr he hr => ?_⟩
  · unfold smartfan_target
    rw [if_pos h]
  · unfold smartfan_target
    rw [if_neg]
    intro hall
    obtain ⟨i, h1, h2, h3⟩ := h
    exact h3 (hall i h1 h2)
  · have hR : data_read d IT87_SMARTFAN_ENABLE w = it87_h2ram_read d IT87_SMARTFAN_ENABLE w := by
      unfold data_read
      rw [hrd]
    have hW : ∀ v x, data_write d IT87_SMARTFAN_ENABLE v x
        = it87_h2ram_write d IT87_SMARTFAN_ENABLE v x := by
      intro v x
      unfold data_write
      rw [hwr]
    obtain ⟨r1, r2, r3, r4⟩ :=
      h2ram_read_tracks d IT87_SMARTFAN_ENABLE w w (tracks_refl d w) hs hlo hhi
    obtain ⟨w1, w2⟩ := h2ram_write_tracks d IT87_SMARTFAN_ENABLE (smartfan_target d) w
      (it87_h2ram_read d IT87_SMARTFAN_ENABLE w).2 r2 hs hlo hhi
    rw [hreg] at r1 r4 w1 w2
    rw [smartfan_target_u8] at w1 w2
    have hcur : int_u8 (it87_h2ram_read d IT87_SMARTFAN_ENABLE w).1
        = u8 (w.mem (d.mmio + IT87_SMARTFAN_ENABLE)) := by
      rw [r1]
      exact int_u8_cast _ (u8_lt _)
    have hge : (it87_h2ram_read d IT87_SMARTFAN_ENABLE w).1 ≥ 0 := by
      rw [r1]
      exact Int.ofNat_nonneg _
    rw [smartfan_global_eq, hR, hW, hcur]
    by_cases c : u8 (w.mem (d.mmio + IT87_SMARTFAN_ENABLE)) = smartfan_target d
    · rw [if_pos ⟨hge, c⟩, r3]
      exact ⟨c, fun _ => ⟨rfl, r4⟩, fun hne => absurd c hne⟩
    · rw [if_neg (fun h => c h.2), w1, w2, r4]
      refine ⟨?_, fun he => absurd he c, fun _ => ?_⟩
      · dsimp only
        rw [if_pos rfl]
        exact smartfan_target_u8 d
      · simp
  · have hin : u16 IT87_SMARTFAN_ENABLE ≥ H2RAM_LOW_BOUND ∧
        u16 IT87_SMARTFAN_ENABLE ≤ H2RAM_HI_BOUND ∧ d.ecio_h2ram = true := ⟨hlo, hhi, he⟩
    have hR : data_read d IT87_SMARTFAN_ENABLE w = _it87_ecio_read d IT87_SMARTFAN_ENABLE w := by
      unfold data_read
      rw [hrd]
      show it87_ecio_read d IT87_SMARTFAN_ENABLE w = _
      unfold it87_ecio_read
      rw [if_pos hin]
    have hW : ∀ v x, data_write d IT87_SMARTFAN_ENABLE v x
        = _it87_ecio_write d IT87_SMARTFAN_ENABLE v x := by
      intro v x
      unfold data_write
      rw [hwr]
      show it87_ecio_write d IT87_SMARTFAN_ENABLE v x = _
      unfold it87_ecio_write
      rw [if_pos hin]
    obtain ⟨byte, b1, b2, b3, b4⟩ := ecio_read_plain d w w IT87_SMARTFAN_ENABLE
      (by decide) (by decide) hr (same_ports_refl w)
    have w1 := ecio_write_plain d w (_it87_ecio_read d IT87_SMARTFAN_ENABLE w).2
      IT87_SMARTFAN_ENABLE (smartfan_target d) (by decide) (by decide) hr b3
    have hlen : (_it87_ecio_read d IT87_SMARTFAN_ENABLE w).2.port_log.length
        = w.port_log.length + 11 := by
      rw [b4]
      simp [ecio_read_events]
    refine ⟨byte, b1, by rw [hR, b2], fun hb => ?_, fun hb => ?_⟩
    · rw [smartfan_global_eq, hR, b2, int_u8_cast byte b1,
        if_pos ⟨Int.ofNat_nonneg _, hb⟩]
      exact b4
    · rw [smartfan_global_eq, hR, hW, b2, int_u8_cast byte b1, if_neg (fun h => hb h.2),
        w1, hlen, b4, List.append_assoc]

/-- C30 on an H2RAM instance at 0xFE000000 behind an Intel bridge, channel 0 enabled
and in manual mode, the byte holding 0x01: the byte is 0x00 afterwards, after one
`readb` and one `writeb`. -/
theorem smartfan_global_byte_witness :
    smartfan_target manual_fan_data = 0x00 ∧
    u8 ((it87_update_smartfan_global manual_fan_data smartfan_world).mem
        (manual_fan_data.mmio + IT87_SMARTFAN_ENABLE)) = smartfan_target manual_fan_data ∧
    (it87_update_smartfan_global manual_fan_data smartfan_world).mmio_log
      = smartfan_world.mmio_log ++
          [MmioEv.readb (manual_fan_data.mmio + IT87_SMARTFAN_ENABLE),
           MmioEv.writeb (smartfan_target manual_fan_data)
             (manual_fan_data.mmio + IT87_SMARTFAN_ENABLE)] :=
  ⟨(smartfan_global_byte manual_fan_data smartfan_world).1.2
      ⟨0, by decide, by decide, by decide⟩,
   ((smartfan_global_byte manual_fan_data smartfan_world).2.2.1 rfl rfl
      (activations_intel manual_fan_data smartfan_world (by decide) (by decide)
        (by decide))).1,
   ((smartfan_global_byte manual_fan_data smartfan_world).2.2.1 rfl rfl
      (activations_intel manual_fan_data smartfan_world (by decide) (by decide)
        (by decide))).2.2 (by decide)⟩

/-- The function evaluated: on the H2RAM instance in manual mode the byte 0x01 is
rewritten to 0x00 and a second call writes nothing; on the ECIO instance with both
enabled channels automatic the byte 0x00 read from the data port is followed by the
write transaction of 0x01, and the byte 0x01 by no write. -/
theorem smartfan_global_values :
    (it87_update_smartfan_global manual_fan_data smartfan_world).mem 0xFE000947 = 0x00 ∧
    (it87_update_smartfan_global manual_fan_data smartfan_world).mmio_log
      = [MmioEv.readb 0xFE000947, MmioEv.writeb 0x00 0xFE000947] ∧
    (it87_update_smartfan_global manual_fan_data
      (it87_update_smartfan_global manual_fan_data smartfan_world)).mmio_log
      = [MmioEv.readb 0xFE000947, MmioEv.writeb 0x00 0xFE000947,
         MmioEv.readb 0xFE000947] ∧
    smartfan_target auto_fan_data = 0x01 ∧
    (it87_update_smartfan_global auto_fan_data zero_world).port_log =
      [PortEv.inb 0x3F4 0x01, PortEv.outb 0xB0 0x3F4,
       PortEv.inb 0x3F4 0x01, PortEv.inb 0x3F4 0x01, PortEv.outb 0x09 0x3F0,
       PortEv.inb 0x3F4 0x01, PortEv.inb 0x3F4 0x01, PortEv.outb 0x47 0x3F0,
       PortEv.inb 0x3F4 0x01, PortEv.inb 0x3F4 0x01, PortEv.inb 0x3F0 0x00,
       PortEv.inb 0x3F4 0x01, PortEv.outb 0xB1 0x3F4,
       PortEv.inb 0x3F4 0x01, PortEv.inb 0x3F4 0x01, PortEv.outb 0x09 0x3F0,
       PortEv.inb 0x3F4 0x01, PortEv.inb 0x3F4 0x01, PortEv.outb 0x47 0x3F0,
       PortEv.inb 0x3F4 0x01, PortEv.inb 0x3F4 0x01, PortEv.outb 0x01 0x3F0,
       PortEv.inb 0x3F4 0x01] ∧
    (it87_update_smartfan_global auto_fan_data
      { zero_world with port_in := fun _ _ => 0x01 }).port_log.length = 11 := by
  refine ⟨by decide, by decide, by decide, by decide, by decide, by decide⟩

/-! ## Slot bookkeeping: accepted calls -/

/-- Clearing the low 16 bits of a 32-bit value rounds it down to a multiple of 64 KiB. -/
theorem align_down_64k (x : Nat) (hx : x ≤ 0xFFFFFFFF) :
    u32 x &&& not32 0xFFFF = x / 65536 * 65536 := by
  have hn : not32 0xFFFF = (2 ^ 16 - 1) <<< 16 := by decide
  have hu : u32 x = x := by
    unfold u32
    omega
  have e : x &&& (2 ^ 16 - 1) <<< 16 = ((x >>> 16) &&& (2 ^ 16 - 1)) <<< 16 := by
    apply Nat.eq_of_testBit_eq
    intro i
    simp only [Nat.testBit_and, Nat.testBit_shiftLeft, Nat.testBit_shiftRight,
      Nat.testBit_two_pow_sub_one]
    by_cases h : 16 ≤ i
    · have e2 : 16 + (i - 16) = i := by omega
      simp [h, e2]
    · simp [h]
  rw [hn, hu, e, Nat.and_pow_two_sub_one_eq_mod, Nat.shiftRight_eq_div_pow,
    Nat.shiftLeft_eq]
  have h2 : x / 2 ^ 16 % 2 ^ 16 = x / 2 ^ 16 := by omega
  rw [h2]
  norm_num

/-- The page count stored for a size up to 0xFFFF0000 is the ceiling of the spec, and
1 for the sizes above, where the 32-bit sum wraps. -/
theorem set_slot_pages (size : Nat) (hs : 0 < size) (hs2 : size ≤ 0xFFFFFFFF) :
    (size ≤ 0xFFFF0000 →
      (if u32 ((if size < 0x10000 then 0x10000 else size) + 0x10000 - 1) >>> 16 = 0 then 1
        else u32 ((if size < 0x10000 then 0x10000 else size) + 0x10000 - 1) >>> 16)
        = spec_pages size) ∧
    (0xFFFF0000 < size →
      (if u32 ((if size < 0x10000 then 0x10000 else size) + 0x10000 - 1) >>> 16 = 0 then 1
        else u32 ((if size < 0x10000 then 0x10000 else size) + 0x10000 - 1) >>> 16) = 1) := by
  simp only [Nat.shiftRight_eq_div_pow, u32, spec_pages]
  constructor
  · intro h
    split_ifs <;> omega
  · intro h
    split_ifs <;> omega

/-- C15 (amended): every accepted call of `it87_h2_set_slot` (bridge bound, `idx` 0 or
1, `mmio_base` from 1 to 0xFFFFFFFF, `size` a nonzero 32-bit value) returns 0, stores
`mmio_base` rounded down to a multiple of 64 KiB in `base[idx]`, sets `have[idx]`,
leaves the fields of the other slot, the rest of the handle and the device with its
access log as they were, and stores in `pages[idx]` the value `max(1, ceil(size /
65536))` for a size up to 0xFFFF0000; for the sizes above, whose sum with 0xFFFF wraps in
32 bits, the guard `pages == 0` stores 1. -/
theorem set_slot_accepted (s : H2Sys) (idx : Int) (mmio_base size : Nat)
    (hb : s.h.bridge = true) (hi : idx = 0 ∨ idx = 1) (hm : 0 < mmio_base)
    (hm2 : mmio_base ≤ 0xFFFFFFFF) (hs : 0 < size) (hs2 : size ≤ 0xFFFFFFFF) :
    (it87_h2_set_slot s idx mmio_base size).1 = 0 ∧
    (it87_h2_set_slot s idx mmio_base size).2.h.base idx.toNat
      = mmio_base / 65536 * 65536 ∧
    (size ≤ 0xFFFF0000 →
      (it87_h2_set_slot s idx mmio_base size).2.h.pages idx.toNat = spec_pages size) ∧
    (0xFFFF0000 < size →
      (it87_h2_set_slot s idx mmio_base size).2.h.pages idx.toNat = 1) ∧
    (it87_h2_set_slot s idx mmio_base size).2.h.have_ idx.toNat = true ∧
    (∀ i, i ≠ idx.toNat →
      (it87_h2_set_slot s idx mmio_base size).2.h.base i = s.h.base i ∧
      (it87_h2_set_slot s idx mmio_base size).2.h.pages i = s.h.pages i ∧
      (it87_h2_set_slot s idx mmio_base size).2.h.have_ i = s.h.have_ i) ∧
    (it87_h2_set_slot s idx mmio_base size).2.h
      = { s.h with base := (it87_h2_set_slot s idx mmio_base size).2.h.base,
                   pages := (it87_h2_set_slot s idx mmio_base size).2.h.pages,
                   have_ := (it87_h2_set_slot s idx mmio_base size).2.h.have_ } ∧
    (it87_h2_set_slot s idx mmio_base size).2.dev = s.dev := by
  have c1 : ¬ (idx < 0 ∨ idx > 1) := by omega
  have c2 : ¬ (mmio_base = 0 ∨ size = 0) := by omega
  have c3 : ¬ (mmio_base > 0xFFFFFFFF) := by omega
  obtain ⟨p1, p2⟩ := set_slot_pages size hs hs2
  unfold it87_h2_set_slot
  dsimp only
  rw [hb]
  simp only [Bool.not_true, Bool.false_eq_true, if_false, if_neg c1, if_neg c2, if_neg c3,
    if_true]
  refine ⟨trivial, align_down_64k mmio_base hm2, p1, p2, trivial, ?_, trivial, trivial⟩
  intro i hne
  simp [hne]

/-- C15 (amended) on a freshly bound AMD bridge: a base of 0xFE001234 with a size of
0x1000 becomes slot 0 at 0xFE000000 with one page, a size of 0x20001 gives three pages,
and slot 1 is left unconfigured. -/
theorem set_slot_accepted_witness :
    (it87_h2_set_slot amd_fresh 0 0xFE001234 0x1000).1 = 0 ∧
    (it87_h2_set_slot amd_fresh 0 0xFE001234 0x1000).2.h.base 0 = 0xFE000000 ∧
    (it87_h2_set_slot amd_fresh 0 0xFE001234 0x1000).2.h.pages 0 = 1 ∧
    (it87_h2_set_slot amd_fresh 0 0xFE001234 0x20001).2.h.pages 0 = 3 ∧
    (it87_h2_set_slot amd_fresh 0 0xFE001234 0x1000).2.h.have_ 1 = amd_fresh.h.have_ 1 ∧
    (it87_h2_set_slot amd_fresh 0 0xFE001234 0x1000).2.dev = amd_fresh.dev :=
  have h := set_slot_accepted amd_fresh 0 0xFE001234 0x1000 (by decide) (by decide)
    (by decide) (by decide) (by decide) (by decide)
  have g := set_slot_accepted amd_fresh 0 0xFE001234 0x20001 (by decide) (by decide)
    (by decide) (by decide) (by decide) (by decide)
  ⟨h.1, h.2.1, h.2.2.1 (by decide), g.2.2.1 (by decide),
   (h.2.2.2.2.2.1 1 (by decide)).2.2, h.2.2.2.2.2.2.2⟩

/-! ## AMD bridge: both slots requested -/

/-- Capturing the original registers leaves the register values, the vendor, the slot
tables and the tracked base alone, whatever the reads return. -/
theorem save_regs_keep (s : H2Sys) :
    (_save_regs s).dev.cfg = s.dev.cfg ∧ (_save_regs s).dev.vendor = s.dev.vendor ∧
    (_save_regs s).h.base = s.h.base ∧ (_save_regs s).h.pages = s.h.pages ∧
    (_save_regs s).h.have_ = s.h.have_ := by
  have hv : ∀ (d : PciDev) (off : Nat), (pci_reg_read d off).2.2.vendor = d.vendor := by
    intro d off
    unfold pci_reg_read
    dsimp only
    split_ifs <;> rfl
  unfold _save_regs
  dsimp only
  split_ifs <;> simp only [pci_read_cfg, hv, and_self]

/-- The AMD reprogram sequence leaves the slot tables alone. -/
theorem amd_enable_slot_slots (s : H2Sys) (idx : Int) (base pages : Nat) :
    (_amd_enable_slot s idx base pages).2.h.base = s.h.base ∧
    (_amd_enable_slot s idx base pages).2.h.pages = s.h.pages ∧
    (_amd_enable_slot s idx base pages).2.h.have_ = s.h.have_ := by
  unfold _amd_enable_slot
  dsimp only
  split_ifs <;> exact ⟨rfl, rfl, rfl⟩

/-- C20: on a handle marked AMD with both slots configured,
`it87_h2_set_state(IT87_MMIO_ENABLED_BOTH)` gives the same return value and the same
handle and device as `it87_h2_set_state(IT87_MMIO_ENABLED_2E)`, whatever the state and
whatever the outcome of the configuration accesses, and what it activates is slot 0:
on a bound AMD bridge a call that returns 0 tracks the base of slot 0 and leaves the slot
tables alone; if the tracked base was another one, the bridge registers hold the values
of the reprogram sequence for slot 0 (range of slot 0 in 0x60), and if it was the base
of slot 0 already, handle and device are untouched; without access failure the call
returns 0 and the configuration writes it adds are exactly the reprogram sequence of
slot 0, or none. -/
theorem amd_both_is_slot0 (s : H2Sys) (ha : s.h.is_amd = true) (h0 : s.h.have_ 0 = true)
    (h1 : s.h.have_ 1 = true) :
    it87_h2_set_state s IT87_MMIO_ENABLED_BOTH
      = it87_h2_set_state s IT87_MMIO_ENABLED_2E ∧
    (s.h.bridge = true → u16 s.dev.vendor = IT87_H2_VENDOR_AMD →
      (it87_h2_set_state s IT87_MMIO_ENABLED_BOTH).1 = 0 →
      (it87_h2_set_state s IT87_MMIO_ENABLED_BOTH).2.h.current_base = s.h.base 0 ∧
      (it87_h2_set_state s IT87_MMIO_ENABLED_BOTH).2.h.base = s.h.base ∧
      (it87_h2_set_state s IT87_MMIO_ENABLED_BOTH).2.h.pages = s.h.pages ∧
      (it87_h2_set_state s IT87_MMIO_ENABLED_BOTH).2.h.have_ = s.h.have_ ∧
      (s.h.current_base ≠ s.h.base 0 →
        (it87_h2_set_state s IT87_MMIO_ENABLED_BOTH).2.dev.cfg
          = amd_cfg_after s.dev.cfg 0 (s.h.base 0) (s.h.pages 0)) ∧
      (s.h.current_base = s.h.base 0 →
        (it87_h2_set_state s IT87_MMIO_ENABLED_BOTH).2 = s)) ∧
    (s.h.bridge = true → u16 s.dev.vendor = IT87_H2_VENDOR_AMD → s.dev.faults = [] →
      (it87_h2_set_state s IT87_MMIO_ENABLED_BOTH).1 = 0 ∧
      pci_writes (it87_h2_set_state s IT87_MMIO_ENABLED_BOTH).2.dev.log
        = pci_writes s.dev.log ++
          (if s.h.current_base ≠ s.h.base 0 then
            pci_writes (amd_ops s.dev.cfg 0 (s.h.base 0) (s.h.pages 0))
           else [])) := by
  have hslot : s.h.bridge = true →
      it87_h2_set_state s IT87_MMIO_ENABLED_BOTH = set_state_slot s 0 := by
    intro hb
    unfold it87_h2_set_state
    simp [hb, h0, h1, ha, IT87_MMIO_ENABLED_BOTH, IT87_MMIO_ENABLED_2E, IT87_MMIO_ORIGINAL,
      IT87_MMIO_DISABLED, IT87_MMIO_ENABLED_4E]
  refine ⟨?_, fun hb hv hok => ?_, fun hb hv hf => ?_⟩
  · unfold it87_h2_set_state
    simp [h0, h1, ha, IT87_MMIO_ENABLED_BOTH, IT87_MMIO_ENABLED_2E, IT87_MMIO_ORIGINAL,
      IT87_MMIO_DISABLED, IT87_MMIO_ENABLED_4E]
  · rw [hslot hb] at hok ⊢
    obtain ⟨k1, k2, k3, k4, k5⟩ := save_regs_keep s
    have hz : ((0 : Int)).toNat = 0 := rfl
    by_cases hc : s.h.current_base = s.h.base 0
    · have e : set_state_slot s 0 = (0, s) := by
        unfold set_state_slot
        rw [ha, hz]
        simp [hc]
      rw [e]
      exact ⟨hc, rfl, rfl, rfl, fun h => absurd hc h, fun _ => rfl⟩
    · have hen : _enable_slot s 0 (s.h.base 0) (s.h.pages 0)
          = _amd_enable_slot (_save_regs s) 0 (s.h.base 0) (s.h.pages 0) := by
        unfold _enable_slot
        simp [hb, k2, hv]
      have e : set_state_slot s 0
          = if (_amd_enable_slot (_save_regs s) 0 (s.h.base 0) (s.h.pages 0)).1 ≠ 0 then
              _amd_enable_slot (_save_regs s) 0 (s.h.base 0) (s.h.pages 0)
            else (0, (_amd_enable_slot (_save_regs s) 0 (s.h.base 0) (s.h.pages 0)).2) := by
        unfold set_state_slot
        rw [ha, hz]
        simp only [if_true, hen]
        rw [if_pos hc]
      rw [e] at hok ⊢
      have hr : (_amd_enable_slot (_save_regs s) 0 (s.h.base 0) (s.h.pages 0)).1 = 0 := by
        by_contra hne
        rw [if_pos hne] at hok
        exact hne hok
      rw [if_neg (not_not.mpr hr)]
      obtain ⟨r1, r2⟩ := amd_enable_slot_ret0 (_save_regs s) 0 (s.h.base 0) (s.h.pages 0) hr
      obtain ⟨t1, t2, t3⟩ := amd_enable_slot_slots (_save_regs s) 0 (s.h.base 0) (s.h.pages 0)
      refine ⟨r1, t1.trans k3, t2.trans k4, t3.trans k5, fun _ => ?_, fun h => absurd h hc⟩
      show (_amd_enable_slot (_save_regs s) 0 (s.h.base 0) (s.h.pages 0)).2.dev.cfg = _
      rw [r2, k1]
  · have hbd : amd_bound s := ⟨hb, ha, hv⟩
    obtain ⟨a1, -, -, -, -, -, -, a8⟩ := use_slot_amd s 0 hbd hf (Or.inl rfl) h0
    rw [hslot hb, set_state_slot_amd s 0 hbd hf (Or.inl rfl) h0]
    exact ⟨a1, a8⟩

/-- C20 on the AMD bridge with slots at 0xFE000000 and 0xFE010000, nothing programmed
yet: the request for both returns 0, tracks 0xFE000000 and leaves in register 0x60 the
range of slot 0. -/
theorem amd_both_is_slot0_witness :
    it87_h2_set_state amd_two_slots IT87_MMIO_ENABLED_BOTH
      = it87_h2_set_state amd_two_slots IT87_MMIO_ENABLED_2E ∧
    (it87_h2_set_state amd_two_slots IT87_MMIO_ENABLED_BOTH).2.h.current_base
      = amd_two_slots.h.base 0 ∧
    (it87_h2_set_state amd_two_slots IT87_MMIO_ENABLED_BOTH).2.dev.cfg
      = amd_cfg_after amd_two_slots.dev.cfg 0 (amd_two_slots.h.base 0)
          (amd_two_slots.h.pages 0) ∧
    (it87_h2_set_state amd_two_slots IT87_MMIO_ENABLED_BOTH).1 = 0 :=
  have h := amd_both_is_slot0 amd_two_slots (by decide) (by decide) (by decide)
  ⟨h.1, (h.2.1 (by decide) (by decide) (by decide)).1,
   (h.2.1 (by decide) (by decide) (by decide)).2.2.2.2.1 (by decide),
   (h.2.2 (by decide) (by decide) (by decide)).1⟩

/-- Both requests on that bridge return 0, track the base of slot 0 and write the
range of slot 0, not that of slot 1, to register 0x60; the configuration writes are the
three of the reprogram sequence of slot 0. -/
theorem amd_both_programs_slot0 :
    (it87_h2_set_state amd_two_slots IT87_MMIO_ENABLED_BOTH).1 = 0 ∧
    (it87_h2_set_state amd_two_slots IT87_MMIO_ENABLED_BOTH).2.h.current_base = 0xFE000000 ∧
    (it87_h2_set_state amd_two_slots IT87_MMIO_ENABLED_BOTH).2.dev.cfg 0x60
      = amd_range 0 0xFE000000 1 ∧
    amd_range 0 0xFE000000 1 = 0xFE01FE00 ∧ amd_range 1 0xFE010000 1 = 0xFE02FE01 ∧
    pci_writes (it87_h2_set_state amd_two_slots IT87_MMIO_ENABLED_BOTH).2.dev.log
      = [(0x60, 0xFE01FE00), (0x6C, 0), (0x48, 0x20)] := by
  decide

end It87
